import Mathlib

/-!
# ImageWindow: buffer store, bitmap flip and 16-bit display conversion

A shallow embedding of the buffer-handling part of `ImageWindow.hpp`
(class `ImageWindow`) and theorems about it.

Conventions of the embedding.

* `int` is a 32-bit two's complement integer: results of `int` arithmetic are
  wrapped by `int32`; a value stored in an `unsigned int` is reduced by `uint32`.
* A pointer is a natural number, `0` is `NULL`.  Memory is a map from block
  addresses to byte lists (`Heap`); a 16-bit sample occupies two bytes, low
  byte first.
* An operation that would read or write outside a live block returns `none`.
-/

namespace ImageWindow

/-! ## Machine integers -/

/-- Wrap an integer into the range of a 32-bit signed `int`. -/
def int32 (x : Int) : Int := (x + 2147483648) % 4294967296 - 2147483648

/-- Reduce an integer to a 32-bit `unsigned int`. -/
def uint32 (x : Int) : Nat := (x % 4294967296).toNat

/-- The C function `abs` on `int` (the most negative value maps to itself). -/
def abs32 (x : Int) : Int := int32 |x|

/-! ## Windows structures -/

structure SIZE where
  cx : Int
  cy : Int
deriving DecidableEq, Repr

structure RECT where
  left : Int
  top : Int
  right : Int
  bottom : Int
deriving DecidableEq, Repr

structure POINT where
  x : Int
  y : Int
deriving DecidableEq, Repr

structure RGBQUAD where
  rgbBlue : Nat
  rgbGreen : Nat
  rgbRed : Nat
  rgbReserved : Nat
deriving DecidableEq, Repr

structure BITMAPINFOHEADER where
  biSize : Nat
  biWidth : Int
  biHeight : Int
  biPlanes : Nat
  biBitCount : Nat
  biCompression : Nat
  biSizeImage : Nat
  biXPelsPerMeter : Int
  biYPelsPerMeter : Int
  biClrUsed : Nat
  biClrImportant : Nat
deriving DecidableEq, Repr

/-- The block `mBitmapInfo` points at: the header, followed by the colour table
(`ImageBitmapInfoMono8` for an 8-bit image, no table for a 24-bit image). -/
structure BitmapInfo where
  Header : BITMAPINFOHEADER
  RGBQuad : List RGBQUAD
deriving DecidableEq, Repr

/-- Modelled from the spec: `sizeof(BITMAPINFOHEADER)`, the fixed 40-byte geometry
block of the metadata header (the Windows SDK declaration is not in the source). -/
def sizeofBITMAPINFOHEADER : Nat := 40

/-- Modelled from the spec: `sizeof(RGBQUAD)`, one 4-byte palette entry. -/
def sizeofRGBQUAD : Nat := 4

/-- Modelled from the spec: `sizeof(BITMAPFILEHEADER)`, the fixed file header
(2-byte signature, 4-byte total size, two reserved 2-byte fields, 4-byte payload
offset). -/
def sizeofBITMAPFILEHEADER : Nat := 14

def IMAGE_PALLET_SIZE_8BIT : Nat := 256

/-- The value `sizeof(ImageBitmapInfoMono8)`: header plus 256 palette entries. -/
def sizeofImageBitmapInfoMono8 : Nat :=
  sizeofBITMAPINFOHEADER + IMAGE_PALLET_SIZE_8BIT * sizeofRGBQUAD

/-- Modelled from the spec: the Windows constant `BI_RGB` (compression code of an
uncompressed bitmap). -/
def BI_RGB : Nat := 0

/-! ## Memory -/

/-- Byte-addressed blocks.  `mem p` is the content of the live block at address
`p`; `next` is the last address handed out; a request of more than `limit`
bytes is refused by `new`. -/
structure Heap where
  mem : Nat → Option (List Nat)
  next : Nat
  limit : Nat

namespace Heap

/-- The content of a block that `new` has just returned is indeterminate; it is
modelled by a non-zero fill byte so that clearing it is observable. -/
def fresh (n : Nat) : List Nat := List.replicate n 205

/-- The expression `new unsigned char[n]`: the address of a fresh block of `n`
bytes, or `0` when the request is refused. -/
def alloc (h : Heap) (n : Nat) : Nat × Heap :=
  if n ≤ h.limit then
    (h.next + 1,
     { h with mem := fun p => if p = h.next + 1 then some (fresh n) else h.mem p,
              next := h.next + 1 })
  else (0, h)

/-- The statement `delete p`. -/
def free (h : Heap) (p : Nat) : Heap :=
  { h with mem := fun q => if q = p then none else h.mem q }

/-- Replace the content of the block at `p`. -/
def store (h : Heap) (p : Nat) (bytes : List Nat) : Heap :=
  { h with mem := fun q => if q = p then some bytes else h.mem q }

/-- `ZeroMemory(p, n)`: the first `n` bytes of the block at `p` become zero. -/
def ZeroMemory (h : Heap) (p : Nat) (n : Nat) : Heap :=
  match h.mem p with
  | some b => h.store p (List.replicate n 0 ++ b.drop n)
  | none => h

/-- `CopyMemory(p, src, n)`: the first `n` bytes of the block at `p` become the
first `n` bytes of `src`.  Fails when the block is not live or either side is
shorter than `n` bytes. -/
def CopyMemory (h : Heap) (p : Nat) (src : List Nat) (n : Nat) : Option Heap :=
  match h.mem p with
  | some b =>
      if n ≤ b.length ∧ n ≤ src.length then some (h.store p (src.take n ++ b.drop n))
      else none
  | none => none

end Heap

/-! ## Engine state -/

def WINDOW_INIT_STATE : Nat := 1
def WINDOW_OPEN_STATE : Nat := 2
def WINDOW_CLOSED_STATE : Nat := 3
def WINDOW_ERROR_STATE : Nat := 4

/-- Readings the window system returns to `UpdateWindowSize` and
`UpdateImageDispDispRect`: the heights of the rebar and of the status bar, the
screen size and the client rectangle of the window. -/
structure Desktop where
  rebarHeight : Int
  statusbarHeight : Int
  screenWidth : Int
  screenHeight : Int
  clientRect : RECT
deriving DecidableEq, Repr

def CURSOR_MODE_SCROLL_TOOL : Nat := 1
def CURSOR_MODE_ZOOM_TOOL : Nat := 2
def CURSOR_MODE_INFO_TOOL : Nat := 3

/-- The member variables of `ImageWindow` that the buffer store, the tone mapper
and the viewport use, with the heap and the window-system readings. -/
structure State where
  mWindowState : Nat
  mBitmapInfo : Option BitmapInfo
  mBitmapInfoSize : Nat
  mBitmapBits : Nat
  mBitmapBitsSize : Nat
  mAllocatedImageBuffer : Nat
  mAllocated16BitsImageBuffer : Nat
  mExternal16BitsImageBuffer : Nat
  mImageSize : SIZE
  mImageDispRect : RECT
  mImageClientRect : RECT
  mImageDispSize : SIZE
  mImageDispOffset : SIZE
  mImageDispScale : ℚ
  mImagePrevScale : ℚ
  mImageDispOffsetStart : SIZE
  mCursorMode : Nat
  mMouseDownMode : Nat
  mIsMouseDragging : Bool
  mMouseDownPos : POINT
  mIsColorImage : Bool
  mIs16BitsImage : Bool
  mIsToolbarEnabled : Bool
  mIsStatusbarEnabled : Bool
  mIsMapModeEnabled : Bool
  mMapBottomValue : Nat
  mMapTopValue : Nat
  mIsMapReverse : Bool
  mMapDirectMapLimit : Nat
  mMutexCount : Nat
  heap : Heap
  desktop : Desktop

/-- The state the constructor leaves (members it does not assign are taken as
zero, the two scales as the 100 that `ThreadFunc` assigns). -/
def init : State :=
  { mWindowState := WINDOW_INIT_STATE
    mBitmapInfo := none
    mBitmapInfoSize := 0
    mBitmapBits := 0
    mBitmapBitsSize := 0
    mAllocatedImageBuffer := 0
    mAllocated16BitsImageBuffer := 0
    mExternal16BitsImageBuffer := 0
    mImageSize := ⟨0, 0⟩
    mImageDispRect := ⟨0, 0, 0, 0⟩
    mImageClientRect := ⟨0, 0, 0, 0⟩
    mImageDispSize := ⟨0, 0⟩
    mImageDispOffset := ⟨0, 0⟩
    mImageDispScale := 100
    mImagePrevScale := 100
    mImageDispOffsetStart := ⟨0, 0⟩
    mCursorMode := CURSOR_MODE_SCROLL_TOOL
    mMouseDownMode := 0
    mIsMouseDragging := false
    mMouseDownPos := ⟨0, 0⟩
    mIsColorImage := false
    mIs16BitsImage := false
    mIsToolbarEnabled := true
    mIsStatusbarEnabled := true
    mIsMapModeEnabled := false
    mMapBottomValue := 0
    mMapTopValue := 65535
    mIsMapReverse := false
    mMapDirectMapLimit := 0
    mMutexCount := 0
    heap := { mem := fun _ => none, next := 0, limit := 2147483647 }
    desktop := ⟨30, 20, 1920, 1080, ⟨0, 0, 160, 160⟩⟩ }

/-- The same state with the window open (`ThreadFunc` has run). -/
def initOpen : State := { init with mWindowState := WINDOW_OPEN_STATE }

/-- `WaitForSingleObject(mMutexHandle, INFINITE)` by the only thread of the
model: the mutex is acquired (once more). -/
def WaitForSingleObject (s : State) : State :=
  { s with mMutexCount := s.mMutexCount + 1 }

/-- `ReleaseMutex(mMutexHandle)`: one level of ownership is given up; releasing
a mutex that is not owned fails and changes nothing. -/
def ReleaseMutex (s : State) : State :=
  { s with mMutexCount := s.mMutexCount - 1 }

def IsWindowOpen (s : State) : Bool := decide (s.mWindowState = WINDOW_OPEN_STATE)

/-! ## Header creation -/

/-- The grayscale palette `CreateMonoBitmapInfo` writes. -/
def grayPalette : List RGBQUAD :=
  (List.range IMAGE_PALLET_SIZE_8BIT).map fun i => ⟨i, i, i, 0⟩

/-- `CreateMonoBitmapInfo` (lines 2747-2807).  The `new` of the header block is
served when its size does not exceed the heap's limit; otherwise `mBitmapInfo`
is `NULL` and the function returns false. -/
def CreateMonoBitmapInfo (s : State) (inWidth inHeight : Int) (inIsBottomUp : Bool) :
    Bool × State :=
  let inHeight := if inIsBottomUp = true then abs32 inHeight else int32 (-1 * abs32 inHeight)
  let doCreateBitmapInfo : Bool :=
    match s.mBitmapInfo with
    | some info =>
        decide (info.Header.biBitCount ≠ 8 ∨ info.Header.biWidth ≠ inWidth ∨
          info.Header.biHeight ≠ inHeight)
    | none => true
  if doCreateBitmapInfo then
    let s1 := { s with mBitmapInfoSize := sizeofImageBitmapInfoMono8 }
    if sizeofImageBitmapInfoMono8 ≤ s.heap.limit then
      (doCreateBitmapInfo,
       { s1 with
          mBitmapInfo := some
            { Header :=
                { biSize := sizeofBITMAPINFOHEADER
                  biWidth := inWidth
                  biHeight := int32 (-1 * abs32 inHeight)
                  biPlanes := 1
                  biBitCount := 8
                  biCompression := BI_RGB
                  biSizeImage := 0
                  biXPelsPerMeter := 100
                  biYPelsPerMeter := 100
                  biClrUsed := IMAGE_PALLET_SIZE_8BIT
                  biClrImportant := IMAGE_PALLET_SIZE_8BIT }
              RGBQuad := grayPalette }
          mBitmapBitsSize := uint32 (abs32 (int32 (inWidth * inHeight))) })
    else (false, { s1 with mBitmapInfo := none })
  else (doCreateBitmapInfo, s)

/-- `CreateColorBitmapInfo` (lines 2809-2860), with the header allocation
modelled as in `CreateMonoBitmapInfo`. -/
def CreateColorBitmapInfo (s : State) (inWidth inHeight : Int) (inIsBottomUp : Bool) :
    Bool × State :=
  let inHeight := if inIsBottomUp = true then abs32 inHeight else int32 (-1 * abs32 inHeight)
  let doCreateBitmapInfo : Bool :=
    match s.mBitmapInfo with
    | some info =>
        decide (info.Header.biBitCount ≠ 24 ∨ info.Header.biWidth ≠ inWidth ∨
          abs32 info.Header.biHeight ≠ inHeight)
    | none => true
  if doCreateBitmapInfo then
    let s1 := { s with mBitmapInfoSize := sizeofBITMAPINFOHEADER }
    if sizeofBITMAPINFOHEADER ≤ s.heap.limit then
      (doCreateBitmapInfo,
       { s1 with
          mBitmapInfo := some
            { Header :=
                { biSize := sizeofBITMAPINFOHEADER
                  biWidth := inWidth
                  biHeight := inHeight
                  biPlanes := 1
                  biBitCount := 24
                  biCompression := BI_RGB
                  biSizeImage := 0
                  biXPelsPerMeter := 100
                  biYPelsPerMeter := 100
                  biClrUsed := 0
                  biClrImportant := 0 }
              RGBQuad := [] }
          mBitmapBitsSize := uint32 (abs32 (int32 (int32 (inWidth * inHeight) * 3))) })
    else (false, { s1 with mBitmapInfo := none })
  else (doCreateBitmapInfo, s)

/-- `CreateBitmapInfo` (lines 2706-2715): the result is the geometry-changed
flag. -/
def CreateBitmapInfo (s : State) (inWidth inHeight : Int)
    (inIsColor inIsBottomUp inIs16Bits : Bool) : Bool × State :=
  let s1 := { s with mIsColorImage := inIsColor, mIs16BitsImage := inIs16Bits }
  if inIsColor then CreateColorBitmapInfo s1 inWidth inHeight inIsBottomUp
  else CreateMonoBitmapInfo s1 inWidth inHeight inIsBottomUp

/-! ## Buffer creation -/

/-- `CreateNewImageBuffer` (lines 2716-2730). -/
def CreateNewImageBuffer (s : State) (inDoZeroClear : Bool) : Int × State :=
  let r := s.heap.alloc s.mBitmapBitsSize
  let s1 := { s with heap := r.2, mAllocatedImageBuffer := r.1 }
  if r.1 = 0 then (0, ReleaseMutex s1)
  else
    let s2 := { s1 with mBitmapBits := r.1 }
    if inDoZeroClear = true then
      (1, { s2 with heap := s2.heap.ZeroMemory r.1 s.mBitmapBitsSize })
    else (1, s2)

/-- `CreateNewImageBuffer16Bits` (lines 2731-2744): `mBitmapBitsSize` elements
of two bytes each. -/
def CreateNewImageBuffer16Bits (s : State) (inDoZeroClear : Bool) : Int × State :=
  let r := s.heap.alloc (s.mBitmapBitsSize * 2)
  let s1 := { s with heap := r.2, mAllocated16BitsImageBuffer := r.1 }
  if r.1 = 0 then (0, ReleaseMutex s1)
  else if inDoZeroClear = true then
    (1, { s1 with heap := s1.heap.ZeroMemory r.1 (s.mBitmapBitsSize * 2) })
  else (1, s1)

/-- The statements `delete mAllocatedImageBuffer; mAllocatedImageBuffer = NULL;`. -/
def deleteAllocatedImageBuffer (s : State) : State :=
  { s with heap := s.heap.free s.mAllocatedImageBuffer, mAllocatedImageBuffer := 0 }

/-- The statements
`delete mAllocated16BitsImageBuffer; mAllocated16BitsImageBuffer = NULL;`. -/
def deleteAllocated16BitsImageBuffer (s : State) : State :=
  { s with heap := s.heap.free s.mAllocated16BitsImageBuffer,
           mAllocated16BitsImageBuffer := 0 }

/-- Second statement of `PrepareImageBuffers`: a 16-bit buffer is released when
the image is not a 16-bit image. -/
def release16BitsIfUnused (inIs16Bits : Bool) (s : State) : State :=
  if inIs16Bits = false ∧ s.mAllocated16BitsImageBuffer ≠ 0 then
    deleteAllocated16BitsImageBuffer s
  else s

/-- Third statement of `PrepareImageBuffers`: when the geometry changed, the
engine-owned buffer and, inside the same block, the 16-bit buffer are released. -/
def releaseIfResized (doUpdateSize : Bool) (s : State) : State :=
  if s.mAllocatedImageBuffer ≠ 0 ∧ doUpdateSize ≠ false then
    let t := deleteAllocatedImageBuffer s
    if t.mAllocated16BitsImageBuffer ≠ 0 then deleteAllocated16BitsImageBuffer t else t
  else s

/-- Fourth statement of `PrepareImageBuffers`. -/
def ensureImageBuffer (s : State) : State :=
  if s.mAllocatedImageBuffer = 0 then (CreateNewImageBuffer s true).2 else s

/-- Fifth statement of `PrepareImageBuffers`. -/
def ensure16BitsImageBuffer (inIs16Bits : Bool) (s : State) : State :=
  if inIs16Bits = true ∧ s.mAllocated16BitsImageBuffer = 0 then
    (CreateNewImageBuffer16Bits s true).2
  else s

/-- `PrepareImageBuffers` (lines 2624-2654): the header step, then its four
conditional statements in order. -/
def PrepareImageBuffers (s : State) (inWidth inHeight : Int)
    (inIsColor inIsBottomUp inIs16Bits : Bool) : Bool × State :=
  let r := CreateBitmapInfo s inWidth inHeight inIsColor inIsBottomUp inIs16Bits
  let doUpdateSize := r.1
  let s1 : State := { r.2 with mExternal16BitsImageBuffer := 0 }
  (doUpdateSize,
   ensure16BitsImageBuffer inIs16Bits
     (ensureImageBuffer (releaseIfResized doUpdateSize (release16BitsIfUnused inIs16Bits s1))))

/-! ## Queries -/

/-- `GetImageWidth` and the queries after it (lines 973-1025). -/
def GetImageWidth (s : State) : Int :=
  match s.mBitmapInfo with
  | none => 0
  | some info => info.Header.biWidth

def GetImageHeight (s : State) : Int :=
  match s.mBitmapInfo with
  | none => 0
  | some info => abs32 info.Header.biHeight

def IsBottomUpImage (s : State) : Bool :=
  match s.mBitmapInfo with
  | none => false
  | some info => if info.Header.biHeight > 0 then true else false

def GetImageBitCount (s : State) : Nat :=
  match s.mBitmapInfo with
  | none => 0
  | some info => info.Header.biBitCount

def GetImageBufferPtr (s : State) : Nat :=
  if s.mIs16BitsImage = false then s.mBitmapBits
  else if s.mAllocated16BitsImageBuffer = 0 then s.mExternal16BitsImageBuffer
  else s.mAllocated16BitsImageBuffer

def GetImageBufferSize (s : State) : Nat :=
  if s.mIs16BitsImage = false then s.mBitmapBitsSize
  else uint32 (s.mBitmapBitsSize * 2)

/-- The bytes a caller reads through `GetImageBufferPtr()` over
`GetImageBufferSize()` bytes; `none` when the pointer is not a live block of
that many bytes. -/
def readImageBuffer (s : State) : Option (List Nat) :=
  match s.heap.mem (GetImageBufferPtr s) with
  | some b => if GetImageBufferSize s ≤ b.length then some (b.take (GetImageBufferSize s)) else none
  | none => none

/-! ## Double arithmetic

A finite `double` is a rational `m * 2 ^ e` with `|m| < 2 ^ 53`.  Every
arithmetic operator of the source on `double` operands is the exact operation
followed by one rounding to the nearest such value, ties to the even
significand (IEEE 754 binary64 in the default rounding mode, each operator
rounded once).  The exponent is not bounded here: the results are those of the
hardware as long as their magnitude is zero or lies between `2 ^ -1022` and
`2 ^ 1024`, which holds for the quantities of this program (integers of 32 bits,
samples of 16 bits, scales of 1 or more).  The conversion of an `int` to
`double` is exact. -/

/-- The integer nearest to a rational, the even one of the two when the
rational lies halfway. -/
def roundHalfEven (q : ℚ) : Int :=
  if q - ⌊q⌋ < 1 / 2 then ⌊q⌋
  else if 1 / 2 < q - ⌊q⌋ then ⌊q⌋ + 1
  else if ⌊q⌋ % 2 = 0 then ⌊q⌋ else ⌊q⌋ + 1

/-- The `double` nearest to a rational: the significand is the rational scaled
into `[2 ^ 52, 2 ^ 53)` and rounded to an integer. -/
def toDouble (x : ℚ) : ℚ :=
  (roundHalfEven (x / 2 ^ (Int.log 2 |x| - 52)) : ℚ) * 2 ^ (Int.log 2 |x| - 52)

/-- The operator `+` on two `double` operands. -/
def dadd (x y : ℚ) : ℚ := toDouble (x + y)

/-- The operator `-` on two `double` operands. -/
def dsub (x y : ℚ) : ℚ := toDouble (x - y)

/-- The operator `*` on two `double` operands. -/
def dmul (x y : ℚ) : ℚ := toDouble (x * y)

/-- The operator `/` on two `double` operands, for a divisor that is not
zero. -/
def ddiv (x y : ℚ) : ℚ := toDouble (x / y)

/-! ## Window layout -/

/-- The conversion `(int)` of a `double`: the fraction is dropped (rounding
toward zero). -/
def truncToInt (q : ℚ) : Int := if 0 ≤ q then ⌊q⌋ else ⌈q⌉

/-- `UpdateWindowSize` (lines 2085-2143): the image size is read from the header, the scale is
reset to 100 unless it is kept, the client and display rectangles are laid out
from the window-system readings and the offset is reset. -/
def UpdateWindowSize (s : State) (inKeepDispScale : Bool) : State :=
  match s.mBitmapInfo with
  | none => s
  | some info =>
    if s.mWindowState ≠ WINDOW_OPEN_STATE then s
    else
      let rebarHeight : Int := if s.mIsToolbarEnabled then s.desktop.rebarHeight else 0
      let statusbarHeight : Int := if s.mIsStatusbarEnabled then s.desktop.statusbarHeight else 0
      let size : SIZE := ⟨info.Header.biWidth, abs32 info.Header.biHeight⟩
      let scale : ℚ := if inKeepDispScale = false then 100 else s.mImageDispScale
      let imageWidth : Int :=
        if inKeepDispScale = false then size.cx
        else truncToInt (ddiv (dmul (size.cx : ℚ) scale) 100)
      let imageHeight : Int :=
        if inKeepDispScale = false then size.cy
        else truncToInt (ddiv (dmul (size.cy : ℚ) scale) 100)
      let imageWidth : Int :=
        if imageWidth > s.desktop.screenWidth then s.desktop.screenWidth else imageWidth
      let imageHeight : Int :=
        if imageHeight > s.desktop.screenHeight then s.desktop.screenHeight else imageHeight
      let rect : RECT :=
        ⟨0, 0, imageWidth, int32 (int32 (imageHeight + rebarHeight) + statusbarHeight)⟩
      let client : RECT :=
        { rect with top := rebarHeight, bottom := int32 (rect.bottom - statusbarHeight) }
      { s with
          mImageSize := size
          mImageDispScale := scale
          mImageClientRect := client
          mImageDispRect := client
          mImageDispSize := ⟨int32 (client.right - client.left), int32 (client.bottom - client.top)⟩
          mImageDispOffset := ⟨0, 0⟩ }

/-! ## 16-bit display conversion -/

/-- The `unsigned short` at index `i` of a block of bytes (low byte first). -/
def sample16 (b : List Nat) (i : Nat) : Option Nat :=
  match b[2 * i]?, b[2 * i + 1]? with
  | some lo, some hi => some (lo % 256 + 256 * (hi % 256))
  | _, _ => none

/-- The value written for one sample when map mode is disabled. -/
def shiftValue (v : Nat) : Option Nat := some (v >>> 8)

/-- The end of the mapped branch: clamp to 255, lift above the direct-map limit,
convert to `unsigned short`. -/
def mapFinish (limit : Nat) (d : ℚ) : Nat :=
  let d : ℚ := if d > 255 then 255 else d
  let d : ℚ := if d ≤ (limit : ℚ) then (limit : ℚ) + 1 else d
  (truncToInt d).toNat % 65536

/-- The value computed for one sample when map mode is enabled.  The two
differences are `int` differences converted to `double`; `mapK` is the rounded
quotient `255.0 / span`, the product `mapK * x` is rounded, and so is its
difference from `255.0` when the map is reversed.  When top and bottom coincide
`mapK` is the IEEE infinity: the product is then an infinity of the sign of the
difference, or not a number when the difference is zero, and converting that to
an integer is undefined. -/
def mapValue (s : State) (v : Nat) : Option Nat :=
  if v ≤ s.mMapDirectMapLimit then some v
  else
    let span : Int := (s.mMapTopValue : Int) - (s.mMapBottomValue : Int)
    let x : Int := (v : Int) - (s.mMapBottomValue : Int)
    if span = 0 then
      if x = 0 then none
      else if (decide (x > 0) != s.mIsMapReverse) then some (mapFinish s.mMapDirectMapLimit 255)
      else some ((s.mMapDirectMapLimit + 1) % 65536)
    else
      let mapK : ℚ := ddiv 255 (span : ℚ)
      let d : ℚ :=
        if s.mIsMapReverse = false then dmul mapK (x : ℚ) else dsub 255 (dmul mapK (x : ℚ))
      some (mapFinish s.mMapDirectMapLimit d)

/-- The pixel loop of `Update16BitsImageDisp`: `n` more steps, both pointers at
index `i`.  Each step reads one sample at `srcImagePtr`, converts it with `f` and
stores the low byte of the result at `dstImagePtr`. -/
def update16Loop (f : Nat → Option Nat) (src dst : Nat) : Nat → Nat → Heap → Option Heap
  | 0, _, h => some h
  | n + 1, i, h =>
    match h.mem src, h.mem dst with
    | some sb, some db =>
      match sample16 sb i with
      | some v =>
        if i < db.length then
          match f v with
          | some value => update16Loop f src dst n (i + 1) (h.store dst (db.set i (value % 256)))
          | none => none
        else none
      | none => none
    | _, _ => none

/-- `Update16BitsImageDisp` (lines 2655-2705): the rows and columns of `mImageSize` are walked,
`cy * cx` steps with both pointers advancing by one element per step. -/
def Update16BitsImageDisp (s : State) : Option State :=
  let srcImagePtr := s.mAllocated16BitsImageBuffer
  let dstImagePtr := s.mAllocatedImageBuffer
  let steps := s.mImageSize.cy.toNat * s.mImageSize.cx.toNat
  let f : Nat → Option Nat := if s.mIsMapModeEnabled = false then shiftValue else mapValue s
  match update16Loop f srcImagePtr dstImagePtr steps 0 s.heap with
  | some h => some { s with heap := h }
  | none => none

/-- `UpdateImage` (lines 704-714): nothing unless the window is open; the frame-rate figures, the
status-bar text and the repaint leave the modelled state as it is. -/
def UpdateImage (s : State) : Option State :=
  if IsWindowOpen s = false then some s
  else if s.mIs16BitsImage then Update16BitsImageDisp s
  else some s

/-! ## Buffer mutators -/

/-- First release block of `SetImageBufferPtr`. -/
def releaseImageBuffer (s : State) : State :=
  if s.mAllocatedImageBuffer ≠ 0 then deleteAllocatedImageBuffer s else s

/-- Second release block of `SetImageBufferPtr`. -/
def release16BitsImageBuffer (s : State) : State :=
  if s.mAllocated16BitsImageBuffer ≠ 0 then deleteAllocated16BitsImageBuffer s else s

/-- The branch of `SetImageBufferPtr` that stores the caller's pointer. -/
def adoptPointer (inImagePtr : Nat) (inIs16Bits : Bool) (s : State) : State :=
  if inIs16Bits = false then
    { s with mBitmapBits := inImagePtr, mExternal16BitsImageBuffer := 0 }
  else
    { (CreateNewImageBuffer s true).2 with mExternal16BitsImageBuffer := inImagePtr }

/-- `SetImageBufferPtr` (lines 555-597). -/
def SetImageBufferPtr (s : State) (inWidth inHeight : Int) (inImagePtr : Nat)
    (inIsColor inIsBottomUp inIs16Bits : Bool) : Option State :=
  let s0 := WaitForSingleObject s
  let r := CreateBitmapInfo s0 inWidth inHeight inIsColor inIsBottomUp inIs16Bits
  let doUpdateSize := r.1
  let s1 := adoptPointer inImagePtr inIs16Bits (release16BitsImageBuffer (releaseImageBuffer r.2))
  let s2 := ReleaseMutex s1
  if doUpdateSize then some (UpdateWindowSize s2 false) else UpdateImage s2

/-- `AllocateImageBuffer` (lines 599-617). -/
def AllocateImageBuffer (s : State) (inWidth inHeight : Int)
    (inIsColor inIsBottomUp inIs16Bits : Bool) : State :=
  let s0 := WaitForSingleObject s
  let r := PrepareImageBuffers s0 inWidth inHeight inIsColor inIsBottomUp inIs16Bits
  let s1 := ReleaseMutex r.2
  if r.1 then UpdateWindowSize s1 false else s1

/-- `CopyIntoImageBuffer` (lines 619-641); the caller's source is passed as the
bytes found at `inImage`. -/
def CopyIntoImageBuffer (s : State) (inWidth inHeight : Int) (inImage : List Nat)
    (inIsColor inIsBottomUp inIs16Bits : Bool) : Option State :=
  let s0 := WaitForSingleObject s
  let r := PrepareImageBuffers s0 inWidth inHeight inIsColor inIsBottomUp inIs16Bits
  match r.2.heap.CopyMemory (GetImageBufferPtr r.2) inImage (GetImageBufferSize r.2) with
  | none => none
  | some h =>
    let s1 := ReleaseMutex { r.2 with heap := h }
    if r.1 then some (UpdateWindowSize s1 false) else UpdateImage s1

/-! ## Pixel addressing -/

/-- `GetPixelPointer` (lines 1986-2003): the byte offset from `mBitmapBits` of the pixel at
`(inX, inY)`; `none` is the `NULL` result (and the case of a missing header). -/
def GetPixelPointer (s : State) (inX inY : Int) : Option Int :=
  if inX < 0 ∨ inX ≥ s.mImageSize.cx ∨ inY < 0 ∨ inY ≥ s.mImageSize.cy then none
  else
    match s.mBitmapInfo with
    | none => none
    | some info =>
      if info.Header.biBitCount = 8 then
        some (int32 (int32 (s.mImageSize.cx * inY) + inX))
      else
        let lineSize : Int := int32 (s.mImageSize.cx * 3)
        let lineSize : Int :=
          if Int.tmod lineSize 4 ≠ 0 then int32 (lineSize + (4 - Int.tmod lineSize 4))
          else lineSize
        if info.Header.biHeight < 0 then
          some (int32 (int32 (lineSize * inY) + int32 (inX * 3)))
        else
          some (int32 (int32 (lineSize * int32 (int32 (s.mImageSize.cy - inY) - 1))
            + int32 (inX * 3)))

/-! ## Vertical flip -/

/-- The inner loop of `FlipBitmap`: `n` more bytes to exchange, `srcPtr` and
`dstPtr` being byte indices into the payload. -/
def swapRow : Nat → Int → Int → List Nat → Option (List Nat)
  | 0, _, _, bits => some bits
  | n + 1, srcPtr, dstPtr, bits =>
    if 0 ≤ srcPtr ∧ srcPtr < bits.length ∧ 0 ≤ dstPtr ∧ dstPtr < bits.length then
      let tmp := bits.getD dstPtr.toNat 0
      let bits1 := bits.set dstPtr.toNat (bits.getD srcPtr.toNat 0)
      swapRow n (srcPtr + 1) (dstPtr + 1) (bits1.set srcPtr.toNat tmp)
    else none

/-- The outer loop of `FlipBitmap`: `n` more rows, the current row being `y`;
`rowBytes` is the number of bytes exchanged per row (`width`, or `width * 3`). -/
def flipRows (rowBytes height : Int) : Nat → Int → List Nat → Option (List Nat)
  | 0, _, bits => some bits
  | n + 1, y, bits =>
    match swapRow rowBytes.toNat (int32 (rowBytes * y))
        (int32 (rowBytes * int32 (int32 (height - y) - 1))) bits with
    | some b => flipRows rowBytes height n (y + 1) b
    | none => none

/-- `FlipBitmap` (lines 1278-1323) on a header and a payload, both not `NULL`
(with a `NULL` argument the function returns at once and changes nothing). -/
def FlipBitmap (inBitmapInfo : BITMAPINFOHEADER) (inBitmapBits : List Nat) :
    Option (BITMAPINFOHEADER × List Nat) :=
  let width := inBitmapInfo.biWidth
  let height := abs32 inBitmapInfo.biHeight
  let r :=
    if inBitmapInfo.biBitCount = 8 then
      flipRows width height (Int.tdiv height 2).toNat 0 inBitmapBits
    else
      flipRows (int32 (width * 3)) height (Int.tdiv height 2).toNat 0 inBitmapBits
  match r with
  | some bits => some ({ inBitmapInfo with biHeight := int32 (inBitmapInfo.biHeight * -1) }, bits)
  | none => none

/-! ## Bitmap file reading -/

structure BITMAPFILEHEADER where
  bfType : Nat
  bfSize : Nat
  bfReserved1 : Nat
  bfReserved2 : Nat
  bfOffBits : Nat
deriving DecidableEq, Repr

/-- The number a run of bytes stands for, low byte first. -/
def leNat (bs : List Nat) : Nat := bs.foldr (fun b acc => b % 256 + 256 * acc) 0

/-- The field of `len` bytes at byte offset `off` of a block. -/
def fieldAt (b : List Nat) (off len : Nat) : Nat := leNat ((b.drop off).take len)

def readFileHeader (bytes : List Nat) : BITMAPFILEHEADER :=
  { bfType := fieldAt bytes 0 2
    bfSize := fieldAt bytes 2 4
    bfReserved1 := fieldAt bytes 6 2
    bfReserved2 := fieldAt bytes 8 2
    bfOffBits := fieldAt bytes 10 4 }

def readRGBQuads : List Nat → List RGBQUAD
  | b :: g :: r :: x :: rest => ⟨b % 256, g % 256, r % 256, x % 256⟩ :: readRGBQuads rest
  | _ => []

/-- A block of bytes seen through a `BITMAPINFOHEADER *`, the colour table
following the 40 header bytes. -/
def readBitmapInfo (block : List Nat) : BitmapInfo :=
  { Header :=
      { biSize := fieldAt block 0 4
        biWidth := int32 (fieldAt block 4 4)
        biHeight := int32 (fieldAt block 8 4)
        biPlanes := fieldAt block 12 2
        biBitCount := fieldAt block 14 2
        biCompression := fieldAt block 16 4
        biSizeImage := fieldAt block 20 4
        biXPelsPerMeter := int32 (fieldAt block 24 4)
        biYPelsPerMeter := int32 (fieldAt block 28 4)
        biClrUsed := fieldAt block 32 4
        biClrImportant := fieldAt block 36 4 }
    RGBQuad := readRGBQuads (block.drop sizeofBITMAPINFOHEADER) }

/-- `OpenBitmapFile` (lines 767-851) on the content of the named file (`none`: the file cannot be
opened).  `fread(p, n, 1, fp)` succeeds when `n` is not zero and `n` more bytes
are there; on a short read the block keeps what `new` left in its unread part. -/
def OpenBitmapFile (s : State) (file : Option (List Nat)) : Bool × State :=
  match file with
  | none => (false, s)
  | some bytes =>
    if bytes.length < sizeofBITMAPFILEHEADER then (false, s)
    else
      let fileHeader := readFileHeader bytes
      let rest := bytes.drop sizeofBITMAPFILEHEADER
      let s0 := WaitForSingleObject s
      let s1 : State :=
        match s0.mBitmapInfo with
        | some _ =>
          if s0.mAllocatedImageBuffer ≠ 0 then
            { s0 with heap := s0.heap.free s0.mAllocatedImageBuffer }
          else s0
        | none => s0
      let infoSize := uint32 ((fileHeader.bfOffBits : Int) - (sizeofBITMAPFILEHEADER : Int))
      let s2 : State := { s1 with mBitmapInfoSize := infoSize }
      if ¬ infoSize ≤ s2.heap.limit then
        (false, ReleaseMutex { s2 with mBitmapInfo := none })
      else
        let bitsSize := uint32 ((fileHeader.bfSize : Int) - (fileHeader.bfOffBits : Int))
        let r := s2.heap.alloc bitsSize
        let s3 : State :=
          { s2 with mBitmapBitsSize := bitsSize, heap := r.2, mAllocatedImageBuffer := r.1 }
        if r.1 = 0 then
          (false, ReleaseMutex { s3 with mBitmapInfo := none })
        else
          let s4 : State := { s3 with mBitmapBits := r.1 }
          let infoRead := rest.take infoSize
          let info := readBitmapInfo (infoRead ++ Heap.fresh (infoSize - infoRead.length))
          let s5 : State := { s4 with mBitmapInfo := some info }
          if infoSize = 0 ∨ rest.length < infoSize then (false, ReleaseMutex s5)
          else
            let rest2 := rest.drop infoSize
            let bitsRead := rest2.take bitsSize
            let block := bitsRead ++ Heap.fresh (bitsSize - bitsRead.length)
            let s6 : State := { s5 with heap := s5.heap.store r.1 block }
            if bitsSize = 0 ∨ rest2.length < bitsSize then (false, ReleaseMutex s6)
            else (true, UpdateWindowSize (ReleaseMutex s6) false)

/-- The bytes of an 8-bit bottom-up bitmap file of 3 by 3 pixels as image tools
write it: file header, 40-byte header, 256 palette entries, three rows of three
pixels each padded to four bytes. -/
def paddedFile3x3 : List Nat :=
  [66, 77, 66, 4, 0, 0, 0, 0, 0, 0, 54, 4, 0, 0] ++
  [40, 0, 0, 0, 3, 0, 0, 0, 3, 0, 0, 0, 1, 0, 8, 0, 0, 0, 0, 0, 12, 0, 0, 0,
   0, 0, 0, 0, 0, 0, 0, 0, 0, 0, 0, 0, 0, 0, 0, 0] ++
  (List.range 256).flatMap (fun i => [i, i, i, 0]) ++
  [1, 2, 3, 0, 4, 5, 6, 0, 7, 8, 9, 0]

/-! ## Row layout used by the flip -/

/-- The number of bytes `FlipBitmap` exchanges per row: `width` for an 8-bit
header, `width * 3` otherwise. -/
def flipRowBytes (hdr : BITMAPINFOHEADER) : Nat :=
  if hdr.biBitCount = 8 then hdr.biWidth.toNat else (hdr.biWidth * 3).toNat

/-- The number of rows of a header, the magnitude of its height field. -/
def rowCount (hdr : BITMAPINFOHEADER) : Nat := hdr.biHeight.natAbs

/-- The number of bytes from one row to the next as `GetPixelPointer` addresses
the pixels: `width` for an 8-bit header, `width * 3` rounded up to a multiple of
4 otherwise. -/
def lineBytes (hdr : BITMAPINFOHEADER) : Nat :=
  if hdr.biBitCount = 8 then hdr.biWidth.toNat
  else if (hdr.biWidth * 3).toNat % 4 ≠ 0 then
    (hdr.biWidth * 3).toNat + (4 - (hdr.biWidth * 3).toNat % 4)
  else (hdr.biWidth * 3).toNat

/-! ## A sample 16-bit state -/

/-- An open window holding a 2 by 1 16-bit image with the samples `0x1234` and
`0xABCD` in its engine-owned 16-bit buffer. -/
def sample16State : State :=
  let s := AllocateImageBuffer initOpen 2 1 false false true
  { s with heap := s.heap.store s.mAllocated16BitsImageBuffer [52, 18, 205, 171] }

/-! ## Invariant of the buffer store -/

/-- The buffer invariant of the engine: an engine-owned buffer, when the state
holds one, is the active buffer, is a live block of at least the recorded size,
and is not the 16-bit buffer. -/
def EngineBufferOk (s : State) : Prop :=
  s.mAllocatedImageBuffer ≠ 0 →
    s.mBitmapBits = s.mAllocatedImageBuffer ∧
    s.mAllocated16BitsImageBuffer ≠ s.mAllocatedImageBuffer ∧
    ∃ blk, s.heap.mem s.mAllocatedImageBuffer = some blk ∧ s.mBitmapBitsSize ≤ blk.length

/-! ## Tone map switches -/

/-- The five assignments of `SetMapMode`. -/
def setMapFields (s : State) (inMapBottomValue inMapTopValue : Nat) (inIsMapReverse : Bool)
    (inDirectMapLimit : Nat) : State :=
  { s with
      mIsMapModeEnabled := true
      mMapBottomValue := inMapBottomValue
      mMapTopValue := inMapTopValue
      mIsMapReverse := inIsMapReverse
      mMapDirectMapLimit := inDirectMapLimit }

/-- `SetMapMode` (lines 686-699): nothing unless the image is a 16-bit image. -/
def SetMapMode (s : State) (inMapBottomValue inMapTopValue : Nat) (inIsMapReverse : Bool)
    (inDirectMapLimit : Nat) : Option State :=
  if s.mIs16BitsImage = false then some s
  else UpdateImage (setMapFields s inMapBottomValue inMapTopValue inIsMapReverse inDirectMapLimit)

/-- `DisableMapMode` (lines 700-703). -/
def DisableMapMode (s : State) : State := { s with mIsMapModeEnabled := false }

/-- The byte one step of the pixel loop of `Update16BitsImageDisp` stores for a
sample `v`: the value the active conversion computes, cut to `unsigned char`;
`none` when that value is undefined. -/
def shadowByte (s : State) (v : Nat) : Option Nat :=
  match (if s.mIsMapModeEnabled = false then shiftValue v else mapValue s v) with
  | some value => some (value % 256)
  | none => none

/-- The `double` `d` of the mapped branch before it is clamped: `mapK` times
the distance of the sample from the bottom value, taken from 255 when the map is
reversed, each operation rounded as the source computes it. -/
def rampValue (bottom top : Nat) (reverse : Bool) (v : Nat) : ℚ :=
  let mapK : ℚ := ddiv 255 ((top : ℚ) - (bottom : ℚ))
  if reverse = false then dmul mapK ((v : ℚ) - (bottom : ℚ))
  else dsub 255 (dmul mapK ((v : ℚ) - (bottom : ℚ)))

/-- The ramp as the specification words it, in exact arithmetic:
`d = k * (s - bottom)` with `k = 255 / (top - bottom)`, and `d = 255 - d` if
reversed. -/
def specRampValue (bottom top : Nat) (reverse : Bool) (v : Nat) : ℚ :=
  let k : ℚ := 255 / ((top : ℚ) - (bottom : ℚ))
  if reverse = false then k * ((v : ℚ) - (bottom : ℚ))
  else 255 - k * ((v : ℚ) - (bottom : ℚ))

/-- The mapped value as the specification words it, in exact arithmetic:
`d = k * (s - bottom)` with `k = 255 / (top - bottom)`, `d = 255 - d` if
reversed, `d` clamped to at most 255, then set to `directLimit + 1` if it is at
or below the limit, then truncated to an integer. -/
def specMapValue (bottom top : Nat) (reverse : Bool) (directLimit : Nat) (v : Nat) : Int :=
  let k : ℚ := 255 / ((top : ℚ) - (bottom : ℚ))
  let d : ℚ := k * ((v : ℚ) - (bottom : ℚ))
  let d : ℚ := if reverse = true then 255 - d else d
  let d : ℚ := min d 255
  let d : ℚ := if d ≤ (directLimit : ℚ) then (directLimit : ℚ) + 1 else d
  truncToInt d

/-! ## Viewport -/

/-- `GetDispScale` (lines 1026-1029). -/
def GetDispScale (s : State) : ℚ := s.mImageDispScale

/-- The first statement of `SetDispScale`: a scale of 1 or less becomes 1. -/
def clampScale {K : Type} [LinearOrderedField K] (inScale : K) : K :=
  if inScale ≤ 1 then 1 else inScale

/-- The two `if` statements `CheckImageDispOffset` applies to one coordinate:
the coordinate is cut to `limit`, then raised to 0; the flag records a change. -/
def clampCoordinate (offset limit : Int) (update : Bool) : Int × Bool :=
  let r : Int × Bool := if offset > limit then (limit, true) else (offset, update)
  if r.1 < 0 then (0, true) else r

/-- `CheckImageDispOffset` (lines 2235-2270).  The scale factor
`mImageDispScale / 100.0`, the quotient of the display size by it and the
difference from the image size are `double` operations, each rounded; the scale
is not zero in a state the window reaches, since `SetDispScale` keeps it at 1 or
more. -/
def CheckImageDispOffset (s : State) : Bool × State :=
  let scale : ℚ := ddiv s.mImageDispScale 100
  let prevOffset := s.mImageDispOffset
  let limitX :=
    truncToInt (dsub (s.mImageSize.cx : ℚ) (ddiv (s.mImageDispSize.cx : ℚ) scale))
  let x := clampCoordinate s.mImageDispOffset.cx limitX false
  let limitY :=
    truncToInt (dsub (s.mImageSize.cy : ℚ) (ddiv (s.mImageDispSize.cy : ℚ) scale))
  let y := clampCoordinate s.mImageDispOffset.cy limitY x.2
  let update : Bool := if prevOffset.cx = x.1 ∧ prevOffset.cy = y.1 then false else y.2
  (update, { s with mImageDispOffset := ⟨x.1, y.1⟩ })

/-- The bound `mImageSize - mImageDispSize / scale` of one axis as
`CheckImageDispOffset` computes it in `double`, before the conversion to
`int`. -/
def offsetLimit (imageSize dispSize : Int) (mImageDispScale : ℚ) : ℚ :=
  dsub (imageSize : ℚ) (ddiv (dispSize : ℚ) (ddiv mImageDispScale 100))

/-- The bound of one axis as the specification words it, in exact arithmetic:
`imageSize - dispSize / (scale / 100)`. -/
def specOffsetLimit (imageSize dispSize : Int) (scale : ℚ) : ℚ :=
  (imageSize : ℚ) - (dispSize : ℚ) / (scale / 100)

/-- `UpdateImageDispDispRect` (lines 2145-2189): the client rectangle is read
from the window, the display rectangle is centred when the scaled image is
smaller; the repaint request leaves the modelled state as it is. -/
def UpdateImageDispDispRect (s : State) : State :=
  match s.mBitmapInfo with
  | none => s
  | some _ =>
    if s.mWindowState ≠ WINDOW_OPEN_STATE then s
    else
      let rebarHeight : Int := if s.mIsToolbarEnabled then s.desktop.rebarHeight else 0
      let statusbarHeight : Int := if s.mIsStatusbarEnabled then s.desktop.statusbarHeight else 0
      let rect0 := s.desktop.clientRect
      let rect : RECT :=
        { rect0 with top := int32 (rect0.top + rebarHeight),
                     bottom := int32 (rect0.bottom - statusbarHeight) }
      let client := rect
      let imageWidth :=
        truncToInt (ddiv (dmul (s.mImageSize.cx : ℚ) s.mImageDispScale) 100)
      let imageHeight :=
        truncToInt (ddiv (dmul (s.mImageSize.cy : ℚ) s.mImageDispScale) 100)
      let rect : RECT :=
        if imageWidth < int32 (rect.right - rect.left) then
          let left := int32 (rect.left +
            Int.tdiv (int32 (int32 (rect.right - rect.left) - imageWidth)) 2)
          { rect with left := left, right := int32 (rect.right + int32 (left + imageWidth)) }
        else rect
      let rect : RECT :=
        if imageHeight < int32 (rect.bottom - rect.top) then
          let top := int32 (rect.top +
            Int.tdiv (int32 (int32 (rect.bottom - rect.top) - imageHeight)) 2)
          { rect with top := top, right := int32 (rect.right + int32 (top + imageHeight)) }
        else rect
      { s with
          mImageClientRect := client
          mImageDispRect := rect
          mImageDispSize := ⟨int32 (rect.right - rect.left), int32 (rect.bottom - rect.top)⟩ }

/-- `SetDispScale` (lines 1031-1051); the status bar and the cursor are outside
the modelled state. -/
def SetDispScale (s : State) (inScale : ℚ) : State :=
  let inScale := clampScale inScale
  let s1 : State := { s with mImageDispScale := inScale }
  UpdateImageDispDispRect (CheckImageDispOffset s1).2

/-- `CalcWindowSizeFitScale` (lines 1053-1067); the two ratios, the scale and
its product with 100 are `double` operations. -/
def CalcWindowSizeFitScale (s : State) : ℚ :=
  let imageRatio : ℚ := ddiv (s.mImageSize.cy : ℚ) (s.mImageSize.cx : ℚ)
  let width : ℚ := ((int32 (s.mImageClientRect.right - s.mImageClientRect.left) : Int) : ℚ)
  let height : ℚ := ((int32 (s.mImageClientRect.bottom - s.mImageClientRect.top) : Int) : ℚ)
  let dispRatio : ℚ := ddiv (s.mImageClientRect.bottom : ℚ) width
  let scale : ℚ :=
    if imageRatio > dispRatio then ddiv height (s.mImageSize.cy : ℚ)
    else ddiv width (s.mImageSize.cx : ℚ)
  dmul scale 100

/-- `FitDispScaleToWindowSize` (lines 1069-1072). -/
def FitDispScaleToWindowSize (s : State) : State :=
  SetDispScale s (CalcWindowSizeFitScale s)

/-- The Windows function `PtInRect`, which the source calls and does not define:
a point is inside when it is on or after the left and top edges and before the
right and bottom edges. -/
def PtInRect (r : RECT) (p : POINT) : Bool :=
  decide (r.left ≤ p.x ∧ p.x < r.right ∧ r.top ≤ p.y ∧ p.y < r.bottom)

/-- The image point under a point of the display rectangle, as the mouse
handlers compute it: the point is taken relative to the rectangle, divided by
the scale factor `mImageDispScale / 100.0` (two `double` divisions, each
rounded), converted to `int` and moved by the offset. -/
def imagePointAt (s : State) (localPos : POINT) : POINT :=
  let scale : ℚ := ddiv s.mImageDispScale 100
  ⟨int32 (truncToInt (ddiv (localPos.x : ℚ) scale) + s.mImageDispOffset.cx),
   int32 (truncToInt (ddiv (localPos.y : ℚ) scale) + s.mImageDispOffset.cy)⟩

/-- The last three statements of the zoom handlers: the offset is set so that
the image point `p` stays under `localPos` at the new scale, then
`SetDispScale(scale)`. -/
def zoomAround (s : State) (p localPos : POINT) (scale : ℚ) : State :=
  let off : SIZE :=
    ⟨int32 (p.x - truncToInt (ddiv (localPos.x : ℚ) (ddiv scale 100))),
     int32 (p.y - truncToInt (ddiv (localPos.y : ℚ) (ddiv scale 100)))⟩
  SetDispScale { s with mImageDispOffset := off } scale

/-- `OnMouseMove` (lines 1659-1684) with the cursor position of the message. -/
def OnMouseMove (s : State) (currentPos : POINT) : State :=
  if s.mIsMouseDragging = false then s
  else
    let scale : ℚ := ddiv s.mImageDispScale 100
    if s.mMouseDownMode = CURSOR_MODE_SCROLL_TOOL then
      let off : SIZE :=
        ⟨int32 (s.mImageDispOffsetStart.cx -
            truncToInt (ddiv ((int32 (currentPos.x - s.mMouseDownPos.x) : Int) : ℚ) scale)),
         int32 (s.mImageDispOffsetStart.cy -
            truncToInt (ddiv ((int32 (currentPos.y - s.mMouseDownPos.y) : Int) : ℚ) scale))⟩
      (CheckImageDispOffset { s with mImageDispOffset := off }).2
    else s

/-- `OnMouseWheel` (lines 1713-1748) with the cursor position in client
coordinates and, as `scale`, the value `CalcImageScale` returns for the wheel
step of the message. -/
def OnMouseWheel (s : State) (mousePos : POINT) (scale : ℚ) : State :=
  if PtInRect s.mImageDispRect mousePos = false then s
  else
    let localPos : POINT :=
      ⟨int32 (mousePos.x - s.mImageDispRect.left), int32 (mousePos.y - s.mImageDispRect.top)⟩
    zoomAround s (imagePointAt s localPos) localPos scale

/-- `OnMButtonDown` (lines 1622-1657) with the cursor position and the state of
the shift and control keys of the message. -/
def OnMButtonDown (s : State) (pos : POINT) (shift control : Bool) : State :=
  let localPos : POINT :=
    ⟨int32 (pos.x - s.mImageDispRect.left), int32 (pos.y - s.mImageDispRect.top)⟩
  let p := imagePointAt s localPos
  let scale : ℚ :=
    if shift = false ∧ control = false then 100
    else if shift = false then 3000
    else CalcWindowSizeFitScale s
  let scale : ℚ := if s.mImageDispScale = scale then s.mImagePrevScale else scale
  zoomAround { s with mImagePrevScale := s.mImageDispScale } p localPos scale

/-- `OnLButtonDown` (lines 1541-1620) with the cursor position, the state of the
control key and, as `scale`, the value `CalcImageScale` returns for the zoom step
the shift key selects.  The click readout of the info tool prints and counts
clicks, which is outside the modelled state. -/
def OnLButtonDown (s : State) (pos : POINT) (control : Bool) (scale : ℚ) : State :=
  let mode := if control = false then s.mCursorMode else CURSOR_MODE_SCROLL_TOOL
  let s1 : State := { s with mMouseDownPos := pos, mMouseDownMode := mode }
  if mode = CURSOR_MODE_SCROLL_TOOL then
    { s1 with mIsMouseDragging := true, mImageDispOffsetStart := s1.mImageDispOffset }
  else if mode = CURSOR_MODE_ZOOM_TOOL then
    let localPos : POINT :=
      ⟨int32 (pos.x - s1.mImageDispRect.left), int32 (pos.y - s1.mImageDispRect.top)⟩
    zoomAround s1 (imagePointAt s1 localPos) localPos scale
  else s1

/-- `OnSize` (lines 1750-1763); `shift` is the state of the shift key. -/
def OnSize (s : State) (shift : Bool) : State :=
  let s1 := UpdateImageDispDispRect s
  if shift = true then FitDispScaleToWindowSize s1
  else (CheckImageDispOffset s1).2

/-! ## Zoom steps -/

def IMAGE_ZOOM_STEP : Int := 1

/-- The functions `log10` and `pow` of the C library, which the source calls and
does not define.  Both return a `double`; how close that is to the mathematical
value is a property of the library in use.  The fields give the value returned
for arguments at which it is finite. -/
structure MathLibrary where
  log10 : ℚ → ℚ
  pow : ℚ → ℚ → ℚ

/-- The value of `scale` after the second statement of `CalcImageScale`:
`pow(10, log10(mImageDispScale) + inStep / 100.0)`, the quotient and the sum
being `double` operations. -/
def steppedScale (lib : MathLibrary) (mImageDispScale : ℚ) (inStep : Int) : ℚ :=
  lib.pow 10 (dadd (lib.log10 mImageDispScale) (ddiv (inStep : ℚ) 100))

/-- `CalcImageScale` (lines 1832-1846) in `double` arithmetic with the `log10`
and `pow` of the library `lib`; the argument is the current
`mImageDispScale`. -/
def CalcImageScale (lib : MathLibrary) (mImageDispScale : ℚ) (inStep : Int) : ℚ :=
  let val : ℚ := dadd (lib.log10 mImageDispScale) (ddiv (inStep : ℚ) 100)
  let scale : ℚ := lib.pow 10 val
  let scale : ℚ := if |dsub scale 100| ≤ 1 then 100 else scale
  if scale ≤ 1 then 1 else scale

/-- `ZoomIn` (lines 1074-1077) on the scale alone: the scale `SetDispScale`
stores when it is given `CalcImageScale(IMAGE_ZOOM_STEP)`. -/
def ZoomIn (lib : MathLibrary) (mImageDispScale : ℚ) : ℚ :=
  clampScale (CalcImageScale lib mImageDispScale IMAGE_ZOOM_STEP)

/-- `ZoomOut` (lines 1079-1082) on the scale alone. -/
def ZoomOut (lib : MathLibrary) (mImageDispScale : ℚ) : ℚ :=
  clampScale (CalcImageScale lib mImageDispScale (-IMAGE_ZOOM_STEP))

/-- The step as the specification words it, over the reals:
`r = 10 ^ (log10 c + n / 100)`, 100 when `r` is within 1 of 100, at least 1. -/
noncomputable def specCalcImageScale (c : ℝ) (n : Int) : ℝ :=
  let val : ℝ := Real.logb 10 c + (n : ℝ) / 100
  let scale : ℝ := (10 : ℝ) ^ val
  let scale : ℝ := if |scale - 100| ≤ 1 then 100 else scale
  if scale ≤ 1 then 1 else scale

/-- The C library at the arguments of the examples: `log10` of 1, 10,
10.2329..., 100, 101, `99 - 2 ^ -46` and 101.306..., and the powers of 10 met
from there.  Each value is the `double` nearest to the logarithm or to the
power, which is the value the GNU C library returns there.  At the other
arguments the value 0 stands for a value that is not used. -/
def runtimeLibrary : MathLibrary where
  log10 := fun x =>
    if x = 1 then 0
    else if x = 10 then 1
    else if x = 5760627423408055 / 2 ^ 49 then 4548635623644201 / 2 ^ 52
    else if x = 100 then 2
    else if x = 101 then 4513330496049115 / 2 ^ 51
    else if x = 6966505673588735 / 2 ^ 46 then 8987541918756973 / 2 ^ 52
    else if x = 7128776436467468 / 2 ^ 46 then 4516288957515339 / 2 ^ 51
    else 0
  pow := fun x y =>
    if x = 10 then
      if y = 1 then 10
      else if y = 4548635623644201 / 2 ^ 52 then 5760627423408055 / 2 ^ 49
      else if y = 4513330496049115 / 2 ^ 51 then 7107243161944065 / 2 ^ 46
      else if y = 4526117625507348 / 2 ^ 51 then 7200784279260065 / 2 ^ 46
      else if y = -(5764607523034235 / 2 ^ 59) then 8802170368298336 / 2 ^ 53
      else if y = 4516288957515339 / 2 ^ 51 then 7128776436467468 / 2 ^ 46
      else if y = 8987541918756973 / 2 ^ 52 then 6966505673588736 / 2 ^ 46
      else 0
    else 0

/-- One step up from the scale `x` returns a `double` between `a * x` and
`b * x`. -/
def StepUpWithin (lib : MathLibrary) (a b x : ℚ) : Prop :=
  toDouble (steppedScale lib x IMAGE_ZOOM_STEP) = steppedScale lib x IMAGE_ZOOM_STEP ∧
  a * x ≤ steppedScale lib x IMAGE_ZOOM_STEP ∧ steppedScale lib x IMAGE_ZOOM_STEP ≤ b * x

/-- One step down from the scale `x` returns a `double` between `x / b` and
`x / a`. -/
def StepDownWithin (lib : MathLibrary) (a b x : ℚ) : Prop :=
  toDouble (steppedScale lib x (-IMAGE_ZOOM_STEP)) = steppedScale lib x (-IMAGE_ZOOM_STEP) ∧
  x / b ≤ steppedScale lib x (-IMAGE_ZOOM_STEP) ∧ steppedScale lib x (-IMAGE_ZOOM_STEP) ≤ x / a

/-- The snap to 100 and the floor at 1 that `CalcImageScale` and `SetDispScale`
apply to the power `r`: 100 inside the window, 1 when `r ≤ 1`, `r` otherwise. -/
def snapFloor (r : ℚ) : ℚ := if |r - 100| ≤ 1 then 100 else if r ≤ 1 then 1 else r

/-- A zoom step up that multiplies the scale by exactly `t`. -/
def stepUp (t x : ℚ) : ℚ := snapFloor (t * x)

/-- A zoom step down that divides the scale by exactly `t`. -/
def stepDown (t x : ℚ) : ℚ := snapFloor (x / t)

/-! ## States used to evaluate the viewport -/

/-- An open window showing a 640 by 480 image at scale 200 in a display area of
320 by 240, with the offset (900, -5). -/
def viewState : State :=
  { initOpen with
    mImageSize := ⟨640, 480⟩
    mImageDispSize := ⟨320, 240⟩
    mImageDispScale := 200
    mImageDispOffset := ⟨900, -5⟩ }

/-- An open window showing a 10 by 10 image at scale 100 in a display area of
100 by 100, with the offset (0, 0). -/
def smallImageState : State :=
  { initOpen with
    mImageSize := ⟨10, 10⟩
    mImageDispSize := ⟨100, 100⟩
    mImageDispScale := 100
    mImageDispOffset := ⟨0, 0⟩ }

/-- An open window showing a 640 by 480 image in a display area of 10 by 10 at
the scale 999.9999999999509 (the `double` `8796093022207568 * 2 ^ -43`), with
the offset (639, 0). -/
def roundedLimitState : State :=
  { initOpen with
    mImageSize := ⟨640, 480⟩
    mImageDispSize := ⟨10, 10⟩
    mImageDispScale := 8796093022207568 / 2 ^ 43
    mImageDispOffset := ⟨639, 0⟩ }

/-- An open window in which a drag with the scroll tool is under way, the zoom
tool is selected and the offset is (-5, -7); the display rectangle is
(0, 0, 100, 100). -/
def dragState : State :=
  { initOpen with
    mImageSize := ⟨640, 480⟩
    mImageDispRect := ⟨0, 0, 100, 100⟩
    mImageDispSize := ⟨100, 100⟩
    mImageDispOffset := ⟨-5, -7⟩
    mIsMouseDragging := true
    mMouseDownMode := CURSOR_MODE_SCROLL_TOOL
    mCursorMode := CURSOR_MODE_ZOOM_TOOL }

/-- The state after `AllocateImageBuffer(100, 80)` on an open window followed by
a resize of the window to a client area of 160 by 160 (`OnSize` without the
shift key): with the toolbar of height 30 and the status bar of height 20 the
image client rectangle is (0, 30, 160, 140). -/
def fitState : State :=
  OnSize (AllocateImageBuffer initOpen 100 80 false false false) false

/-! ## Mouse position readout -/

/-- The image coordinates `UpdateMousePixelReadout` (lines 2018-2023) computes
for the cursor position `pos`, given in client coordinates: the position is taken
relative to the display rectangle, divided in `double` by the scale factor,
converted to `int`, and the offset is added.  `OnMouseWheel` (lines 1727-1733) computes the
same coordinates. -/
def mousePixelPosition (s : State) (pos : POINT) : POINT :=
  imagePointAt s
    ⟨int32 (pos.x - s.mImageDispRect.left), int32 (pos.y - s.mImageDispRect.top)⟩

/-- The screen-to-image mapping of one axis as the specification words it, in
exact arithmetic: `(p - o) / (scale / 100) + f`, truncated toward zero. -/
def specScreenToImage (p o : Int) (scale : ℚ) (f : Int) : Int :=
  truncToInt ((((p - o : Int) : ℚ)) / (scale / 100) + (f : ℚ))

/-- An open window whose display rectangle starts at (10, 10), at scale 200 with
the offset (1, 1). -/
def readoutState : State :=
  { initOpen with
    mImageSize := ⟨640, 480⟩
    mImageDispRect := ⟨10, 10, 110, 110⟩
    mImageDispSize := ⟨100, 100⟩
    mImageDispScale := 200
    mImageDispOffset := ⟨1, 1⟩ }

/-- An open window whose display rectangle starts at (10, 10), at scale 110 with
the offset (1, 1). -/
def readoutState110 : State :=
  { initOpen with
    mImageSize := ⟨640, 480⟩
    mImageDispRect := ⟨10, 10, 110, 110⟩
    mImageDispSize := ⟨100, 100⟩
    mImageDispScale := 110
    mImageDispOffset := ⟨1, 1⟩ }

/-! ## States used to evaluate the producers -/

/-- An open window holding a 2 by 2 8-bit image after which memory has run
short: a request of more than 1100 bytes is refused. -/
def lowMemoryState : State :=
  let s := AllocateImageBuffer initOpen 2 2 false false false
  { s with heap := { s.heap with limit := 1100 } }

/-- An open window holding a 2 by 2 8-bit image, zoomed to scale 250 and
scrolled to the offset (3, 4). -/
def zoomedState : State :=
  let s := AllocateImageBuffer initOpen 2 2 false false false
  { s with mImageDispScale := 250, mImageDispOffset := ⟨3, 4⟩ }

/-- The viewport of the specification: the display scale and the offset. -/
def viewport (s : State) : ℚ × SIZE := (s.mImageDispScale, s.mImageDispOffset)

/-! ## Bitmap file writing -/

/-- The two bytes of a 16-bit field as they lie in memory, low byte first. -/
def le2 (n : Nat) : List Nat := [n % 256, n / 256 % 256]

/-- The four bytes of a 32-bit field as they lie in memory, low byte first. -/
def le4 (n : Nat) : List Nat :=
  [n % 256, n / 256 % 256, n / 65536 % 256, n / 16777216 % 256]

/-- The 14 bytes of a `BITMAPFILEHEADER`, which `fwrite` stores. -/
def writeFileHeader (h : BITMAPFILEHEADER) : List Nat :=
  le2 h.bfType ++ le4 h.bfSize ++ le2 h.bfReserved1 ++ le2 h.bfReserved2 ++ le4 h.bfOffBits

/-- The bytes of a colour table, four per entry. -/
def writeRGBQuads : List RGBQUAD → List Nat
  | [] => []
  | q :: rest =>
    q.rgbBlue % 256 :: q.rgbGreen % 256 :: q.rgbRed % 256 :: q.rgbReserved % 256 ::
      writeRGBQuads rest

/-- The bytes of the block `mBitmapInfo` points at: the 40 bytes of the header
followed by the colour table (the layout `readBitmapInfo` reads). -/
def writeBitmapInfo (info : BitmapInfo) : List Nat :=
  le4 info.Header.biSize ++ le4 (uint32 info.Header.biWidth) ++
  le4 (uint32 info.Header.biHeight) ++ le2 info.Header.biPlanes ++
  le2 info.Header.biBitCount ++ le4 info.Header.biCompression ++
  le4 info.Header.biSizeImage ++ le4 (uint32 info.Header.biXPelsPerMeter) ++
  le4 (uint32 info.Header.biYPelsPerMeter) ++ le4 info.Header.biClrUsed ++
  le4 info.Header.biClrImportant ++ writeRGBQuads info.RGBQuad

/-- `CreateDIB` (lines 746-760).  The result is the address of the new block
`buf` (0 when there is no header) and the state with that block on the heap.
The block holds the first `mBitmapInfoSize` bytes of the header block followed
by the first `mBitmapBitsSize` bytes of the block at `mBitmapBits`; when the
conversion is asked for and the live height is negative, `FlipBitmap` is applied
to the header and the payload of the copy.  `none` is a memory fault: a refused
`new` (the copy then writes through `NULL`), a header block or a payload block
shorter than the recorded size, or a flip that leaves the payload.  A header
block of fewer than the 40 bytes `FlipBitmap` reads its fields from is outside
the model and gives `none` too. -/
def CreateDIB (s : State) (inForceConvertToBottomUp : Bool) : Option (Nat × State) :=
  match s.mBitmapInfo with
  | none => some (0, s)
  | some info =>
    let r := s.heap.alloc (s.mBitmapInfoSize + s.mBitmapBitsSize)
    if r.1 = 0 then none
    else if (writeBitmapInfo info).length < s.mBitmapInfoSize then none
    else
      match (if s.mBitmapBitsSize = 0 then some [] else s.heap.mem s.mBitmapBits) with
      | none => none
      | some bits =>
        if bits.length < s.mBitmapBitsSize then none
        else
          let payload := bits.take s.mBitmapBitsSize
          if inForceConvertToBottomUp = true ∧ info.Header.biHeight < 0 then
            if s.mBitmapInfoSize < sizeofBITMAPINFOHEADER then none
            else
              match FlipBitmap info.Header payload with
              | none => none
              | some (hdr, flipped) =>
                let block : List Nat :=
                  (writeBitmapInfo { info with Header := hdr }).take s.mBitmapInfoSize ++ flipped
                some (r.1, { s with heap := r.2.store r.1 block })
          else
            let block : List Nat := (writeBitmapInfo info).take s.mBitmapInfoSize ++ payload
            some (r.1, { s with heap := r.2.store r.1 block })

/-- `FlipImageBuffer` (lines 761-765): `FlipBitmap` on the live header and the
live payload; nothing when either pointer is `NULL`. -/
def FlipImageBuffer (s : State) : Option State :=
  match s.mBitmapInfo with
  | none => some s
  | some info =>
    if s.mBitmapBits = 0 then some s
    else
      match FlipBitmap info.Header ((s.heap.mem s.mBitmapBits).getD []) with
      | none => none
      | some (hdr, flipped) =>
        let heap1 : Heap :=
          match s.heap.mem s.mBitmapBits with
          | some _ => s.heap.store s.mBitmapBits flipped
          | none => s.heap
        some { s with mBitmapInfo := some { info with Header := hdr }, heap := heap1 }

/-- What the file system answers to `SaveBitmapFile`: whether the file can be
created, and whether each of the two `fwrite` calls stores its block. -/
structure FileSystem where
  canCreate : Bool
  canWriteHeader : Bool
  canWriteImage : Bool
deriving DecidableEq, Repr

/-- The value of the character constant `'MB'`: the bytes `B`, `M` in memory. -/
def bfTypeMB : Nat := 19778

/-- `SaveBitmapFile` (lines 896-971).  The result is the returned flag, the
state, and the content of the file (`none` when no file was created).  The file
name and the counter of default names are outside the modelled state.  An
`fwrite` of one item of zero bytes stores nothing and reports 0 items. -/
def SaveBitmapFile (s : State) (fs : FileSystem) : Option (Bool × State × Option (List Nat)) :=
  match s.mBitmapInfo with
  | none => some (false, s, none)
  | some _ =>
    if s.mBitmapBits = 0 then some (false, s, none)
    else
      match CreateDIB s true with
      | none => none
      | some (buf, s1) =>
        let bfSize : Nat :=
          uint32 (sizeofBITMAPFILEHEADER + s1.mBitmapInfoSize + s1.mBitmapBitsSize : Nat)
        let bfOffBits : Nat := uint32 (sizeofBITMAPFILEHEADER + s1.mBitmapInfoSize : Nat)
        let fileHeader : BITMAPFILEHEADER := ⟨bfTypeMB, bfSize, 0, 0, bfOffBits⟩
        if fs.canCreate = false then some (false, ReleaseMutex s1, none)
        else if fs.canWriteHeader = false then some (false, ReleaseMutex s1, some [])
        else
          match s1.heap.mem buf with
          | none => none
          | some block =>
            if fs.canWriteImage = false ∨ s1.mBitmapInfoSize + s1.mBitmapBitsSize = 0 then
              some (false, ReleaseMutex s1, some (writeFileHeader fileHeader))
            else
              some (true, { s1 with heap := s1.heap.free buf },
                some (writeFileHeader fileHeader ++
                  block.take (s1.mBitmapInfoSize + s1.mBitmapBitsSize)))

/-- `CopyToClipboard` (lines 853-871).  The result is the returned flag, the
state, and the block handed to the clipboard. -/
def CopyToClipboard (s : State) : Option (Bool × State × Option (List Nat)) :=
  match s.mBitmapInfo with
  | none => some (false, s, none)
  | some _ =>
    if s.mBitmapBits = 0 then some (false, s, none)
    else
      match CreateDIB s true with
      | none => none
      | some (buf, s1) => some (true, { s1 with heap := s1.heap.free buf }, s1.heap.mem buf)

/-! ## Colour maps -/

/-- The table `tableR` of `SetColormap` (colour map 2). -/
def tableR : List Nat :=
  [60, 61, 62, 63, 64, 66, 67, 68, 69, 70, 71, 73, 74, 75, 76, 77, 79, 80, 81, 82, 84, 85, 86,
   87, 89, 90, 91, 93, 94, 95, 96, 98, 99, 100, 102, 103, 104, 106, 107, 108, 110, 111, 112,
   114, 115, 116, 118, 119, 120, 122, 123, 124, 126, 127, 129, 130, 131, 133, 134, 135, 137,
   138, 140, 141, 142, 144, 145, 147, 148, 149, 151, 152, 153, 155, 156, 158, 159, 160, 162,
   163, 164, 166, 167, 168, 170, 171, 172, 174, 175, 176, 178, 179, 180, 182, 183, 184, 185,
   187, 188, 189, 190, 192, 193, 194, 195, 197, 198, 199, 200, 201, 203, 204, 205, 206, 207,
   208, 209, 210, 211, 213, 214, 215, 216, 217, 218, 219, 220, 221, 222, 223, 224, 225, 226,
   227, 228, 229, 230, 231, 232, 232, 233, 234, 235, 236, 236, 237, 238, 238, 239, 240, 240,
   241, 241, 242, 242, 243, 243, 244, 244, 245, 245, 245, 245, 246, 246, 246, 246, 247, 247,
   247, 247, 247, 247, 247, 247, 247, 247, 247, 247, 247, 247, 247, 247, 247, 246, 246, 246,
   246, 245, 245, 245, 244, 244, 244, 243, 243, 242, 242, 241, 241, 240, 240, 239, 238, 238,
   237, 236, 236, 235, 234, 233, 233, 232, 231, 230, 229, 228, 227, 227, 226, 225, 224, 223,
   222, 221, 220, 218, 217, 216, 215, 214, 213, 212, 210, 209, 208, 207, 205, 204, 203, 202,
   200, 199, 198, 196, 195, 193, 192, 190, 189, 188, 186, 185, 183, 181, 180]

/-- The table `tableG` of `SetColormap` (colour map 2). -/
def tableG : List Nat :=
  [78, 80, 81, 83, 85, 87, 88, 90, 92, 93, 95, 97, 99, 100, 102, 104, 105, 107, 109, 110, 112,
   114, 115, 117, 119, 120, 122, 123, 125, 127, 128, 130, 131, 133, 135, 136, 138, 139, 141,
   142, 144, 145, 147, 148, 150, 151, 153, 154, 156, 157, 158, 160, 161, 163, 164, 165, 167,
   168, 169, 171, 172, 173, 174, 176, 177, 178, 179, 181, 182, 183, 184, 185, 186, 187, 188,
   190, 191, 192, 193, 194, 195, 196, 197, 198, 199, 199, 200, 201, 202, 203, 204, 205, 205,
   206, 207, 208, 208, 209, 210, 210, 211, 212, 212, 213, 213, 214, 214, 215, 215, 216, 216,
   217, 217, 217, 218, 218, 219, 219, 219, 219, 220, 220, 220, 220, 220, 220, 221, 221, 220,
   220, 219, 219, 218, 218, 217, 216, 216, 215, 215, 214, 213, 212, 212, 211, 210, 209, 209,
   208, 207, 206, 205, 204, 203, 202, 201, 200, 199, 198, 197, 196, 195, 194, 193, 192, 191,
   190, 188, 187, 186, 185, 184, 182, 181, 180, 178, 177, 176, 174, 173, 172, 170, 169, 167,
   166, 164, 163, 161, 160, 158, 157, 155, 154, 152, 151, 149, 147, 146, 144, 142, 141, 139,
   137, 136, 134, 132, 130, 129, 127, 125, 123, 121, 120, 118, 116, 114, 112, 110, 108, 106,
   104, 102, 100, 98, 96, 94, 92, 90, 88, 86, 84, 82, 80, 78, 75, 73, 71, 69, 66, 64, 62, 59,
   57, 54, 51, 49, 46, 43, 40, 37, 34, 30, 26, 22, 17, 11, 4]

/-- The table `tableB` of `SetColormap` (colour map 2). -/
def tableB : List Nat :=
  [194, 195, 197, 198, 200, 201, 203, 204, 206, 207, 209, 210, 211, 213, 214, 215, 217, 218,
   219, 221, 222, 223, 224, 225, 226, 228, 229, 230, 231, 232, 233, 234, 235, 236, 237, 238,
   239, 239, 240, 241, 242, 243, 243, 244, 245, 246, 246, 247, 247, 248, 249, 249, 250, 250,
   251, 251, 252, 252, 252, 253, 253, 253, 254, 254, 254, 254, 254, 255, 255, 255, 255, 255,
   255, 255, 255, 255, 255, 255, 255, 255, 254, 254, 254, 254, 253, 253, 253, 253, 252, 252,
   251, 251, 251, 250, 250, 249, 248, 248, 247, 247, 246, 245, 245, 244, 243, 243, 242, 241,
   240, 239, 238, 238, 237, 236, 235, 234, 233, 232, 231, 230, 229, 228, 227, 225, 224, 223,
   222, 221, 219, 218, 216, 215, 214, 212, 211, 209, 208, 206, 205, 203, 202, 200, 199, 197,
   196, 194, 193, 191, 190, 188, 187, 185, 184, 182, 181, 179, 178, 176, 174, 173, 171, 170,
   168, 167, 165, 163, 162, 160, 159, 157, 156, 154, 152, 151, 149, 148, 146, 145, 143, 141,
   140, 138, 137, 135, 134, 132, 131, 129, 127, 126, 124, 123, 121, 120, 118, 117, 115, 114,
   112, 111, 109, 108, 106, 105, 103, 102, 100, 99, 97, 96, 95, 93, 92, 90, 89, 88, 86, 85, 83,
   82, 81, 79, 78, 77, 75, 74, 73, 71, 70, 69, 67, 66, 65, 64, 62, 61, 60, 59, 57, 56, 55, 54,
   53, 52, 50, 49, 48, 47, 46, 45, 44, 43, 41, 40, 39, 38]

/-- The assignments to the red, green and blue fields of `RGBQuad[i]` (values
stored in a byte); an index past the colour table of the header block is a
memory fault. -/
def setRGB (i r g b : Nat) (q : List RGBQUAD) : Option (List RGBQUAD) :=
  match q[i]? with
  | some e => some (q.set i { e with rgbRed := r % 256, rgbGreen := g % 256, rgbBlue := b % 256 })
  | none => none

/-- The assignments to all four fields of `RGBQuad[i]` in the loop of colour
map 0. -/
def setGray (i : Nat) (q : List RGBQUAD) : Option (List RGBQUAD) :=
  if i < q.length then some (q.set i ⟨i % 256, i % 256, i % 256, 0⟩) else none

/-- The six assignments every colour map ends with: entry 0 black, entry 1
white. -/
def setBlackWhite (q : List RGBQUAD) : Option (List RGBQUAD) :=
  (setRGB 0 0 0 0 q).bind (setRGB 1 255 255 255)

/-- The loops of colour maps 3 to 6: `bands` bands of `steps` entries, entry `i`
of each band being the gray level `i * slope + base`. -/
def grayBands (bands steps slope base : Nat) (q : List RGBQUAD) : Option (List RGBQUAD) :=
  (List.range bands).foldlM (fun q j =>
    (List.range steps).foldlM (fun q i =>
      setRGB (i + j * steps) (i * slope + base) (i * slope + base) (i * slope + base) q) q) q

/-- `SetColormap` (lines 343-553). -/
def SetColormap (s : State) (inIndex : Int) : Option State :=
  match s.mBitmapInfo with
  | none => some s
  | some info =>
    if info.Header.biBitCount ≠ 8 then some s
    else
      let q := info.RGBQuad
      let r : Option (List RGBQUAD) :=
        if inIndex = 0 then
          ((List.range 255).foldlM (fun q i => setGray i q) q).bind setBlackWhite
        else if inIndex = 1 then
          ((List.range 64).foldlM (fun q i =>
            (((setRGB i 0 (i * 4) 255 q).bind
              (setRGB (i + 64) 0 255 (255 - i * 4))).bind
              (setRGB (i + 128) (i * 4) 255 0)).bind
              (setRGB (i + 192) 255 (255 - i * 4) 0)) q).bind setBlackWhite
        else if inIndex = 2 then
          ((List.range 256).foldlM (fun q i =>
            setRGB i (tableR.getD i 0) (tableG.getD i 0) (tableB.getD i 0) q) q).bind
            setBlackWhite
        else if inIndex = 3 then (grayBands 4 64 3 64 q).bind setBlackWhite
        else if inIndex = 4 then (grayBands 8 32 7 32 q).bind setBlackWhite
        else if inIndex = 5 then (grayBands 16 16 15 16 q).bind setBlackWhite
        else if inIndex = 6 then (grayBands 32 8 32 0 q).bind setBlackWhite
        else some q
      match r with
      | some q1 => some { s with mBitmapInfo := some { info with RGBQuad := q1 } }
      | none => none

/-! ## States used to evaluate the file operations -/

/-- A window holding a 2 by 2 8-bit top-down image with the pixel bytes
1, 2, 3, 4; the mutex is not held. -/
def savedState : State :=
  let s := AllocateImageBuffer init 2 2 false false false
  { s with heap := s.heap.store s.mBitmapBits [1, 2, 3, 4] }

/-- The same window while its mutex is held once by the caller. -/
def heldState : State := { savedState with mMutexCount := 1 }

/-- The bytes of a 24-bit top-down bitmap file of 1 by 2 pixels as image tools
write it: file header, 40-byte header with the height -2, two rows of one pixel
each padded to four bytes. -/
def paddedColorFile : List Nat :=
  [66, 77, 62, 0, 0, 0, 0, 0, 0, 0, 54, 0, 0, 0] ++
  [40, 0, 0, 0, 1, 0, 0, 0, 254, 255, 255, 255, 1, 0, 24, 0, 0, 0, 0, 0, 8, 0, 0, 0,
   0, 0, 0, 0, 0, 0, 0, 0, 0, 0, 0, 0, 0, 0, 0, 0] ++
  [1, 2, 3, 0, 4, 5, 6, 0]

/-- An open window into which `paddedColorFile` has been loaded. -/
def paddedColorState : State := (OpenBitmapFile initOpen (some paddedColorFile)).2

/-- A file system that stores everything. -/
def diskOk : FileSystem := ⟨true, true, true⟩

/-- A file system in which the file cannot be created. -/
def diskReadOnly : FileSystem := ⟨false, true, true⟩

/-! ## Conditions on a state that is saved -/

/-- The fields of a header block are inside the ranges of their C types, as
they are for every block of bytes seen through a `BITMAPINFOHEADER *`. -/
def InRange (info : BitmapInfo) : Prop :=
  info.Header.biSize < 4294967296 ∧
  (-2147483648 ≤ info.Header.biWidth ∧ info.Header.biWidth < 2147483648) ∧
  (-2147483648 ≤ info.Header.biHeight ∧ info.Header.biHeight < 2147483648) ∧
  info.Header.biPlanes < 65536 ∧
  info.Header.biBitCount < 65536 ∧
  info.Header.biCompression < 4294967296 ∧
  info.Header.biSizeImage < 4294967296 ∧
  (-2147483648 ≤ info.Header.biXPelsPerMeter ∧ info.Header.biXPelsPerMeter < 2147483648) ∧
  (-2147483648 ≤ info.Header.biYPelsPerMeter ∧ info.Header.biYPelsPerMeter < 2147483648) ∧
  info.Header.biClrUsed < 4294967296 ∧
  info.Header.biClrImportant < 4294967296 ∧
  ∀ q ∈ info.RGBQuad,
    q.rgbBlue < 256 ∧ q.rgbGreen < 256 ∧ q.rgbRed < 256 ∧ q.rgbReserved < 256

/-- A state that holds a buffer which can be saved: a header `info` whose block
has the recorded size, a live payload block `bits` of at least the recorded
size at `mBitmapBits`, room on the heap for the copy `CreateDIB` makes (whose
address is not the one of the live buffer), a file size that fits the 32-bit
field of the file header, and a payload that holds the rows of the header. -/
def HoldsBuffer (s : State) (info : BitmapInfo) (bits : List Nat) : Prop :=
  s.mBitmapInfo = some info ∧
  s.mBitmapBits ≠ 0 ∧
  s.heap.mem s.mBitmapBits = some bits ∧
  s.mBitmapBitsSize ≤ bits.length ∧
  s.mBitmapInfoSize = (writeBitmapInfo info).length ∧
  s.mBitmapInfoSize + s.mBitmapBitsSize ≤ s.heap.limit ∧
  s.mBitmapBits ≠ s.heap.next + 1 ∧
  sizeofBITMAPFILEHEADER + s.mBitmapInfoSize + s.mBitmapBitsSize < 4294967296 ∧
  0 ≤ info.Header.biWidth ∧
  -2147483648 < info.Header.biHeight ∧ info.Header.biHeight < 2147483648 ∧
  flipRowBytes info.Header * rowCount info.Header < 2147483648 ∧
  flipRowBytes info.Header * rowCount info.Header ≤ s.mBitmapBitsSize

/-! # Theorems -/

/-! ### Rounding to the nearest double -/

theorem roundHalfEven_eq_of (q : ℚ) (m : Int) (h : |q - m| < 1 / 2) : roundHalfEven q = m := by
  obtain ⟨h1, h2⟩ := abs_lt.mp h
  unfold roundHalfEven
  rcases le_or_lt (m : ℚ) q with hle | hlt
  · have hf : ⌊q⌋ = m := by
      rw [Int.floor_eq_iff]; constructor <;> linarith
    rw [hf, if_pos (by linarith)]
  · have hf : ⌊q⌋ = m - 1 := by
      rw [Int.floor_eq_iff]; push_cast; constructor <;> linarith
    rw [hf, if_neg (by push_cast; linarith), if_pos (by push_cast; linarith)]
    ring

theorem roundHalfEven_intCast (n : Int) : roundHalfEven (n : ℚ) = n :=
  roundHalfEven_eq_of _ n (by simp)

theorem roundHalfEven_close (q : ℚ) : |(roundHalfEven q : ℚ) - q| ≤ 1 / 2 := by
  have h1 := Int.floor_le q
  have h2 := Int.lt_floor_add_one q
  unfold roundHalfEven
  rw [abs_le]
  split_ifs with a b c <;> push_cast <;> constructor <;> linarith

theorem roundHalfEven_mono (p q : ℚ) (h : p ≤ q) : roundHalfEven p ≤ roundHalfEven q := by
  by_contra hc
  push_neg at hc
  have h1 := abs_le.mp (roundHalfEven_close p)
  have h2 := abs_le.mp (roundHalfEven_close q)
  have h3 : ((roundHalfEven q : Int) : ℚ) + 1 ≤ (roundHalfEven p : ℚ) := by
    exact_mod_cast hc
  have hpq : p = q := by linarith [h1.2, h2.1]
  rw [hpq] at hc
  exact lt_irrefl _ hc


/-! ### The nearest double -/

theorem two_zpow_pos (e : Int) : (0 : ℚ) < (2 : ℚ) ^ e := zpow_pos (by norm_num) e

/-- The binade of a non-zero rational. -/
theorem binade (x : ℚ) (hx : x ≠ 0) :
    (2 : ℚ) ^ (Int.log 2 |x|) ≤ |x| ∧ |x| < (2 : ℚ) ^ (Int.log 2 |x| + 1) := by
  have h1 := Int.zpow_log_le_self (b := 2) (r := |x|) (by norm_num) (abs_pos.mpr hx)
  have h2 := Int.lt_zpow_succ_log_self (b := 2) (by norm_num) |x|
  simp only [Nat.cast_ofNat] at h1 h2
  exact ⟨h1, h2⟩

/-- The binade determines the logarithm. -/
theorem log_eq_of_binade (x : ℚ) (k : Int) (h1 : (2 : ℚ) ^ k ≤ |x|) (h2 : |x| < (2 : ℚ) ^ (k + 1)) :
    Int.log 2 |x| = k := by
  have hpos : (0 : ℚ) < |x| := lt_of_lt_of_le (two_zpow_pos k) h1
  have a := (Int.zpow_le_iff_le_log (b := 2) (by norm_num) (x := k) hpos).mp
    (by simpa using h1)
  have b := (Int.lt_zpow_iff_log_lt (b := 2) (by norm_num) (x := k + 1) hpos).mp
    (by simpa using h2)
  omega

theorem toDouble_zero : toDouble 0 = 0 := by
  simp [toDouble, roundHalfEven]

/-- The scaled significand of a non-zero rational lies in `[2^52, 2^53)`. -/
theorem significand_bounds (x : ℚ) (hx : x ≠ 0) :
    (2 : ℚ) ^ (52 : ℕ) ≤ |x / 2 ^ (Int.log 2 |x| - 52)| ∧
    |x / 2 ^ (Int.log 2 |x| - 52)| < (2 : ℚ) ^ (53 : ℕ) := by
  obtain ⟨h1, h2⟩ := binade x hx
  have hs := two_zpow_pos (Int.log 2 |x| - 52)
  rw [abs_div, abs_of_pos hs, le_div_iff₀ hs, div_lt_iff₀ hs]
  have e1 : (2 : ℚ) ^ (52 : ℕ) * 2 ^ (Int.log 2 |x| - 52) = 2 ^ (Int.log 2 |x|) := by
    rw [← zpow_natCast, ← zpow_add₀ (by norm_num)]; congr 1; omega
  have e2 : (2 : ℚ) ^ (53 : ℕ) * 2 ^ (Int.log 2 |x| - 52) = 2 ^ (Int.log 2 |x| + 1) := by
    rw [← zpow_natCast, ← zpow_add₀ (by norm_num)]; congr 1; omega
  rw [e1, e2]
  exact ⟨h1, h2⟩

/-- Evaluation of `toDouble`: the significand `m` at the exponent `e`. -/
theorem toDouble_eq_of (x : ℚ) (e m : Int) (h1 : (2 : ℚ) ^ (e + 52) ≤ |x|)
    (h2 : |x| < (2 : ℚ) ^ (e + 53)) (h3 : |x / 2 ^ e - m| < 1 / 2) :
    toDouble x = (m : ℚ) * 2 ^ e := by
  have hl : Int.log 2 |x| = e + 52 := log_eq_of_binade x (e + 52) h1 (by
    have : e + 52 + 1 = e + 53 := by ring
    rw [this]; exact h2)
  unfold toDouble
  have he : e + 52 - 52 = e := by ring
  rw [hl, he, roundHalfEven_eq_of _ m h3]

theorem toDouble_nonneg (x : ℚ) (h : 0 ≤ x) : 0 ≤ toDouble x := by
  unfold toDouble
  apply mul_nonneg _ (le_of_lt (two_zpow_pos _))
  have := roundHalfEven_mono 0 (x / 2 ^ (Int.log 2 |x| - 52))
    (div_nonneg h (le_of_lt (two_zpow_pos _)))
  rw [show (0 : ℚ) = ((0 : Int) : ℚ) by simp, roundHalfEven_intCast] at this
  exact_mod_cast this

theorem toDouble_nonpos (x : ℚ) (h : x ≤ 0) : toDouble x ≤ 0 := by
  unfold toDouble
  apply mul_nonpos_of_nonpos_of_nonneg _ (le_of_lt (two_zpow_pos _))
  have := roundHalfEven_mono (x / 2 ^ (Int.log 2 |x| - 52)) 0
    (div_nonpos_of_nonpos_of_nonneg h (le_of_lt (two_zpow_pos _)))
  rw [show (0 : ℚ) = ((0 : Int) : ℚ) by simp, roundHalfEven_intCast] at this
  exact_mod_cast this

/-- A positive rational and its double lie in the same closed binade. -/
theorem toDouble_pos_bounds (x : ℚ) (h : 0 < x) :
    (2 : ℚ) ^ (Int.log 2 |x|) ≤ toDouble x ∧ toDouble x ≤ (2 : ℚ) ^ (Int.log 2 |x| + 1) := by
  obtain ⟨h1, h2⟩ := significand_bounds x (ne_of_gt h)
  have hs := two_zpow_pos (Int.log 2 |x| - 52)
  have hq : 0 < x / 2 ^ (Int.log 2 |x| - 52) := div_pos h hs
  rw [abs_of_pos hq] at h1 h2
  have a := roundHalfEven_mono _ _ h1
  have b := roundHalfEven_mono _ _ (le_of_lt h2)
  rw [show ((2 : ℚ) ^ (52 : ℕ)) = (((2 : Int) ^ (52 : ℕ) : Int) : ℚ) by push_cast; rfl,
    roundHalfEven_intCast] at a
  rw [show ((2 : ℚ) ^ (53 : ℕ)) = (((2 : Int) ^ (53 : ℕ) : Int) : ℚ) by push_cast; rfl,
    roundHalfEven_intCast] at b
  have a2 : ((2 : ℚ) ^ (52 : ℕ)) ≤ (roundHalfEven (x / 2 ^ (Int.log 2 |x| - 52)) : ℚ) := by
    exact_mod_cast a
  have b2 : (roundHalfEven (x / 2 ^ (Int.log 2 |x| - 52)) : ℚ) ≤ ((2 : ℚ) ^ (53 : ℕ)) := by
    exact_mod_cast b
  have e1 : (2 : ℚ) ^ (52 : ℕ) * 2 ^ (Int.log 2 |x| - 52) = 2 ^ (Int.log 2 |x|) := by
    rw [← zpow_natCast, ← zpow_add₀ (by norm_num)]; congr 1; omega
  have e2 : (2 : ℚ) ^ (53 : ℕ) * 2 ^ (Int.log 2 |x| - 52) = 2 ^ (Int.log 2 |x| + 1) := by
    rw [← zpow_natCast, ← zpow_add₀ (by norm_num)]; congr 1; omega
  unfold toDouble
  rw [← e1, ← e2]
  exact ⟨mul_le_mul_of_nonneg_right a2 (le_of_lt hs), mul_le_mul_of_nonneg_right b2 (le_of_lt hs)⟩

/-- A negative rational and its double lie in the same closed binade. -/
theorem toDouble_neg_bounds (x : ℚ) (h : x < 0) :
    -(2 : ℚ) ^ (Int.log 2 |x| + 1) ≤ toDouble x ∧ toDouble x ≤ -(2 : ℚ) ^ (Int.log 2 |x|) := by
  obtain ⟨h1, h2⟩ := significand_bounds x (ne_of_lt h)
  have hs := two_zpow_pos (Int.log 2 |x| - 52)
  have hq : x / 2 ^ (Int.log 2 |x| - 52) < 0 := div_neg_of_neg_of_pos h hs
  rw [abs_of_neg hq] at h1 h2
  have a := roundHalfEven_mono (x / 2 ^ (Int.log 2 |x| - 52)) (-(2 : ℚ) ^ (52 : ℕ)) (by linarith)
  have b := roundHalfEven_mono (-(2 : ℚ) ^ (53 : ℕ)) (x / 2 ^ (Int.log 2 |x| - 52)) (by linarith)
  rw [show (-(2 : ℚ) ^ (52 : ℕ)) = ((-(2 : Int) ^ (52 : ℕ) : Int) : ℚ) by push_cast; rfl,
    roundHalfEven_intCast] at a
  rw [show (-(2 : ℚ) ^ (53 : ℕ)) = ((-(2 : Int) ^ (53 : ℕ) : Int) : ℚ) by push_cast; rfl,
    roundHalfEven_intCast] at b
  have a2 : (roundHalfEven (x / 2 ^ (Int.log 2 |x| - 52)) : ℚ) ≤ -((2 : ℚ) ^ (52 : ℕ)) := by
    exact_mod_cast a
  have b2 : -((2 : ℚ) ^ (53 : ℕ)) ≤ (roundHalfEven (x / 2 ^ (Int.log 2 |x| - 52)) : ℚ) := by
    exact_mod_cast b
  have e1 : (2 : ℚ) ^ (52 : ℕ) * 2 ^ (Int.log 2 |x| - 52) = 2 ^ (Int.log 2 |x|) := by
    rw [← zpow_natCast, ← zpow_add₀ (by norm_num)]; congr 1; omega
  have e2 : (2 : ℚ) ^ (53 : ℕ) * 2 ^ (Int.log 2 |x| - 52) = 2 ^ (Int.log 2 |x| + 1) := by
    rw [← zpow_natCast, ← zpow_add₀ (by norm_num)]; congr 1; omega
  unfold toDouble
  rw [← e1, ← e2]
  constructor
  · have := mul_le_mul_of_nonneg_right b2 (le_of_lt hs)
    linarith
  · have := mul_le_mul_of_nonneg_right a2 (le_of_lt hs)
    linarith

/-- Rounding to the nearest double is monotone. -/
theorem toDouble_mono (x y : ℚ) (h : x ≤ y) : toDouble x ≤ toDouble y := by
  have hpow : ∀ a b : Int, a + 1 ≤ b → (2 : ℚ) ^ (a + 1) ≤ 2 ^ b := fun a b hab =>
    zpow_le_zpow_right₀ (by norm_num) hab
  have hsame : Int.log 2 |x| = Int.log 2 |y| → toDouble x ≤ toDouble y := by
    intro e
    unfold toDouble
    rw [e]
    apply mul_le_mul_of_nonneg_right _ (le_of_lt (two_zpow_pos _))
    have := roundHalfEven_mono (x / 2 ^ (Int.log 2 |y| - 52)) (y / 2 ^ (Int.log 2 |y| - 52))
      (div_le_div_of_nonneg_right h (le_of_lt (two_zpow_pos _)))
    exact_mod_cast this
  rcases lt_trichotomy x 0 with hx | hx | hx
  · rcases le_or_lt 0 y with hy | hy
    · exact le_trans (toDouble_nonpos x (le_of_lt hx)) (toDouble_nonneg y hy)
    · have hlog : Int.log 2 |y| ≤ Int.log 2 |x| :=
        Int.log_mono_right (abs_pos.mpr (ne_of_lt hy)) (by
          rw [abs_of_neg hx, abs_of_neg hy]; linarith)
      rcases eq_or_lt_of_le hlog with e | e
      · exact hsame e.symm
      · have a := (toDouble_neg_bounds x hx).2
        have b := (toDouble_neg_bounds y hy).1
        have := hpow _ _ (Int.add_one_le_iff.mpr e)
        linarith
  · rw [hx, toDouble_zero]
    exact toDouble_nonneg y (by linarith)
  · have hy : 0 < y := lt_of_lt_of_le hx h
    have hlog : Int.log 2 |x| ≤ Int.log 2 |y| :=
      Int.log_mono_right (abs_pos.mpr (ne_of_gt hx)) (by
        rw [abs_of_pos hx, abs_of_pos hy]; exact h)
    rcases eq_or_lt_of_le hlog with e | e
    · exact hsame e
    · have a := (toDouble_pos_bounds x hx).2
      have b := (toDouble_pos_bounds y hy).1
      have := hpow _ _ (Int.add_one_le_iff.mpr e)
      linarith

/-- The rounding error is at most `2^-53` of the magnitude. -/
theorem toDouble_error (x : ℚ) : |toDouble x - x| ≤ |x| / 2 ^ (53 : ℕ) := by
  rcases eq_or_ne x 0 with hx | hx
  · rw [hx, toDouble_zero]; simp
  · obtain ⟨h1, -⟩ := binade x hx
    have hs := two_zpow_pos (Int.log 2 |x| - 52)
    have hc := roundHalfEven_close (x / 2 ^ (Int.log 2 |x| - 52))
    have e : toDouble x - x =
        ((roundHalfEven (x / 2 ^ (Int.log 2 |x| - 52)) : ℚ) - x / 2 ^ (Int.log 2 |x| - 52))
          * 2 ^ (Int.log 2 |x| - 52) := by
      unfold toDouble
      field_simp
    rw [e, abs_mul, abs_of_pos hs]
    have e1 : (2 : ℚ) ^ (Int.log 2 |x|) = 2 ^ (52 : ℕ) * 2 ^ (Int.log 2 |x| - 52) := by
      rw [← zpow_natCast, ← zpow_add₀ (by norm_num)]; congr 1; omega
    rw [e1] at h1
    rw [le_div_iff₀ (by positivity)]
    have := mul_le_mul_of_nonneg_right hc (le_of_lt hs)
    nlinarith

/-- A dyadic rational with a significand below `2^53` is a double. -/
theorem toDouble_dyadic (m k : Int) (hm : |m| < 2 ^ (53 : ℕ)) :
    toDouble ((m : ℚ) * 2 ^ k) = (m : ℚ) * 2 ^ k := by
  rcases eq_or_ne m 0 with h0 | h0
  · rw [h0]; simp [toDouble_zero]
  · have hmq : ((m : ℚ)) ≠ 0 := by exact_mod_cast h0
    obtain ⟨b1, b2⟩ := binade (m : ℚ) hmq
    set j := Int.log 2 |(m : ℚ)| with hj
    have hj0 : 0 ≤ j := by
      have h1 : (1 : ℚ) ≤ |(m : ℚ)| := by
        have : (1 : Int) ≤ |m| := Int.one_le_abs h0
        exact_mod_cast this
      have := (Int.zpow_le_iff_le_log (b := 2) (by norm_num) (x := 0)
        (abs_pos.mpr hmq)).mp (by simpa using h1)
      exact this
    have hj52 : j ≤ 52 := by
      have h1 : |(m : ℚ)| < (2 : ℚ) ^ ((53 : ℕ) : Int) := by
        rw [zpow_natCast]; exact_mod_cast hm
      have := (Int.lt_zpow_iff_log_lt (b := 2) (by norm_num) (x := ((53 : ℕ) : Int))
        (abs_pos.mpr hmq)).mp (by simpa using h1)
      omega
    have hk := two_zpow_pos k
    have key := toDouble_eq_of ((m : ℚ) * 2 ^ k) (j + k - 52) (m * 2 ^ (52 - j).toNat)
      (by
        rw [abs_mul, abs_of_pos hk]
        have : (2 : ℚ) ^ (j + k - 52 + 52) = 2 ^ j * 2 ^ k := by
          rw [← zpow_add₀ (by norm_num)]; congr 1; ring
        rw [this]
        exact mul_le_mul_of_nonneg_right b1 (le_of_lt hk))
      (by
        rw [abs_mul, abs_of_pos hk]
        have : (2 : ℚ) ^ (j + k - 52 + 53) = 2 ^ (j + 1) * 2 ^ k := by
          rw [← zpow_add₀ (by norm_num)]; congr 1; ring
        rw [this]
        exact mul_lt_mul_of_pos_right b2 hk)
      (by
        have e : (m : ℚ) * 2 ^ k / 2 ^ (j + k - 52) = (m : ℚ) * 2 ^ (52 - j) := by
          rw [mul_div_assoc, ← zpow_sub₀ (by norm_num)]; congr 2; ring
        have e2 : (((m * 2 ^ (52 - j).toNat : Int)) : ℚ) = (m : ℚ) * 2 ^ (52 - j) := by
          push_cast
          rw [← zpow_natCast, Int.toNat_of_nonneg (by omega)]
        rw [e, e2]; simp)
    rw [key]
    push_cast
    rw [← zpow_natCast, Int.toNat_of_nonneg (by omega), mul_assoc,
      ← zpow_add₀ (by norm_num)]
    congr 2; ring

/-- An integer below `2^53` in magnitude is a double. -/
theorem toDouble_intCast (n : Int) (hn : |n| < 2 ^ (53 : ℕ)) : toDouble (n : ℚ) = n := by
  have := toDouble_dyadic n 0 hn
  simpa using this

theorem roundHalfEven_neg (q : ℚ) : roundHalfEven (-q) = -roundHalfEven q := by
  rcases lt_trichotomy (q - ⌊q⌋) (1 / 2) with h | h | h
  · have e : roundHalfEven q = ⌊q⌋ := by simp only [roundHalfEven, if_pos h]
    rw [e]
    apply roundHalfEven_eq_of
    have h0 := Int.floor_le q
    push_cast
    rw [abs_lt]; constructor <;> linarith
  · have hq : q = (⌊q⌋ : ℚ) + 1 / 2 := by linarith
    have hfl : ⌊-q⌋ = -⌊q⌋ - 1 := by
      rw [Int.floor_eq_iff]; push_cast; constructor <;> linarith
    have hfr : -q - ((-⌊q⌋ - 1 : Int) : ℚ) = 1 / 2 := by push_cast; linarith
    have n1 : ¬ (q - ⌊q⌋ < 1 / 2) := by linarith
    have n2 : ¬ ((1 : ℚ) / 2 < q - ⌊q⌋) := by linarith
    have n3 : ¬ (-q - ((-⌊q⌋ - 1 : Int) : ℚ) < 1 / 2) := by rw [hfr]; exact lt_irrefl _
    have n4 : ¬ ((1 : ℚ) / 2 < -q - ((-⌊q⌋ - 1 : Int) : ℚ)) := by rw [hfr]; exact lt_irrefl _
    simp only [roundHalfEven, hfl, if_neg n1, if_neg n2, if_neg n3, if_neg n4]
    by_cases hev : ⌊q⌋ % 2 = 0
    · have : ¬ ((-⌊q⌋ - 1) % 2 = 0) := by omega
      rw [if_pos hev, if_neg this]; ring
    · have : (-⌊q⌋ - 1) % 2 = 0 := by omega
      rw [if_neg hev, if_pos this]; ring
  · have n1 : ¬ (q - ⌊q⌋ < 1 / 2) := by linarith
    have e : roundHalfEven q = ⌊q⌋ + 1 := by simp only [roundHalfEven, if_neg n1, if_pos h]
    rw [e]
    apply roundHalfEven_eq_of
    have h0 := Int.lt_floor_add_one q
    push_cast
    rw [abs_lt]; constructor <;> linarith

theorem toDouble_neg (x : ℚ) : toDouble (-x) = -toDouble x := by
  unfold toDouble
  rw [abs_neg, neg_div, roundHalfEven_neg]
  push_cast
  ring

theorem toDouble_pos (x : ℚ) (h : 0 < x) : 0 < toDouble x :=
  lt_of_lt_of_le (two_zpow_pos _) (toDouble_pos_bounds x h).1

/-- Evaluation of `toDouble` at a positive rational: `x * 2 ^ n` lies in
`[2 ^ 52, 2 ^ 53)` and `m` is the integer nearest to it. -/
theorem toDouble_of_pos (x : ℚ) (n m : ℕ) (h1 : (2 : ℚ) ^ 52 ≤ x * 2 ^ n)
    (h2 : x * 2 ^ n < (2 : ℚ) ^ 53) (h3 : (m : ℚ) - 1 / 2 < x * 2 ^ n)
    (h4 : x * 2 ^ n < (m : ℚ) + 1 / 2) : toDouble x = (m : ℚ) / 2 ^ n := by
  have hn : (0 : ℚ) < 2 ^ n := by positivity
  have hx : 0 < x := by
    by_contra hc
    push_neg at hc
    have : x * 2 ^ n ≤ 0 := mul_nonpos_of_nonpos_of_nonneg hc hn.le
    have : (0 : ℚ) < 2 ^ 52 := by positivity
    linarith
  have hz : (2 : ℚ) ^ (-(n : Int)) = 1 / 2 ^ n := by
    rw [zpow_neg, zpow_natCast, one_div]
  have key := toDouble_eq_of x (-(n : Int)) (m : Int)
    (by
      rw [abs_of_pos hx, zpow_add₀ (by norm_num), hz]
      rw [show (2 : ℚ) ^ (52 : Int) = 2 ^ (52 : ℕ) from by norm_num]
      rw [one_div, ← div_eq_inv_mul, div_le_iff₀ hn]; exact h1)
    (by
      rw [abs_of_pos hx, zpow_add₀ (by norm_num), hz]
      rw [show (2 : ℚ) ^ (53 : Int) = 2 ^ (53 : ℕ) from by norm_num]
      rw [one_div, ← div_eq_inv_mul, lt_div_iff₀ hn]; exact h2)
    (by
      rw [hz, div_div_eq_mul_div, div_one, abs_lt]
      push_cast
      constructor <;> linarith)
  rw [key, hz]
  push_cast
  ring

/-- The magnitude of a double is at most `1 + 2^-53` times that of the value it
rounds. -/
theorem toDouble_abs_le (x : ℚ) : |toDouble x| ≤ |x| + |x| / 2 ^ (53 : ℕ) := by
  have h := toDouble_error x
  have : |toDouble x| ≤ |toDouble x - x| + |x| := by
    have := abs_add (toDouble x - x) x
    simpa using this
  linarith

/-- The error of a product one of whose factors was rounded before. -/
theorem toDouble_mul_error (k x : ℚ) :
    |toDouble (toDouble k * x) - k * x| ≤ |k * x| / 2 ^ (51 : ℕ) := by
  have h1 := toDouble_error k
  have h2 := toDouble_error (toDouble k * x)
  have h3 : |toDouble k * x - k * x| ≤ |k * x| / 2 ^ (53 : ℕ) := by
    rw [← sub_mul, abs_mul, abs_mul, mul_div_right_comm]
    exact mul_le_mul_of_nonneg_right h1 (abs_nonneg x)
  have h4 : |toDouble k * x| ≤ |k * x| + |k * x| / 2 ^ (53 : ℕ) := by
    have := abs_add (toDouble k * x - k * x) (k * x)
    simp only [sub_add_cancel] at this
    linarith
  have h5 : |toDouble (toDouble k * x) - k * x| ≤
      |toDouble (toDouble k * x) - toDouble k * x| + |toDouble k * x - k * x| := by
    have := abs_add (toDouble (toDouble k * x) - toDouble k * x) (toDouble k * x - k * x)
    simpa using this
  have h0 := abs_nonneg (k * x)
  have h6 : |toDouble k * x| / 2 ^ (53 : ℕ) ≤ (|k * x| + |k * x| / 2 ^ (53 : ℕ)) / 2 ^ (53 : ℕ) :=
    div_le_div_of_nonneg_right h4 (by positivity)
  have h7 : (|k * x| + |k * x| / 2 ^ (53 : ℕ)) / 2 ^ (53 : ℕ) + |k * x| / 2 ^ (53 : ℕ)
      ≤ |k * x| / 2 ^ (51 : ℕ) := by
    have : (|k * x| + |k * x| / 2 ^ (53 : ℕ)) / 2 ^ (53 : ℕ) + |k * x| / 2 ^ (53 : ℕ)
        = |k * x| * ((1 + 1 / 2 ^ (53 : ℕ)) / 2 ^ (53 : ℕ) + 1 / 2 ^ (53 : ℕ)) := by ring
    rw [this, div_eq_mul_one_div |k * x|]
    apply mul_le_mul_of_nonneg_left _ h0
    norm_num
  linarith

/-- The error of a quotient whose divisor was rounded before. -/
theorem toDouble_div_error (a s : ℚ) (hs : s ≠ 0) :
    |toDouble (a / toDouble s) - a / s| ≤ |a / s| / 2 ^ (51 : ℕ) := by
  have hs0 : 0 < |s| := abs_pos.mpr hs
  have h1 := toDouble_error s
  have hlow : |s| * (1 - 1 / 2 ^ (53 : ℕ)) ≤ |toDouble s| := by
    have := abs_sub_abs_le_abs_sub s (toDouble s)
    rw [abs_sub_comm] at this
    have e : |s| * (1 - 1 / 2 ^ (53 : ℕ)) = |s| - |s| / 2 ^ (53 : ℕ) := by ring
    rw [e]; linarith
  have hpos : 0 < |toDouble s| := by
    have : 0 < |s| * (1 - 1 / 2 ^ (53 : ℕ)) := mul_pos hs0 (by norm_num)
    linarith
  have hne : toDouble s ≠ 0 := abs_pos.mp hpos
  -- |a / s'| ≤ |a / s| / (1 - u)
  have hq : |a / toDouble s| ≤ |a / s| / (1 - 1 / 2 ^ (53 : ℕ)) := by
    rw [abs_div, abs_div, div_div, div_le_div_iff₀ hpos (mul_pos hs0 (by norm_num))]
    exact mul_le_mul_of_nonneg_left (by linarith) (abs_nonneg a)
  have hd : |a / toDouble s - a / s| ≤ |a / s| / (1 - 1 / 2 ^ (53 : ℕ)) / 2 ^ (53 : ℕ) := by
    have e : a / toDouble s - a / s = a / toDouble s * ((s - toDouble s) / s) := by
      field_simp
      ring
    rw [e, abs_mul]
    have h2 : |(s - toDouble s) / s| ≤ 1 / 2 ^ (53 : ℕ) := by
      rw [abs_div, div_le_iff₀ hs0, abs_sub_comm]
      linarith
    calc |a / toDouble s| * |(s - toDouble s) / s|
        ≤ |a / s| / (1 - 1 / 2 ^ (53 : ℕ)) * (1 / 2 ^ (53 : ℕ)) :=
          mul_le_mul hq h2 (abs_nonneg _) (div_nonneg (abs_nonneg _) (by norm_num))
      _ = |a / s| / (1 - 1 / 2 ^ (53 : ℕ)) / 2 ^ (53 : ℕ) := by ring
  have h3 := toDouble_error (a / toDouble s)
  have h4 : |a / toDouble s| / 2 ^ (53 : ℕ) ≤ |a / s| / (1 - 1 / 2 ^ (53 : ℕ)) / 2 ^ (53 : ℕ) :=
    div_le_div_of_nonneg_right hq (by positivity)
  have h5 : |toDouble (a / toDouble s) - a / s| ≤
      |toDouble (a / toDouble s) - a / toDouble s| + |a / toDouble s - a / s| := by
    have := abs_add (toDouble (a / toDouble s) - a / toDouble s) (a / toDouble s - a / s)
    simpa using this
  have h0 := abs_nonneg (a / s)
  have h7 : |a / s| / (1 - 1 / 2 ^ (53 : ℕ)) / 2 ^ (53 : ℕ) +
      |a / s| / (1 - 1 / 2 ^ (53 : ℕ)) / 2 ^ (53 : ℕ) ≤ |a / s| / 2 ^ (51 : ℕ) := by
    have : |a / s| / (1 - 1 / 2 ^ (53 : ℕ)) / 2 ^ (53 : ℕ) +
        |a / s| / (1 - 1 / 2 ^ (53 : ℕ)) / 2 ^ (53 : ℕ)
        = |a / s| * (2 / (1 - 1 / 2 ^ (53 : ℕ)) / 2 ^ (53 : ℕ)) := by ring
    rw [this, div_eq_mul_one_div |a / s|]
    apply mul_le_mul_of_nonneg_left _ h0
    norm_num
  linarith

/-- A double is a fixed point of the rounding. -/
theorem toDouble_idem (x : ℚ) : toDouble (toDouble x) = toDouble x := by
  rcases eq_or_ne x 0 with hx | hx
  · rw [hx, toDouble_zero, toDouble_zero]
  · obtain ⟨-, h2⟩ := significand_bounds x hx
    have hs := two_zpow_pos (Int.log 2 |x| - 52)
    have hc := roundHalfEven_close (x / 2 ^ (Int.log 2 |x| - 52))
    set m := roundHalfEven (x / 2 ^ (Int.log 2 |x| - 52)) with hm
    have hle : |m| ≤ 2 ^ (53 : ℕ) := by
      have hmono1 := roundHalfEven_mono _ _ (le_of_lt (abs_lt.mp h2).2)
      have hmono2 := roundHalfEven_mono _ _ (le_of_lt (abs_lt.mp h2).1)
      rw [show ((2 : ℚ) ^ (53 : ℕ)) = (((2 : Int) ^ (53 : ℕ) : Int) : ℚ) by push_cast; rfl,
        roundHalfEven_intCast] at hmono1
      rw [show (-(2 : ℚ) ^ (53 : ℕ)) = ((-(2 : Int) ^ (53 : ℕ) : Int) : ℚ) by push_cast; rfl,
        roundHalfEven_intCast] at hmono2
      rw [abs_le]
      exact ⟨hmono2, hmono1⟩
    have hdef : toDouble x = (m : ℚ) * 2 ^ (Int.log 2 |x| - 52) := rfl
    rw [hdef]
    rcases lt_or_eq_of_le hle with hlt | heq
    · exact toDouble_dyadic m _ hlt
    · -- the significand is ±2^53: the double is ±1 * 2^(e + 53)
      have hm2 : m = 2 ^ (53 : ℕ) ∨ m = -2 ^ (53 : ℕ) := by
        rcases abs_cases m with ⟨h1, _⟩ | ⟨h1, _⟩
        · left; omega
        · right; omega
      rcases hm2 with h | h
      · have e : ((m : Int) : ℚ) * 2 ^ (Int.log 2 |x| - 52) =
            ((1 : Int) : ℚ) * 2 ^ (Int.log 2 |x| - 52 + 53) := by
          rw [h, zpow_add₀ (by norm_num)]; push_cast; norm_num; ring
        rw [e]
        exact toDouble_dyadic 1 _ (by norm_num)
      · have e : ((m : Int) : ℚ) * 2 ^ (Int.log 2 |x| - 52) =
            ((-1 : Int) : ℚ) * 2 ^ (Int.log 2 |x| - 52 + 53) := by
          rw [h, zpow_add₀ (by norm_num)]; push_cast; norm_num; ring
        rw [e]
        exact toDouble_dyadic (-1) _ (by norm_num)


/-! ### Machine integers in range -/

theorem int32_of_range (x : Int) (h1 : -2147483648 ≤ x) (h2 : x < 2147483648) : int32 x = x := by
  unfold int32; omega

theorem abs32_of_nonneg (x : Int) (h1 : 0 ≤ x) (h2 : x < 2147483648) : abs32 x = x := by
  unfold abs32; rw [abs_of_nonneg h1]; exact int32_of_range x (by omega) h2

theorem abs32_of_nonpos (x : Int) (h1 : x ≤ 0) (h2 : -2147483648 < x) : abs32 x = -x := by
  unfold abs32; rw [abs_of_nonpos h1]; exact int32_of_range (-x) (by omega) (by omega)

theorem uint32_of_range (x : Int) (h1 : 0 ≤ x) (h2 : x < 4294967296) : (uint32 x : Int) = x := by
  unfold uint32; rw [Int.emod_eq_of_lt h1 h2]; exact Int.toNat_of_nonneg h1

/-! ### Frame lemmas: what the buffer steps leave alone -/

section frame
variable (s : State) (k x d : Bool)

@[simp] theorem UpdateWindowSize_mBitmapBitsSize :
    (UpdateWindowSize s k).mBitmapBitsSize = s.mBitmapBitsSize := by
  unfold UpdateWindowSize; split
  · rfl
  · split <;> rfl

@[simp] theorem UpdateWindowSize_mIs16BitsImage :
    (UpdateWindowSize s k).mIs16BitsImage = s.mIs16BitsImage := by
  unfold UpdateWindowSize; split
  · rfl
  · split <;> rfl

@[simp] theorem UpdateWindowSize_mBitmapInfo :
    (UpdateWindowSize s k).mBitmapInfo = s.mBitmapInfo := by
  unfold UpdateWindowSize; split
  · rfl
  · split <;> rfl

@[simp] theorem CreateNewImageBuffer_mBitmapBitsSize :
    (CreateNewImageBuffer s k).2.mBitmapBitsSize = s.mBitmapBitsSize := by
  simp only [CreateNewImageBuffer]; split_ifs <;> rfl

@[simp] theorem CreateNewImageBuffer_mIs16BitsImage :
    (CreateNewImageBuffer s k).2.mIs16BitsImage = s.mIs16BitsImage := by
  simp only [CreateNewImageBuffer]; split_ifs <;> rfl

@[simp] theorem CreateNewImageBuffer_mBitmapInfo :
    (CreateNewImageBuffer s k).2.mBitmapInfo = s.mBitmapInfo := by
  simp only [CreateNewImageBuffer]; split_ifs <;> rfl

@[simp] theorem CreateNewImageBuffer16Bits_mBitmapBitsSize :
    (CreateNewImageBuffer16Bits s k).2.mBitmapBitsSize = s.mBitmapBitsSize := by
  simp only [CreateNewImageBuffer16Bits]; split_ifs <;> rfl

@[simp] theorem CreateNewImageBuffer16Bits_mIs16BitsImage :
    (CreateNewImageBuffer16Bits s k).2.mIs16BitsImage = s.mIs16BitsImage := by
  simp only [CreateNewImageBuffer16Bits]; split_ifs <;> rfl

@[simp] theorem CreateNewImageBuffer16Bits_mBitmapInfo :
    (CreateNewImageBuffer16Bits s k).2.mBitmapInfo = s.mBitmapInfo := by
  simp only [CreateNewImageBuffer16Bits]; split_ifs <;> rfl

@[simp] theorem release16BitsIfUnused_mBitmapBitsSize :
    (release16BitsIfUnused x s).mBitmapBitsSize = s.mBitmapBitsSize := by
  simp only [release16BitsIfUnused]; split_ifs <;> rfl

@[simp] theorem release16BitsIfUnused_mIs16BitsImage :
    (release16BitsIfUnused x s).mIs16BitsImage = s.mIs16BitsImage := by
  simp only [release16BitsIfUnused]; split_ifs <;> rfl

@[simp] theorem release16BitsIfUnused_mBitmapInfo :
    (release16BitsIfUnused x s).mBitmapInfo = s.mBitmapInfo := by
  simp only [release16BitsIfUnused]; split_ifs <;> rfl

@[simp] theorem releaseIfResized_mBitmapBitsSize :
    (releaseIfResized d s).mBitmapBitsSize = s.mBitmapBitsSize := by
  simp only [releaseIfResized]; split_ifs <;> rfl

@[simp] theorem releaseIfResized_mIs16BitsImage :
    (releaseIfResized d s).mIs16BitsImage = s.mIs16BitsImage := by
  simp only [releaseIfResized]; split_ifs <;> rfl

@[simp] theorem releaseIfResized_mBitmapInfo :
    (releaseIfResized d s).mBitmapInfo = s.mBitmapInfo := by
  simp only [releaseIfResized]; split_ifs <;> rfl

@[simp] theorem ensureImageBuffer_mBitmapBitsSize :
    (ensureImageBuffer s).mBitmapBitsSize = s.mBitmapBitsSize := by
  unfold ensureImageBuffer; split_ifs <;> simp

@[simp] theorem ensureImageBuffer_mIs16BitsImage :
    (ensureImageBuffer s).mIs16BitsImage = s.mIs16BitsImage := by
  unfold ensureImageBuffer; split_ifs <;> simp

@[simp] theorem ensureImageBuffer_mBitmapInfo :
    (ensureImageBuffer s).mBitmapInfo = s.mBitmapInfo := by
  unfold ensureImageBuffer; split_ifs <;> simp

@[simp] theorem ensure16BitsImageBuffer_mBitmapBitsSize :
    (ensure16BitsImageBuffer x s).mBitmapBitsSize = s.mBitmapBitsSize := by
  unfold ensure16BitsImageBuffer; split_ifs <;> simp

@[simp] theorem ensure16BitsImageBuffer_mIs16BitsImage :
    (ensure16BitsImageBuffer x s).mIs16BitsImage = s.mIs16BitsImage := by
  unfold ensure16BitsImageBuffer; split_ifs <;> simp

@[simp] theorem ensure16BitsImageBuffer_mBitmapInfo :
    (ensure16BitsImageBuffer x s).mBitmapInfo = s.mBitmapInfo := by
  unfold ensure16BitsImageBuffer; split_ifs <;> simp

end frame

@[simp] theorem PrepareImageBuffers_fst (s : State) (w h : Int) (c b x : Bool) :
    (PrepareImageBuffers s w h c b x).1 = (CreateBitmapInfo s w h c b x).1 := rfl

@[simp] theorem PrepareImageBuffers_mBitmapBitsSize (s : State) (w h : Int) (c b x : Bool) :
    (PrepareImageBuffers s w h c b x).2.mBitmapBitsSize =
      (CreateBitmapInfo s w h c b x).2.mBitmapBitsSize := by
  simp [PrepareImageBuffers]

@[simp] theorem PrepareImageBuffers_mIs16BitsImage (s : State) (w h : Int) (c b x : Bool) :
    (PrepareImageBuffers s w h c b x).2.mIs16BitsImage =
      (CreateBitmapInfo s w h c b x).2.mIs16BitsImage := by
  simp [PrepareImageBuffers]

@[simp] theorem PrepareImageBuffers_mBitmapInfo (s : State) (w h : Int) (c b x : Bool) :
    (PrepareImageBuffers s w h c b x).2.mBitmapInfo =
      (CreateBitmapInfo s w h c b x).2.mBitmapInfo := by
  simp [PrepareImageBuffers]

theorem CreateBitmapInfo_mIs16BitsImage (s : State) (w h : Int) (c b x : Bool) :
    (CreateBitmapInfo s w h c b x).2.mIs16BitsImage = x := by
  simp only [CreateBitmapInfo, CreateColorBitmapInfo, CreateMonoBitmapInfo]
  split_ifs <;> rfl

@[simp] theorem ReleaseMutex_mBitmapBitsSize (s : State) :
    (ReleaseMutex s).mBitmapBitsSize = s.mBitmapBitsSize := rfl

@[simp] theorem ReleaseMutex_mIs16BitsImage (s : State) :
    (ReleaseMutex s).mIs16BitsImage = s.mIs16BitsImage := rfl

@[simp] theorem ReleaseMutex_mBitmapInfo (s : State) :
    (ReleaseMutex s).mBitmapInfo = s.mBitmapInfo := rfl

theorem AllocateImageBuffer_mBitmapBitsSize (s : State) (w h : Int) (c b x : Bool) :
    (AllocateImageBuffer s w h c b x).mBitmapBitsSize =
      (CreateBitmapInfo (WaitForSingleObject s) w h c b x).2.mBitmapBitsSize := by
  simp only [AllocateImageBuffer]; split_ifs <;> simp

theorem AllocateImageBuffer_mIs16BitsImage (s : State) (w h : Int) (c b x : Bool) :
    (AllocateImageBuffer s w h c b x).mIs16BitsImage = x := by
  simp only [AllocateImageBuffer]; split_ifs <;> simp [CreateBitmapInfo_mIs16BitsImage]

theorem AllocateImageBuffer_mBitmapInfo (s : State) (w h : Int) (c b x : Bool) :
    (AllocateImageBuffer s w h c b x).mBitmapInfo =
      (CreateBitmapInfo (WaitForSingleObject s) w h c b x).2.mBitmapInfo := by
  simp only [AllocateImageBuffer]; split_ifs <;> simp

/-! ### Allocation size of an 8-bit image -/

/-- Claim C1 (amended): for `w > 0`, `h > 0` with `w * h` inside the `int` range and
a header allocation that succeeds, `AllocateImageBuffer(w, h, color = false,
bottomUp, is16Bits = false)` is followed by `GetImageBufferSize() = w * h` on
every prior state whose recorded size already is `w * h` whenever it holds an
8-bit header of the requested width and stored height (the case in which the
header and the recorded size are kept as they are). -/
theorem AllocateImageBuffer_mono_size (s : State) (w h : Int) (bottomUp : Bool)
    (hw : 0 < w) (hh : 0 < h) (hfit : w * h < 2147483648)
    (halloc : sizeofImageBitmapInfoMono8 ≤ s.heap.limit)
    (hsame : ∀ info, s.mBitmapInfo = some info → info.Header.biBitCount = 8 →
      info.Header.biWidth = w → info.Header.biHeight = (if bottomUp = true then h else -h) →
      (s.mBitmapBitsSize : Int) = w * h) :
    (GetImageBufferSize (AllocateImageBuffer s w h false bottomUp false) : Int) = w * h := by
  have hh2 : h < 2147483648 := by nlinarith
  have hsz : (GetImageBufferSize (AllocateImageBuffer s w h false bottomUp false)) =
      (CreateMonoBitmapInfo { WaitForSingleObject s with mIsColorImage := false, mIs16BitsImage := false }
        w h bottomUp).2.mBitmapBitsSize := by
    simp [GetImageBufferSize, AllocateImageBuffer_mIs16BitsImage,
      AllocateImageBuffer_mBitmapBitsSize, CreateBitmapInfo]
  rw [hsz]
  have habs : abs32 h = h := abs32_of_nonneg h hh.le hh2
  have hneg : int32 (-1 * h) = -h := by
    rw [show (-1 : Int) * h = -h by ring]; exact int32_of_range _ (by omega) (by omega)
  have hprod1 : uint32 (abs32 (int32 (w * h))) = (w * h).toNat := by
    have hp : 0 ≤ w * h := by positivity
    rw [int32_of_range _ (by omega) hfit, abs32_of_nonneg _ hp hfit]
    have := uint32_of_range (w * h) hp (by omega)
    omega
  have hprod2 : uint32 (abs32 (int32 (-(w * h)))) = (w * h).toNat := by
    have hp : 0 ≤ w * h := by positivity
    rw [int32_of_range _ (by omega) (by omega), abs32_of_nonpos _ (by omega) (by omega)]
    have := uint32_of_range (w * h) hp (by omega)
    simp only [neg_neg]
    omega
  have hp : 0 ≤ w * h := by positivity
  simp only [CreateMonoBitmapInfo, habs, hneg]
  cases hinfo : s.mBitmapInfo with
  | none =>
    simp [WaitForSingleObject, hinfo, halloc]
    cases bottomUp <;> simp [hprod1, hprod2, hp]
  | some info =>
    simp only [WaitForSingleObject, hinfo]
    by_cases hc : info.Header.biBitCount ≠ 8 ∨ info.Header.biWidth ≠ w ∨
        info.Header.biHeight ≠ (if bottomUp = true then h else -h)
    · simp [hc, halloc]
      cases bottomUp <;> simp [hprod1, hprod2, hp]
    · simp [hc]
      push_neg at hc
      exact hsame info hinfo hc.1 hc.2.1 hc.2.2

/-- Witness of claim C1 (amended): the constructor state, a 4 by 4 image. -/
theorem AllocateImageBuffer_mono_size_witness :
    (0 : Int) < 4 ∧
    (GetImageBufferSize (AllocateImageBuffer init 4 4 false false false) : Int) = 4 * 4 :=
  ⟨by decide, AllocateImageBuffer_mono_size init 4 4 false (by decide) (by decide) (by decide)
    (by decide) (by intro info h; simp [init] at h)⟩

set_option maxRecDepth 100000 in
/-- Counterexample to claim C1 as stated: after `OpenBitmapFile` has loaded a
3 by 3 bottom-up 8-bit file with padded rows (12 payload bytes),
`AllocateImageBuffer(3, 3, false, true, false)` finds the geometry unchanged and
the size query still answers 12, not 9. -/
theorem AllocateImageBuffer_mono_size_after_load :
    GetImageBufferSize
      (AllocateImageBuffer (OpenBitmapFile init (some paddedFile3x3)).2 3 3 false true false) = 12
    ∧ (GetImageBufferSize
      (AllocateImageBuffer (OpenBitmapFile init (some paddedFile3x3)).2 3 3 false true false) : Int)
      ≠ 3 * 3 := by
  decide

/-! ### Row padding of a 24-bit image -/

/-- Claim C2 (the code at the failing input): `AllocateImageBuffer(1, 1, color =
true, ...)` records 3 bytes, not the `1 * ceil(1 * 3 / 4) * 4 = 4` bytes of a
padded row; for a 1 by 2 image it records 6 bytes while `GetPixelPointer` places
the second row at byte offset 4, the padded row size. -/
theorem AllocateImageBuffer_color_size_unpadded :
    GetImageBufferSize (AllocateImageBuffer init 1 1 true false false) = 3
    ∧ GetImageBufferSize (AllocateImageBuffer init 1 1 true false false)
        ≠ 1 * ((1 * 3 + 3) / 4) * 4
    ∧ GetImageBufferSize (AllocateImageBuffer initOpen 1 2 true false false) = 6
    ∧ GetPixelPointer (AllocateImageBuffer initOpen 1 2 true false false) 0 1 = some 4 := by
  decide

/-! ### Freshly created buffers -/

theorem Heap.alloc_of_le (h : Heap) (n : Nat) (hn : n ≤ h.limit) :
    h.alloc n = (h.next + 1,
      { h with mem := fun p => if p = h.next + 1 then some (Heap.fresh n) else h.mem p,
               next := h.next + 1 }) := by
  simp [Heap.alloc, hn]

theorem CreateNewImageBuffer_of_room (t : State) (hn : t.mBitmapBitsSize ≤ t.heap.limit) :
    (CreateNewImageBuffer t true).2 =
      { t with
          heap :=
            { t.heap with
                mem := fun q =>
                  if q = t.heap.next + 1 then some (List.replicate t.mBitmapBitsSize 0)
                  else t.heap.mem q
                next := t.heap.next + 1 }
          mAllocatedImageBuffer := t.heap.next + 1
          mBitmapBits := t.heap.next + 1 } := by
  simp only [CreateNewImageBuffer, Heap.alloc_of_le _ _ hn, Heap.ZeroMemory, Heap.store,
    Heap.fresh]
  simp
  funext q
  split_ifs <;> rfl

theorem CreateNewImageBuffer16Bits_of_room (t : State)
    (hn : t.mBitmapBitsSize * 2 ≤ t.heap.limit) :
    (CreateNewImageBuffer16Bits t true).2 =
      { t with
          heap :=
            { t.heap with
                mem := fun q =>
                  if q = t.heap.next + 1 then some (List.replicate (t.mBitmapBitsSize * 2) 0)
                  else t.heap.mem q
                next := t.heap.next + 1 }
          mAllocated16BitsImageBuffer := t.heap.next + 1 } := by
  simp only [CreateNewImageBuffer16Bits, Heap.alloc_of_le _ _ hn, Heap.ZeroMemory, Heap.store,
    Heap.fresh]
  simp
  funext q
  split_ifs <;> rfl


section stages
variable (s : State) (x d : Bool)

@[simp] theorem CreateBitmapInfo_heap (w h : Int) (c b : Bool) :
    (CreateBitmapInfo s w h c b x).2.heap = s.heap := by
  simp only [CreateBitmapInfo, CreateColorBitmapInfo, CreateMonoBitmapInfo]
  split_ifs <;> rfl

@[simp] theorem CreateBitmapInfo_mAllocatedImageBuffer (w h : Int) (c b : Bool) :
    (CreateBitmapInfo s w h c b x).2.mAllocatedImageBuffer = s.mAllocatedImageBuffer := by
  simp only [CreateBitmapInfo, CreateColorBitmapInfo, CreateMonoBitmapInfo]
  split_ifs <;> rfl

@[simp] theorem CreateBitmapInfo_mAllocated16BitsImageBuffer (w h : Int) (c b : Bool) :
    (CreateBitmapInfo s w h c b x).2.mAllocated16BitsImageBuffer =
      s.mAllocated16BitsImageBuffer := by
  simp only [CreateBitmapInfo, CreateColorBitmapInfo, CreateMonoBitmapInfo]
  split_ifs <;> rfl

@[simp] theorem CreateBitmapInfo_mBitmapBits (w h : Int) (c b : Bool) :
    (CreateBitmapInfo s w h c b x).2.mBitmapBits = s.mBitmapBits := by
  simp only [CreateBitmapInfo, CreateColorBitmapInfo, CreateMonoBitmapInfo]
  split_ifs <;> rfl

@[simp] theorem release16BitsIfUnused_mAllocatedImageBuffer :
    (release16BitsIfUnused x s).mAllocatedImageBuffer = s.mAllocatedImageBuffer := by
  simp only [release16BitsIfUnused, deleteAllocated16BitsImageBuffer]; split_ifs <;> rfl

@[simp] theorem release16BitsIfUnused_limit :
    (release16BitsIfUnused x s).heap.limit = s.heap.limit := by
  simp only [release16BitsIfUnused, deleteAllocated16BitsImageBuffer]; split_ifs <;> rfl

theorem release16BitsIfUnused_false :
    (release16BitsIfUnused false s).mAllocated16BitsImageBuffer = 0 := by
  simp only [release16BitsIfUnused, deleteAllocated16BitsImageBuffer]
  split_ifs with h
  · rfl
  · simpa using h

@[simp] theorem release16BitsIfUnused_true : release16BitsIfUnused true s = s := by
  simp [release16BitsIfUnused]

@[simp] theorem releaseIfResized_limit :
    (releaseIfResized d s).heap.limit = s.heap.limit := by
  simp only [releaseIfResized, deleteAllocatedImageBuffer, deleteAllocated16BitsImageBuffer]
  split_ifs <;> rfl

theorem releaseIfResized_mAllocatedImageBuffer
    (h : d = true ∨ s.mAllocatedImageBuffer = 0) :
    (releaseIfResized d s).mAllocatedImageBuffer = 0 := by
  simp only [releaseIfResized, deleteAllocatedImageBuffer, deleteAllocated16BitsImageBuffer]
  split_ifs with h1 h2
  · rfl
  · rfl
  · rcases h with h | h
    · by_contra h3; exact h1 ⟨h3, by simp [h]⟩
    · exact h

theorem releaseIfResized_mAllocated16BitsImageBuffer
    (h : s.mAllocated16BitsImageBuffer = 0 ∨ (d = true ∧ s.mAllocatedImageBuffer ≠ 0)) :
    (releaseIfResized d s).mAllocated16BitsImageBuffer = 0 := by
  simp only [releaseIfResized, deleteAllocatedImageBuffer, deleteAllocated16BitsImageBuffer]
  split_ifs with h1 h2
  · rfl
  · simpa using h2
  · rcases h with h | h
    · exact h
    · exact absurd ⟨h.2, by simp [h.1]⟩ h1

@[simp] theorem ensureImageBuffer_limit :
    (ensureImageBuffer s).heap.limit = s.heap.limit := by
  simp only [ensureImageBuffer, CreateNewImageBuffer, Heap.alloc, Heap.ZeroMemory, Heap.store,
    ReleaseMutex]
  split_ifs <;> first | rfl | (simp only []; split <;> rfl)

@[simp] theorem ensureImageBuffer_mAllocated16BitsImageBuffer :
    (ensureImageBuffer s).mAllocated16BitsImageBuffer = s.mAllocated16BitsImageBuffer := by
  simp only [ensureImageBuffer, CreateNewImageBuffer, ReleaseMutex]
  split_ifs <;> rfl

end stages


theorem readImageBuffer_UpdateWindowSize (s : State) (k : Bool) :
    readImageBuffer (UpdateWindowSize s k) = readImageBuffer s := by
  unfold UpdateWindowSize; split
  · rfl
  · split <;> rfl

theorem GetImageBufferSize_UpdateWindowSize (s : State) (k : Bool) :
    GetImageBufferSize (UpdateWindowSize s k) = GetImageBufferSize s := by
  unfold UpdateWindowSize; split
  · rfl
  · split <;> rfl

theorem GetImageBufferPtr_UpdateWindowSize (s : State) (k : Bool) :
    GetImageBufferPtr (UpdateWindowSize s k) = GetImageBufferPtr s := by
  unfold UpdateWindowSize; split
  · rfl
  · split <;> rfl

theorem readImageBuffer_AllocateImageBuffer (s : State) (w h : Int) (c b x : Bool) :
    readImageBuffer (AllocateImageBuffer s w h c b x) =
      readImageBuffer (PrepareImageBuffers (WaitForSingleObject s) w h c b x).2 := by
  simp only [AllocateImageBuffer]
  split_ifs
  · rw [readImageBuffer_UpdateWindowSize]; rfl
  · rfl

theorem GetImageBufferSize_AllocateImageBuffer (s : State) (w h : Int) (c b x : Bool) :
    GetImageBufferSize (AllocateImageBuffer s w h c b x) =
      GetImageBufferSize (PrepareImageBuffers (WaitForSingleObject s) w h c b x).2 := by
  simp only [AllocateImageBuffer]
  split_ifs
  · rw [GetImageBufferSize_UpdateWindowSize]; rfl
  · rfl

theorem uint32_le (n : Nat) : uint32 (n : Int) ≤ n := by
  unfold uint32; omega

/-- The buffer that `PrepareImageBuffers` creates in its own call is zero over
the whole size the engine reports. -/
theorem PrepareImageBuffers_fresh_zero (s : State) (w h : Int) (c b x : Bool)
    (hfresh : if x = true then
        (s.mAllocated16BitsImageBuffer = 0 ∨
          ((CreateBitmapInfo s w h c b x).1 = true ∧ s.mAllocatedImageBuffer ≠ 0))
      else ((CreateBitmapInfo s w h c b x).1 = true ∨ s.mAllocatedImageBuffer = 0))
    (hroom : (CreateBitmapInfo s w h c b x).2.mBitmapBitsSize * (if x = true then 2 else 1)
      ≤ s.heap.limit) :
    readImageBuffer (PrepareImageBuffers s w h c b x).2 =
      some (List.replicate (GetImageBufferSize (PrepareImageBuffers s w h c b x).2) 0) := by
  have h16 := CreateBitmapInfo_mIs16BitsImage s w h c b x
  simp only [PrepareImageBuffers]
  generalize hr : CreateBitmapInfo s w h c b x = r at *
  obtain ⟨d, r⟩ := r
  have e8 : r.mAllocatedImageBuffer = s.mAllocatedImageBuffer := by
    have := CreateBitmapInfo_mAllocatedImageBuffer s x w h c b; rw [hr] at this; exact this
  have e16 : r.mAllocated16BitsImageBuffer = s.mAllocated16BitsImageBuffer := by
    have := CreateBitmapInfo_mAllocated16BitsImageBuffer s x w h c b; rw [hr] at this; exact this
  have eh : r.heap = s.heap := by
    have := CreateBitmapInfo_heap s x w h c b; rw [hr] at this; exact this
  simp only at hfresh hroom h16 ⊢
  set t0 : State := { r with mExternal16BitsImageBuffer := 0 } with ht0
  cases x with
  | false =>
    simp only [Bool.false_eq_true, if_false, mul_one] at hfresh hroom
    set t2 := releaseIfResized d (release16BitsIfUnused false t0) with ht2
    have h2 : t2.mAllocatedImageBuffer = 0 := by
      apply releaseIfResized_mAllocatedImageBuffer
      rcases hfresh with hd | h0
      · exact Or.inl hd
      · right; rw [release16BitsIfUnused_mAllocatedImageBuffer]; show r.mAllocatedImageBuffer = 0
        rw [e8]; exact h0
    have hsz : t2.mBitmapBitsSize = r.mBitmapBitsSize := by
      simp [ht2, ht0]
    have hlim : t2.mBitmapBitsSize ≤ t2.heap.limit := by
      rw [hsz]; simp only [ht2, releaseIfResized_limit, release16BitsIfUnused_limit]
      show r.mBitmapBitsSize ≤ r.heap.limit
      rw [eh]; exact hroom
    have h3 : ensureImageBuffer t2 = (CreateNewImageBuffer t2 true).2 := by
      simp [ensureImageBuffer, h2]
    have hx : t2.mIs16BitsImage = false := by simp [ht2, ht0, h16]
    simp only [ensure16BitsImageBuffer, Bool.false_eq_true, false_and, if_false]
    rw [h3, CreateNewImageBuffer_of_room t2 hlim]
    simp [readImageBuffer, GetImageBufferPtr, GetImageBufferSize, hx]
  | true =>
    simp only [if_true] at hfresh hroom
    simp only [release16BitsIfUnused_true]
    set t2 := releaseIfResized d t0 with ht2
    have h2 : t2.mAllocated16BitsImageBuffer = 0 := by
      apply releaseIfResized_mAllocated16BitsImageBuffer
      rcases hfresh with h0 | hd
      · left; show r.mAllocated16BitsImageBuffer = 0; rw [e16]; exact h0
      · right; refine ⟨hd.1, ?_⟩; show r.mAllocatedImageBuffer ≠ 0; rw [e8]; exact hd.2
    set t3 := ensureImageBuffer t2 with ht3
    have h3 : t3.mAllocated16BitsImageBuffer = 0 := by simp [ht3, h2]
    have hsz : t3.mBitmapBitsSize = r.mBitmapBitsSize := by simp [ht3, ht2, ht0]
    have hlim : t3.mBitmapBitsSize * 2 ≤ t3.heap.limit := by
      rw [hsz]; simp only [ht3, ht2, ensureImageBuffer_limit, releaseIfResized_limit]
      show r.mBitmapBitsSize * 2 ≤ r.heap.limit
      rw [eh]; exact hroom
    have hx : t3.mIs16BitsImage = true := by simp [ht3, ht2, ht0, h16]
    have h4 : ensure16BitsImageBuffer true t3 = (CreateNewImageBuffer16Bits t3 true).2 := by
      simp [ensure16BitsImageBuffer, h3]
    rw [h4, CreateNewImageBuffer16Bits_of_room t3 hlim]
    have hle := uint32_le (t3.mBitmapBitsSize * 2)
    simp [readImageBuffer, GetImageBufferPtr, GetImageBufferSize, hx]
    exact_mod_cast hle


/-- Claim C3 (amended): when the buffer that `GetImageBufferPtr()` returns after
`AllocateImageBuffer` is created by that call (8-bit and 24-bit images: the
geometry test reports a change, or the state holds no engine-owned buffer;
16-bit images: the state holds no 16-bit buffer, or it holds an engine-owned
buffer and the geometry test reports a change) and the allocation is served,
every byte of it over `GetImageBufferSize()` bytes is zero. -/
theorem AllocateImageBuffer_fresh_zero (s : State) (w h : Int) (c b x : Bool)
    (hfresh : if x = true then
        (s.mAllocated16BitsImageBuffer = 0 ∨
          ((CreateBitmapInfo (WaitForSingleObject s) w h c b x).1 = true ∧
            s.mAllocatedImageBuffer ≠ 0))
      else ((CreateBitmapInfo (WaitForSingleObject s) w h c b x).1 = true ∨
        s.mAllocatedImageBuffer = 0))
    (hroom : (CreateBitmapInfo (WaitForSingleObject s) w h c b x).2.mBitmapBitsSize *
      (if x = true then 2 else 1) ≤ s.heap.limit) :
    readImageBuffer (AllocateImageBuffer s w h c b x) =
      some (List.replicate (GetImageBufferSize (AllocateImageBuffer s w h c b x)) 0) := by
  rw [readImageBuffer_AllocateImageBuffer, GetImageBufferSize_AllocateImageBuffer]
  exact PrepareImageBuffers_fresh_zero (WaitForSingleObject s) w h c b x hfresh hroom

/-- Witness of claim C3 (amended): a 2 by 2 indexed image on the constructor
state reads back as four zero bytes. -/
theorem AllocateImageBuffer_fresh_zero_witness :
    init.mAllocatedImageBuffer = 0 ∧
    readImageBuffer (AllocateImageBuffer init 2 2 false false false) = some [0, 0, 0, 0] :=
  ⟨by decide,
   (AllocateImageBuffer_fresh_zero init 2 2 false false false (by decide) (by decide)).trans
     (by decide)⟩

/-- Counterexample to claim C3 as stated: on a state that holds an engine-owned
2 by 2 indexed buffer filled with `0xFF`, `AllocateImageBuffer` with the same
arguments finds the geometry unchanged, keeps the buffer and its bytes. -/
theorem AllocateImageBuffer_reuse_keeps_bytes :
    (CopyIntoImageBuffer init 2 2 [255, 255, 255, 255] false false false).map
        (fun s => readImageBuffer (AllocateImageBuffer s 2 2 false false false))
      = some (some [255, 255, 255, 255]) := by
  decide

/-! ### The geometry test and the stored orientation -/

/-- Claim C4 (the code at the failing inputs): on a state holding a 2 by 2
top-down 24-bit buffer, `CreateBitmapInfo` with the identical arguments answers
"changed" and with only the orientation flipped answers "not changed"; on a
state produced by a 2 by 2 bottom-up 8-bit request, the identical request
answers "changed". -/
theorem CreateBitmapInfo_geometry_test_fails :
    (CreateBitmapInfo (AllocateImageBuffer init 2 2 true false false) 2 2 true false false).1
        = true
    ∧ (CreateBitmapInfo (AllocateImageBuffer init 2 2 true false false) 2 2 true true false).1
        = false
    ∧ (CreateBitmapInfo (AllocateImageBuffer init 2 2 false true false) 2 2 false true false).1
        = true := by
  decide

/-- Claim C7 (the code at the failing inputs): a bottom-up 8-bit request stores
the height `-2` and `IsBottomUpImage()` answers false; a bottom-up 24-bit
request on a state holding the same image top-down leaves the stored height
`-2`, while on the constructor state it stores `+2`. -/
theorem IsBottomUpImage_ignores_request :
    (AllocateImageBuffer init 2 2 false true false).mBitmapInfo.map (·.Header.biHeight)
        = some (-2)
    ∧ IsBottomUpImage (AllocateImageBuffer init 2 2 false true false) = false
    ∧ IsBottomUpImage
        (AllocateImageBuffer (AllocateImageBuffer init 2 2 true false false) 2 2 true true false)
        = false
    ∧ IsBottomUpImage (AllocateImageBuffer init 2 2 true true false) = true := by
  decide

/-! ### Copying into and adopting a buffer -/

theorem UpdateImage_8bit (s : State) (h : s.mIs16BitsImage = false) : UpdateImage s = some s := by
  simp [UpdateImage, h]

theorem CreateBitmapInfo_unchanged (s : State) (w h : Int) (c b x : Bool)
    (hd : (CreateBitmapInfo s w h c b x).1 = false) :
    (CreateBitmapInfo s w h c b x).2.mBitmapBitsSize = s.mBitmapBitsSize := by
  revert hd
  simp only [CreateBitmapInfo, CreateColorBitmapInfo, CreateMonoBitmapInfo]
  split_ifs <;> simp_all

/-- After `PrepareImageBuffers` for an image that is not a 16-bit image, the
active buffer is a live block of exactly or at least the recorded size. -/
theorem PrepareImageBuffers_live (s : State) (w h : Int) (c b : Bool)
    (hok : EngineBufferOk s)
    (hroom : (CreateBitmapInfo s w h c b false).2.mBitmapBitsSize ≤ s.heap.limit) :
    ∃ blk, (PrepareImageBuffers s w h c b false).2.heap.mem
        (PrepareImageBuffers s w h c b false).2.mBitmapBits = some blk ∧
      (PrepareImageBuffers s w h c b false).2.mBitmapBitsSize ≤ blk.length := by
  have hun := CreateBitmapInfo_unchanged s w h c b false
  simp only [PrepareImageBuffers]
  generalize hr : CreateBitmapInfo s w h c b false = r at *
  obtain ⟨d, r⟩ := r
  have e8 : r.mAllocatedImageBuffer = s.mAllocatedImageBuffer := by
    have := CreateBitmapInfo_mAllocatedImageBuffer s false w h c b; rw [hr] at this; exact this
  have e16 : r.mAllocated16BitsImageBuffer = s.mAllocated16BitsImageBuffer := by
    have := CreateBitmapInfo_mAllocated16BitsImageBuffer s false w h c b; rw [hr] at this
    exact this
  have eh : r.heap = s.heap := by
    have := CreateBitmapInfo_heap s false w h c b; rw [hr] at this; exact this
  have eb : r.mBitmapBits = s.mBitmapBits := by
    have := CreateBitmapInfo_mBitmapBits s false w h c b; rw [hr] at this; exact this
  simp only at hroom hun ⊢
  simp only [ensure16BitsImageBuffer, Bool.false_eq_true, false_and, if_false]
  set t0 : State := { r with mExternal16BitsImageBuffer := 0 } with ht0
  by_cases hfresh : d = true ∨ s.mAllocatedImageBuffer = 0
  · set t2 := releaseIfResized d (release16BitsIfUnused false t0) with ht2
    have h2 : t2.mAllocatedImageBuffer = 0 := by
      apply releaseIfResized_mAllocatedImageBuffer
      rcases hfresh with hd | h0
      · exact Or.inl hd
      · right; rw [release16BitsIfUnused_mAllocatedImageBuffer]; show r.mAllocatedImageBuffer = 0
        rw [e8]; exact h0
    have hsz : t2.mBitmapBitsSize = r.mBitmapBitsSize := by simp [ht2, ht0]
    have hlim : t2.mBitmapBitsSize ≤ t2.heap.limit := by
      rw [hsz]; simp only [ht2, releaseIfResized_limit, release16BitsIfUnused_limit]
      show r.mBitmapBitsSize ≤ r.heap.limit
      rw [eh]; exact hroom
    have h3 : ensureImageBuffer t2 = (CreateNewImageBuffer t2 true).2 := by
      simp [ensureImageBuffer, h2]
    rw [h3, CreateNewImageBuffer_of_room t2 hlim]
    exact ⟨List.replicate t2.mBitmapBitsSize 0, by simp, by simp⟩
  · push_neg at hfresh
    obtain ⟨hd, h0⟩ := hfresh
    have hd : d = false := by simpa using hd
    obtain ⟨hbits, hne, blk, hblk, hlen⟩ := hok h0
    have hr0 : r.mAllocatedImageBuffer ≠ 0 := by rw [e8]; exact h0
    have h1 : (release16BitsIfUnused false t0).mAllocatedImageBuffer ≠ 0 := by
      rw [release16BitsIfUnused_mAllocatedImageBuffer]; exact hr0
    have h2 : releaseIfResized d (release16BitsIfUnused false t0) =
        release16BitsIfUnused false t0 := by
      simp [releaseIfResized, hd]
    have h3 : ensureImageBuffer (release16BitsIfUnused false t0) =
        release16BitsIfUnused false t0 := by
      unfold ensureImageBuffer; exact if_neg h1
    rw [h2, h3]
    refine ⟨blk, ?_, ?_⟩
    · simp only [release16BitsIfUnused, deleteAllocated16BitsImageBuffer, Heap.free]
      split_ifs with hc
      · show (if r.mBitmapBits = r.mAllocated16BitsImageBuffer then none
            else r.heap.mem r.mBitmapBits) = some blk
        rw [eb, e16, eh, hbits, if_neg (Ne.symm hne)]; exact hblk
      · show r.heap.mem r.mBitmapBits = some blk
        rw [eb, eh, hbits]; exact hblk
    · rw [release16BitsIfUnused_mBitmapBitsSize]
      show r.mBitmapBitsSize ≤ blk.length
      rw [hun hd]; exact hlen


/-- Claim C5: for an image that is not a 16-bit image, on a state that satisfies
the engine's buffer invariant, with the allocation served and a source of at
least the reported size, `CopyIntoImageBuffer` returns and the buffer read back
through `GetImageBufferPtr()` is the first `GetImageBufferSize()` bytes of the
source. -/
theorem CopyIntoImageBuffer_reads_back (s : State) (w h : Int) (src : List Nat) (c b : Bool)
    (hok : EngineBufferOk s)
    (hroom : (CreateBitmapInfo (WaitForSingleObject s) w h c b false).2.mBitmapBitsSize
      ≤ s.heap.limit)
    (hsrc : (CreateBitmapInfo (WaitForSingleObject s) w h c b false).2.mBitmapBitsSize
      ≤ src.length) :
    ∃ t, CopyIntoImageBuffer s w h src c b false = some t ∧
      readImageBuffer t = some (src.take (GetImageBufferSize t)) := by
  obtain ⟨blk, hblk, hlen⟩ :=
    PrepareImageBuffers_live (WaitForSingleObject s) w h c b hok hroom
  have h16 : (PrepareImageBuffers (WaitForSingleObject s) w h c b false).2.mIs16BitsImage
      = false := by
    rw [PrepareImageBuffers_mIs16BitsImage, CreateBitmapInfo_mIs16BitsImage]
  have hsz : (PrepareImageBuffers (WaitForSingleObject s) w h c b false).2.mBitmapBitsSize
      ≤ src.length := by
    rw [PrepareImageBuffers_mBitmapBitsSize]; exact hsrc
  simp only [CopyIntoImageBuffer]
  generalize PrepareImageBuffers (WaitForSingleObject s) w h c b false = r at *
  obtain ⟨d, P⟩ := r
  simp only at hblk hlen h16 hsz ⊢
  have hptr : GetImageBufferPtr P = P.mBitmapBits := by simp [GetImageBufferPtr, h16]
  have hsize : GetImageBufferSize P = P.mBitmapBitsSize := by simp [GetImageBufferSize, h16]
  have htake : (List.take P.mBitmapBitsSize src ++ List.drop P.mBitmapBitsSize blk).take
      P.mBitmapBitsSize = List.take P.mBitmapBitsSize src := by
    rw [List.take_append_of_le_length (by simp [hsz])]
    simp
  rw [hptr, hsize]
  simp only [Heap.CopyMemory, hblk, hlen, hsz, and_self, if_true]
  set blk2 := List.take P.mBitmapBitsSize src ++ List.drop P.mBitmapBitsSize blk with hblk2
  have key : readImageBuffer (ReleaseMutex { P with heap := P.heap.store P.mBitmapBits blk2 }) =
      some (src.take P.mBitmapBitsSize) := by
    have hl : P.mBitmapBitsSize ≤ blk2.length := by simp [hblk2, hsz, hlen]
    simp [readImageBuffer, ReleaseMutex, GetImageBufferPtr, GetImageBufferSize, h16, Heap.store,
      hl, htake]
  have ksize :
      GetImageBufferSize (ReleaseMutex { P with heap := P.heap.store P.mBitmapBits blk2 }) =
      P.mBitmapBitsSize := by
    simp [ReleaseMutex, GetImageBufferSize, h16]
  split_ifs
  · refine ⟨_, rfl, ?_⟩
    rw [readImageBuffer_UpdateWindowSize, GetImageBufferSize_UpdateWindowSize, key, ksize]
  · refine ⟨_, UpdateImage_8bit _ (by simp [ReleaseMutex, h16]), ?_⟩
    rw [key, ksize]

/-- Witness of claim C5: a 4 by 4 indexed buffer is allocated, sixteen `0xFF`
bytes are copied into it and sixteen `0xFF` bytes are read back. -/
theorem CopyIntoImageBuffer_reads_back_witness :
    EngineBufferOk (AllocateImageBuffer init 4 4 false false false) ∧
    ∃ t, CopyIntoImageBuffer (AllocateImageBuffer init 4 4 false false false) 4 4
        (List.replicate 16 255) false false false = some t ∧
      readImageBuffer t = some ((List.replicate 16 255).take (GetImageBufferSize t)) :=
  have hok : EngineBufferOk (AllocateImageBuffer init 4 4 false false false) :=
    fun _ => ⟨by decide, by decide, List.replicate 16 0, by decide, by decide⟩
  ⟨hok, CopyIntoImageBuffer_reads_back (AllocateImageBuffer init 4 4 false false false) 4 4
    (List.replicate 16 255) false false hok (by decide) (by decide)⟩

section adopt
variable (s : State)

theorem releaseImageBuffer_mAllocatedImageBuffer :
    (releaseImageBuffer s).mAllocatedImageBuffer = 0 := by
  simp only [releaseImageBuffer, deleteAllocatedImageBuffer]
  split_ifs with h
  · rfl
  · simpa using h

theorem release16BitsImageBuffer_mAllocated16BitsImageBuffer :
    (release16BitsImageBuffer s).mAllocated16BitsImageBuffer = 0 := by
  simp only [release16BitsImageBuffer, deleteAllocated16BitsImageBuffer]
  split_ifs with h
  · rfl
  · simpa using h

@[simp] theorem release16BitsImageBuffer_mAllocatedImageBuffer :
    (release16BitsImageBuffer s).mAllocatedImageBuffer = s.mAllocatedImageBuffer := by
  simp only [release16BitsImageBuffer, deleteAllocated16BitsImageBuffer]
  split_ifs <;> rfl

@[simp] theorem release16BitsImageBuffer_mIs16BitsImage :
    (release16BitsImageBuffer s).mIs16BitsImage = s.mIs16BitsImage := by
  simp only [release16BitsImageBuffer, deleteAllocated16BitsImageBuffer]
  split_ifs <;> rfl

@[simp] theorem releaseImageBuffer_mIs16BitsImage :
    (releaseImageBuffer s).mIs16BitsImage = s.mIs16BitsImage := by
  simp only [releaseImageBuffer, deleteAllocatedImageBuffer]
  split_ifs <;> rfl

theorem releaseImageBuffer_mem (p : Nat) (hp : p ≠ s.mAllocatedImageBuffer) :
    (releaseImageBuffer s).heap.mem p = s.heap.mem p := by
  simp only [releaseImageBuffer, deleteAllocatedImageBuffer, Heap.free]
  split_ifs
  · simp [hp]
  · rfl

theorem release16BitsImageBuffer_mem (p : Nat) (hp : p ≠ s.mAllocated16BitsImageBuffer) :
    (release16BitsImageBuffer s).heap.mem p = s.heap.mem p := by
  simp only [release16BitsImageBuffer, deleteAllocated16BitsImageBuffer, Heap.free]
  split_ifs
  · simp [hp]
  · rfl

@[simp] theorem releaseImageBuffer_mAllocated16BitsImageBuffer :
    (releaseImageBuffer s).mAllocated16BitsImageBuffer = s.mAllocated16BitsImageBuffer := by
  simp only [releaseImageBuffer, deleteAllocatedImageBuffer]
  split_ifs <;> rfl

theorem UpdateWindowSize_pointers (k : Bool) :
    (UpdateWindowSize s k).mAllocatedImageBuffer = s.mAllocatedImageBuffer ∧
    (UpdateWindowSize s k).mAllocated16BitsImageBuffer = s.mAllocated16BitsImageBuffer ∧
    (UpdateWindowSize s k).heap = s.heap := by
  unfold UpdateWindowSize; split
  · exact ⟨rfl, rfl, rfl⟩
  · split <;> exact ⟨rfl, rfl, rfl⟩

end adopt

/-- Claim C6: for every prior state and caller pointer `p`, `SetImageBufferPtr`
for an image that is not a 16-bit image returns; afterwards `GetImageBufferPtr()`
is `p`, both `mAllocatedImageBuffer` and `mAllocated16BitsImageBuffer` are
`NULL`, and a block at `p` that was not one of the engine's own two buffers has
not been freed or written by the call. -/
theorem SetImageBufferPtr_adopts (s : State) (w h : Int) (p : Nat) (c b : Bool) :
    ∃ t, SetImageBufferPtr s w h p c b false = some t ∧
      GetImageBufferPtr t = p ∧
      t.mAllocatedImageBuffer = 0 ∧
      t.mAllocated16BitsImageBuffer = 0 ∧
      (p ≠ s.mAllocatedImageBuffer → p ≠ s.mAllocated16BitsImageBuffer →
        t.heap.mem p = s.heap.mem p) := by
  have h16 := CreateBitmapInfo_mIs16BitsImage (WaitForSingleObject s) w h c b false
  have e8 := CreateBitmapInfo_mAllocatedImageBuffer (WaitForSingleObject s) false w h c b
  have e16 := CreateBitmapInfo_mAllocated16BitsImageBuffer (WaitForSingleObject s) false w h c b
  have eh := CreateBitmapInfo_heap (WaitForSingleObject s) false w h c b
  simp only [SetImageBufferPtr]
  generalize CreateBitmapInfo (WaitForSingleObject s) w h c b false = r at *
  obtain ⟨d, r⟩ := r
  simp only at h16 e8 e16 eh ⊢
  set u := release16BitsImageBuffer (releaseImageBuffer r) with hu
  have hu8 : u.mAllocatedImageBuffer = 0 := by
    rw [hu, release16BitsImageBuffer_mAllocatedImageBuffer,
      releaseImageBuffer_mAllocatedImageBuffer]
  have hu16 : u.mAllocated16BitsImageBuffer = 0 :=
    release16BitsImageBuffer_mAllocated16BitsImageBuffer _
  have hux : u.mIs16BitsImage = false := by simp [hu, h16]
  have hmem : p ≠ s.mAllocatedImageBuffer → p ≠ s.mAllocated16BitsImageBuffer →
      u.heap.mem p = s.heap.mem p := by
    intro h1 h2
    rw [hu, release16BitsImageBuffer_mem _ _ (by simpa [e16] using h2),
      releaseImageBuffer_mem _ _ (by simpa [e8] using h1), eh]
    rfl
  set t1 : State := ReleaseMutex (adoptPointer p false u) with ht1
  have f1 : GetImageBufferPtr t1 = p := by
    simp [ht1, adoptPointer, ReleaseMutex, GetImageBufferPtr, hux]
  have f2 : t1.mAllocatedImageBuffer = 0 := by simp [ht1, adoptPointer, ReleaseMutex, hu8]
  have f3 : t1.mAllocated16BitsImageBuffer = 0 := by
    simp [ht1, adoptPointer, ReleaseMutex, hu16]
  have f4 : t1.heap = u.heap := by simp [ht1, adoptPointer, ReleaseMutex]
  have f5 : t1.mIs16BitsImage = false := by simp [ht1, adoptPointer, ReleaseMutex, hux]
  split_ifs
  · obtain ⟨g1, g2, g3⟩ := UpdateWindowSize_pointers t1 false
    refine ⟨_, rfl, ?_, ?_, ?_, ?_⟩
    · rw [GetImageBufferPtr_UpdateWindowSize]; exact f1
    · rw [g1]; exact f2
    · rw [g2]; exact f3
    · rw [g3, f4]; exact hmem
  · refine ⟨t1, UpdateImage_8bit t1 f5, f1, f2, f3, ?_⟩
    rw [f4]; exact hmem

/-! ### Vertical flip -/

/-- One step of the exchange loop, seen through `getElem?`. -/
theorem swap_getElem? (bits : List Nat) (a b k : Nat) (hab : a < b) (hb : b < bits.length) :
    ((bits.set b (bits.getD a 0)).set a (bits.getD b 0))[k]? =
      if k = a then bits[b]? else if k = b then bits[a]? else bits[k]? := by
  have ha : a < bits.length := by omega
  rw [List.getD_eq_getElem _ _ ha, List.getD_eq_getElem _ _ hb]
  simp only [List.getElem?_set, List.length_set]
  by_cases h1 : k = a
  · subst h1; simp [ha, List.getElem?_eq_getElem hb]
  · by_cases h2 : k = b
    · subst h2
      have : ¬ a = k := fun h => h1 h.symm
      simp [this, h1, hb, List.getElem?_eq_getElem ha]
    · have e1 : ¬ a = k := fun h => h1 h.symm
      have e2 : ¬ b = k := fun h => h2 h.symm
      simp [e1, e2, h1, h2]

/-- The exchange loop on two disjoint runs of `n` bytes at `a` and `b`. -/
theorem swapRow_spec : ∀ (n a b : Nat) (bits : List Nat), a + n ≤ b → b + n ≤ bits.length →
    ∃ out, swapRow n (a : Int) (b : Int) bits = some out ∧ out.length = bits.length ∧
      ∀ k, out[k]? =
        if a ≤ k ∧ k < a + n then bits[k - a + b]?
        else if b ≤ k ∧ k < b + n then bits[k - b + a]? else bits[k]?
  | 0, a, b, bits, _, _ => by
    refine ⟨bits, rfl, rfl, fun k => ?_⟩
    rw [if_neg (by omega), if_neg (by omega)]
  | n + 1, a, b, bits, hab, hb => by
    have hcond : (0 : Int) ≤ (a : Int) ∧ (a : Int) < (bits.length : Int) ∧
        (0 : Int) ≤ (b : Int) ∧ (b : Int) < (bits.length : Int) := by
      refine ⟨by omega, by omega, by omega, by omega⟩
    obtain ⟨out, hout, hlen, hget⟩ :=
      swapRow_spec n (a + 1) (b + 1)
        ((bits.set b (bits.getD a 0)).set a (bits.getD b 0)) (by omega)
        (by simp only [List.length_set]; omega)
    refine ⟨out, ?_, ?_, ?_⟩
    · rw [swapRow, if_pos hcond]
      simp only [Int.toNat_natCast]
      exact_mod_cast hout
    · simpa using hlen
    · intro k
      rw [hget k]
      have hs := fun j => swap_getElem? bits a b j (by omega) (by omega)
      by_cases c1 : a + 1 ≤ k ∧ k < a + 1 + n
      · have e : k - (a + 1) + (b + 1) = k - a + b := by omega
        rw [if_pos c1, if_pos (by omega), hs, e, if_neg (by omega), if_neg (by omega)]
      · rw [if_neg c1]
        by_cases c2 : b + 1 ≤ k ∧ k < b + 1 + n
        · have e : k - (b + 1) + (a + 1) = k - b + a := by omega
          rw [if_pos c2, if_neg (by omega), if_pos (by omega), hs, e, if_neg (by omega),
            if_neg (by omega)]
        · rw [if_neg c2, hs]
          by_cases c3 : k = a
          · subst c3
            rw [if_pos rfl, if_pos (by omega)]; simp
          · rw [if_neg c3]
            by_cases c4 : k = b
            · subst c4
              rw [if_pos rfl, if_neg (by omega), if_pos (by omega)]; simp
            · rw [if_neg c4, if_neg (by omega), if_neg (by omega)]


theorem int32_natCast (n : Nat) (h : n < 2147483648) : int32 (n : Int) = (n : Int) :=
  int32_of_range _ (by omega) (by omega)

theorem row_end_le (S r p : Nat) (h : r < p) : S * r + S ≤ S * p := by
  calc S * r + S = S * (r + 1) := by ring
    _ ≤ S * p := Nat.mul_le_mul_left S h

/-- The exchange loop applied to rows `p` and `q` of a payload of `H` rows of `S`
bytes: the two rows trade places, everything else stays. -/
theorem swapRow_rows (S H p q : Nat) (bits : List Nat) (hpq : p < q) (hq : q < H)
    (hlen : S * H ≤ bits.length) :
    ∃ out, swapRow S ((S * p : Nat) : Int) ((S * q : Nat) : Int) bits = some out ∧
      out.length = bits.length ∧
      (∀ r c, r < H → c < S →
        out[S * r + c]? = bits[S * (if r = p then q else if r = q then p else r) + c]?) ∧
      (∀ k, S * H ≤ k → out[k]? = bits[k]?) := by
  have hpq2 := row_end_le S p q hpq
  have hqH := row_end_le S q H hq
  obtain ⟨out, hout, hl, hget⟩ := swapRow_spec S (S * p) (S * q) bits hpq2 (by omega)
  refine ⟨out, hout, hl, ?_, ?_⟩
  · intro r c hr hc
    rw [hget]
    by_cases h1 : r = p
    · subst h1
      rw [if_pos (by omega), if_pos rfl]
      congr 1; omega
    · by_cases h2 : r = q
      · subst h2
        rw [if_neg (by omega), if_pos (by omega), if_neg h1, if_pos rfl]
        congr 1; omega
      · rw [if_neg h1, if_neg h2]
        rcases Nat.lt_or_gt_of_ne h1 with h3 | h3
        · have := row_end_le S r p h3
          rw [if_neg (by omega), if_neg (by omega)]
        · have := row_end_le S p r h3
          rcases Nat.lt_or_gt_of_ne h2 with h4 | h4
          · have := row_end_le S r q h4
            rw [if_neg (by omega), if_neg (by omega)]
          · have := row_end_le S q r h4
            rw [if_neg (by omega), if_neg (by omega)]
  · intro k hk
    rw [hget, if_neg (by omega), if_neg (by omega)]

/-- The row a row index is taken from after the rows `m, …, m + n - 1` have been
exchanged with their mirror images. -/
theorem flipRows_spec (S H : Nat) (hS : S * H < 2147483648) (hH : H < 2147483648) :
    ∀ (n m : Nat) (bits : List Nat), 2 * (m + n) ≤ H → S * H ≤ bits.length →
    ∃ out, flipRows (S : Int) (H : Int) n (m : Int) bits = some out ∧
      out.length = bits.length ∧
      (∀ r c, r < H → c < S →
        out[S * r + c]? =
          bits[S * (if (m ≤ r ∧ r < m + n) ∨ (m ≤ H - 1 - r ∧ H - 1 - r < m + n)
            then H - 1 - r else r) + c]?) ∧
      (∀ k, S * H ≤ k → out[k]? = bits[k]?)
  | 0, m, bits, _, _ => by
    refine ⟨bits, rfl, rfl, ?_, fun k _ => rfl⟩
    intro r c _ _
    rw [if_neg (by omega)]
  | n + 1, m, bits, hm, hlen => by
    have hq : H - 1 - m < H := by omega
    have hpq : m < H - 1 - m := by omega
    have hSm : S * m + S ≤ S * (H - 1 - m) := row_end_le S m _ hpq
    have hSq : S * (H - 1 - m) + S ≤ S * H := row_end_le S _ H hq
    have e1 : int32 ((S : Int) * (m : Int)) = ((S * m : Nat) : Int) := by
      rw [← Nat.cast_mul]; exact int32_natCast _ (by omega)
    have e2 : int32 ((S : Int) * int32 (int32 ((H : Int) - (m : Int)) - 1)) =
        ((S * (H - 1 - m) : Nat) : Int) := by
      have a1 : int32 ((H : Int) - (m : Int)) = (H : Int) - (m : Int) :=
        int32_of_range _ (by omega) (by omega)
      have a2 : int32 ((H : Int) - (m : Int) - 1) = ((H - 1 - m : Nat) : Int) := by
        rw [int32_of_range _ (by omega) (by omega)]; omega
      rw [a1, a2, ← Nat.cast_mul]; exact int32_natCast _ (by omega)
    have e3 : (m : Int) + 1 = ((m + 1 : Nat) : Int) := by push_cast; rfl
    obtain ⟨b1, hb1, hl1, hrows1, htail1⟩ := swapRow_rows S H m (H - 1 - m) bits hpq hq hlen
    obtain ⟨out, hout, hl, hrows, htail⟩ :=
      flipRows_spec S H hS hH n (m + 1) b1 (by omega) (by omega)
    refine ⟨out, ?_, by omega, ?_, ?_⟩
    · rw [flipRows, e1, e2, Int.toNat_natCast, hb1]
      simp only
      rw [e3]; exact hout
    · intro r c hr hc
      rw [hrows r c hr hc, hrows1 _ c (by split_ifs <;> omega) hc]
      have key : ∀ r1 : Nat,
          r1 = (if (m + 1 ≤ r ∧ r < m + 1 + n) ∨ (m + 1 ≤ H - 1 - r ∧ H - 1 - r < m + 1 + n)
            then H - 1 - r else r) →
          (if r1 = m then H - 1 - m else if r1 = H - 1 - m then m else r1) =
          (if (m ≤ r ∧ r < m + (n + 1)) ∨ (m ≤ H - 1 - r ∧ H - 1 - r < m + (n + 1))
            then H - 1 - r else r) := by
        intro r1 h1
        split_ifs at h1 ⊢ <;> omega
      rw [key _ rfl]
    · intro k hk
      rw [htail k hk, htail1 k hk]


/-- What `FlipBitmap` does: it returns, the height field is negated, and with
`S = flipRowBytes` and `H = rowCount` row `r` of the result is row `H - 1 - r` of
the payload, bytes past the `H` rows being left alone. -/
theorem FlipBitmap_rows (hdr : BITMAPINFOHEADER) (bits : List Nat)
    (hw : 0 ≤ hdr.biWidth) (hmin : -2147483648 < hdr.biHeight)
    (hmax : hdr.biHeight < 2147483648)
    (hfit : flipRowBytes hdr * rowCount hdr < 2147483648)
    (hlen : flipRowBytes hdr * rowCount hdr ≤ bits.length) :
    ∃ out, FlipBitmap hdr bits = some ({ hdr with biHeight := -hdr.biHeight }, out) ∧
      out.length = bits.length ∧
      (∀ r c, r < rowCount hdr → c < flipRowBytes hdr →
        out[flipRowBytes hdr * r + c]? =
          bits[flipRowBytes hdr * (rowCount hdr - 1 - r) + c]?) ∧
      (∀ k, flipRowBytes hdr * rowCount hdr ≤ k → out[k]? = bits[k]?) := by
  set S := flipRowBytes hdr with hS
  set H := rowCount hdr with hH
  have hHlt : H < 2147483648 := by rw [hH, rowCount]; omega
  have habs : abs32 hdr.biHeight = (H : Int) := by
    have e : |hdr.biHeight| = (H : Int) := by rw [hH, rowCount, Int.abs_eq_natAbs]
    unfold abs32; rw [e]; exact int32_natCast _ hHlt
  have hneg : int32 (hdr.biHeight * -1) = -hdr.biHeight := by
    rw [mul_neg, mul_one]; exact int32_of_range _ (by omega) (by omega)
  have hdiv : (Int.tdiv (H : Int) 2).toNat = H / 2 := by
    rw [Int.tdiv_eq_ediv (Int.ofNat_nonneg H) (by norm_num)]; omega
  have hflip : ∃ out,
      (if hdr.biBitCount = 8 then flipRows hdr.biWidth (H : Int) (H / 2) 0 bits
        else flipRows (int32 (hdr.biWidth * 3)) (H : Int) (H / 2) 0 bits) = some out ∧
      out.length = bits.length ∧
      (∀ r c, r < H → c < S → out[S * r + c]? = bits[S * (H - 1 - r) + c]?) ∧
      (∀ k, S * H ≤ k → out[k]? = bits[k]?) := by
    rcases Nat.eq_zero_or_pos H with h0 | hpos
    · refine ⟨bits, ?_, rfl, ?_, fun k _ => rfl⟩
      · rw [h0]; split_ifs <;> rfl
      · intro r c hr; omega
    · have hSle : S ≤ S * H := Nat.le_mul_of_pos_right S hpos
      have hrb : (if hdr.biBitCount = 8 then hdr.biWidth else int32 (hdr.biWidth * 3))
          = (S : Int) := by
        rw [hS, flipRowBytes]
        split_ifs with h8
        · rw [Int.toNat_of_nonneg hw]
        · have h3 : 0 ≤ hdr.biWidth * 3 := by omega
          have hlt : (hdr.biWidth * 3).toNat < 2147483648 := by
            have : S = (hdr.biWidth * 3).toNat := by rw [hS, flipRowBytes, if_neg h8]
            omega
          rw [Int.toNat_of_nonneg h3]
          exact int32_of_range _ (by omega) (by omega)
      obtain ⟨out, hout, hl, hrows, htail⟩ :=
        flipRows_spec S H hfit hHlt (H / 2) 0 bits (by omega) hlen
      refine ⟨out, ?_, hl, ?_, htail⟩
      · have : (if hdr.biBitCount = 8 then flipRows hdr.biWidth (H : Int) (H / 2) 0 bits
            else flipRows (int32 (hdr.biWidth * 3)) (H : Int) (H / 2) 0 bits) =
            flipRows (if hdr.biBitCount = 8 then hdr.biWidth else int32 (hdr.biWidth * 3))
              (H : Int) (H / 2) 0 bits := by split_ifs <;> rfl
        rw [this, hrb]; exact_mod_cast hout
      · intro r c hr hc
        rw [hrows r c hr hc]
        have key : (if (0 ≤ r ∧ r < 0 + H / 2) ∨ (0 ≤ H - 1 - r ∧ H - 1 - r < 0 + H / 2)
            then H - 1 - r else r) = H - 1 - r := by
          split_ifs <;> omega
        rw [key]
  obtain ⟨out, hout, hl, hrows, htail⟩ := hflip
  refine ⟨out, ?_, hl, hrows, htail⟩
  simp only [FlipBitmap, habs, hdiv, hneg, hout]


/-- Claim C8: for a header of width at least 0 and stored height in the `int`
range other than the most negative value, and a payload that holds the rows the
header describes (the flipped region being addressable with `int` indices),
`FlipBitmap` returns, and applied to its own result it returns the original
header (height field included) and a payload identical to the original. -/
theorem FlipBitmap_involution (hdr : BITMAPINFOHEADER) (bits : List Nat)
    (hw : 0 ≤ hdr.biWidth) (hmin : -2147483648 < hdr.biHeight)
    (hmax : hdr.biHeight < 2147483648)
    (hfit : flipRowBytes hdr * rowCount hdr < 2147483648)
    (hlen : flipRowBytes hdr * rowCount hdr ≤ bits.length) :
    ∃ hdr1 bits1, FlipBitmap hdr bits = some (hdr1, bits1) ∧
      FlipBitmap hdr1 bits1 = some (hdr, bits) := by
  obtain ⟨out, hout, hl, hrows, htail⟩ := FlipBitmap_rows hdr bits hw hmin hmax hfit hlen
  set hdr1 : BITMAPINFOHEADER := { hdr with biHeight := -hdr.biHeight } with hhdr1
  have eS : flipRowBytes hdr1 = flipRowBytes hdr := rfl
  have eH : rowCount hdr1 = rowCount hdr := by
    simp only [rowCount, hhdr1, Int.natAbs_neg]
  obtain ⟨out2, hout2, hl2, hrows2, htail2⟩ :=
    FlipBitmap_rows hdr1 out hw (by simp only [hhdr1]; omega) (by simp only [hhdr1]; omega)
      (by rw [eS, eH]; exact hfit) (by rw [eS, eH, hl]; exact hlen)
  rw [eS, eH] at hrows2 htail2
  have hback : { hdr1 with biHeight := -hdr1.biHeight } = hdr := by
    cases hdr; simp [hhdr1]
  rw [hback] at hout2
  refine ⟨hdr1, out, hout, ?_⟩
  rw [hout2]
  congr 2
  apply List.ext_getElem?
  intro k
  set S := flipRowBytes hdr with hS
  set H := rowCount hdr with hH
  by_cases hk : S * H ≤ k
  · rw [htail2 k hk, htail k hk]
  · have hk : k < S * H := by omega
    have hSpos : 0 < S := by
      rcases Nat.eq_zero_or_pos S with h0 | h0
      · rw [h0] at hk; omega
      · exact h0
    have hr : k / S < H := Nat.div_lt_of_lt_mul hk
    have hc : k % S < S := Nat.mod_lt _ hSpos
    have hkd : S * (k / S) + k % S = k := Nat.div_add_mod k S
    generalize k / S = r at hr hkd
    generalize k % S = c at hc hkd
    have e := hrows2 r c hr hc
    have e1 := hrows (H - 1 - r) c (by omega) hc
    have e2 : H - 1 - (H - 1 - r) = r := by omega
    rw [e2] at e1
    rw [hkd] at e e1
    rw [e, e1]

/-- Witness of claim C8: a top-down 8-bit header of 2 by 3 pixels and its six
payload bytes. -/
theorem FlipBitmap_involution_witness :
    ∃ hdr1 bits1,
      FlipBitmap ⟨40, 2, -3, 1, 8, 0, 0, 100, 100, 256, 256⟩ [1, 2, 3, 4, 5, 6] =
        some (hdr1, bits1) ∧
      FlipBitmap hdr1 bits1 =
        some (⟨40, 2, -3, 1, 8, 0, 0, 100, 100, 256, 256⟩, [1, 2, 3, 4, 5, 6]) :=
  FlipBitmap_involution ⟨40, 2, -3, 1, 8, 0, 0, 100, 100, 256, 256⟩ [1, 2, 3, 4, 5, 6]
    (by decide) (by decide) (by decide) (by decide) (by decide)

/-- Claim C9 (the code at the failing input): on a bottom-up 24-bit header of
1 by 2 pixels and a payload of two rows padded to four bytes, `FlipBitmap`
exchanges bytes 0..2 with bytes 3..5, the rows of `width * 3` bytes; the result
is not the two four-byte rows in reverse order. -/
theorem FlipBitmap_ignores_row_padding :
    FlipBitmap ⟨40, 1, 2, 1, 24, 0, 0, 100, 100, 0, 0⟩ [1, 2, 3, 0, 4, 5, 6, 0] =
        some (⟨40, 1, -2, 1, 24, 0, 0, 100, 100, 0, 0⟩, [0, 4, 5, 1, 2, 3, 6, 0])
    ∧ FlipBitmap ⟨40, 1, 2, 1, 24, 0, 0, 100, 100, 0, 0⟩ [1, 2, 3, 0, 4, 5, 6, 0] ≠
        some (⟨40, 1, -2, 1, 24, 0, 0, 100, 100, 0, 0⟩, [4, 5, 6, 0, 1, 2, 3, 0]) := by
  decide

/-! ### 16-bit display conversion with map mode disabled -/

theorem sample16_of_lt (b : List Nat) (i : Nat) (h : 2 * i + 1 < b.length) :
    sample16 b i = some (b.getD (2 * i) 0 % 256 + 256 * (b.getD (2 * i + 1) 0 % 256)) := by
  have h0 : 2 * i < b.length := by omega
  simp only [sample16, List.getElem?_eq_getElem h0, List.getElem?_eq_getElem h,
    List.getD_eq_getElem _ _ h0, List.getD_eq_getElem _ _ h]

theorem sample16_lt (b : List Nat) (i v : Nat) (h : sample16 b i = some v) : v < 65536 := by
  unfold sample16 at h
  split at h
  · injection h with h; omega
  · exact absurd h (by simp)

theorem shift_byte (v : Nat) (h : v < 65536) : (v >>> 8) % 256 = v >>> 8 := by
  rw [Nat.shiftRight_eq_div_pow]; omega

/-- The pixel loop with map mode disabled: it runs to its end, writes the high
byte of sample `j` at index `j` of the destination for the `n` indices from `i`
on, and touches nothing else. -/
theorem update16Loop_shift (src dst : Nat) (hne : src ≠ dst) (sb : List Nat) :
    ∀ (n i : Nat) (h : Heap) (db : List Nat),
      h.mem src = some sb → h.mem dst = some db →
      2 * (i + n) ≤ sb.length → i + n ≤ db.length →
      ∃ h1 out, update16Loop shiftValue src dst n i h = some h1 ∧
        h1.mem src = some sb ∧ h1.mem dst = some out ∧ out.length = db.length ∧
        (∀ q, q ≠ dst → h1.mem q = h.mem q) ∧
        (∀ j, i ≤ j → j < i + n → ∃ v, sample16 sb j = some v ∧ out[j]? = some (v >>> 8)) ∧
        (∀ j, j < i ∨ i + n ≤ j → out[j]? = db[j]?)
  | 0, i, h, db, hs, hd, _, _ => by
    refine ⟨h, db, rfl, hs, hd, rfl, fun _ _ => rfl, ?_, fun _ _ => rfl⟩
    intro j h1 h2; omega
  | n + 1, i, h, db, hs, hd, hsl, hdl => by
    have hsv := sample16_of_lt sb i (by omega)
    set v := sb.getD (2 * i) 0 % 256 + 256 * (sb.getD (2 * i + 1) 0 % 256) with hv
    have hvlt : v < 65536 := sample16_lt sb i v hsv
    have hi : i < db.length := by omega
    set h0 : Heap := h.store dst (db.set i ((v >>> 8) % 256)) with hh0
    have hs0 : h0.mem src = some sb := by
      simp only [hh0, Heap.store, if_neg hne]; exact hs
    have hd0 : h0.mem dst = some (db.set i ((v >>> 8) % 256)) := by
      simp only [hh0, Heap.store, if_pos]
    obtain ⟨h1, out, hrun, hs1, hd1, hl1, hfr, hwr, hkeep⟩ :=
      update16Loop_shift src dst hne sb n (i + 1) h0 (db.set i ((v >>> 8) % 256)) hs0 hd0
        (by omega) (by simp only [List.length_set]; omega)
    refine ⟨h1, out, ?_, hs1, hd1, by simpa using hl1, ?_, ?_, ?_⟩
    · rw [update16Loop, hs, hd]
      simp only [hsv, hi, if_true, shiftValue]
      exact hrun
    · intro q hq
      rw [hfr q hq]
      simp only [hh0, Heap.store, if_neg hq]
    · intro j h1 h2
      by_cases hj : j = i
      · subst hj
        refine ⟨v, hsv, ?_⟩
        rw [hkeep j (by omega), List.getElem?_set, if_pos rfl, if_pos hi, shift_byte v hvlt]
      · exact hwr j (by omega) (by omega)
    · intro j hj
      rw [hkeep j (by omega), List.getElem?_set, if_neg (by omega)]


/-- Claim C10: with map mode disabled, on a state whose 16-bit buffer and
display buffer are distinct live blocks holding the `cy * cx` pixels of
`mImageSize`, `Update16BitsImageDisp` returns, leaves the 16-bit block as it
was, and for every pixel index `i` below `cy * cx` the display byte `i` is
sample `i` shifted right by 8. -/
theorem Update16BitsImageDisp_disabled (s : State) (sb db : List Nat)
    (hmode : s.mIsMapModeEnabled = false)
    (hne : s.mAllocated16BitsImageBuffer ≠ s.mAllocatedImageBuffer)
    (hs : s.heap.mem s.mAllocated16BitsImageBuffer = some sb)
    (hd : s.heap.mem s.mAllocatedImageBuffer = some db)
    (hsl : 2 * (s.mImageSize.cy.toNat * s.mImageSize.cx.toNat) ≤ sb.length)
    (hdl : s.mImageSize.cy.toNat * s.mImageSize.cx.toNat ≤ db.length) :
    ∃ t out, Update16BitsImageDisp s = some t ∧
      t.heap.mem s.mAllocated16BitsImageBuffer = some sb ∧
      t.heap.mem s.mAllocatedImageBuffer = some out ∧
      out.length = db.length ∧
      ∀ i, i < s.mImageSize.cy.toNat * s.mImageSize.cx.toNat →
        ∃ v, sample16 sb i = some v ∧ out[i]? = some (v >>> 8) := by
  obtain ⟨h1, out, hrun, hs1, hd1, hl1, _, hwr, _⟩ :=
    update16Loop_shift s.mAllocated16BitsImageBuffer s.mAllocatedImageBuffer hne sb
      (s.mImageSize.cy.toNat * s.mImageSize.cx.toNat) 0 s.heap db hs hd (by omega) (by omega)
  refine ⟨{ s with heap := h1 }, out, ?_, hs1, hd1, hl1, ?_⟩
  · simp only [Update16BitsImageDisp, hmode, if_true, hrun]
  · intro i hi
    exact hwr i (by omega) (by omega)

/-- Witness of claim C10: the samples `0x1234` and `0xABCD` give the display
bytes `0x12` and `0xAB`. -/
theorem Update16BitsImageDisp_disabled_witness :
    sample16State.heap.mem sample16State.mAllocated16BitsImageBuffer
        = some [52, 18, 205, 171] ∧
    ∃ t out, Update16BitsImageDisp sample16State = some t ∧
      t.heap.mem sample16State.mAllocated16BitsImageBuffer = some [52, 18, 205, 171] ∧
      t.heap.mem sample16State.mAllocatedImageBuffer = some out ∧
      out.length = [0, 0].length ∧
      ∀ i, i < sample16State.mImageSize.cy.toNat * sample16State.mImageSize.cx.toNat →
        ∃ v, sample16 [52, 18, 205, 171] i = some v ∧ out[i]? = some (v >>> 8) :=
  ⟨by decide,
   Update16BitsImageDisp_disabled sample16State [52, 18, 205, 171] [0, 0]
    (by decide) (by decide) (by decide) (by decide) (by decide) (by decide)⟩

/-! ### The buffer invariant is kept -/

theorem EngineBufferOk_init : EngineBufferOk init := fun h => absurd rfl h

theorem EngineBufferOk_of_eq (s t : State)
    (h8 : t.mAllocatedImageBuffer = s.mAllocatedImageBuffer)
    (h16 : t.mAllocated16BitsImageBuffer = s.mAllocated16BitsImageBuffer)
    (hb : t.mBitmapBits = s.mBitmapBits) (hsz : t.mBitmapBitsSize = s.mBitmapBitsSize)
    (hh : t.heap = s.heap) (hok : EngineBufferOk s) : EngineBufferOk t := by
  unfold EngineBufferOk at *
  rw [h8, h16, hb, hsz, hh]; exact hok

theorem CreateNewImageBuffer_active (u : State) (k : Bool)
    (hne : (CreateNewImageBuffer u k).2.mAllocatedImageBuffer ≠ 0) :
    (CreateNewImageBuffer u k).2.mBitmapBits =
      (CreateNewImageBuffer u k).2.mAllocatedImageBuffer := by
  by_cases hr : u.mBitmapBitsSize ≤ u.heap.limit
  · have hz : ¬ (u.heap.next + 1 = 0) := by omega
    simp only [CreateNewImageBuffer, Heap.alloc_of_le _ _ hr, if_neg hz]
    split_ifs <;> rfl
  · have ha : u.heap.alloc u.mBitmapBitsSize = (0, u.heap) := by simp [Heap.alloc, hr]
    simp only [CreateNewImageBuffer, ha, ReleaseMutex, if_true] at hne
    exact absurd rfl hne

/-- `PrepareImageBuffers` for an image that is not a 16-bit image, with the
allocation served, keeps the buffer invariant. -/
theorem PrepareImageBuffers_EngineBufferOk (s : State) (w h : Int) (c b : Bool)
    (hok : EngineBufferOk s)
    (hroom : (CreateBitmapInfo s w h c b false).2.mBitmapBitsSize ≤ s.heap.limit) :
    EngineBufferOk (PrepareImageBuffers s w h c b false).2 := by
  obtain ⟨blk, hblk, hlen⟩ := PrepareImageBuffers_live s w h c b hok hroom
  have h16 : (PrepareImageBuffers s w h c b false).2.mAllocated16BitsImageBuffer = 0 := by
    simp only [PrepareImageBuffers, ensure16BitsImageBuffer, Bool.false_eq_true, false_and,
      if_false, ensureImageBuffer_mAllocated16BitsImageBuffer]
    exact releaseIfResized_mAllocated16BitsImageBuffer _ _
      (Or.inl (release16BitsIfUnused_false _))
  have hbits : (PrepareImageBuffers s w h c b false).2.mAllocatedImageBuffer ≠ 0 →
      (PrepareImageBuffers s w h c b false).2.mBitmapBits =
        (PrepareImageBuffers s w h c b false).2.mAllocatedImageBuffer := by
    have e8 := CreateBitmapInfo_mAllocatedImageBuffer s false w h c b
    have eb := CreateBitmapInfo_mBitmapBits s false w h c b
    simp only [PrepareImageBuffers, ensure16BitsImageBuffer, Bool.false_eq_true, false_and,
      if_false]
    generalize CreateBitmapInfo s w h c b false = r at *
    obtain ⟨d, r⟩ := r
    simp only at e8 eb ⊢
    set t1 := release16BitsIfUnused false { r with mExternal16BitsImageBuffer := 0 } with ht1
    have a8 : t1.mAllocatedImageBuffer = s.mAllocatedImageBuffer := by
      rw [ht1, release16BitsIfUnused_mAllocatedImageBuffer]; exact e8
    have ab : t1.mBitmapBits = s.mBitmapBits := by
      rw [ht1]; simp only [release16BitsIfUnused, deleteAllocated16BitsImageBuffer]
      split_ifs <;> exact eb
    intro hne
    by_cases hz : (releaseIfResized d t1).mAllocatedImageBuffer = 0
    · simp only [ensureImageBuffer, if_pos hz] at hne ⊢
      exact CreateNewImageBuffer_active _ _ hne
    · have hsame : releaseIfResized d t1 = t1 := by
        simp only [releaseIfResized, deleteAllocatedImageBuffer,
          deleteAllocated16BitsImageBuffer] at hz ⊢
        split_ifs at hz ⊢ <;> first | rfl | exact absurd rfl hz
      simp only [ensureImageBuffer, if_neg hz]
      rw [hsame, ab, a8]
      rw [hsame, a8] at hz
      exact (hok hz).1
  intro hne
  refine ⟨hbits hne, by rw [h16]; exact fun e => hne e.symm, blk, ?_, hlen⟩
  rw [← hbits hne]; exact hblk

theorem EngineBufferOk_AllocateImageBuffer (s : State) (w h : Int) (c b : Bool)
    (hok : EngineBufferOk s)
    (hroom : (CreateBitmapInfo (WaitForSingleObject s) w h c b false).2.mBitmapBitsSize
      ≤ s.heap.limit) :
    EngineBufferOk (AllocateImageBuffer s w h c b false) := by
  have hP := PrepareImageBuffers_EngineBufferOk (WaitForSingleObject s) w h c b hok hroom
  simp only [AllocateImageBuffer]
  split_ifs
  · obtain ⟨g1, g2, g3⟩ :=
      UpdateWindowSize_pointers
        (ReleaseMutex (PrepareImageBuffers (WaitForSingleObject s) w h c b false).2) false
    refine EngineBufferOk_of_eq _ _ g1 g2 ?_ (UpdateWindowSize_mBitmapBitsSize _ _) g3 hP
    unfold UpdateWindowSize; split
    · rfl
    · split <;> rfl
  · exact hP

/-! ### Tone mapping of one sample -/

theorem truncToInt_of_nonneg (q : ℚ) (h : 0 ≤ q) : truncToInt q = ⌊q⌋ := by
  simp [truncToInt, h]

/-- The mapped branch, for a sample above the limit and distinct top and bottom
values, is `mapFinish` of the ramp value. -/
theorem mapValue_setMapFields (s : State) (b t L v : Nat) (r : Bool)
    (hv : L < v) (hbt : t ≠ b) :
    mapValue (setMapFields s b t r L) v = some (mapFinish L (rampValue b t r v)) := by
  have h1 : ¬ v ≤ L := by omega
  have h2 : ¬ ((t : Int) - (b : Int) = 0) := by omega
  simp only [mapValue, setMapFields, if_neg h1, if_neg h2, rampValue]
  congr 2
  cases r <;> simp

theorem mapValue_direct (s : State) (b t L v : Nat) (r : Bool) (hv : v ≤ L) :
    mapValue (setMapFields s b t r L) v = some v := by
  simp [mapValue, setMapFields, hv]

theorem shadowByte_setMapFields (s : State) (b t L v : Nat) (r : Bool) :
    shadowByte (setMapFields s b t r L) v =
      (mapValue (setMapFields s b t r L) v).map (fun value => value % 256) := by
  have e : (setMapFields s b t r L).mIsMapModeEnabled = true := rfl
  unfold shadowByte
  rw [e]
  cases mapValue (setMapFields s b t r L) v <;> rfl

/-- At or below the limit the lifted value is `limit + 1`. -/
theorem mapFinish_of_le (L : Nat) (d : ℚ) (h : d ≤ (L : ℚ)) :
    mapFinish L d = (L + 1) % 65536 := by
  have h1 : (if d > 255 then (255 : ℚ) else d) ≤ (L : ℚ) := by
    split_ifs with hc
    · linarith
    · exact h
  have h2 : (0 : ℚ) ≤ (L : ℚ) + 1 := by positivity
  simp only [mapFinish, if_pos h1, truncToInt_of_nonneg _ h2]
  have : ⌊(L : ℚ) + 1⌋ = ((L + 1 : Nat) : Int) := by
    have : ((L : ℚ) + 1) = (((L + 1 : Nat) : Int) : ℚ) := by push_cast; ring
    rw [this, Int.floor_intCast]
  rw [this, Int.toNat_natCast]

/-- With a limit of 255 or more every value is at or below the limit after the
clamp. -/
theorem mapFinish_of_big (L : Nat) (d : ℚ) (h : 255 ≤ L) :
    mapFinish L d = (L + 1) % 65536 := by
  have hL : (255 : ℚ) ≤ (L : ℚ) := by exact_mod_cast h
  have h1 : (if d > 255 then (255 : ℚ) else d) ≤ (L : ℚ) := by
    split_ifs with hc
    · exact hL
    · push_neg at hc; linarith
  have h2 : (0 : ℚ) ≤ (L : ℚ) + 1 := by positivity
  simp only [mapFinish, if_pos h1, truncToInt_of_nonneg _ h2]
  have : ⌊(L : ℚ) + 1⌋ = ((L + 1 : Nat) : Int) := by
    have : ((L : ℚ) + 1) = (((L + 1 : Nat) : Int) : ℚ) := by push_cast; ring
    rw [this, Int.floor_intCast]
  rw [this, Int.toNat_natCast]

/-- From `limit + 1` on, with a limit below 255, the result is the floor of the
clamped value and lies between `limit + 1` and 255. -/
theorem mapFinish_of_ge (L : Nat) (d : ℚ) (hL : L ≤ 254) (h : (L : ℚ) + 1 ≤ d) :
    mapFinish L d = ⌊min d 255⌋.toNat ∧ L + 1 ≤ ⌊min d 255⌋.toNat ∧
      ⌊min d 255⌋.toNat ≤ 255 := by
  have hL1 : (L : ℚ) + 1 ≤ 255 := by
    have : (L : ℚ) ≤ 254 := by exact_mod_cast hL
    linarith
  have hmin : (if d > 255 then (255 : ℚ) else d) = min d 255 := by
    split_ifs with hc
    · rw [min_eq_right (le_of_lt hc)]
    · push_neg at hc; rw [min_eq_left hc]
  have hge : (L : ℚ) + 1 ≤ min d 255 := le_min h hL1
  have hnot : ¬ (min d 255 ≤ (L : ℚ)) := by linarith
  have hpos : (0 : ℚ) ≤ min d 255 := by
    have : (0 : ℚ) ≤ (L : ℚ) := by positivity
    linarith
  have hfl1 : ((L + 1 : Nat) : Int) ≤ ⌊min d 255⌋ := by
    rw [Int.le_floor]; push_cast; exact hge
  have hfl2 : ⌊min d 255⌋ ≤ 255 := by
    have : ⌊min d 255⌋ ≤ ⌊(255 : ℚ)⌋ := Int.floor_le_floor (min_le_right _ _)
    have e : ⌊(255 : ℚ)⌋ = 255 := by
      have : (255 : ℚ) = ((255 : Int) : ℚ) := by norm_num
      rw [this, Int.floor_intCast]
    omega
  refine ⟨?_, by omega, by omega⟩
  simp only [mapFinish, hmin, if_neg hnot, truncToInt_of_nonneg _ hpos]
  omega


/-- The pixel loop for any conversion `f` that is defined on the samples it
meets: it runs to its end and stores the low byte of `f` of sample `j` at index
`j` of the destination. -/
theorem update16Loop_spec (f : Nat → Option Nat) (src dst : Nat) (hne : src ≠ dst)
    (sb : List Nat) :
    ∀ (n i : Nat) (h : Heap) (db : List Nat),
      h.mem src = some sb → h.mem dst = some db →
      2 * (i + n) ≤ sb.length → i + n ≤ db.length →
      (∀ j v, i ≤ j → j < i + n → sample16 sb j = some v → ∃ value, f v = some value) →
      ∃ h1 out, update16Loop f src dst n i h = some h1 ∧
        h1.mem src = some sb ∧ h1.mem dst = some out ∧ out.length = db.length ∧
        (∀ j, i ≤ j → j < i + n →
          ∃ v value, sample16 sb j = some v ∧ f v = some value ∧
            out[j]? = some (value % 256)) ∧
        (∀ j, j < i ∨ i + n ≤ j → out[j]? = db[j]?)
  | 0, i, h, db, hs, hd, _, _, _ => by
    refine ⟨h, db, rfl, hs, hd, rfl, ?_, fun _ _ => rfl⟩
    intro j h1 h2; omega
  | n + 1, i, h, db, hs, hd, hsl, hdl, hf => by
    have hsv := sample16_of_lt sb i (by omega)
    set v := sb.getD (2 * i) 0 % 256 + 256 * (sb.getD (2 * i + 1) 0 % 256) with hv
    obtain ⟨value, hvalue⟩ := hf i v (le_refl i) (by omega) hsv
    have hi : i < db.length := by omega
    set h0 : Heap := h.store dst (db.set i (value % 256)) with hh0
    have hs0 : h0.mem src = some sb := by
      simp only [hh0, Heap.store, if_neg hne]; exact hs
    have hd0 : h0.mem dst = some (db.set i (value % 256)) := by
      simp only [hh0, Heap.store, if_pos]
    obtain ⟨h1, out, hrun, hs1, hd1, hl1, hwr, hkeep⟩ :=
      update16Loop_spec f src dst hne sb n (i + 1) h0 (db.set i (value % 256)) hs0 hd0
        (by omega) (by simp only [List.length_set]; omega)
        (fun j w h1 h2 h3 => hf j w (by omega) (by omega) h3)
    refine ⟨h1, out, ?_, hs1, hd1, by simpa using hl1, ?_, ?_⟩
    · rw [update16Loop, hs, hd]
      simp only [hsv, hi, if_true, hvalue]
      exact hrun
    · intro j h1 h2
      by_cases hj : j = i
      · subst hj
        refine ⟨v, value, hsv, hvalue, ?_⟩
        rw [hkeep j (by omega), List.getElem?_set, if_pos rfl, if_pos hi]
      · exact hwr j (by omega) (by omega)
    · intro j hj
      rw [hkeep j (by omega), List.getElem?_set, if_neg (by omega)]

/-- `Update16BitsImageDisp` stores `shadowByte` of every sample: on a state whose
16-bit buffer and display buffer are distinct live blocks holding the pixels of
`mImageSize`, and whose conversion is defined on every sample, it returns and
display byte `i` is `shadowByte` of sample `i`. -/
theorem Update16BitsImageDisp_shadowByte (s : State) (sb db : List Nat)
    (hne : s.mAllocated16BitsImageBuffer ≠ s.mAllocatedImageBuffer)
    (hs : s.heap.mem s.mAllocated16BitsImageBuffer = some sb)
    (hd : s.heap.mem s.mAllocatedImageBuffer = some db)
    (hsl : 2 * (s.mImageSize.cy.toNat * s.mImageSize.cx.toNat) ≤ sb.length)
    (hdl : s.mImageSize.cy.toNat * s.mImageSize.cx.toNat ≤ db.length)
    (hdef : ∀ j v, j < s.mImageSize.cy.toNat * s.mImageSize.cx.toNat →
      sample16 sb j = some v → ∃ m, shadowByte s v = some m) :
    ∃ t out, Update16BitsImageDisp s = some t ∧
      t.heap.mem s.mAllocated16BitsImageBuffer = some sb ∧
      t.heap.mem s.mAllocatedImageBuffer = some out ∧
      out.length = db.length ∧
      ∀ i, i < s.mImageSize.cy.toNat * s.mImageSize.cx.toNat →
        ∃ v, sample16 sb i = some v ∧ out[i]? = shadowByte s v := by
  set f : Nat → Option Nat :=
    if s.mIsMapModeEnabled = false then shiftValue else mapValue s with hf
  have hsh : ∀ v, shadowByte s v =
      match f v with
      | some value => some (value % 256)
      | none => none := by
    intro v; simp only [shadowByte, hf]; split_ifs <;> rfl
  obtain ⟨h1, out, hrun, hs1, hd1, hl1, hwr, _⟩ :=
    update16Loop_spec f s.mAllocated16BitsImageBuffer s.mAllocatedImageBuffer hne sb
      (s.mImageSize.cy.toNat * s.mImageSize.cx.toNat) 0 s.heap db hs hd (by omega) (by omega)
      (by
        intro j v _ h2 h3
        obtain ⟨m, hm⟩ := hdef j v (by omega) h3
        rw [hsh] at hm
        cases hfv : f v with
        | none => rw [hfv] at hm; exact absurd hm (by simp)
        | some value => exact ⟨value, rfl⟩)
  refine ⟨{ s with heap := h1 }, out, ?_, hs1, hd1, hl1, ?_⟩
  · simp only [Update16BitsImageDisp, ← hf, hrun]
  · intro i hi
    obtain ⟨v, value, h1, h2, h3⟩ := hwr i (by omega) (by omega)
    refine ⟨v, h1, ?_⟩
    rw [h3, hsh, h2]

theorem rampValue_mono (b t v1 v2 : Nat) (hbt : b < t) (h : v1 ≤ v2) :
    rampValue b t false v1 ≤ rampValue b t false v2 := by
  have hk : (0 : ℚ) ≤ ddiv 255 ((t : ℚ) - (b : ℚ)) := by
    have : (b : ℚ) < (t : ℚ) := by exact_mod_cast hbt
    exact toDouble_nonneg _ (div_nonneg (by norm_num) (by linarith))
  have hv : (v1 : ℚ) - (b : ℚ) ≤ (v2 : ℚ) - (b : ℚ) := by
    have : (v1 : ℚ) ≤ (v2 : ℚ) := by exact_mod_cast h
    linarith
  simp only [rampValue, if_true]
  exact toDouble_mono _ _ (mul_le_mul_of_nonneg_left hv hk)

theorem rampValue_anti (b t v1 v2 : Nat) (hbt : b < t) (h : v1 ≤ v2) :
    rampValue b t true v2 ≤ rampValue b t true v1 := by
  have := rampValue_mono b t v1 v2 hbt h
  simp only [rampValue, if_true, Bool.true_eq_false, if_false] at this ⊢
  exact toDouble_mono _ _ (by linarith)

/-- The magnitude of the exact product `255 / (t - b) * (v - b)` for 16-bit
values. -/
theorem specRamp_product_le (b t v : Nat) (hbt : t ≠ b) (hb : b < 65536) (hv : v < 65536) :
    |(255 : ℚ) / ((t : ℚ) - (b : ℚ)) * ((v : ℚ) - (b : ℚ))| ≤ 16711425 := by
  have h1 : (1 : ℚ) ≤ |(t : ℚ) - (b : ℚ)| := by
    have : (1 : Int) ≤ |(t : Int) - (b : Int)| := Int.one_le_abs (by omega)
    exact_mod_cast this
  have h2 : |(v : ℚ) - (b : ℚ)| ≤ 65535 := by
    have : |(v : Int) - (b : Int)| ≤ 65535 := by rw [abs_le]; constructor <;> omega
    exact_mod_cast this
  have h3 : |(255 : ℚ) / ((t : ℚ) - (b : ℚ))| ≤ 255 := by
    rw [abs_div, div_le_iff₀ (by linarith)]
    have : |(255 : ℚ)| = 255 := abs_of_pos (by norm_num)
    rw [this]; nlinarith
  rw [abs_mul]
  calc |(255 : ℚ) / ((t : ℚ) - (b : ℚ))| * |(v : ℚ) - (b : ℚ)|
      ≤ 255 * 65535 := mul_le_mul h3 h2 (abs_nonneg _) (by norm_num)
    _ = 16711425 := by norm_num

/-- For 16-bit values the ramp the source computes in `double` is within
`2 ^ -26` of the exact ramp. -/
theorem rampValue_close (b t v : Nat) (r : Bool) (hbt : t ≠ b) (hb : b < 65536)
    (hv : v < 65536) :
    |rampValue b t r v - specRampValue b t r v| ≤ 1 / 2 ^ (26 : ℕ) := by
  have hp := specRamp_product_le b t v hbt hb hv
  have he := toDouble_mul_error ((255 : ℚ) / ((t : ℚ) - (b : ℚ))) ((v : ℚ) - (b : ℚ))
  set p : ℚ := (255 : ℚ) / ((t : ℚ) - (b : ℚ)) * ((v : ℚ) - (b : ℚ)) with hpdef
  set p2 : ℚ := toDouble (toDouble ((255 : ℚ) / ((t : ℚ) - (b : ℚ))) * ((v : ℚ) - (b : ℚ)))
    with hp2def
  have he2 : |p2 - p| ≤ 16711425 / 2 ^ (51 : ℕ) :=
    le_trans he (div_le_div_of_nonneg_right hp (by positivity))
  cases r
  · have e1 : rampValue b t false v = p2 := by
      simp only [rampValue, ddiv, dmul, if_true, hp2def]
    have e2 : specRampValue b t false v = p := by
      simp only [specRampValue, if_true, hpdef]
    rw [e1, e2]
    refine le_trans he2 (by norm_num)
  · have e1 : rampValue b t true v = toDouble (255 - p2) := by
      simp only [rampValue, ddiv, dmul, dsub, Bool.true_eq_false, if_false, hp2def]
    have e2 : specRampValue b t true v = 255 - p := by
      simp only [specRampValue, Bool.true_eq_false, if_false, hpdef]
    rw [e1, e2]
    have h3 := toDouble_error (255 - p2)
    have h4 : |255 - p2| ≤ 16711681 := by
      have hp2 : |p2| ≤ |p2 - p| + |p| := by
        have := abs_add (p2 - p) p
        simpa using this
      have : |255 - p2| ≤ |(255 : ℚ)| + |p2| := abs_sub _ _
      have h255 : |(255 : ℚ)| = 255 := abs_of_pos (by norm_num)
      have : (16711425 : ℚ) / 2 ^ (51 : ℕ) ≤ 1 := by norm_num
      linarith
    have h5 : |toDouble (255 - p2) - (255 - p)| ≤
        |toDouble (255 - p2) - (255 - p2)| + |p2 - p| := by
      have := abs_add (toDouble (255 - p2) - (255 - p2)) (p - p2)
      rw [abs_sub_comm p p2] at this
      have e : toDouble (255 - p2) - (255 - p2) + (p - p2) = toDouble (255 - p2) - (255 - p) := by
        ring
      rw [e] at this
      exact this
    have h6 : |255 - p2| / 2 ^ (53 : ℕ) ≤ 16711681 / 2 ^ (53 : ℕ) :=
      div_le_div_of_nonneg_right h4 (by positivity)
    have h7 : (16711681 : ℚ) / 2 ^ (53 : ℕ) + 16711425 / 2 ^ (51 : ℕ) ≤ 1 / 2 ^ (26 : ℕ) := by
      norm_num
    linarith

/-- The value of the ramp from the two roundings that produce it, for a map
that is not reversed. -/
theorem rampValue_eval (b t v : Nat) (k p : ℚ)
    (hk : toDouble (255 / ((t : ℚ) - (b : ℚ))) = k)
    (hp : toDouble (k * ((v : ℚ) - (b : ℚ))) = p) : rampValue b t false v = p := by
  simp only [rampValue, ddiv, dmul, if_true, hk, hp]

/-- The byte stored for a sample above the limit whose ramp value is not
strictly between `L` and `L + 1`, for a limit below 255. -/
theorem shadowByte_above (s : State) (b t L v : Nat) (r : Bool)
    (hbt : t ≠ b) (hL : L ≤ 254) (hv : L < v)
    (hslip : ¬ ((L : ℚ) < rampValue b t r v ∧ rampValue b t r v < (L : ℚ) + 1)) :
    ∃ m, shadowByte (setMapFields s b t r L) v = some m ∧ L < m ∧ m ≤ 255 ∧
      ((rampValue b t r v ≤ (L : ℚ) ∧ m = L + 1) ∨
       ((L : ℚ) + 1 ≤ rampValue b t r v ∧ m = ⌊min (rampValue b t r v) 255⌋.toNat)) := by
  rw [shadowByte_setMapFields, mapValue_setMapFields s b t L v r hv hbt]
  by_cases hd : rampValue b t r v ≤ (L : ℚ)
  · refine ⟨L + 1, ?_, by omega, by omega, Or.inl ⟨hd, rfl⟩⟩
    rw [mapFinish_of_le L _ hd, Option.map_some']
    congr 1; omega
  · have hge : (L : ℚ) + 1 ≤ rampValue b t r v := by
      by_contra hc
      push_neg at hd hc
      exact hslip ⟨hd, hc⟩
    obtain ⟨e, h1, h2⟩ := mapFinish_of_ge L _ hL hge
    refine ⟨⌊min (rampValue b t r v) 255⌋.toNat, ?_, by omega, h2, Or.inr ⟨hge, rfl⟩⟩
    rw [e, Option.map_some']
    congr 1; omega

/-- Claim C11 (amended): with map mode enabled by `SetMapMode(bottom, top,
reverse, L)`, the byte stored for a sample `v` at or below `L` is `v` cut to 8
bits, `v % 256`; it is `v` itself whenever `v` is at most 255. -/
theorem shadowByte_pass_through (s : State) (b t L v : Nat) (r : Bool) (hv : v ≤ L) :
    shadowByte (setMapFields s b t r L) v = some (v % 256) ∧
      (v ≤ 255 → shadowByte (setMapFields s b t r L) v = some v) := by
  have e : shadowByte (setMapFields s b t r L) v = some (v % 256) := by
    rw [shadowByte_setMapFields, mapValue_direct s b t L v r hv, Option.map_some']
  refine ⟨e, fun h => ?_⟩
  rw [e, Nat.mod_eq_of_lt (by omega)]

/-- Witness of claim C11 (amended): limit 300, sample 200. -/
theorem shadowByte_pass_through_witness :
    (200 : Nat) ≤ 300 ∧ shadowByte (setMapFields init 0 65535 false 300) 200 = some 200 :=
  ⟨by decide,
   (shadowByte_pass_through init 0 65535 300 200 false (by decide)).2 (by decide)⟩

/-- Counterexample to claim C11 as stated: with limit 300 the sample 256 is at or
below the limit and the byte stored for it is 0, not 256. -/
theorem shadowByte_pass_through_truncates :
    (256 : Nat) ≤ 300 ∧
    shadowByte (setMapFields init 0 65535 false 300) 256 = some 0 ∧
    shadowByte (setMapFields init 0 65535 false 300) 256 ≠ some 256 := by
  decide


/-- The value of `mapFinish` for a ramp value `d` above the limit and at most
255: the integer `z` with `z ≤ d < z + 1`. -/
theorem mapFinish_eval (L : Nat) (d : ℚ) (z : Nat) (h1 : d ≤ 255) (h2 : (L : ℚ) < d)
    (h3 : (z : ℚ) ≤ d) (h4 : d < (z : ℚ) + 1) : mapFinish L d = z := by
  have hc : ¬ d > 255 := by linarith
  have hn : ¬ d ≤ (L : ℚ) := by linarith
  have hpos : (0 : ℚ) ≤ d := by
    have : (0 : ℚ) ≤ (L : ℚ) := by positivity
    linarith
  have hfl : ⌊d⌋ = (z : Int) := by
    rw [Int.floor_eq_iff]; push_cast; exact ⟨h3, h4⟩
  have hz : (z : ℚ) ≤ 255 := by linarith
  have hz2 : z ≤ 255 := by exact_mod_cast hz
  simp only [mapFinish, if_neg hc, if_neg hn, truncToInt_of_nonneg _ hpos, hfl,
    Int.toNat_natCast]
  omega

/-- The byte stored for a sample above the limit whose ramp value `d` is above
the limit and at most 255: the integer part of `d`. -/
theorem shadowByte_eval (s : State) (b t L v : Nat) (r : Bool) (z : Nat)
    (hbt : t ≠ b) (hv : L < v) (h1 : rampValue b t r v ≤ 255)
    (h2 : (L : ℚ) < rampValue b t r v) (h3 : (z : ℚ) ≤ rampValue b t r v)
    (h4 : rampValue b t r v < (z : ℚ) + 1) :
    shadowByte (setMapFields s b t r L) v = some (z % 256) := by
  rw [shadowByte_setMapFields, mapValue_setMapFields s b t L v r hv hbt,
    mapFinish_eval L _ z h1 h2 h3 h4, Option.map_some']

/-- A ramp value whose exact counterpart is at least `1 / 1000` away from the
interval `(L, L + 1)` is not strictly between `L` and `L + 1`. -/
theorem rampValue_no_slip (b t L v : Nat) (r : Bool) (hbt : t ≠ b) (hb : b < 65536)
    (hv : v < 65536)
    (h : (L : ℚ) + 1 + 1 / 1000 ≤ specRampValue b t r v ∨
      specRampValue b t r v ≤ (L : ℚ) - 1 / 1000) :
    ¬ ((L : ℚ) < rampValue b t r v ∧ rampValue b t r v < (L : ℚ) + 1) := by
  have hc := abs_le.mp (rampValue_close b t v r hbt hb hv)
  have hsmall : (1 : ℚ) / 2 ^ (26 : ℕ) ≤ 1 / 1000 := by norm_num
  rintro ⟨h1, h2⟩
  rcases h with h | h <;> linarith [hc.1, hc.2]

/-- The byte stored for a 16-bit sample above the limit, from the exact ramp
value when that is at least `1 / 1000` away from the integers `z` and `z + 1`,
from the limit and from 255. -/
theorem shadowByte_eval_spec (s : State) (b t L v : Nat) (r : Bool) (z : Nat)
    (hbt : t ≠ b) (hv : L < v) (hb : b < 65536) (hv16 : v < 65536)
    (h1 : specRampValue b t r v ≤ 255 - 1 / 1000)
    (h2 : (L : ℚ) + 1 / 1000 ≤ specRampValue b t r v)
    (h3 : (z : ℚ) + 1 / 1000 ≤ specRampValue b t r v)
    (h4 : specRampValue b t r v ≤ (z : ℚ) + 1 - 1 / 1000) :
    shadowByte (setMapFields s b t r L) v = some (z % 256) := by
  have hc := abs_le.mp (rampValue_close b t v r hbt hb hv16)
  have hsmall : (1 : ℚ) / 2 ^ (26 : ℕ) ≤ 1 / 2000 := by norm_num
  exact shadowByte_eval s b t L v r z hbt hv (by linarith [hc.1, hc.2])
    (by linarith [hc.1, hc.2]) (by linarith [hc.1, hc.2]) (by linarith [hc.1, hc.2])

/-- The rounding of the ramp shows in the stored byte.  With bottom 0, top 345
and limit 220 the sample 290 has the ramp value 214.3..., at or below the limit,
and is stored as 221; the sample 299 has the exact ramp value 221, the `double`
product is `221 - 2 ^ -45`, strictly between the limit and 221, and the sample
is stored as 220: below the byte of the smaller sample and not above the
limit. -/
theorem shadowByte_rounding_slip :
    shadowByte (setMapFields init 0 345 false 220) 290 = some 221 ∧
    shadowByte (setMapFields init 0 345 false 220) 299 = some 220 ∧
    specRampValue 0 345 false 299 = 221 ∧
    rampValue 0 345 false 299 = 221 - 1 / 2 ^ (45 : ℕ) := by
  have hr : rampValue 0 345 false 299 = (7775746231631871 : ℕ) / 2 ^ (45 : ℕ) :=
    rampValue_eval 0 345 299 _ _
      (toDouble_of_pos _ 53 6657495101330298 (by norm_num) (by norm_num) (by norm_num)
        (by norm_num))
      (toDouble_of_pos _ 45 7775746231631871 (by norm_num) (by norm_num) (by norm_num)
        (by norm_num))
  refine ⟨?_, ?_, by norm_num [specRampValue], by rw [hr]; norm_num⟩
  · have hc := abs_le.mp (rampValue_close 0 345 290 false (by decide) (by decide) (by decide))
    have hs : specRampValue 0 345 false 290 = 4930 / 23 := by norm_num [specRampValue]
    rw [hs] at hc
    have hle : rampValue 0 345 false 290 ≤ ((220 : Nat) : ℚ) := by
      have : (1 : ℚ) / 2 ^ (26 : ℕ) ≤ 1 := by norm_num
      push_cast
      linarith [hc.2]
    rw [shadowByte_setMapFields, mapValue_setMapFields init 0 345 220 290 false (by decide)
      (by decide), mapFinish_of_le 220 _ hle]
    rfl
  · exact shadowByte_eval init 0 345 220 299 false 220 (by decide) (by decide)
      (by rw [hr]; norm_num) (by rw [hr]; norm_num) (by rw [hr]; norm_num)
      (by rw [hr]; norm_num)

/-- Claim C12 (amended): with map mode enabled by `SetMapMode(bottom, top,
reverse = false, L)`, for `bottom < top`, `L` at most 254 and samples
`v1 ≤ v2` above `L` whose ramp values, the `double` products
`255.0 / (top - bottom) * (v - bottom)` the source computes, do not lie strictly
between `L` and `L + 1`, the stored bytes satisfy `map v1 ≤ map v2` and both are
above `L`. -/
theorem shadowByte_monotone (s : State) (b t L v1 v2 : Nat)
    (hbt : b < t) (hL : L ≤ 254) (h1 : L < v1) (h12 : v1 ≤ v2)
    (hs1 : ¬ ((L : ℚ) < rampValue b t false v1 ∧ rampValue b t false v1 < (L : ℚ) + 1))
    (hs2 : ¬ ((L : ℚ) < rampValue b t false v2 ∧ rampValue b t false v2 < (L : ℚ) + 1)) :
    ∃ m1 m2, shadowByte (setMapFields s b t false L) v1 = some m1 ∧
      shadowByte (setMapFields s b t false L) v2 = some m2 ∧
      m1 ≤ m2 ∧ L < m1 ∧ L < m2 := by
  have hne : t ≠ b := by omega
  obtain ⟨m1, e1, a1, b1, c1⟩ := shadowByte_above s b t L v1 false hne hL h1 hs1
  obtain ⟨m2, e2, a2, b2, c2⟩ := shadowByte_above s b t L v2 false hne hL (by omega) hs2
  have hmono := rampValue_mono b t v1 v2 hbt h12
  refine ⟨m1, m2, e1, e2, ?_, a1, a2⟩
  rcases c1 with ⟨_, hm1⟩ | ⟨hd1, hm1⟩
  · omega
  · rcases c2 with ⟨hd2, _⟩ | ⟨_, hm2⟩
    · linarith
    · rw [hm1, hm2]
      exact Int.toNat_le_toNat (Int.floor_le_floor (min_le_min_right _ hmono))

/-- Witness of claim C12 (amended): bottom 0, top 65535, limit 0, samples 1000
and 32768 (ramp values about 3.9 and about 127.5). -/
theorem shadowByte_monotone_witness :
    ∃ m1 m2, shadowByte (setMapFields init 0 65535 false 0) 1000 = some m1 ∧
      shadowByte (setMapFields init 0 65535 false 0) 32768 = some m2 ∧
      m1 ≤ m2 ∧ 0 < m1 ∧ 0 < m2 :=
  shadowByte_monotone init 0 65535 0 1000 32768 (by decide) (by decide) (by decide) (by decide)
    (rampValue_no_slip 0 65535 0 1000 false (by decide) (by decide) (by decide)
      (Or.inl (by norm_num [specRampValue])))
    (rampValue_no_slip 0 65535 0 32768 false (by decide) (by decide) (by decide)
      (Or.inl (by norm_num [specRampValue])))

/-- Counterexample to claim C12 as stated: with bottom 100 and top 0 (limit 0,
not reversed) the samples 1 and 2 are both above the limit and are stored as 252
and 249, a decrease. -/
theorem shadowByte_not_monotone :
    shadowByte (setMapFields init 100 0 false 0) 1 = some 252 ∧
    shadowByte (setMapFields init 100 0 false 0) 2 = some 249 ∧
    ¬ (252 ≤ 249) :=
  ⟨shadowByte_eval_spec init 100 0 0 1 false 252 (by decide) (by decide) (by decide)
      (by decide)
      (by norm_num [specRampValue]) (by norm_num [specRampValue])
      (by norm_num [specRampValue]) (by norm_num [specRampValue]),
   shadowByte_eval_spec init 100 0 0 2 false 249 (by decide) (by decide) (by decide)
      (by decide)
      (by norm_num [specRampValue]) (by norm_num [specRampValue])
      (by norm_num [specRampValue]) (by norm_num [specRampValue]),
   by decide⟩

/-- Claim C13 (amended): with map mode enabled by `SetMapMode(bottom, top,
reverse = true, L)`, for `bottom < top` and samples `v1 ≤ v2` above `L` whose
ramp values, the `double` differences
`255.0 - 255.0 / (top - bottom) * (v - bottom)` the source computes, do not lie
strictly between `L` and `L + 1`, the stored bytes satisfy `map v1 ≥ map v2`. -/
theorem shadowByte_reverse_antitone (s : State) (b t L v1 v2 : Nat)
    (hbt : b < t) (h1 : L < v1) (h12 : v1 ≤ v2)
    (hs1 : ¬ ((L : ℚ) < rampValue b t true v1 ∧ rampValue b t true v1 < (L : ℚ) + 1))
    (hs2 : ¬ ((L : ℚ) < rampValue b t true v2 ∧ rampValue b t true v2 < (L : ℚ) + 1)) :
    ∃ m1 m2, shadowByte (setMapFields s b t true L) v1 = some m1 ∧
      shadowByte (setMapFields s b t true L) v2 = some m2 ∧ m2 ≤ m1 := by
  have hne : t ≠ b := by omega
  by_cases hL : L ≤ 254
  · obtain ⟨m1, e1, a1, b1, c1⟩ := shadowByte_above s b t L v1 true hne hL h1 hs1
    obtain ⟨m2, e2, a2, b2, c2⟩ := shadowByte_above s b t L v2 true hne hL (by omega) hs2
    have hanti := rampValue_anti b t v1 v2 hbt h12
    refine ⟨m1, m2, e1, e2, ?_⟩
    rcases c2 with ⟨_, hm2⟩ | ⟨hd2, hm2⟩
    · omega
    · rcases c1 with ⟨hd1, _⟩ | ⟨_, hm1⟩
      · linarith
      · rw [hm1, hm2]
        exact Int.toNat_le_toNat (Int.floor_le_floor (min_le_min_right _ hanti))
  · refine ⟨(L + 1) % 65536 % 256, (L + 1) % 65536 % 256, ?_, ?_, le_refl _⟩
    · rw [shadowByte_setMapFields, mapValue_setMapFields s b t L v1 true h1 hne,
        mapFinish_of_big L _ (by omega), Option.map_some']
    · rw [shadowByte_setMapFields, mapValue_setMapFields s b t L v2 true (by omega) hne,
        mapFinish_of_big L _ (by omega), Option.map_some']

/-- Witness of claim C13 (amended): bottom 0, top 65535, limit 0, reversed,
samples 1000 and 32768 (ramp values about 251.1 and about 127.5). -/
theorem shadowByte_reverse_antitone_witness :
    ∃ m1 m2, shadowByte (setMapFields init 0 65535 true 0) 1000 = some m1 ∧
      shadowByte (setMapFields init 0 65535 true 0) 32768 = some m2 ∧ m2 ≤ m1 :=
  shadowByte_reverse_antitone init 0 65535 0 1000 32768 (by decide) (by decide) (by decide)
    (rampValue_no_slip 0 65535 0 1000 true (by decide) (by decide) (by decide)
      (Or.inl (by norm_num [specRampValue])))
    (rampValue_no_slip 0 65535 0 32768 true (by decide) (by decide) (by decide)
      (Or.inl (by norm_num [specRampValue])))

/-- Counterexample to claim C13 as stated: with bottom 100 and top 0 (limit 0,
reversed) the samples 1 and 2 are stored as 2 and 5, an increase. -/
theorem shadowByte_reverse_not_antitone :
    shadowByte (setMapFields init 100 0 true 0) 1 = some 2 ∧
    shadowByte (setMapFields init 100 0 true 0) 2 = some 5 ∧
    ¬ (2 ≥ 5) :=
  ⟨shadowByte_eval_spec init 100 0 0 1 true 2 (by decide) (by decide) (by decide)
      (by decide)
      (by norm_num [specRampValue]) (by norm_num [specRampValue])
      (by norm_num [specRampValue]) (by norm_num [specRampValue]),
   shadowByte_eval_spec init 100 0 0 2 true 5 (by decide) (by decide) (by decide)
      (by decide)
      (by norm_num [specRampValue]) (by norm_num [specRampValue])
      (by norm_num [specRampValue]) (by norm_num [specRampValue]),
   by decide⟩

/-- For a limit below 255 the clamped and lifted value lies in `(L, 255]`, so
that its integer part is the value `mapFinish` returns and fits a byte. -/
theorem mapFinish_toNat (L : Nat) (d : ℚ) (hL : L ≤ 254) :
    ((mapFinish L d : Nat) : Int) =
      truncToInt (if min d 255 ≤ (L : ℚ) then (L : ℚ) + 1 else min d 255) ∧
    mapFinish L d ≤ 255 := by
  have hmin : (if d > 255 then (255 : ℚ) else d) = min d 255 := by
    split_ifs with hc
    · rw [min_eq_right (le_of_lt hc)]
    · rw [min_eq_left (not_lt.mp hc)]
  have hLq : (L : ℚ) ≤ 254 := by exact_mod_cast hL
  have hL0 : (0 : ℚ) ≤ (L : ℚ) := by positivity
  generalize hx : (if min d 255 ≤ (L : ℚ) then (L : ℚ) + 1 else min d 255) = x
  have hx0 : (0 : ℚ) ≤ x := by
    rw [← hx]; split_ifs with hc
    · linarith
    · push_neg at hc; linarith
  have hx1 : x ≤ 255 := by
    rw [← hx]; split_ifs with hc
    · linarith
    · exact min_le_right _ _
  have hf0 : 0 ≤ ⌊x⌋ := Int.floor_nonneg.mpr hx0
  have hf1 : ⌊x⌋ ≤ 255 := by
    have : ⌊x⌋ ≤ ⌊(255 : ℚ)⌋ := Int.floor_le_floor hx1
    have e : ⌊(255 : ℚ)⌋ = 255 := by norm_num
    omega
  simp only [mapFinish, hmin, hx, truncToInt_of_nonneg _ hx0]
  omega

/-- The specification's `d` before clamping is the exact ramp value. -/
theorem specMapValue_specRampValue (b t L v : Nat) (r : Bool) :
    specMapValue b t r L v =
      truncToInt (if min (specRampValue b t r v) 255 ≤ (L : ℚ) then (L : ℚ) + 1
        else min (specRampValue b t r v) 255) := by
  cases r <;> simp [specMapValue, specRampValue]

/-- Two ramp values within `1 / 2` of each other end, after the clamp to 255,
the lift above the limit and the truncation, at integers within 1 of each
other. -/
theorem lift_trunc_close (L : Nat) (d1 d2 : ℚ) (h : |d1 - d2| ≤ 1 / 2) :
    |truncToInt (if min d1 255 ≤ (L : ℚ) then (L : ℚ) + 1 else min d1 255) -
      truncToInt (if min d2 255 ≤ (L : ℚ) then (L : ℚ) + 1 else min d2 255)| ≤ 1 := by
  have hL0 : (0 : ℚ) ≤ (L : ℚ) := by positivity
  have hm : |min d1 255 - min d2 255| ≤ 1 / 2 := by
    have := abs_min_sub_min_le_max d1 255 d2 255
    simp only [sub_self, abs_zero] at this
    exact le_trans this (max_le h (by norm_num))
  obtain ⟨hm1, hm2⟩ := abs_le.mp hm
  generalize hx : (if min d1 255 ≤ (L : ℚ) then (L : ℚ) + 1 else min d1 255) = x
  generalize hy : (if min d2 255 ≤ (L : ℚ) then (L : ℚ) + 1 else min d2 255) = y
  have hx0 : (0 : ℚ) ≤ x := by
    rw [← hx]; split_ifs with hc
    · linarith
    · push_neg at hc; linarith
  have hy0 : (0 : ℚ) ≤ y := by
    rw [← hy]; split_ifs with hc
    · linarith
    · push_neg at hc; linarith
  have hxy : |x - y| ≤ 1 := by
    rw [← hx, ← hy, abs_le]
    split_ifs with c1 c2 c2
    · constructor <;> linarith
    · push_neg at c2; constructor <;> linarith
    · push_neg at c1; constructor <;> linarith
    · constructor <;> linarith
  obtain ⟨hxy1, hxy2⟩ := abs_le.mp hxy
  rw [truncToInt_of_nonneg x hx0, truncToInt_of_nonneg y hy0, abs_le]
  have a1 := Int.floor_le x
  have a2 := Int.lt_floor_add_one x
  have b1 := Int.floor_le y
  have b2 := Int.lt_floor_add_one y
  constructor
  · have : ((⌊y⌋ : Int) : ℚ) < (⌊x⌋ : ℚ) + 2 := by linarith
    have : ⌊y⌋ < ⌊x⌋ + 2 := by exact_mod_cast this
    omega
  · have : ((⌊x⌋ : Int) : ℚ) < (⌊y⌋ : ℚ) + 2 := by linarith
    have : ⌊x⌋ < ⌊y⌋ + 2 := by exact_mod_cast this
    omega

/-- Claim C14 (amended): with map mode enabled by `SetMapMode(bottom, top,
reverse, L)` for `bottom ≠ top`, a 16-bit `bottom`, a limit `L` of at most 254
and a 16-bit sample `v > L`, the byte stored in the shadow buffer is within 1 of the value
the specification describes in exact arithmetic
(`d = 255 / (top - bottom) * (v - bottom)`, taken from 255 if reversed, clamped
to at most 255, lifted to `L + 1` if at or below `L`, truncated): the source
computes `d` in `double`, rounding the quotient, the product and the
difference.  For bottom 0, top 65535, not reversed, limit 0 and sample 32768 the
byte is 127, within 1 of 128. -/
theorem shadowByte_near_specMapValue (s : State) (b t L v : Nat) (r : Bool)
    (hbt : t ≠ b) (hL : L ≤ 254) (hv : L < v) (hb : b < 65536) (hv16 : v < 65536) :
    (∃ m : Nat, shadowByte (setMapFields s b t r L) v = some m ∧
      |(m : Int) - specMapValue b t r L v| ≤ 1) ∧
    shadowByte (setMapFields s 0 65535 false 0) 32768 = some 127 ∧
    specMapValue 0 65535 false 0 32768 = 127 ∧ |(127 : Int) - 128| ≤ 1 := by
  have h127 : shadowByte (setMapFields s 0 65535 false 0) 32768 = some 127 :=
    shadowByte_eval_spec s 0 65535 0 32768 false 127 (by decide) (by decide) (by decide)
      (by decide)
      (by norm_num [specRampValue]) (by norm_num [specRampValue])
      (by norm_num [specRampValue]) (by norm_num [specRampValue])
  obtain ⟨e1, e2⟩ := mapFinish_toNat L (rampValue b t r v) hL
  have hc := rampValue_close b t v r hbt hb hv16
  have hhalf : |rampValue b t r v - specRampValue b t r v| ≤ 1 / 2 :=
    le_trans hc (by norm_num)
  refine ⟨⟨mapFinish L (rampValue b t r v), ?_, ?_⟩, h127, ?_, by decide⟩
  · rw [shadowByte_setMapFields, mapValue_setMapFields s b t L v r hv hbt, Option.map_some']
    congr 1; omega
  · rw [e1, specMapValue_specRampValue]
    exact lift_trunc_close L _ _ hhalf
  · rw [specMapValue_specRampValue]
    have hsp : specRampValue 0 65535 false 32768 = 557056 / 4369 := by
      norm_num [specRampValue]
    rw [hsp]
    norm_num [truncToInt, Int.floor_eq_iff]

/-- Witness of claim C14 (amended): bottom 0, top 65535, limit 0, sample
32768. -/
theorem shadowByte_near_specMapValue_witness :
    (∃ m : Nat, shadowByte (setMapFields init 0 65535 false 0) 32768 = some m ∧
      |(m : Int) - specMapValue 0 65535 false 0 32768| ≤ 1) ∧
    shadowByte (setMapFields init 0 65535 false 0) 32768 = some 127 ∧
    specMapValue 0 65535 false 0 32768 = 127 ∧ |(127 : Int) - 128| ≤ 1 :=
  shadowByte_near_specMapValue init 0 65535 0 32768 false (by decide) (by decide) (by decide)
    (by decide) (by decide)

/-- Counterexample to claim C14 as stated: with bottom 0, top 25, not reversed
and limit 0 the sample 25 has the described value 255; the source rounds
`255.0 / 25` down, the `double` product with 25 is `255 - 2 ^ -45`, and the byte
stored is 254.  With limit 255 (bottom 0, top 65535) the sample 256 is above the
limit; the described value is 256 and the byte stored is 0. -/
theorem shadowByte_ne_specMapValue :
    shadowByte (setMapFields init 0 25 false 0) 25 = some 254 ∧
    specMapValue 0 25 false 0 25 = 255 ∧
    shadowByte (setMapFields init 0 65535 false 255) 256 = some 0 ∧
    specMapValue 0 65535 false 255 256 = 256 := by
  have hr : rampValue 0 25 false 25 = (8972014882652159 : ℕ) / 2 ^ (45 : ℕ) :=
    rampValue_eval 0 25 25 _ _
      (toDouble_of_pos _ 49 5742089524897382 (by norm_num) (by norm_num) (by norm_num)
        (by norm_num))
      (toDouble_of_pos _ 45 8972014882652159 (by norm_num) (by norm_num) (by norm_num)
        (by norm_num))
  refine ⟨?_, ?_, ?_, ?_⟩
  · exact shadowByte_eval init 0 25 0 25 false 254 (by decide) (by decide)
      (by rw [hr]; norm_num) (by rw [hr]; norm_num) (by rw [hr]; norm_num)
      (by rw [hr]; norm_num)
  · rw [specMapValue_specRampValue]
    norm_num [specRampValue, truncToInt]
  · rw [shadowByte_setMapFields, mapValue_setMapFields init 0 65535 255 256 false
      (by decide) (by decide), mapFinish_of_big 255 _ (by decide)]
    rfl
  · rw [specMapValue_specRampValue]
    have h : min (specRampValue 0 65535 false 256) 255 ≤ ((255 : Nat) : ℚ) := by
      norm_num
    rw [if_pos h]
    norm_num [truncToInt]

/-! ### The viewport -/

/-- One coordinate after the two tests of `CheckImageDispOffset`: it is never
negative and never above a non-negative limit; it is 0 when the limit is
negative or zero and the coordinate was above it. -/
theorem clampCoordinate_spec (offset limit : Int) (u : Bool) :
    0 ≤ (clampCoordinate offset limit u).1 ∧
    (0 ≤ limit → (clampCoordinate offset limit u).1 ≤ limit) ∧
    (limit ≤ 0 → (clampCoordinate offset limit u).1 = 0) := by
  unfold clampCoordinate
  by_cases h : offset > limit
  · simp only [if_pos h]
    split_ifs with h2
    · exact ⟨le_refl _, fun h3 => h3, fun _ => rfl⟩
    · simp only
      exact ⟨by omega, fun _ => le_refl _, fun h3 => by omega⟩
  · simp only [if_neg h]
    split_ifs with h2
    · exact ⟨le_refl _, fun h3 => h3, fun _ => rfl⟩
    · simp only
      exact ⟨by omega, fun _ => by omega, fun h3 => by omega⟩

/-- The conversion to `int` of a non-negative value is at most the value. -/
theorem truncToInt_le (q : ℚ) (h : 0 ≤ q) : 0 ≤ truncToInt q ∧ ((truncToInt q : Int) : ℚ) ≤ q := by
  rw [truncToInt_of_nonneg q h]
  exact ⟨Int.floor_nonneg.mpr h, Int.floor_le q⟩

/-- The conversion to `int` of a negative value is not positive. -/
theorem truncToInt_nonpos (q : ℚ) (h : q < 0) : truncToInt q ≤ 0 := by
  have h0 : ¬ (0 ≤ q) := not_le.mpr h
  simp only [truncToInt, if_neg h0]
  exact Int.ceil_le.mpr (by push_cast; exact le_of_lt h)

@[simp] theorem CheckImageDispOffset_mImageDispScale (s : State) :
    (CheckImageDispOffset s).2.mImageDispScale = s.mImageDispScale := rfl

@[simp] theorem UpdateImageDispDispRect_mImageDispScale (s : State) :
    (UpdateImageDispDispRect s).mImageDispScale = s.mImageDispScale := by
  unfold UpdateImageDispDispRect
  split
  · rfl
  · split_ifs <;> rfl

@[simp] theorem UpdateImageDispDispRect_mImageDispOffset (s : State) :
    (UpdateImageDispDispRect s).mImageDispOffset = s.mImageDispOffset := by
  unfold UpdateImageDispDispRect
  split
  · rfl
  · split_ifs <;> rfl

/-- The offset `CheckImageDispOffset` leaves is never negative. -/
theorem CheckImageDispOffset_nonneg (s : State) :
    0 ≤ (CheckImageDispOffset s).2.mImageDispOffset.cx ∧
    0 ≤ (CheckImageDispOffset s).2.mImageDispOffset.cy := by
  simp only [CheckImageDispOffset]
  exact ⟨(clampCoordinate_spec _ _ _).1, (clampCoordinate_spec _ _ _).1⟩

/-- The offset after `SetDispScale` is never negative. -/
theorem SetDispScale_nonneg (s : State) (v : ℚ) :
    0 ≤ (SetDispScale s v).mImageDispOffset.cx ∧
    0 ≤ (SetDispScale s v).mImageDispOffset.cy := by
  simp only [SetDispScale, UpdateImageDispDispRect_mImageDispOffset]
  exact CheckImageDispOffset_nonneg _


/-- The conversion to `int` of a value below 1 is not positive. -/
theorem truncToInt_lt_one (q : ℚ) (h : q < 1) : truncToInt q ≤ 0 := by
  rcases le_or_lt 0 q with h0 | h0
  · rw [truncToInt_of_nonneg q h0]
    have : ⌊q⌋ < 1 := Int.floor_lt.mpr (by exact_mod_cast h)
    omega
  · exact truncToInt_nonpos q h0

/-- An integer of a magnitude below `2 ^ 53`, given as a rational, is a
`double`. -/
theorem toDouble_of_int (x : ℚ) (n : Int) (hx : x = (n : ℚ)) (hn : |n| < 2 ^ (53 : ℕ)) :
    toDouble x = x := by
  rw [hx]; exact toDouble_intCast n hn

theorem CheckImageDispOffset_cx (s : State) :
    (CheckImageDispOffset s).2.mImageDispOffset.cx =
      (clampCoordinate s.mImageDispOffset.cx
        (truncToInt (offsetLimit s.mImageSize.cx s.mImageDispSize.cx s.mImageDispScale))
        false).1 := rfl

theorem CheckImageDispOffset_cy (s : State) :
    (CheckImageDispOffset s).2.mImageDispOffset.cy =
      (clampCoordinate s.mImageDispOffset.cy
        (truncToInt (offsetLimit s.mImageSize.cy s.mImageDispSize.cy s.mImageDispScale))
        (clampCoordinate s.mImageDispOffset.cx
          (truncToInt (offsetLimit s.mImageSize.cx s.mImageDispSize.cx s.mImageDispScale))
          false).2).1 := rfl

/-- A clamped coordinate is at most the larger of 0 and the value whose
conversion to `int` is the limit. -/
theorem clampCoordinate_le_max (offset : Int) (q : ℚ) (u : Bool) :
    (((clampCoordinate offset (truncToInt q) u).1 : Int) : ℚ) ≤ max 0 q := by
  obtain ⟨h0, h1, h2⟩ := clampCoordinate_spec offset (truncToInt q) u
  rcases le_or_lt 1 q with hq | hq
  · obtain ⟨a, b⟩ := truncToInt_le q (by linarith)
    have := h1 a
    have c : (((clampCoordinate offset (truncToInt q) u).1 : Int) : ℚ) ≤
        ((truncToInt q : Int) : ℚ) := by exact_mod_cast this
    exact le_trans (le_trans c b) (le_max_right _ _)
  · rw [h2 (truncToInt_lt_one q hq)]
    simp

/-- The value of the bound from the three roundings that produce it. -/
theorem offsetLimit_eval (i d : Int) (scale k q B : ℚ) (hk : toDouble (scale / 100) = k)
    (hq : toDouble ((d : ℚ) / k) = q) (hB : toDouble ((i : ℚ) - q) = B) :
    offsetLimit i d scale = B := by
  simp only [offsetLimit, ddiv, dsub, hk, hq, hB]

/-- For sizes in the `int` range and a scale of 1 or more the bound computed in
`double` is within `1 / 4096` of the exact bound. -/
theorem offsetLimit_close (i d : Int) (scale : ℚ) (hs : 1 ≤ scale)
    (hi : |i| ≤ 2147483648) (hd : |d| ≤ 2147483648) :
    |offsetLimit i d scale - specOffsetLimit i d scale| ≤ 1 / 4096 := by
  have hiq : |(i : ℚ)| ≤ 2147483648 := by exact_mod_cast hi
  have hdq : |(d : ℚ)| ≤ 2147483648 := by exact_mod_cast hd
  have hs0 : (0 : ℚ) < scale / 100 := by linarith
  have hq : |(d : ℚ) / (scale / 100)| ≤ 214748364800 := by
    rw [abs_div, abs_of_pos hs0, div_le_iff₀ hs0]
    nlinarith
  have h1 := toDouble_div_error (d : ℚ) (scale / 100) (ne_of_gt hs0)
  set q : ℚ := (d : ℚ) / (scale / 100) with hqdef
  set q2 : ℚ := toDouble ((d : ℚ) / toDouble (scale / 100)) with hq2def
  have h2 : |q2 - q| ≤ 214748364800 / 2 ^ (51 : ℕ) :=
    le_trans h1 (div_le_div_of_nonneg_right hq (by positivity))
  have e1 : offsetLimit i d scale = toDouble ((i : ℚ) - q2) := by
    simp only [offsetLimit, ddiv, dsub, hq2def]
  have e2 : specOffsetLimit i d scale = (i : ℚ) - q := by
    simp only [specOffsetLimit, hqdef]
  rw [e1, e2]
  have h3 := toDouble_error ((i : ℚ) - q2)
  have h4 : |(i : ℚ) - q2| ≤ 216895848449 := by
    have hq2 : |q2| ≤ |q2 - q| + |q| := by
      have := abs_add (q2 - q) q
      simpa using this
    have : |(i : ℚ) - q2| ≤ |(i : ℚ)| + |q2| := abs_sub _ _
    have : (214748364800 : ℚ) / 2 ^ (51 : ℕ) ≤ 1 := by norm_num
    linarith
  have h5 : |toDouble ((i : ℚ) - q2) - ((i : ℚ) - q)| ≤
      |toDouble ((i : ℚ) - q2) - ((i : ℚ) - q2)| + |q2 - q| := by
    have := abs_add (toDouble ((i : ℚ) - q2) - ((i : ℚ) - q2)) (q - q2)
    rw [abs_sub_comm q q2] at this
    have e : toDouble ((i : ℚ) - q2) - ((i : ℚ) - q2) + (q - q2) =
        toDouble ((i : ℚ) - q2) - ((i : ℚ) - q) := by ring
    rw [e] at this
    exact this
  have h6 : |(i : ℚ) - q2| / 2 ^ (53 : ℕ) ≤ 216895848449 / 2 ^ (53 : ℕ) :=
    div_le_div_of_nonneg_right h4 (by positivity)
  have h7 : (216895848449 : ℚ) / 2 ^ (53 : ℕ) + 214748364800 / 2 ^ (51 : ℕ) ≤ 1 / 4096 := by
    norm_num
  linarith

/-- One coordinate after `CheckImageDispOffset`, for a size in the `int` range
and a scale of 1 or more: it is at most the exact bound plus `1 / 4096` when
that bound is not negative, and it is 0 when that bound is negative. -/
theorem clampCoordinate_specOffsetLimit (offset i d : Int) (scale : ℚ) (u : Bool)
    (hs : 1 ≤ scale) (hi : |i| ≤ 2147483648) (hd : |d| ≤ 2147483648) :
    (0 ≤ specOffsetLimit i d scale →
      (((clampCoordinate offset (truncToInt (offsetLimit i d scale)) u).1 : Int) : ℚ) ≤
        specOffsetLimit i d scale + 1 / 4096) ∧
    (specOffsetLimit i d scale < 0 →
      (clampCoordinate offset (truncToInt (offsetLimit i d scale)) u).1 = 0) := by
  obtain ⟨c1, c2⟩ := abs_le.mp (offsetLimit_close i d scale hs hi hd)
  constructor
  · intro h
    refine le_trans (clampCoordinate_le_max offset _ u) (max_le (by linarith) (by linarith))
  · intro h
    exact (clampCoordinate_spec _ _ _).2.2 (truncToInt_lt_one _ (by linarith))

/-- Claim C15 (amended): for a scale of 1 or more and sizes in the `int` range,
after `CheckImageDispOffset` each coordinate of the offset is at least 0 and at
most the larger of 0 and the bound the source computes in `double`,
`imageSize - dispSize / (scale / 100.0)` with the two quotients and the
difference rounded.  That bound is within `1 / 4096` of the exact bound
`imageSize - dispSize / (scale / 100)`: the coordinate is at most the exact
bound plus `1 / 4096` when the exact bound is not negative, and it is 0 when the
exact bound is negative (a display area larger than the scaled image). -/
theorem CheckImageDispOffset_bounds (s : State) (hs : 1 ≤ s.mImageDispScale)
    (hix : |s.mImageSize.cx| ≤ 2147483648) (hiy : |s.mImageSize.cy| ≤ 2147483648)
    (hdx : |s.mImageDispSize.cx| ≤ 2147483648) (hdy : |s.mImageDispSize.cy| ≤ 2147483648) :
    0 ≤ (CheckImageDispOffset s).2.mImageDispOffset.cx ∧
    0 ≤ (CheckImageDispOffset s).2.mImageDispOffset.cy ∧
    ((CheckImageDispOffset s).2.mImageDispOffset.cx : ℚ) ≤
      max 0 (offsetLimit s.mImageSize.cx s.mImageDispSize.cx s.mImageDispScale) ∧
    ((CheckImageDispOffset s).2.mImageDispOffset.cy : ℚ) ≤
      max 0 (offsetLimit s.mImageSize.cy s.mImageDispSize.cy s.mImageDispScale) ∧
    |offsetLimit s.mImageSize.cx s.mImageDispSize.cx s.mImageDispScale -
      specOffsetLimit s.mImageSize.cx s.mImageDispSize.cx s.mImageDispScale| ≤ 1 / 4096 ∧
    |offsetLimit s.mImageSize.cy s.mImageDispSize.cy s.mImageDispScale -
      specOffsetLimit s.mImageSize.cy s.mImageDispSize.cy s.mImageDispScale| ≤ 1 / 4096 ∧
    (0 ≤ specOffsetLimit s.mImageSize.cx s.mImageDispSize.cx s.mImageDispScale →
      ((CheckImageDispOffset s).2.mImageDispOffset.cx : ℚ) ≤
        specOffsetLimit s.mImageSize.cx s.mImageDispSize.cx s.mImageDispScale + 1 / 4096) ∧
    (specOffsetLimit s.mImageSize.cx s.mImageDispSize.cx s.mImageDispScale < 0 →
      (CheckImageDispOffset s).2.mImageDispOffset.cx = 0) ∧
    (0 ≤ specOffsetLimit s.mImageSize.cy s.mImageDispSize.cy s.mImageDispScale →
      ((CheckImageDispOffset s).2.mImageDispOffset.cy : ℚ) ≤
        specOffsetLimit s.mImageSize.cy s.mImageDispSize.cy s.mImageDispScale + 1 / 4096) ∧
    (specOffsetLimit s.mImageSize.cy s.mImageDispSize.cy s.mImageDispScale < 0 →
      (CheckImageDispOffset s).2.mImageDispOffset.cy = 0) := by
  have hx := clampCoordinate_specOffsetLimit s.mImageDispOffset.cx s.mImageSize.cx
    s.mImageDispSize.cx s.mImageDispScale false hs hix hdx
  have hy := clampCoordinate_specOffsetLimit s.mImageDispOffset.cy s.mImageSize.cy
    s.mImageDispSize.cy s.mImageDispScale
    (clampCoordinate s.mImageDispOffset.cx
      (truncToInt (offsetLimit s.mImageSize.cx s.mImageDispSize.cx s.mImageDispScale))
      false).2 hs hiy hdy
  rw [CheckImageDispOffset_cx, CheckImageDispOffset_cy]
  exact ⟨(clampCoordinate_spec _ _ _).1, (clampCoordinate_spec _ _ _).1,
    clampCoordinate_le_max _ _ _, clampCoordinate_le_max _ _ _,
    offsetLimit_close _ _ _ hs hix hdx, offsetLimit_close _ _ _ hs hiy hdy,
    hx.1, hx.2, hy.1, hy.2⟩

/-- Witness of claim C15 (amended): an image of 640 by 480 shown at scale 200
in a display area of 320 by 240 with the prior offset (900, -5): the exact
bounds are 480 and 360, and the offset becomes (480, 0). -/
theorem CheckImageDispOffset_bounds_witness :
    (CheckImageDispOffset viewState).2.mImageDispOffset = ⟨480, 0⟩ ∧
    specOffsetLimit 640 320 200 = 480 ∧ specOffsetLimit 480 240 200 = 360 ∧
    ((480 : Int) : ℚ) ≤ specOffsetLimit 640 320 200 + 1 / 4096 ∧
    ((0 : Int) : ℚ) ≤ specOffsetLimit 480 240 200 + 1 / 4096 := by
  have h := CheckImageDispOffset_bounds viewState (by norm_num [viewState])
    (by decide) (by decide) (by decide) (by decide)
  have two : toDouble ((200 : ℚ) / 100) = 2 := by
    have := toDouble_of_int ((200 : ℚ) / 100) 2 (by norm_num) (by norm_num)
    rw [this]; norm_num
  have lx : offsetLimit 640 320 200 = 480 :=
    offsetLimit_eval 640 320 200 2 160 480 two
      (by have := toDouble_of_int (((320 : Int) : ℚ) / 2) 160 (by norm_num) (by norm_num)
          rw [this]; norm_num)
      (by have := toDouble_of_int (((640 : Int) : ℚ) - 160) 480 (by norm_num) (by norm_num)
          rw [this]; norm_num)
  have ly : offsetLimit 480 240 200 = 360 :=
    offsetLimit_eval 480 240 200 2 120 360 two
      (by have := toDouble_of_int (((240 : Int) : ℚ) / 2) 120 (by norm_num) (by norm_num)
          rw [this]; norm_num)
      (by have := toDouble_of_int (((480 : Int) : ℚ) - 120) 360 (by norm_num) (by norm_num)
          rw [this]; norm_num)
  have t480 : truncToInt 480 = 480 := by norm_num [truncToInt]
  have t360 : truncToInt 360 = 360 := by norm_num [truncToInt]
  have ex : (CheckImageDispOffset viewState).2.mImageDispOffset.cx = 480 := by
    rw [CheckImageDispOffset_cx]
    have : offsetLimit viewState.mImageSize.cx viewState.mImageDispSize.cx
        viewState.mImageDispScale = 480 := lx
    rw [this, t480]; decide
  have ey : (CheckImageDispOffset viewState).2.mImageDispOffset.cy = 0 := by
    rw [CheckImageDispOffset_cy]
    have hx : offsetLimit viewState.mImageSize.cx viewState.mImageDispSize.cx
        viewState.mImageDispScale = 480 := lx
    have hy : offsetLimit viewState.mImageSize.cy viewState.mImageDispSize.cy
        viewState.mImageDispScale = 360 := ly
    rw [hx, hy, t480, t360]; decide
  have sx : specOffsetLimit 640 320 200 = 480 := by norm_num [specOffsetLimit]
  have sy : specOffsetLimit 480 240 200 = 360 := by norm_num [specOffsetLimit]
  have hx := h.2.2.2.2.2.2.1 (by
    show 0 ≤ specOffsetLimit 640 320 200
    rw [sx]; norm_num)
  have hy := h.2.2.2.2.2.2.2.2.1 (by
    show 0 ≤ specOffsetLimit 480 240 200
    rw [sy]; norm_num)
  rw [ex] at hx
  rw [ey] at hy
  refine ⟨?_, sx, sy, hx, hy⟩
  have : (CheckImageDispOffset viewState).2.mImageDispOffset =
      ⟨(CheckImageDispOffset viewState).2.mImageDispOffset.cx,
       (CheckImageDispOffset viewState).2.mImageDispOffset.cy⟩ := rfl
  rw [this, ex, ey]

/-- Counterexample to claim C15 as stated.  An image 10 wide at scale 100 in a
display area 100 wide, prior offset 0: the bound is `10 - 100 = -90` and the
offset after `CheckImageDispOffset` is 0, which is above the bound.  An image
640 wide at the scale 999.9999999999509 in a display area 10 wide, prior offset
639: the exact bound is below 639, the `double` difference rounds to 639 and the
offset stays 639, above the exact bound. -/
theorem CheckImageDispOffset_above_bound :
    (CheckImageDispOffset smallImageState).2.mImageDispOffset.cx = 0 ∧
    specOffsetLimit smallImageState.mImageSize.cx smallImageState.mImageDispSize.cx
      smallImageState.mImageDispScale = -90 ∧
    (CheckImageDispOffset roundedLimitState).2.mImageDispOffset.cx = 639 ∧
    0 ≤ specOffsetLimit roundedLimitState.mImageSize.cx roundedLimitState.mImageDispSize.cx
      roundedLimitState.mImageDispScale ∧
    specOffsetLimit roundedLimitState.mImageSize.cx roundedLimitState.mImageDispSize.cx
      roundedLimitState.mImageDispScale < 639 := by
  have hb : specOffsetLimit smallImageState.mImageSize.cx smallImageState.mImageDispSize.cx
      smallImageState.mImageDispScale = -90 := by
    norm_num [specOffsetLimit, smallImageState, initOpen, init]
  have h0 : (CheckImageDispOffset smallImageState).2.mImageDispOffset.cx = 0 := by
    rw [CheckImageDispOffset_cx]
    exact (clampCoordinate_specOffsetLimit _ _ _ _ _ (by norm_num [smallImageState])
      (by decide) (by decide)).2 (by rw [hb]; norm_num)
  have hl : offsetLimit 640 10 (8796093022207568 / 2 ^ 43) =
      (5620703441190912 : ℕ) / 2 ^ 43 :=
    offsetLimit_eval 640 10 _ _ _ _
      (toDouble_of_pos _ 49 5629499534212844 (by norm_num) (by norm_num) (by norm_num)
        (by norm_num))
      (toDouble_of_pos _ 52 4503599627370717 (by norm_num) (by norm_num) (by norm_num)
        (by norm_num))
      (toDouble_of_pos _ 43 5620703441190912 (by norm_num) (by norm_num) (by norm_num)
        (by norm_num))
  have h639 : (CheckImageDispOffset roundedLimitState).2.mImageDispOffset.cx = 639 := by
    rw [CheckImageDispOffset_cx]
    have : offsetLimit roundedLimitState.mImageSize.cx roundedLimitState.mImageDispSize.cx
        roundedLimitState.mImageDispScale = (5620703441190912 : ℕ) / 2 ^ 43 := hl
    rw [this]
    have t639 : truncToInt ((5620703441190912 : ℕ) / 2 ^ 43) = 639 := by
      norm_num [truncToInt]
    rw [t639]; decide
  refine ⟨h0, hb, h639, ?_, ?_⟩
  · norm_num [specOffsetLimit, roundedLimitState, initOpen, init]
  · norm_num [specOffsetLimit, roundedLimitState, initOpen, init]

/-- The offset after the common tail of the zoom handlers is never negative. -/
theorem zoomAround_nonneg (s : State) (p localPos : POINT) (scale : ℚ) :
    0 ≤ (zoomAround s p localPos scale).mImageDispOffset.cx ∧
    0 ≤ (zoomAround s p localPos scale).mImageDispOffset.cy := by
  unfold zoomAround
  exact SetDispScale_nonneg _ _

/-- Claim C16: the offset is not negative on return from the viewport
operations that end in `CheckImageDispOffset`, for every prior state:
`SetDispScale`, `OnMouseMove` during a drag with the scroll tool, the zoom at
the cursor (`OnMouseWheel` over the image, `OnMButtonDown`, `OnLButtonDown` with
the zoom tool) and `OnSize`. -/
theorem viewport_offset_nonneg (s : State) (inScale : ℚ) (pos : POINT) (shift control : Bool) :
    (0 ≤ (SetDispScale s inScale).mImageDispOffset.cx ∧
      0 ≤ (SetDispScale s inScale).mImageDispOffset.cy) ∧
    (s.mIsMouseDragging = true → s.mMouseDownMode = CURSOR_MODE_SCROLL_TOOL →
      0 ≤ (OnMouseMove s pos).mImageDispOffset.cx ∧
      0 ≤ (OnMouseMove s pos).mImageDispOffset.cy) ∧
    (PtInRect s.mImageDispRect pos = true →
      0 ≤ (OnMouseWheel s pos inScale).mImageDispOffset.cx ∧
      0 ≤ (OnMouseWheel s pos inScale).mImageDispOffset.cy) ∧
    (0 ≤ (OnMButtonDown s pos shift control).mImageDispOffset.cx ∧
      0 ≤ (OnMButtonDown s pos shift control).mImageDispOffset.cy) ∧
    (s.mCursorMode = CURSOR_MODE_ZOOM_TOOL →
      0 ≤ (OnLButtonDown s pos false inScale).mImageDispOffset.cx ∧
      0 ≤ (OnLButtonDown s pos false inScale).mImageDispOffset.cy) ∧
    (0 ≤ (OnSize s shift).mImageDispOffset.cx ∧
      0 ≤ (OnSize s shift).mImageDispOffset.cy) := by
  refine ⟨SetDispScale_nonneg s inScale, ?_, ?_, ?_, ?_, ?_⟩
  · intro hd hm
    have hd2 : ¬ (s.mIsMouseDragging = false) := by rw [hd]; decide
    simp only [OnMouseMove, if_neg hd2, if_pos hm]
    exact CheckImageDispOffset_nonneg _
  · intro hp
    have hp2 : ¬ (PtInRect s.mImageDispRect pos = false) := by rw [hp]; decide
    simp only [OnMouseWheel, if_neg hp2]
    exact zoomAround_nonneg _ _ _ _
  · simp only [OnMButtonDown]
    exact zoomAround_nonneg _ _ _ _
  · intro hz
    have h1 : ¬ (s.mCursorMode = CURSOR_MODE_SCROLL_TOOL) := by rw [hz]; decide
    simp only [OnLButtonDown, if_true, if_neg h1, if_pos hz]
    exact zoomAround_nonneg _ _ _ _
  · unfold OnSize
    split_ifs
    · exact SetDispScale_nonneg _ _
    · exact CheckImageDispOffset_nonneg _

/-- Witness of claim C16: a state with the offset (-5, -7), a drag with the
scroll tool under way and the zoom tool selected, the cursor at (10, 20) inside
the display rectangle. -/
theorem viewport_offset_nonneg_witness :
    dragState.mImageDispOffset.cx < 0 ∧
    (0 ≤ (OnMouseMove dragState ⟨10, 20⟩).mImageDispOffset.cx ∧
      0 ≤ (OnMouseMove dragState ⟨10, 20⟩).mImageDispOffset.cy) ∧
    (0 ≤ (OnMouseWheel dragState ⟨10, 20⟩ 150).mImageDispOffset.cx ∧
      0 ≤ (OnMouseWheel dragState ⟨10, 20⟩ 150).mImageDispOffset.cy) ∧
    (0 ≤ (OnLButtonDown dragState ⟨10, 20⟩ false 150).mImageDispOffset.cx ∧
      0 ≤ (OnLButtonDown dragState ⟨10, 20⟩ false 150).mImageDispOffset.cy) :=
  ⟨by decide,
   (viewport_offset_nonneg dragState 150 ⟨10, 20⟩ false false).2.1 rfl rfl,
   (viewport_offset_nonneg dragState 150 ⟨10, 20⟩ false false).2.2.1 (by decide),
   (viewport_offset_nonneg dragState 150 ⟨10, 20⟩ false false).2.2.2.2.1 rfl⟩

/-- Claim C17: after `SetDispScale(v)` the scale `GetDispScale` returns is
`max(v, 1)`, for every `v`; so the stored scale is at least 1 after
`SetDispScale`, and the scale `ZoomIn` and `ZoomOut` store is at least 1,
whatever the library functions return. -/
theorem GetDispScale_SetDispScale (s : State) (v : ℚ) (lib : MathLibrary) (c : ℚ) :
    GetDispScale (SetDispScale s v) = max v 1 ∧
    1 ≤ GetDispScale (SetDispScale s v) ∧
    1 ≤ ZoomIn lib c ∧ 1 ≤ ZoomOut lib c := by
  have hclamp : ∀ {K : Type} [LinearOrderedField K] (x : K), clampScale x = max x 1 := by
    intro K _ x
    unfold clampScale
    split_ifs with h
    · rw [max_eq_right h]
    · rw [max_eq_left (le_of_lt (not_le.mp h))]
  have e : GetDispScale (SetDispScale s v) = max v 1 := by
    simp only [GetDispScale, SetDispScale, UpdateImageDispDispRect_mImageDispScale,
      CheckImageDispOffset_mImageDispScale, hclamp]
  refine ⟨e, ?_, ?_, ?_⟩
  · rw [e]; exact le_max_right _ _
  · unfold ZoomIn; rw [hclamp]; exact le_max_right _ _
  · unfold ZoomOut; rw [hclamp]; exact le_max_right _ _

/-- Claim C18, the failing input: an image of 100 by 80 in the image client
rectangle (0, 30, 160, 140), of width 160 and height 110.  The image ratio
80/100 is greater than the ratio 110/160 of the rectangle, so the claim gives
`100 * 110 / 80 = 137.5`; `CalcWindowSizeFitScale` compares with
`bottom / width = 140/160` and returns `100 * 160 / 100 = 160` (the `double`
quotient `160 / 100.0` times 100 rounds to 160), at which the image is 128 high
and does not fit the height 110. -/
theorem CalcWindowSizeFitScale_uses_bottom :
    fitState.mImageSize = ⟨100, 80⟩ ∧
    fitState.mImageClientRect = ⟨0, 30, 160, 140⟩ ∧
    ((80 : ℚ) / 100 > (110 : ℚ) / 160) ∧
    CalcWindowSizeFitScale fitState = 160 ∧
    CalcWindowSizeFitScale fitState ≠ 100 * 110 / 80 ∧
    (80 : ℚ) * (CalcWindowSizeFitScale fitState / 100) > 110 := by
  have h1 : fitState.mImageSize = ⟨100, 80⟩ := by decide
  have h2 : fitState.mImageClientRect = ⟨0, 30, 160, 140⟩ := by decide
  have h3 : CalcWindowSizeFitScale fitState = 160 := by
    have hw : int32 (160 - 0) = 160 := by decide
    have hh : int32 (140 - 30) = 110 := by decide
    have hr : ¬ (ddiv ((80 : Int) : ℚ) ((100 : Int) : ℚ) >
        ddiv ((140 : Int) : ℚ) ((160 : Int) : ℚ)) := by
      have : ddiv ((80 : Int) : ℚ) ((100 : Int) : ℚ) ≤
          ddiv ((140 : Int) : ℚ) ((160 : Int) : ℚ) :=
        toDouble_mono _ _ (by norm_num)
      exact not_lt.mpr this
    have hk : ddiv ((160 : Int) : ℚ) ((100 : Int) : ℚ) = (7205759403792794 : ℕ) / 2 ^ 52 :=
      toDouble_of_pos _ 52 7205759403792794 (by norm_num) (by norm_num) (by norm_num)
        (by norm_num)
    have hm : dmul ((7205759403792794 : ℕ) / 2 ^ 52) 100 = (5629499534213120 : ℕ) / 2 ^ 45 :=
      toDouble_of_pos _ 45 5629499534213120 (by norm_num) (by norm_num) (by norm_num)
        (by norm_num)
    simp only [CalcWindowSizeFitScale, h1, h2, hw, hh, if_neg hr, hk, hm]
    norm_num
  refine ⟨h1, h2, by norm_num, h3, ?_, ?_⟩
  · rw [h3]; norm_num
  · rw [h3]; norm_num

/-! ### Zoom steps -/

/-- A dyadic rational `m / 2 ^ n` with `m < 2 ^ 53` is a `double`. -/
theorem toDouble_dyadic_nat (m n : ℕ) (hm : m < 2 ^ 53) :
    toDouble ((m : ℚ) / 2 ^ n) = (m : ℚ) / 2 ^ n := by
  have h := toDouble_dyadic (m : Int) (-(n : Int)) (by
    rw [abs_of_nonneg (by positivity)]; exact_mod_cast hm)
  have e : (((m : Int) : ℚ)) * 2 ^ (-(n : Int)) = (m : ℚ) / 2 ^ n := by
    rw [zpow_neg, zpow_natCast]; push_cast; rw [div_eq_mul_inv]
  rw [e] at h
  exact h

/-- Evaluation of `toDouble` at a negative rational. -/
theorem toDouble_of_neg (x : ℚ) (n m : ℕ) (h1 : (2 : ℚ) ^ 52 ≤ -x * 2 ^ n)
    (h2 : -x * 2 ^ n < (2 : ℚ) ^ 53) (h3 : (m : ℚ) - 1 / 2 < -x * 2 ^ n)
    (h4 : -x * 2 ^ n < (m : ℚ) + 1 / 2) : toDouble x = -((m : ℚ) / 2 ^ n) := by
  have := toDouble_of_pos (-x) n m h1 h2 h3 h4
  rw [toDouble_neg] at this
  linarith

/-- A `double` of magnitude `2 ^ j` or more is a multiple of `2 ^ (j - 52)`. -/
theorem double_grid (r : ℚ) (hr : toDouble r = r) (j : Int) (h : (2 : ℚ) ^ j ≤ |r|) :
    ∃ z : Int, r = (z : ℚ) * 2 ^ (j - 52) := by
  have hpos : (0 : ℚ) < |r| := lt_of_lt_of_le (two_zpow_pos j) h
  have hj : j ≤ Int.log 2 |r| :=
    (Int.zpow_le_iff_le_log (b := 2) (by norm_num) (x := j) hpos).mp (by simpa using h)
  refine ⟨roundHalfEven (r / 2 ^ (Int.log 2 |r| - 52)) * 2 ^ (Int.log 2 |r| - j).toNat, ?_⟩
  have e : (2 : ℚ) ^ (Int.log 2 |r| - 52) = 2 ^ (Int.log 2 |r| - j).toNat * 2 ^ (j - 52) := by
    rw [← zpow_natCast, Int.toNat_of_nonneg (by omega), ← zpow_add₀ (by norm_num)]
    congr 1; ring
  conv_lhs => rw [← hr]
  unfold toDouble
  rw [e]
  push_cast
  ring

/-- On a `double` the test `fabs(scale - 100.0) <= 1.0` of the source is the
exact test `|scale - 100| ≤ 1`: the `double` difference is exact near the ends
of the window. -/
theorem snap_test_exact (r : ℚ) (hr : toDouble r = r) : |dsub r 100| ≤ 1 ↔ |r - 100| ≤ 1 := by
  have one : toDouble 1 = 1 := toDouble_of_int 1 1 (by norm_num) (by norm_num)
  have mone : toDouble (-1) = -1 := toDouble_of_int (-1) (-1) (by norm_num) (by norm_num)
  have up : toDouble (1 + 1 / 2 ^ 46) = 1 + 1 / 2 ^ 46 := by
    have := toDouble_dyadic_nat (2 ^ 46 + 1) 46 (by norm_num)
    have e : (((2 ^ 46 + 1 : ℕ) : ℚ)) / 2 ^ 46 = 1 + 1 / 2 ^ 46 := by norm_num
    rw [e] at this; exact this
  have dn : toDouble (-(1 + 1 / 2 ^ 46)) = -(1 + 1 / 2 ^ 46) := by
    rw [toDouble_neg, up]
  constructor
  · intro h
    by_contra hc
    have hcases : 101 < r ∨ r < 99 := by
      by_contra hn
      push_neg at hn
      exact hc (abs_le.mpr ⟨by linarith [hn.2], by linarith [hn.1]⟩)
    obtain ⟨h1, h2⟩ := abs_le.mp h
    rcases hcases with hbig | hsmall
    · obtain ⟨z, hz⟩ := double_grid r hr 6 (by
        rw [abs_of_pos (by linarith)]; norm_num; linarith)
      have e : (2 : ℚ) ^ ((6 : Int) - 52) = 1 / 2 ^ 46 := by norm_num
      rw [e] at hz
      have hz1 : (101 * 2 ^ 46 : ℚ) < (z : ℚ) := by
        rw [hz] at hbig
        have : (0 : ℚ) < 2 ^ 46 := by positivity
        rw [mul_one_div, lt_div_iff₀ this] at hbig
        exact hbig
      have hz2 : (101 * 2 ^ 46 : Int) < z := by exact_mod_cast hz1
      have hz3 : ((101 * 2 ^ 46 + 1 : Int) : ℚ) ≤ (z : ℚ) := by
        exact_mod_cast (by omega : (101 * 2 ^ 46 + 1 : Int) ≤ z)
      have hge : 1 + 1 / 2 ^ 46 ≤ r - 100 := by
        rw [hz]
        push_cast at hz3
        have : (0 : ℚ) < 1 / 2 ^ 46 := by positivity
        nlinarith
      have := toDouble_mono _ _ hge
      rw [up] at this
      have hd : dsub r 100 = toDouble (r - 100) := rfl
      rw [hd] at h2
      have : (0 : ℚ) < 1 / 2 ^ 46 := by positivity
      linarith
    · rcases le_or_lt 64 r with h64 | h64
      · obtain ⟨z, hz⟩ := double_grid r hr 6 (by
          rw [abs_of_pos (by linarith)]; norm_num; linarith)
        have e : (2 : ℚ) ^ ((6 : Int) - 52) = 1 / 2 ^ 46 := by norm_num
        rw [e] at hz
        have hz1 : (z : ℚ) < (99 * 2 ^ 46 : ℚ) := by
          rw [hz] at hsmall
          have : (0 : ℚ) < 2 ^ 46 := by positivity
          rw [mul_one_div, div_lt_iff₀ this] at hsmall
          exact hsmall
        have hz2 : z < (99 * 2 ^ 46 : Int) := by exact_mod_cast hz1
        have hz3 : (z : ℚ) ≤ ((99 * 2 ^ 46 - 1 : Int) : ℚ) := by
          exact_mod_cast (by omega : z ≤ (99 * 2 ^ 46 - 1 : Int))
        have hle : r - 100 ≤ -(1 + 1 / 2 ^ 46) := by
          rw [hz]
          push_cast at hz3
          have : (0 : ℚ) < 1 / 2 ^ 46 := by positivity
          nlinarith
        have := toDouble_mono _ _ hle
        rw [dn] at this
        have hd : dsub r 100 = toDouble (r - 100) := rfl
        rw [hd] at h1
        have : (0 : ℚ) < 1 / 2 ^ 46 := by positivity
        linarith
      · have hle : r - 100 ≤ -36 := by linarith
        have := toDouble_mono _ _ hle
        rw [toDouble_of_int (-36) (-36) (by norm_num) (by norm_num)] at this
        have hd : dsub r 100 = toDouble (r - 100) := rfl
        rw [hd] at h1
        linarith
  · intro h
    obtain ⟨h1, h2⟩ := abs_le.mp h
    have a := toDouble_mono _ _ h1
    have b := toDouble_mono _ _ h2
    rw [mone] at a
    rw [one] at b
    exact abs_le.mpr ⟨a, b⟩

/-- A scale of 1 or less does not pass the snap test. -/
theorem snap_test_of_le_one (r : ℚ) (h : r ≤ 1) : ¬ |dsub r 100| ≤ 1 := by
  intro hc
  have hle : r - 100 ≤ -99 := by linarith
  have := toDouble_mono _ _ hle
  rw [toDouble_of_int (-99) (-99) (by norm_num) (by norm_num)] at this
  have hd : dsub r 100 = toDouble (r - 100) := rfl
  rw [hd] at hc
  have := (abs_le.mp hc).1
  linarith

/-- `CalcImageScale` from the value of `scale` after its second statement. -/
theorem CalcImageScale_steppedScale (lib : MathLibrary) (c : ℚ) (n : Int) :
    CalcImageScale lib c n =
      if (if |dsub (steppedScale lib c n) 100| ≤ 1 then (100 : ℚ) else steppedScale lib c n) ≤ 1
      then 1
      else (if |dsub (steppedScale lib c n) 100| ≤ 1 then (100 : ℚ)
        else steppedScale lib c n) := rfl

/-- The three cases of `CalcImageScale`. -/
theorem CalcImageScale_cases (lib : MathLibrary) (c : ℚ) (n : Int) :
    (|dsub (steppedScale lib c n) 100| ≤ 1 → CalcImageScale lib c n = 100) ∧
    (steppedScale lib c n ≤ 1 → CalcImageScale lib c n = 1) ∧
    (¬ |dsub (steppedScale lib c n) 100| ≤ 1 → ¬ steppedScale lib c n ≤ 1 →
      CalcImageScale lib c n = steppedScale lib c n) ∧
    1 ≤ CalcImageScale lib c n := by
  rw [CalcImageScale_steppedScale]
  generalize steppedScale lib c n = r
  refine ⟨?_, ?_, ?_, ?_⟩
  · intro h
    rw [if_pos h, if_neg (by norm_num)]
  · intro h
    rw [if_neg (snap_test_of_le_one r h), if_pos h]
  · intro h1 h2
    rw [if_neg h1, if_neg h2]
  · split_ifs with h1 h2 h3
    · exact le_refl _
    · norm_num
    · exact le_refl _
    · exact le_of_lt (not_le.mp h3)

/-- The value of `scale` after the second statement of `CalcImageScale`, from
the values of the library and the two roundings. -/
theorem steppedScale_eval (lib : MathLibrary) (c : ℚ) (n : Int) (l q v r : ℚ)
    (hl : lib.log10 c = l) (hq : toDouble ((n : ℚ) / 100) = q) (hv : toDouble (l + q) = v)
    (hr : lib.pow 10 v = r) : steppedScale lib c n = r := by
  simp only [steppedScale, dadd, ddiv, hl, hq, hv, hr]

/-- The `double` quotient `1 / 100.0`. -/
theorem ddiv_one_hundred :
    toDouble (((1 : Int) : ℚ) / 100) = (5764607523034235 : ℕ) / 2 ^ 59 :=
  toDouble_of_pos _ 59 5764607523034235 (by norm_num) (by norm_num) (by norm_num) (by norm_num)

/-- The `double` quotient `-1 / 100.0`. -/
theorem ddiv_neg_one_hundred :
    toDouble (((-1 : Int) : ℚ) / 100) = -((5764607523034235 : ℕ) / 2 ^ 59) :=
  toDouble_of_neg _ 59 5764607523034235 (by norm_num) (by norm_num) (by norm_num) (by norm_num)

/-- One step up from 100 with the library of the examples. -/
theorem steppedScale_100_up :
    steppedScale runtimeLibrary 100 1 = 7200784279260065 / 2 ^ 46 :=
  steppedScale_eval runtimeLibrary 100 1 2 _ ((4526117625507348 : ℕ) / 2 ^ 51) _
    (by norm_num [runtimeLibrary]) ddiv_one_hundred
    (toDouble_of_pos _ 51 4526117625507348 (by norm_num) (by norm_num) (by norm_num)
      (by norm_num))
    (by norm_num [runtimeLibrary])

/-- One step down from 1 with the library of the examples. -/
theorem steppedScale_1_down :
    steppedScale runtimeLibrary 1 (-1) = 8802170368298336 / 2 ^ 53 :=
  steppedScale_eval runtimeLibrary 1 (-1) 0 _ (-((5764607523034235 : ℕ) / 2 ^ 59)) _
    (by norm_num [runtimeLibrary]) ddiv_neg_one_hundred
    (by rw [zero_add, toDouble_neg, toDouble_dyadic_nat _ _ (by norm_num)])
    (by norm_num [runtimeLibrary])

/-- The scale 101 with the step count 0, with the library of the examples. -/
theorem steppedScale_101 :
    steppedScale runtimeLibrary 101 0 = 7107243161944065 / 2 ^ 46 :=
  steppedScale_eval runtimeLibrary 101 0 ((4513330496049115 : ℕ) / 2 ^ 51) 0
    ((4513330496049115 : ℕ) / 2 ^ 51) _
    (by norm_num [runtimeLibrary]) (by norm_num [toDouble_zero])
    (by rw [add_zero, toDouble_dyadic_nat _ _ (by norm_num)])
    (by norm_num [runtimeLibrary])

/-- One step up from `99 - 2 ^ -46` with the library of the examples. -/
theorem steppedScale_below_99_up :
    steppedScale runtimeLibrary (6966505673588735 / 2 ^ 46) 1 = 7128776436467468 / 2 ^ 46 :=
  steppedScale_eval runtimeLibrary _ 1 ((8987541918756973 : ℕ) / 2 ^ 52) _
    ((4516288957515339 : ℕ) / 2 ^ 51) _
    (by norm_num [runtimeLibrary]) ddiv_one_hundred
    (toDouble_of_pos _ 51 4516288957515339 (by norm_num) (by norm_num) (by norm_num)
      (by norm_num))
    (by norm_num [runtimeLibrary])

/-- One step down from 101.306... with the library of the examples. -/
theorem steppedScale_above_101_down :
    steppedScale runtimeLibrary (7128776436467468 / 2 ^ 46) (-1) = 99 :=
  steppedScale_eval runtimeLibrary _ (-1) ((4516288957515339 : ℕ) / 2 ^ 51) _
    ((8987541918756973 : ℕ) / 2 ^ 52) _
    (by norm_num [runtimeLibrary]) ddiv_neg_one_hundred
    (toDouble_of_pos _ 52 8987541918756973 (by norm_num) (by norm_num) (by norm_num)
      (by norm_num))
    (by norm_num [runtimeLibrary])

/-- One step up from 10 with the library of the examples. -/
theorem steppedScale_10_up :
    steppedScale runtimeLibrary 10 1 = 5760627423408055 / 2 ^ 49 :=
  steppedScale_eval runtimeLibrary 10 1 1 _ ((4548635623644201 : ℕ) / 2 ^ 52) _
    (by norm_num [runtimeLibrary]) ddiv_one_hundred
    (toDouble_of_pos _ 52 4548635623644201 (by norm_num) (by norm_num) (by norm_num)
      (by norm_num))
    (by norm_num [runtimeLibrary])

/-- One step down from 10.2329... with the library of the examples: the
`double` sum `1.01 - 0.01` is 1. -/
theorem steppedScale_10_down :
    steppedScale runtimeLibrary (5760627423408055 / 2 ^ 49) (-1) = 10 :=
  steppedScale_eval runtimeLibrary _ (-1) ((4548635623644201 : ℕ) / 2 ^ 52) _ 1 _
    (by norm_num [runtimeLibrary]) ddiv_neg_one_hundred
    (by
      have := toDouble_of_pos (((4548635623644201 : ℕ) : ℚ) / 2 ^ 52 +
        -(((5764607523034235 : ℕ) : ℚ) / 2 ^ 59)) 52 4503599627370496
        (by norm_num) (by norm_num) (by norm_num) (by norm_num)
      rw [this]; norm_num)
    (by norm_num [runtimeLibrary])

/-- A positive dyadic rational `m / 2 ^ n` with `m < 2 ^ 53`, given as a
rational, is a `double`. -/
theorem toDouble_of_dyadic (x : ℚ) (m n : ℕ) (hx : x = (m : ℚ) / 2 ^ n) (hm : m < 2 ^ 53) :
    toDouble x = x := by
  rw [hx]; exact toDouble_dyadic_nat m n hm

/-- For a current scale `c ≥ 1` and a positive real step the real power is
`c` times the power of the step. -/
theorem rpow_step (c : ℝ) (hc : 0 < c) (x : ℝ) :
    (10 : ℝ) ^ (Real.logb 10 c + x) = c * (10 : ℝ) ^ x := by
  rw [Real.rpow_add (by norm_num : (0 : ℝ) < 10),
    Real.rpow_logb (by norm_num) (by norm_num) hc]

/-- Claim C19 (amended): for every current scale `c` and every integer step
count `n`, with `r` the `double` that `pow(10, log10(c) + n / 100.0)` returns
(the quotient and the sum rounded, `log10` and `pow` those of the C library in
use), `CalcImageScale(n)` is 100 when `fabs(r - 100.0) <= 1.0`, is 1 when
`r ≤ 1`, and is `r` otherwise; the result is at least 1.  When `r` is a `double`
the test `fabs(r - 100.0) <= 1.0` is the exact test `|r - 100| ≤ 1`.  The value
`r` is the one the library returns, not the real power
`10 ^ (log10 c + n / 100)`. -/
theorem CalcImageScale_spec (lib : MathLibrary) (c : ℚ) (n : Int) :
    (|dsub (steppedScale lib c n) 100| ≤ 1 → CalcImageScale lib c n = 100) ∧
    (steppedScale lib c n ≤ 1 → CalcImageScale lib c n = 1) ∧
    (¬ |dsub (steppedScale lib c n) 100| ≤ 1 → ¬ steppedScale lib c n ≤ 1 →
      CalcImageScale lib c n = steppedScale lib c n) ∧
    1 ≤ CalcImageScale lib c n ∧
    (toDouble (steppedScale lib c n) = steppedScale lib c n →
      (|dsub (steppedScale lib c n) 100| ≤ 1 ↔ |steppedScale lib c n - 100| ≤ 1)) :=
  ⟨(CalcImageScale_cases lib c n).1, (CalcImageScale_cases lib c n).2.1,
   (CalcImageScale_cases lib c n).2.2.1, (CalcImageScale_cases lib c n).2.2.2,
   snap_test_exact _⟩

/-- Witness of claim C19 (amended), with the values the C library returns: one
step up from the scale 100 gives 102.32929922807536 (the returned `r`), one step
down from the scale 1 gives 1 (`r` is 0.977...), and one step down from the
scale 101.30600623579465 gives 100 (`r` is 99, inside the window). -/
theorem CalcImageScale_spec_witness :
    CalcImageScale runtimeLibrary 100 1 = 7200784279260065 / 2 ^ 46 ∧
    CalcImageScale runtimeLibrary 1 (-1) = 1 ∧
    CalcImageScale runtimeLibrary (7128776436467468 / 2 ^ 46) (-1) = 100 ∧
    1 ≤ CalcImageScale runtimeLibrary 100 1 := by
  have h1 := CalcImageScale_spec runtimeLibrary 100 1
  have h2 := CalcImageScale_spec runtimeLibrary 1 (-1)
  have h3 := CalcImageScale_spec runtimeLibrary (7128776436467468 / 2 ^ 46) (-1)
  rw [steppedScale_100_up] at h1
  rw [steppedScale_1_down] at h2
  rw [steppedScale_above_101_down] at h3
  have d1 : toDouble ((7200784279260065 : ℚ) / 2 ^ 46) = 7200784279260065 / 2 ^ 46 :=
    toDouble_of_dyadic _ 7200784279260065 46 (by norm_num) (by norm_num)
  have d3 : toDouble (99 : ℚ) = 99 := toDouble_of_int 99 99 (by norm_num) (by norm_num)
  refine ⟨?_, h2.2.1 (by norm_num), ?_, h1.2.2.2.1⟩
  · refine h1.2.2.1 ?_ (by norm_num)
    rw [h1.2.2.2.2 d1]
    norm_num [abs_le]
  · refine h3.1 ?_
    rw [h3.2.2.2.2 d3]
    norm_num [abs_le]

/-- Counterexample to claim C19 as stated: the scale 101 and the step count 0.
Over the reals `r = 10 ^ (log10 101 + 0) = 101` lies in the window and the claim
gives 100.  The C library returns the `double` 2.0043213737826426 for
`log10(101)` and 101.00000000000001 (`101 + 2 ^ -46`) for its power of 10, which
is outside the window, and `CalcImageScale` returns it. -/
theorem CalcImageScale_misses_window :
    CalcImageScale runtimeLibrary 101 0 = 101 + 1 / 2 ^ 46 ∧
    specCalcImageScale 101 0 = 100 ∧
    CalcImageScale runtimeLibrary 101 0 ≠ 100 := by
  have hr : steppedScale runtimeLibrary 101 0 = 101 + 1 / 2 ^ 46 := by
    rw [steppedScale_101]; norm_num
  have hd : toDouble ((101 : ℚ) + 1 / 2 ^ 46) = 101 + 1 / 2 ^ 46 :=
    toDouble_of_dyadic _ 7107243161944065 46 (by norm_num) (by norm_num)
  have hc := CalcImageScale_cases runtimeLibrary 101 0
  rw [hr] at hc
  have hn : ¬ |dsub ((101 : ℚ) + 1 / 2 ^ 46) 100| ≤ 1 := by
    rw [snap_test_exact _ hd]
    norm_num [abs_le]
  have e : CalcImageScale runtimeLibrary 101 0 = 101 + 1 / 2 ^ 46 :=
    hc.2.2.1 hn (by norm_num)
  refine ⟨e, ?_, by rw [e]; norm_num⟩
  have hp : (10 : ℝ) ^ (Real.logb 10 101 + ((0 : Int) : ℝ) / 100) = 101 := by
    rw [rpow_step 101 (by norm_num)]
    norm_num
  simp only [specCalcImageScale, hp]
  norm_num [abs_le]


/-! ### The zoom round trip -/

theorem snapFloor_of_lt (r : ℚ) (h : r < 99) : snapFloor r = max r 1 := by
  have h1 : ¬ |r - 100| ≤ 1 := fun hc => by linarith [(abs_le.mp hc).1]
  unfold snapFloor
  rw [if_neg h1]
  split_ifs with h2
  · rw [max_eq_right h2]
  · rw [max_eq_left (le_of_lt (not_le.mp h2))]

theorem snapFloor_of_mem (r : ℚ) (h1 : 99 ≤ r) (h2 : r ≤ 101) : snapFloor r = 100 := by
  have : |r - 100| ≤ 1 := abs_le.mpr ⟨by linarith, by linarith⟩
  unfold snapFloor
  rw [if_pos this]

theorem snapFloor_of_gt (r : ℚ) (h : 101 < r) : snapFloor r = r := by
  have h1 : ¬ |r - 100| ≤ 1 := fun hc => by linarith [(abs_le.mp hc).2]
  have h2 : ¬ r ≤ 1 := by linarith
  unfold snapFloor
  rw [if_neg h1, if_neg h2]

theorem snapFloor_ge_one (r : ℚ) : 1 ≤ snapFloor r := by
  rcases lt_or_le r 99 with h | h
  · rw [snapFloor_of_lt r h]; exact le_max_right _ _
  · rcases le_or_lt r 101 with h2 | h2
    · rw [snapFloor_of_mem r h h2]; norm_num
    · rw [snapFloor_of_gt r h2]; linarith

/-- The snap and the floor keep the order of the scales. -/
theorem snapFloor_mono (r1 r2 : ℚ) (h : r1 ≤ r2) : snapFloor r1 ≤ snapFloor r2 := by
  rcases lt_or_le r1 99 with a | a
  · rw [snapFloor_of_lt r1 a]
    rcases lt_or_le r2 99 with b | b
    · rw [snapFloor_of_lt r2 b]; exact max_le_max h (le_refl _)
    · rcases le_or_lt r2 101 with b2 | b2
      · rw [snapFloor_of_mem r2 b b2]; exact max_le (by linarith) (by norm_num)
      · rw [snapFloor_of_gt r2 b2]; exact max_le h (by linarith)
  · rcases le_or_lt r1 101 with a2 | a2
    · rw [snapFloor_of_mem r1 a a2]
      rcases le_or_lt r2 101 with b2 | b2
      · rw [snapFloor_of_mem r2 (by linarith) b2]
      · rw [snapFloor_of_gt r2 b2]; linarith
    · rw [snapFloor_of_gt r1 a2, snapFloor_of_gt r2 (by linarith)]; exact h

/-- The snap and the floor lower a value by at most 1 and only inside the
window. -/
theorem snapFloor_ge (r : ℚ) (h : r ≤ 100 ∨ 101 < r) : r ≤ snapFloor r := by
  rcases lt_or_le r 99 with a | a
  · rw [snapFloor_of_lt r a]; exact le_max_left _ _
  · rcases le_or_lt r 101 with a2 | a2
    · rw [snapFloor_of_mem r a a2]
      rcases h with h | h <;> linarith
    · rw [snapFloor_of_gt r a2]

/-- The snap and the floor raise a value only inside the window or below 1. -/
theorem snapFloor_le (r : ℚ) (h : 100 ≤ r) : snapFloor r ≤ r := by
  rcases le_or_lt r 101 with a2 | a2
  · rw [snapFloor_of_mem r (by linarith) a2]; exact h
  · rw [snapFloor_of_gt r a2]

/-- The scale stored after one zoom step, from the power the library returns,
when that is a `double`. -/
theorem clampScale_CalcImageScale (lib : MathLibrary) (x : ℚ) (n : Int)
    (hr : toDouble (steppedScale lib x n) = steppedScale lib x n) :
    clampScale (CalcImageScale lib x n) = snapFloor (steppedScale lib x n) := by
  have h1 := (CalcImageScale_cases lib x n).2.2.2
  have hcl : clampScale (CalcImageScale lib x n) = CalcImageScale lib x n := by
    unfold clampScale
    split_ifs with h
    · linarith
    · rfl
  rw [hcl, CalcImageScale_steppedScale]
  simp only [snap_test_exact _ hr]
  unfold snapFloor
  split_ifs with a b c <;> first | rfl | (exfalso; linarith [(abs_le.mp a).1])

theorem ZoomIn_snapFloor (lib : MathLibrary) (x : ℚ)
    (hr : toDouble (steppedScale lib x IMAGE_ZOOM_STEP) = steppedScale lib x IMAGE_ZOOM_STEP) :
    ZoomIn lib x = snapFloor (steppedScale lib x IMAGE_ZOOM_STEP) :=
  clampScale_CalcImageScale lib x IMAGE_ZOOM_STEP hr

theorem ZoomOut_snapFloor (lib : MathLibrary) (x : ℚ)
    (hr : toDouble (steppedScale lib x (-IMAGE_ZOOM_STEP)) =
      steppedScale lib x (-IMAGE_ZOOM_STEP)) :
    ZoomOut lib x = snapFloor (steppedScale lib x (-IMAGE_ZOOM_STEP)) :=
  clampScale_CalcImageScale lib x (-IMAGE_ZOOM_STEP) hr

theorem stepUp_mono (t x y : ℚ) (ht : 0 ≤ t) (h : x ≤ y) : stepUp t x ≤ stepUp t y :=
  snapFloor_mono _ _ (mul_le_mul_of_nonneg_left h ht)

theorem stepDown_mono (t x y : ℚ) (ht : 0 ≤ t) (h : x ≤ y) : stepDown t x ≤ stepDown t y :=
  snapFloor_mono _ _ (div_le_div_of_nonneg_right h ht)

/-- A step up within `a` and `b` lies between the exact steps by `a` and by
`b`. -/
theorem ZoomIn_between (lib : MathLibrary) (a b x : ℚ) (h : StepUpWithin lib a b x) :
    stepUp a x ≤ ZoomIn lib x ∧ ZoomIn lib x ≤ stepUp b x := by
  obtain ⟨hd, h1, h2⟩ := h
  rw [ZoomIn_snapFloor lib x hd]
  exact ⟨snapFloor_mono _ _ h1, snapFloor_mono _ _ h2⟩

/-- A step down within `a` and `b` lies between the exact steps by `b` and by
`a`. -/
theorem ZoomOut_between (lib : MathLibrary) (a b x : ℚ) (h : StepDownWithin lib a b x) :
    stepDown b x ≤ ZoomOut lib x ∧ ZoomOut lib x ≤ stepDown a x := by
  obtain ⟨hd, h1, h2⟩ := h
  rw [ZoomOut_snapFloor lib x hd]
  exact ⟨snapFloor_mono _ _ h1, snapFloor_mono _ _ h2⟩

/-- The steps up within `a` and `b` lie between the exact steps. -/
theorem ZoomIn_iterate_between (lib : MathLibrary) (a b c : ℚ) (ha : 0 ≤ a) (hb : 0 ≤ b)
    (n : ℕ) (h : ∀ j, j < n → StepUpWithin lib a b ((ZoomIn lib)^[j] c)) :
    (stepUp a)^[n] c ≤ (ZoomIn lib)^[n] c ∧ (ZoomIn lib)^[n] c ≤ (stepUp b)^[n] c := by
  induction n with
  | zero => simp
  | succ n ih =>
    obtain ⟨i1, i2⟩ := ih (fun j hj => h j (by omega))
    obtain ⟨s1, s2⟩ := ZoomIn_between lib a b _ (h n (by omega))
    rw [Function.iterate_succ_apply', Function.iterate_succ_apply',
      Function.iterate_succ_apply']
    exact ⟨le_trans (stepUp_mono a _ _ ha i1) s1, le_trans s2 (stepUp_mono b _ _ hb i2)⟩

/-- The steps down within `a` and `b`, from a scale between `y1` and `y2`, lie
between the exact steps. -/
theorem ZoomOut_iterate_between (lib : MathLibrary) (a b y y1 y2 : ℚ) (ha : 0 ≤ a)
    (hb : 0 ≤ b) (hy1 : y1 ≤ y) (hy2 : y ≤ y2)
    (n : ℕ) (h : ∀ j, j < n → StepDownWithin lib a b ((ZoomOut lib)^[j] y)) :
    (stepDown b)^[n] y1 ≤ (ZoomOut lib)^[n] y ∧ (ZoomOut lib)^[n] y ≤ (stepDown a)^[n] y2 := by
  induction n with
  | zero => exact ⟨hy1, hy2⟩
  | succ n ih =>
    obtain ⟨i1, i2⟩ := ih (fun j hj => h j (by omega))
    obtain ⟨s1, s2⟩ := ZoomOut_between lib a b _ (h n (by omega))
    rw [Function.iterate_succ_apply', Function.iterate_succ_apply',
      Function.iterate_succ_apply']
    exact ⟨le_trans (stepDown_mono b _ _ hb i1) s1, le_trans s2 (stepDown_mono a _ _ ha i2)⟩


/-- The exact steps up from a scale `c ≥ 1`: either the scale is `c * t ^ n`, or
the step `i` landed in the window and the scale is `100 * t ^ m` after `m` more
steps. -/
theorem stepUp_iterate (t c : ℚ) (ht : 101 / 99 < t) (hc : 1 ≤ c) (n : ℕ) :
    (stepUp t)^[n] c = c * t ^ n ∨
    ∃ i m, 1 ≤ i ∧ i + m = n ∧ 99 ≤ c * t ^ i ∧ c * t ^ i ≤ 101 ∧
      (stepUp t)^[n] c = 100 * t ^ m := by
  have ht1 : 1 < t := by linarith
  induction n with
  | zero => left; simp
  | succ n ih =>
    rw [Function.iterate_succ_apply']
    rcases ih with hval | ⟨i, m, hi, him, h1, h2, hval⟩
    · rw [hval]
      have hmul : t * (c * t ^ n) = c * t ^ (n + 1) := by ring
      have hge : 1 ≤ c * t ^ (n + 1) := by
        have : 1 ≤ t ^ (n + 1) := one_le_pow₀ (le_of_lt ht1)
        nlinarith
      unfold stepUp
      rw [hmul]
      rcases lt_or_le (c * t ^ (n + 1)) 99 with a | a
      · left; rw [snapFloor_of_lt _ a, max_eq_left hge]
      · rcases le_or_lt (c * t ^ (n + 1)) 101 with a2 | a2
        · right
          exact ⟨n + 1, 0, by omega, by omega, a, a2, by rw [snapFloor_of_mem _ a a2]; simp⟩
        · left; rw [snapFloor_of_gt _ a2]
    · right
      rw [hval]
      have hmul : t * (100 * t ^ m) = 100 * t ^ (m + 1) := by ring
      have hbig : 101 < 100 * t ^ (m + 1) := by
        have h1m : 1 ≤ t ^ m := one_le_pow₀ (le_of_lt ht1)
        have : t ≤ t ^ (m + 1) := by rw [pow_succ]; nlinarith
        linarith
      unfold stepUp
      rw [hmul, snapFloor_of_gt _ hbig]
      exact ⟨i, m + 1, hi, by omega, h1, h2, rfl⟩

/-- The exact steps down from a scale of at most 101 meet no window. -/
theorem stepDown_iterate_le_max (t x : ℚ) (ht : 101 / 99 < t) (hx : x ≤ 101) (i : ℕ) : (stepDown t)^[i] x ≤ max (x / t ^ i) 1 := by
  have ht0 : 0 < t := by linarith
  induction i with
  | zero => simp
  | succ i ih =>
    rw [Function.iterate_succ_apply']
    have hti : 0 < t ^ i := pow_pos ht0 i
    have hti1 : 1 ≤ t ^ i := one_le_pow₀ (by linarith)
    have hw : max (x / t ^ i) 1 ≤ 101 :=
      max_le (by rw [div_le_iff₀ hti]; nlinarith) (by norm_num)
    have hlt : max (x / t ^ i) 1 / t < 99 := by
      rw [div_lt_iff₀ ht0]; nlinarith
    refine le_trans (stepDown_mono t _ _ ht0.le ih) ?_
    unfold stepDown
    rw [snapFloor_of_lt _ hlt]
    apply max_le _ (le_max_right _ _)
    rw [div_le_iff₀ ht0]
    apply max_le
    · have : x / t ^ i = x / t ^ (i + 1) * t := by rw [pow_succ]; field_simp; ring
      rw [this]
      exact mul_le_mul_of_nonneg_right (le_max_left _ _) ht0.le
    · have : (1 : ℚ) ≤ max (x / t ^ (i + 1)) 1 := le_max_right _ _
      nlinarith

/-- The exact steps down from 100 stay at or above `100 / t ^ l`. -/
theorem stepDown_iterate_hundred_ge (t : ℚ) (ht : 1 ≤ t) (l : ℕ) :
    100 / t ^ l ≤ (stepDown t)^[l] 100 := by
  have ht0 : 0 < t := by linarith
  induction l with
  | zero => simp
  | succ l ih =>
    rw [Function.iterate_succ_apply']
    refine le_trans ?_ (stepDown_mono t _ _ ht0.le ih)
    have e : (100 : ℚ) / t ^ (l + 1) = 100 / t ^ l / t := by rw [pow_succ, div_div]
    rw [e]
    unfold stepDown
    apply snapFloor_ge
    left
    have h1 : 1 ≤ t ^ l := one_le_pow₀ ht
    have h0 : 0 < t ^ l := by linarith
    rw [div_div, div_le_iff₀ (mul_pos h0 ht0)]
    nlinarith

theorem stepDown_iterate_mono (t : ℚ) (ht : 0 ≤ t) (n : ℕ) (x y : ℚ) (h : x ≤ y) :
    (stepDown t)^[n] x ≤ (stepDown t)^[n] y := by
  induction n generalizing x y with
  | zero => exact h
  | succ n ih =>
    rw [Function.iterate_succ_apply, Function.iterate_succ_apply]
    exact ih _ _ (stepDown_mono t x y ht h)

/-- Steps up by exactly `b` followed by steps down by exactly `a ≤ b`, when no
snap set the scale to 100 on the way up: the scale comes back to at most
`(c + 1)` times the accumulated factor. -/
theorem stepDown_iterate_le (a b c : ℚ) (ha : 101 / 99 < a) (hab : a ≤ b) (hc : 1 ≤ c)
    (l : ℕ) :
    ∀ g : ℚ, 1 ≤ g → (stepDown a)^[l] (c * b ^ l * g) ≤ (c + 1) * g * (b / a) ^ l := by
  have ha0 : 0 < a := by linarith
  have hb1 : 1 ≤ b := by linarith
  have hr : 1 ≤ b / a := by rw [le_div_iff₀ ha0]; linarith
  induction l with
  | zero =>
    intro g hg
    simp only [pow_zero, mul_one, Function.iterate_zero, id_eq]
    nlinarith
  | succ l ih =>
    intro g hg
    rw [Function.iterate_succ_apply]
    have hu : c * b ^ (l + 1) * g / a = c * b ^ l * (g * (b / a)) := by
      field_simp; ring
    have hg2 : 1 ≤ g * (b / a) := by nlinarith
    have hbl : 1 ≤ b ^ l := one_le_pow₀ hb1
    have hrl : 1 ≤ (b / a) ^ l := one_le_pow₀ hr
    have hu1 : 1 ≤ c * b ^ l * (g * (b / a)) := by
      have : 1 ≤ c * b ^ l := by nlinarith
      nlinarith
    have hrhs : (c + 1) * g * (b / a) ^ (l + 1) = (c + 1) * (g * (b / a)) * (b / a) ^ l := by
      rw [pow_succ]; ring
    have hstep : stepDown a (c * b ^ (l + 1) * g) = snapFloor (c * b ^ l * (g * (b / a))) := by
      unfold stepDown; rw [hu]
    rw [hstep, hrhs]
    rcases lt_or_le (c * b ^ l * (g * (b / a))) 99 with h1 | h1
    · rw [snapFloor_of_lt _ h1, max_eq_left hu1]
      exact ih _ hg2
    · rcases le_or_lt (c * b ^ l * (g * (b / a))) 101 with h2 | h2
      · rw [snapFloor_of_mem _ h1 h2]
        refine le_trans (stepDown_iterate_le_max a 100 ha (by norm_num) l) ?_
        have hal : 0 < a ^ l := pow_pos ha0 l
        apply max_le
        · rw [div_pow, div_le_iff₀ hal]
          have e : (c + 1) * (g * (b / a)) * (b ^ l / a ^ l) * a ^ l =
              c * b ^ l * (g * (b / a)) + b ^ l * (g * (b / a)) := by
            field_simp; ring
          rw [e]
          have : 1 ≤ b ^ l * (g * (b / a)) := by nlinarith
          linarith
        · have : 1 ≤ (c + 1) * (g * (b / a)) := by nlinarith
          nlinarith
      · rw [snapFloor_of_gt _ h2]
        exact ih _ hg2

/-- Steps up by exactly `a` followed by steps down by exactly `b ≥ a`, when no
snap set the scale to 100 on the way up: the scale comes back to at least `c`
over the accumulated factor, less 1. -/
theorem stepDown_iterate_ge (a b c : ℚ) (ha : 101 / 99 < a) (hab : a ≤ b) (l : ℕ) :
    ∀ g : ℚ, 1 ≤ g → c / (g * (b / a) ^ l) - 1 ≤ (stepDown b)^[l] (c * a ^ l / g) := by
  have ha0 : 0 < a := by linarith
  have hb0 : 0 < b := by linarith
  have hb1 : 1 ≤ b := by linarith
  have hr : 1 ≤ b / a := by rw [le_div_iff₀ ha0]; linarith
  induction l with
  | zero =>
    intro g hg
    simp only [pow_zero, mul_one, Function.iterate_zero, id_eq]
    linarith
  | succ l ih =>
    intro g hg
    rw [Function.iterate_succ_apply]
    have hg0 : 0 < g := by linarith
    have hg2 : 1 ≤ g * (b / a) := by nlinarith
    have hg20 : 0 < g * (b / a) := by linarith
    have hu : c * a ^ (l + 1) / g / b = c * a ^ l / (g * (b / a)) := by
      field_simp; ring
    have hlhs : c / (g * (b / a) ^ (l + 1)) = c / (g * (b / a) * (b / a) ^ l) := by
      rw [pow_succ]; ring_nf
    have hstep : stepDown b (c * a ^ (l + 1) / g) = snapFloor (c * a ^ l / (g * (b / a))) := by
      unfold stepDown; rw [hu]
    rw [hstep, hlhs]
    rcases lt_or_le (c * a ^ l / (g * (b / a))) 99 with h1 | h1
    · rw [snapFloor_of_lt _ h1]
      exact le_trans (ih _ hg2) (stepDown_iterate_mono b hb0.le l _ _ (le_max_left _ _))
    · rcases le_or_lt (c * a ^ l / (g * (b / a))) 101 with h2 | h2
      · rw [snapFloor_of_mem _ h1 h2]
        refine le_trans ?_ (stepDown_iterate_hundred_ge b hb1 l)
        have hbl : 1 ≤ b ^ l := one_le_pow₀ hb1
        have hbl0 : 0 < b ^ l := by linarith
        have hal0 : 0 < a ^ l := pow_pos ha0 l
        have e : c / (g * (b / a) * (b / a) ^ l) = c * a ^ l / (g * (b / a)) / b ^ l := by
          rw [div_pow]; field_simp; ring
        rw [e]
        have h3 : c * a ^ l / (g * (b / a)) / b ^ l ≤ 101 / b ^ l :=
          div_le_div_of_nonneg_right h2 hbl0.le
        have h4 : (101 : ℚ) / b ^ l - 1 ≤ 100 / b ^ l := by
          rw [div_sub_one (ne_of_gt hbl0), div_le_div_iff_of_pos_right hbl0]
          linarith
        linarith
      · rw [snapFloor_of_gt _ h2]
        exact ih _ hg2


/-- Steps down by exactly `a` from `100 * b ^ m`, for `a ≤ b`: the first `m`
steps stay at or below the quotient. -/
theorem stepDown_iterate_pow_le (a b : ℚ) (ha : 101 / 99 < a) (hab : a ≤ b) (m : ℕ) :
    ∀ j, j ≤ m → (stepDown a)^[j] (100 * b ^ m) ≤ 100 * b ^ m / a ^ j := by
  have ha0 : 0 < a := by linarith
  have hb1 : 1 ≤ b := by linarith
  intro j
  induction j with
  | zero => intro _; simp
  | succ j ih =>
    intro hj
    rw [Function.iterate_succ_apply']
    refine le_trans (stepDown_mono a _ _ ha0.le (ih (by omega))) ?_
    have e : 100 * b ^ m / a ^ (j + 1) = 100 * b ^ m / a ^ j / a := by rw [pow_succ, div_div]
    rw [e]
    unfold stepDown
    apply snapFloor_le
    rw [← e, le_div_iff₀ (pow_pos ha0 _)]
    have h1 : a ^ (j + 1) ≤ b ^ (j + 1) := pow_le_pow_left₀ ha0.le hab _
    have h2 : b ^ (j + 1) ≤ b ^ m := pow_le_pow_right₀ hb1 hj
    linarith

/-- Steps down by exactly `b` from `100 * a ^ m`, for `a ≤ b` with
`(b / a) ^ m ≤ 101 / 100`: before the last of the `m` steps the scale is at or
above the quotient. -/
theorem stepDown_iterate_pow_ge (a b : ℚ) (ha : 101 / 99 < a) (hab : a ≤ b) (m : ℕ)
    (hr : (b / a) ^ m ≤ 101 / 100) :
    ∀ j, j + 1 ≤ m → 100 * a ^ m / b ^ j ≤ (stepDown b)^[j] (100 * a ^ m) := by
  have ha0 : 0 < a := by linarith
  have ha1 : 1 ≤ a := by linarith
  have hb0 : 0 < b := by linarith
  have hρ : 1 ≤ b / a := by rw [le_div_iff₀ ha0]; linarith
  intro j
  induction j with
  | zero => intro _; simp
  | succ j ih =>
    intro hj
    rw [Function.iterate_succ_apply']
    refine le_trans ?_ (stepDown_mono b _ _ hb0.le (ih (by omega)))
    have e : 100 * a ^ m / b ^ (j + 1) = 100 * a ^ m / b ^ j / b := by rw [pow_succ, div_div]
    rw [e]
    unfold stepDown
    apply snapFloor_ge
    right
    rw [← e, lt_div_iff₀ (pow_pos hb0 _)]
    -- 101 * b ^ (j + 1) < 100 * a ^ m
    have h1 : (b / a) ^ (j + 1) ≤ (b / a) ^ m := pow_le_pow_right₀ hρ (by omega)
    have h2 : b ^ (j + 1) ≤ 101 / 100 * a ^ (j + 1) := by
      have : (b / a) ^ (j + 1) ≤ 101 / 100 := le_trans h1 hr
      rw [div_pow, div_le_iff₀ (pow_pos ha0 _)] at this
      exact this
    have h3 : a * a ^ (j + 1) ≤ a ^ m := by
      have : a ^ (j + 2) ≤ a ^ m := pow_le_pow_right₀ ha1 (by omega)
      calc a * a ^ (j + 1) = a ^ (j + 2) := by ring
        _ ≤ a ^ m := this
    have h4 : 0 < a ^ (j + 1) := pow_pos ha0 _
    nlinarith

/-- Steps down by exactly `b` from `100 * a ^ m`: after `m` steps the scale is
at least 100. -/
theorem stepDown_iterate_pow_hundred (a b : ℚ) (ha : 101 / 99 < a) (hab : a ≤ b) (m : ℕ)
    (hr : (b / a) ^ m ≤ 101 / 100) : 100 ≤ (stepDown b)^[m] (100 * a ^ m) := by
  have ha0 : 0 < a := by linarith
  have hb0 : 0 < b := by linarith
  have hρ : 1 ≤ b / a := by rw [le_div_iff₀ ha0]; linarith
  rcases Nat.eq_zero_or_pos m with h0 | hpos
  · subst h0; simp
  · obtain ⟨k, rfl⟩ : ∃ k, m = k + 1 := ⟨m - 1, by omega⟩
    rw [Function.iterate_succ_apply']
    have h := stepDown_iterate_pow_ge a b ha hab (k + 1) hr k (by omega)
    refine le_trans ?_ (stepDown_mono b _ _ hb0.le h)
    have e : 100 * a ^ (k + 1) / b ^ k / b = 100 / (b / a) ^ (k + 1) := by
      rw [div_pow]; field_simp; ring
    unfold stepDown
    rw [e]
    have hpow : 1 ≤ (b / a) ^ (k + 1) := one_le_pow₀ hρ
    have hp0 : 0 < (b / a) ^ (k + 1) := by linarith
    have h1 : 99 ≤ 100 / (b / a) ^ (k + 1) := by
      rw [le_div_iff₀ hp0]; nlinarith
    have h2 : 100 / (b / a) ^ (k + 1) ≤ 101 := by
      rw [div_le_iff₀ hp0]; nlinarith
    rw [snapFloor_of_mem _ h1 h2]

/-- The exact round trip, from above: steps up by `b` and steps down by
`a ≤ b`. -/
theorem exact_round_trip_le (a b c : ℚ) (n : ℕ) (hc : 1 ≤ c) (ha : 101 / 99 < a)
    (hab : a ≤ b) (hr : (b / a) ^ n ≤ 101 / 100) :
    (stepDown a)^[n] ((stepUp b)^[n] c) ≤ (c + 1) * (b / a) ^ n := by
  have ha0 : 0 < a := by linarith
  have hb0 : 0 < b := by linarith
  have hb1 : 1 ≤ b := by linarith
  have hρ : 1 ≤ b / a := by rw [le_div_iff₀ ha0]; linarith
  rcases stepUp_iterate b c (by linarith) hc n with hval | ⟨i, m, hi, him, h1, h2, hval⟩
  · rw [hval]
    have := stepDown_iterate_le a b c ha hab hc n 1 (le_refl _)
    simpa using this
  · rw [hval, ← him, Function.iterate_add_apply]
    have hρm : (b / a) ^ m ≤ 101 / 100 :=
      le_trans (pow_le_pow_right₀ hρ (by omega)) hr
    have hA := stepDown_iterate_pow_le a b ha hab m m (le_refl _)
    have e : 100 * b ^ m / a ^ m = 100 * (b / a) ^ m := by rw [div_pow]; ring
    rw [e] at hA
    have hρm1 : 1 ≤ (b / a) ^ m := one_le_pow₀ hρ
    refine le_trans (stepDown_iterate_mono a ha0.le i _ _ hA) ?_
    refine le_trans (stepDown_iterate_le_max a _ ha (by linarith) i) ?_
    have hai : 0 < a ^ i := pow_pos ha0 i
    have hbi : 1 ≤ b ^ i := one_le_pow₀ hb1
    have hbi0 : 0 < b ^ i := by linarith
    have hρi1 : 1 ≤ (b / a) ^ i := one_le_pow₀ hρ
    have hsplit : (b / a) ^ (i + m) = (b / a) ^ i * (b / a) ^ m := pow_add _ _ _
    apply max_le
    · rw [hsplit, div_le_iff₀ hai]
      have e2 : (c + 1) * ((b / a) ^ i * (b / a) ^ m) * a ^ i =
          (c * b ^ i + b ^ i) * (b / a) ^ m := by
        rw [div_pow]; field_simp; ring
      rw [e2]
      have : 100 ≤ c * b ^ i + b ^ i := by linarith
      nlinarith
    · rw [hsplit]
      have : 1 ≤ (b / a) ^ i * (b / a) ^ m := by nlinarith
      nlinarith

/-- The exact round trip, from below: steps up by `a` and steps down by
`b ≥ a`. -/
theorem exact_round_trip_ge (a b c : ℚ) (n : ℕ) (hc : 1 ≤ c) (ha : 101 / 99 < a)
    (hab : a ≤ b) (hr : (b / a) ^ n ≤ 101 / 100) :
    c / (b / a) ^ n - 1 ≤ (stepDown b)^[n] ((stepUp a)^[n] c) := by
  have ha0 : 0 < a := by linarith
  have ha1 : 1 ≤ a := by linarith
  have hb0 : 0 < b := by linarith
  have hb1 : 1 ≤ b := by linarith
  have hρ : 1 ≤ b / a := by rw [le_div_iff₀ ha0]; linarith
  rcases stepUp_iterate a c ha hc n with hval | ⟨i, m, hi, him, h1, h2, hval⟩
  · rw [hval]
    have := stepDown_iterate_ge a b c ha hab n 1 (le_refl _)
    simpa using this
  · rw [hval, ← him, Function.iterate_add_apply]
    have hρm : (b / a) ^ m ≤ 101 / 100 :=
      le_trans (pow_le_pow_right₀ hρ (by omega)) hr
    have hA := stepDown_iterate_pow_hundred a b ha hab m hρm
    refine le_trans ?_ (stepDown_iterate_mono b hb0.le i _ _ hA)
    refine le_trans ?_ (stepDown_iterate_hundred_ge b hb1 i)
    have hai : 0 < a ^ i := pow_pos ha0 i
    have hbi : 1 ≤ b ^ i := one_le_pow₀ hb1
    have hbi0 : 0 < b ^ i := by linarith
    have hρim : (b / a) ^ i ≤ (b / a) ^ (i + m) := pow_le_pow_right₀ hρ (by omega)
    have hρi0 : 0 < (b / a) ^ i := by
      have : 1 ≤ (b / a) ^ i := one_le_pow₀ hρ
      linarith
    have hc0 : 0 ≤ c := by linarith
    -- c / ρ^(i+m) ≤ c / ρ^i ≤ 101 / b^i
    have s1 : c / (b / a) ^ (i + m) ≤ c / (b / a) ^ i :=
      div_le_div_of_nonneg_left hc0 hρi0 hρim
    have s2 : c / (b / a) ^ i ≤ 101 / b ^ i := by
      rw [div_pow, div_div_eq_mul_div, div_le_div_iff_of_pos_right hbi0]
      exact h2
    have s3 : (101 : ℚ) / b ^ i - 1 ≤ 100 / b ^ i := by
      rw [div_sub_one (ne_of_gt hbi0), div_le_div_iff_of_pos_right hbi0]
      linarith
    linarith

/-- Claim C20 (amended): from a scale `c ≥ 1`, `n` zoom steps up (`ZoomIn`: the
scale `SetDispScale` stores for `CalcImageScale(+1)`) followed by `n` zoom steps
down (`ZoomOut`).  When every step up returns a `double` between `a` and `b`
times the scale it starts from and every step down a `double` between that scale
over `b` and over `a`, for factors `101 / 99 < a ≤ b` with
`(b / a) ^ n ≤ 101 / 100`, the scale `c'` reached satisfies
`c / (b / a) ^ n - 1 ≤ c'` and `c' ≤ (c + 1) * (b / a) ^ n`; it is within 1 of
`c` when `a = b`, that is when every step is the exact multiplication or
division by one factor.  The roundings of `log10`, of the sum and of `pow` make
`b / a` greater than 1, and the gap can then exceed 1. -/
theorem zoom_round_trip (lib : MathLibrary) (a b c : ℚ) (n : ℕ) (hc : 1 ≤ c)
    (ha : 101 / 99 < a) (hab : a ≤ b) (hr : (b / a) ^ n ≤ 101 / 100)
    (hup : ∀ j, j < n → StepUpWithin lib a b ((ZoomIn lib)^[j] c))
    (hdown : ∀ j, j < n → StepDownWithin lib a b ((ZoomOut lib)^[j] ((ZoomIn lib)^[n] c))) :
    c / (b / a) ^ n - 1 ≤ (ZoomOut lib)^[n] ((ZoomIn lib)^[n] c) ∧
    (ZoomOut lib)^[n] ((ZoomIn lib)^[n] c) ≤ (c + 1) * (b / a) ^ n ∧
    (a = b → |(ZoomOut lib)^[n] ((ZoomIn lib)^[n] c) - c| ≤ 1) := by
  have ha0 : 0 < a := by linarith
  have hb0 : 0 < b := by linarith
  obtain ⟨u1, u2⟩ := ZoomIn_iterate_between lib a b c ha0.le hb0.le n hup
  obtain ⟨d1, d2⟩ := ZoomOut_iterate_between lib a b _ _ _ ha0.le hb0.le u1 u2 n hdown
  have lo := le_trans (exact_round_trip_ge a b c n hc ha hab hr) d1
  have hi := le_trans d2 (exact_round_trip_le a b c n hc ha hab hr)
  refine ⟨lo, hi, ?_⟩
  intro hab2
  rw [← hab2, div_self (ne_of_gt ha0), one_pow] at lo hi
  rw [abs_le]
  constructor <;> linarith


/-- One `ZoomIn` from `99 - 2 ^ -46` with the library of the examples stores
101.30600623579465. -/
theorem ZoomIn_below_99 :
    ZoomIn runtimeLibrary (6966505673588735 / 2 ^ 46) = 7128776436467468 / 2 ^ 46 := by
  have hs : steppedScale runtimeLibrary (6966505673588735 / 2 ^ 46) IMAGE_ZOOM_STEP =
      7128776436467468 / 2 ^ 46 := steppedScale_below_99_up
  rw [ZoomIn_snapFloor _ _ (by
    rw [hs]; exact toDouble_of_dyadic _ 7128776436467468 46 (by norm_num) (by norm_num)), hs]
  exact snapFloor_of_gt _ (by norm_num)

/-- One `ZoomOut` from 101.30600623579465 with the library of the examples
stores 100: the power returned is 99, inside the window. -/
theorem ZoomOut_above_101 :
    ZoomOut runtimeLibrary (7128776436467468 / 2 ^ 46) = 100 := by
  have hs : steppedScale runtimeLibrary (7128776436467468 / 2 ^ 46) (-IMAGE_ZOOM_STEP) = 99 :=
    steppedScale_above_101_down
  rw [ZoomOut_snapFloor _ _ (by
    rw [hs]; exact toDouble_of_int 99 99 (by norm_num) (by norm_num)), hs]
  exact snapFloor_of_mem _ (by norm_num) (by norm_num)

/-- One `ZoomIn` from 10 with the library of the examples stores
10.232929922807541. -/
theorem ZoomIn_10 :
    ZoomIn runtimeLibrary 10 = 5760627423408055 / 2 ^ 49 := by
  have hs : steppedScale runtimeLibrary 10 IMAGE_ZOOM_STEP = 5760627423408055 / 2 ^ 49 :=
    steppedScale_10_up
  rw [ZoomIn_snapFloor _ _ (by
    rw [hs]; exact toDouble_of_dyadic _ 5760627423408055 49 (by norm_num) (by norm_num)), hs]
  exact (snapFloor_of_lt _ (by norm_num)).trans (by norm_num)

/-- Witness of claim C20 (amended), with the values the C library returns.  One
step up and one step down from the scale 98.99999999999999 (`99 - 2 ^ -46`): both
steps keep within the factors 1.02329299228075 and 1.02329299228076.  One step
up and one step down from the scale 10: the step up stores 10.232929922807541,
the step down returns 10, both are exact steps by the factor 1.0232929922807541,
and the scale reached is within 1 of 10. -/
theorem zoom_round_trip_witness :
    (    (6966505673588735 / 2 ^ 46 : ℚ) /
        ((102329299228076 / 100000000000000) / (102329299228075 / 100000000000000)) ^ 1 - 1 ≤
      (ZoomOut runtimeLibrary)^[1] ((ZoomIn runtimeLibrary)^[1] (6966505673588735 / 2 ^ 46)) ∧
    (ZoomOut runtimeLibrary)^[1] ((ZoomIn runtimeLibrary)^[1] (6966505673588735 / 2 ^ 46)) ≤
      (6966505673588735 / 2 ^ 46 + 1) *
        ((102329299228076 / 100000000000000) / (102329299228075 / 100000000000000)) ^ 1 ∧
    ((102329299228075 / 100000000000000 : ℚ) = 102329299228076 / 100000000000000 →
      |(ZoomOut runtimeLibrary)^[1] ((ZoomIn runtimeLibrary)^[1] (6966505673588735 / 2 ^ 46)) -
        6966505673588735 / 2 ^ 46| ≤ 1)) ∧
    |(ZoomOut runtimeLibrary)^[1] ((ZoomIn runtimeLibrary)^[1] 10) - 10| ≤ 1 :=
  ⟨zoom_round_trip runtimeLibrary (102329299228075 / 100000000000000)
    (102329299228076 / 100000000000000) (6966505673588735 / 2 ^ 46) 1
    (by norm_num) (by norm_num) (by norm_num) (by norm_num)
    (by
      intro j hj
      obtain rfl : j = 0 := by omega
      have hs : steppedScale runtimeLibrary (6966505673588735 / 2 ^ 46) IMAGE_ZOOM_STEP =
          7128776436467468 / 2 ^ 46 := steppedScale_below_99_up
      simp only [Function.iterate_zero, id_eq, StepUpWithin, hs]
      exact ⟨toDouble_of_dyadic _ 7128776436467468 46 (by norm_num) (by norm_num),
        by norm_num, by norm_num⟩)
    (by
      intro j hj
      obtain rfl : j = 0 := by omega
      have hs : steppedScale runtimeLibrary (7128776436467468 / 2 ^ 46) (-IMAGE_ZOOM_STEP) =
          99 := steppedScale_above_101_down
      simp only [Function.iterate_zero, id_eq, Function.iterate_succ, Function.comp_apply,
        ZoomIn_below_99, StepDownWithin, hs]
      exact ⟨toDouble_of_int 99 99 (by norm_num) (by norm_num), by norm_num, by norm_num⟩),
   (zoom_round_trip runtimeLibrary (5760627423408055 / 2 ^ 49 / 10)
    (5760627423408055 / 2 ^ 49 / 10) 10 1
    (by norm_num) (by norm_num) (le_refl _) (by norm_num)
    (by
      intro j hj
      obtain rfl : j = 0 := by omega
      have hs : steppedScale runtimeLibrary 10 IMAGE_ZOOM_STEP = 5760627423408055 / 2 ^ 49 :=
        steppedScale_10_up
      simp only [Function.iterate_zero, id_eq, StepUpWithin, hs]
      exact ⟨toDouble_of_dyadic _ 5760627423408055 49 (by norm_num) (by norm_num),
        by norm_num, by norm_num⟩)
    (by
      intro j hj
      obtain rfl : j = 0 := by omega
      have hs : steppedScale runtimeLibrary (5760627423408055 / 2 ^ 49) (-IMAGE_ZOOM_STEP) =
          10 := steppedScale_10_down
      simp only [Function.iterate_zero, id_eq, Function.iterate_succ, Function.comp_apply,
        ZoomIn_10, StepDownWithin, hs]
      exact ⟨toDouble_of_int 10 10 (by norm_num) (by norm_num), by norm_num,
        by norm_num⟩)).2.2 rfl⟩

/-- Counterexample to claim C20 as stated: the scale 98.99999999999999
(`99 - 2 ^ -46`) and one step.  With the values the C library returns the step
up stores 101.30600623579465; for the step down `pow` returns 99, inside the
window, and 100 is stored: the gap is `1 + 2 ^ -46`, greater than 1. -/
theorem zoom_round_trip_exceeds :
    (1 : ℚ) ≤ 6966505673588735 / 2 ^ 46 ∧
    (ZoomOut runtimeLibrary)^[1] ((ZoomIn runtimeLibrary)^[1] (6966505673588735 / 2 ^ 46)) =
      100 ∧
    (100 : ℚ) - 6966505673588735 / 2 ^ 46 = 1 + 1 / 2 ^ 46 ∧
    ¬ |(100 : ℚ) - 6966505673588735 / 2 ^ 46| ≤ 1 := by
  refine ⟨by norm_num, ?_, by norm_num, by norm_num [abs_le]⟩
  simp only [Function.iterate_zero, id_eq, Function.iterate_succ, Function.comp_apply,
    ZoomIn_below_99, ZoomOut_above_101]

/-! ### Screen to image coordinates -/

/-- Adding an integer to a non-negative value commutes with the conversion to
`int`. -/
theorem truncToInt_add_int (q : ℚ) (f : Int) (hq : 0 ≤ q) (hf : 0 ≤ f) :
    truncToInt (q + (f : ℚ)) = truncToInt q + f := by
  have hf2 : (0 : ℚ) ≤ (f : ℚ) := by exact_mod_cast hf
  rw [truncToInt_of_nonneg q hq, truncToInt_of_nonneg _ (by linarith), Int.floor_add_int]

theorem mousePixelPosition_x (s : State) (pos : POINT) :
    (mousePixelPosition s pos).x =
      int32 (truncToInt (ddiv ((int32 (pos.x - s.mImageDispRect.left) : Int) : ℚ)
        (ddiv s.mImageDispScale 100)) + s.mImageDispOffset.cx) := rfl

theorem mousePixelPosition_y (s : State) (pos : POINT) :
    (mousePixelPosition s pos).y =
      int32 (truncToInt (ddiv ((int32 (pos.y - s.mImageDispRect.top) : Int) : ℚ)
        (ddiv s.mImageDispScale 100)) + s.mImageDispOffset.cy) := rfl

/-- The `double` quotient of a distance by the scale factor, from the two
roundings that produce it. -/
theorem scaledDistance_eval (x : Int) (scale k q : ℚ) (hk : toDouble (scale / 100) = k)
    (hq : toDouble ((x : ℚ) / k) = q) : ddiv (x : ℚ) (ddiv scale 100) = q := by
  simp only [ddiv, hk, hq]

/-- For a distance in the `int` range and a scale of 1 or more the `double`
quotient by the scale factor is within `1 / 2` of the exact quotient, and its
integer part within 1 of the exact one. -/
theorem scaledDistance_close (x : Int) (scale : ℚ) (hs : 1 ≤ scale) (hx0 : 0 ≤ x)
    (hx : x < 2147483648) :
    0 ≤ ddiv (x : ℚ) (ddiv scale 100) ∧
    |truncToInt (ddiv (x : ℚ) (ddiv scale 100)) - truncToInt ((x : ℚ) / (scale / 100))| ≤ 1 := by
  have hs0 : (0 : ℚ) < scale / 100 := by linarith
  have hxq0 : (0 : ℚ) ≤ (x : ℚ) := by exact_mod_cast hx0
  have hxq : (x : ℚ) ≤ 2147483648 := by exact_mod_cast (le_of_lt hx)
  have hk : 0 < toDouble (scale / 100) := toDouble_pos _ hs0
  have hq0 : (0 : ℚ) ≤ (x : ℚ) / (scale / 100) := div_nonneg hxq0 hs0.le
  have hq : |(x : ℚ) / (scale / 100)| ≤ 214748364800 := by
    rw [abs_of_nonneg hq0, div_le_iff₀ hs0]
    nlinarith
  have hd0 : 0 ≤ ddiv (x : ℚ) (ddiv scale 100) :=
    toDouble_nonneg _ (div_nonneg hxq0 hk.le)
  have h1 := toDouble_div_error (x : ℚ) (scale / 100) (ne_of_gt hs0)
  have h2 : |ddiv (x : ℚ) (ddiv scale 100) - (x : ℚ) / (scale / 100)| ≤ 1 / 2 := by
    refine le_trans h1 (le_trans (div_le_div_of_nonneg_right hq (by positivity)) ?_)
    norm_num
  refine ⟨hd0, ?_⟩
  obtain ⟨c1, c2⟩ := abs_le.mp h2
  rw [truncToInt_of_nonneg _ hd0, truncToInt_of_nonneg _ hq0, abs_le]
  have a1 := Int.floor_le (ddiv (x : ℚ) (ddiv scale 100))
  have a2 := Int.lt_floor_add_one (ddiv (x : ℚ) (ddiv scale 100))
  have b1 := Int.floor_le ((x : ℚ) / (scale / 100))
  have b2 := Int.lt_floor_add_one ((x : ℚ) / (scale / 100))
  constructor
  · have : ((⌊(x : ℚ) / (scale / 100)⌋ : Int) : ℚ) <
        (⌊ddiv (x : ℚ) (ddiv scale 100)⌋ : ℚ) + 2 := by linarith
    have : ⌊(x : ℚ) / (scale / 100)⌋ < ⌊ddiv (x : ℚ) (ddiv scale 100)⌋ + 2 := by
      exact_mod_cast this
    omega
  · have : ((⌊ddiv (x : ℚ) (ddiv scale 100)⌋ : Int) : ℚ) <
        (⌊(x : ℚ) / (scale / 100)⌋ : ℚ) + 2 := by linarith
    have : ⌊ddiv (x : ℚ) (ddiv scale 100)⌋ < ⌊(x : ℚ) / (scale / 100)⌋ + 2 := by
      exact_mod_cast this
    omega

/-- One axis of the readout, for a cursor at or after the origin of the display
rectangle. -/
theorem imageCoordinate_near (p o f : Int) (scale : ℚ) (hs : 1 ≤ scale) (hpo : o ≤ p)
    (hlt : p - o < 2147483648) (hf : 0 ≤ f)
    (hlt2 : specScreenToImage p o scale f < 2147483647) :
    int32 (truncToInt (ddiv ((int32 (p - o) : Int) : ℚ) (ddiv scale 100)) + f) =
      truncToInt (ddiv ((p - o : Int) : ℚ) (ddiv scale 100)) + f ∧
    |int32 (truncToInt (ddiv ((int32 (p - o) : Int) : ℚ) (ddiv scale 100)) + f) -
      specScreenToImage p o scale f| ≤ 1 := by
  have hs0 : (0 : ℚ) < scale / 100 := by linarith
  have hq : (0 : ℚ) ≤ (((p - o : Int) : ℚ)) / (scale / 100) := by
    apply div_nonneg _ (le_of_lt hs0)
    exact_mod_cast (by omega : (0 : Int) ≤ p - o)
  obtain ⟨hd0, hcl⟩ := scaledDistance_close (p - o) scale hs (by omega) hlt
  rw [int32_of_range (p - o) (by omega) hlt]
  unfold specScreenToImage at hlt2 ⊢
  rw [truncToInt_add_int _ f hq hf] at hlt2 ⊢
  have h0 := (truncToInt_le _ hd0).1
  obtain ⟨c1, c2⟩ := abs_le.mp hcl
  have e := int32_of_range (truncToInt (ddiv ((p - o : Int) : ℚ) (ddiv scale 100)) + f)
    (by omega) (by omega)
  rw [e]
  refine ⟨rfl, ?_⟩
  rw [abs_le]
  constructor <;> omega

/-- Claim C21 (amended): for a cursor position at or right of and at or below
the origin of the display rectangle, a scale of 1 or more and a non-negative
offset, with the results inside the `int` range, the image coordinate the
readout computes on each axis is `trunc(q) + f`, where `q` is the `double`
quotient `(p - o) / (s / 100.0)` with both divisions rounded, and it is within 1
of `trunc((p - o) / (s / 100) + f)` computed exactly. -/
theorem mousePixelPosition_spec (s : State) (pos : POINT)
    (hs : 1 ≤ s.mImageDispScale)
    (hfx : 0 ≤ s.mImageDispOffset.cx) (hfy : 0 ≤ s.mImageDispOffset.cy)
    (hx : s.mImageDispRect.left ≤ pos.x) (hy : s.mImageDispRect.top ≤ pos.y)
    (hx1 : pos.x - s.mImageDispRect.left < 2147483648)
    (hy1 : pos.y - s.mImageDispRect.top < 2147483648)
    (hx2 : specScreenToImage pos.x s.mImageDispRect.left s.mImageDispScale
      s.mImageDispOffset.cx < 2147483647)
    (hy2 : specScreenToImage pos.y s.mImageDispRect.top s.mImageDispScale
      s.mImageDispOffset.cy < 2147483647) :
    (mousePixelPosition s pos).x =
      truncToInt (ddiv ((pos.x - s.mImageDispRect.left : Int) : ℚ)
        (ddiv s.mImageDispScale 100)) + s.mImageDispOffset.cx ∧
    (mousePixelPosition s pos).y =
      truncToInt (ddiv ((pos.y - s.mImageDispRect.top : Int) : ℚ)
        (ddiv s.mImageDispScale 100)) + s.mImageDispOffset.cy ∧
    |(mousePixelPosition s pos).x -
      specScreenToImage pos.x s.mImageDispRect.left s.mImageDispScale
        s.mImageDispOffset.cx| ≤ 1 ∧
    |(mousePixelPosition s pos).y -
      specScreenToImage pos.y s.mImageDispRect.top s.mImageDispScale
        s.mImageDispOffset.cy| ≤ 1 := by
  obtain ⟨x1, x2⟩ := imageCoordinate_near pos.x s.mImageDispRect.left s.mImageDispOffset.cx
    s.mImageDispScale hs hx hx1 hfx hx2
  obtain ⟨y1, y2⟩ := imageCoordinate_near pos.y s.mImageDispRect.top s.mImageDispOffset.cy
    s.mImageDispScale hs hy hy1 hfy hy2
  rw [mousePixelPosition_x, mousePixelPosition_y]
  exact ⟨x1, y1, x2, y2⟩

/-- The scale factor `200 / 100.0` is 2. -/
theorem ddiv_200_100 : toDouble ((200 : ℚ) / 100) = 2 := by
  have := toDouble_of_int ((200 : ℚ) / 100) 2 (by norm_num) (by norm_num)
  rw [this]; norm_num

/-- Witness of claim C21 (amended): the cursor at (25, 13) over a display
rectangle that starts at (10, 10), at scale 200 with the offset (1, 1): the
image coordinates are (8, 2). -/
theorem mousePixelPosition_spec_witness :
    mousePixelPosition readoutState ⟨25, 13⟩ = ⟨8, 2⟩ ∧
    specScreenToImage 25 10 200 1 = 8 ∧ specScreenToImage 13 10 200 1 = 2 := by
  have sx : specScreenToImage 25 10 200 1 = 8 := by
    norm_num [specScreenToImage, truncToInt, Int.floor_eq_iff]
  have sy : specScreenToImage 13 10 200 1 = 2 := by
    norm_num [specScreenToImage, truncToInt, Int.floor_eq_iff]
  have h := mousePixelPosition_spec readoutState ⟨25, 13⟩ (by norm_num [readoutState])
    (by decide) (by decide) (by decide) (by decide) (by decide) (by decide)
    (by
      show specScreenToImage 25 10 200 1 < 2147483647
      rw [sx]; norm_num)
    (by
      show specScreenToImage 13 10 200 1 < 2147483647
      rw [sy]; norm_num)
  have qx : ddiv (((25 - 10 : Int)) : ℚ) (ddiv 200 100) = 15 / 2 :=
    scaledDistance_eval (25 - 10) 200 2 (15 / 2) ddiv_200_100
      (by have := toDouble_of_dyadic (((25 - 10 : Int) : ℚ) / 2) 15 1 (by norm_num) (by norm_num)
          rw [this]; norm_num)
  have qy : ddiv (((13 - 10 : Int)) : ℚ) (ddiv 200 100) = 3 / 2 :=
    scaledDistance_eval (13 - 10) 200 2 (3 / 2) ddiv_200_100
      (by have := toDouble_of_dyadic (((13 - 10 : Int) : ℚ) / 2) 3 1 (by norm_num) (by norm_num)
          rw [this]; norm_num)
  have ex : (mousePixelPosition readoutState ⟨25, 13⟩).x = 8 := by
    rw [h.1]
    show truncToInt (ddiv (((25 - 10 : Int)) : ℚ) (ddiv 200 100)) + 1 = 8
    rw [qx]
    norm_num [truncToInt, Int.floor_eq_iff]
  have ey : (mousePixelPosition readoutState ⟨25, 13⟩).y = 2 := by
    rw [h.2.1]
    show truncToInt (ddiv (((13 - 10 : Int)) : ℚ) (ddiv 200 100)) + 1 = 2
    rw [qy]
    norm_num [truncToInt, Int.floor_eq_iff]
  refine ⟨?_, sx, sy⟩
  have : mousePixelPosition readoutState ⟨25, 13⟩ =
      ⟨(mousePixelPosition readoutState ⟨25, 13⟩).x,
       (mousePixelPosition readoutState ⟨25, 13⟩).y⟩ := rfl
  rw [this, ex, ey]

/-- Counterexample to claim C21 as stated.  The cursor one pixel left of the
display rectangle (x = 9, origin 10) at scale 200 with the offset 1: the
quotient is -1/2; the code converts it to 0 and adds 1, the stated formula
truncates `-1/2 + 1` to 0.  The cursor at (43, 65) inside the display rectangle
at scale 110 with the offset (1, 1): the stated formula gives (31, 51); the
scale factor `110 / 100.0` rounds up, the `double` quotients of 33 and 55 by it
are `30 - 2 ^ -48` and `50 - 2 ^ -47`, and the code gives (30, 50). -/
theorem mousePixelPosition_differs :
    (mousePixelPosition readoutState ⟨9, 13⟩).x = 1 ∧
    specScreenToImage 9 readoutState.mImageDispRect.left readoutState.mImageDispScale
      readoutState.mImageDispOffset.cx = 0 ∧
    mousePixelPosition readoutState110 ⟨43, 65⟩ = ⟨30, 50⟩ ∧
    specScreenToImage 43 readoutState110.mImageDispRect.left readoutState110.mImageDispScale
      readoutState110.mImageDispOffset.cx = 31 ∧
    specScreenToImage 65 readoutState110.mImageDispRect.top readoutState110.mImageDispScale
      readoutState110.mImageDispOffset.cy = 51 := by
  have hk : toDouble ((110 : ℚ) / 100) = (4953959590107546 : ℕ) / 2 ^ 52 :=
    toDouble_of_pos _ 52 4953959590107546 (by norm_num) (by norm_num) (by norm_num)
      (by norm_num)
  have qx : ddiv (((33 : Int)) : ℚ) (ddiv 110 100) = (8444249301319679 : ℕ) / 2 ^ 48 :=
    scaledDistance_eval 33 110 _ _ hk
      (toDouble_of_pos _ 48 8444249301319679 (by norm_num) (by norm_num) (by norm_num)
        (by norm_num))
  have qy : ddiv (((55 : Int)) : ℚ) (ddiv 110 100) = (7036874417766399 : ℕ) / 2 ^ 47 :=
    scaledDistance_eval 55 110 _ _ hk
      (toDouble_of_pos _ 47 7036874417766399 (by norm_num) (by norm_num) (by norm_num)
        (by norm_num))
  have ql : ddiv (((-1 : Int)) : ℚ) (ddiv 200 100) = -(1 / 2) :=
    scaledDistance_eval (-1) 200 2 _ ddiv_200_100
      (by rw [show (((-1 : Int) : ℚ)) / 2 = -((1 : ℕ) / 2 ^ 1) by norm_num, toDouble_neg,
            toDouble_dyadic_nat 1 1 (by norm_num)]
          norm_num)
  have hc : ⌈(-(1 / 2) : ℚ)⌉ = 0 := by
    rw [Int.ceil_eq_iff]; norm_num
  refine ⟨?_, ?_, ?_, ?_, ?_⟩
  · rw [mousePixelPosition_x]
    show int32 (truncToInt (ddiv (((-1 : Int)) : ℚ) (ddiv 200 100)) + 1) = 1
    rw [ql]
    norm_num [truncToInt, hc, int32]
  · norm_num [specScreenToImage, readoutState, truncToInt, Int.floor_eq_iff]
  · have ex : (mousePixelPosition readoutState110 ⟨43, 65⟩).x = 30 := by
      rw [mousePixelPosition_x]
      show int32 (truncToInt (ddiv (((33 : Int)) : ℚ) (ddiv 110 100)) + 1) = 30
      rw [qx]
      norm_num [truncToInt, Int.floor_eq_iff, int32]
    have ey : (mousePixelPosition readoutState110 ⟨43, 65⟩).y = 50 := by
      rw [mousePixelPosition_y]
      show int32 (truncToInt (ddiv (((55 : Int)) : ℚ) (ddiv 110 100)) + 1) = 50
      rw [qy]
      norm_num [truncToInt, Int.floor_eq_iff, int32]
    have : mousePixelPosition readoutState110 ⟨43, 65⟩ =
        ⟨(mousePixelPosition readoutState110 ⟨43, 65⟩).x,
         (mousePixelPosition readoutState110 ⟨43, 65⟩).y⟩ := rfl
    rw [this, ex, ey]
  · norm_num [specScreenToImage, readoutState110, truncToInt, Int.floor_eq_iff]
  · norm_num [specScreenToImage, readoutState110, truncToInt, Int.floor_eq_iff]

/-- Claim C30, the failing input: a 24-bit top-down image 1 wide and 2 high.
`AllocateImageBuffer` records a buffer of `1 * 2 * 3 = 6` bytes;
`GetPixelPointer(0, 1)` rounds the line size 3 up to 4 and returns the byte
offset 4, so the three bytes of the pixel end at offset 7, past the buffer.  An
8-bit image of the same size keeps its pixels inside its 2 bytes. -/
theorem GetPixelPointer_past_buffer :
    (AllocateImageBuffer initOpen 1 2 true false false).mBitmapBitsSize = 6 ∧
    GetPixelPointer (AllocateImageBuffer initOpen 1 2 true false false) 0 1 = some 4 ∧
    ¬ ((4 : Int) + 3 ≤ 6) ∧
    (AllocateImageBuffer initOpen 1 2 false false false).mBitmapBitsSize = 2 ∧
    GetPixelPointer (AllocateImageBuffer initOpen 1 2 false false false) 0 1 = some 1 := by
  decide

/-- Claim C26, the failing input: a window holding a 2 by 2 8-bit image, the
heap refusing requests above 1100 bytes, and a request for a 40 by 40 image
(1600 bytes).  `PrepareImageBuffers` releases the old buffer, the allocation
fails, `mAllocatedImageBuffer` is `NULL` and `mBitmapBits` still holds the
address of the released buffer; `GetImageBufferPtr` returns that address,
`CopyIntoImageBuffer` copies to it (a write into a released block), and the
mutex has been released by `CreateNewImageBuffer` before the copy. -/
theorem PrepareImageBuffers_failure_keeps_pointer :
    lowMemoryState.mBitmapBits = 1 ∧
    lowMemoryState.heap.mem 1 = some [0, 0, 0, 0] ∧
    (PrepareImageBuffers (WaitForSingleObject lowMemoryState) 40 40 false false false).1
      = true ∧
    (PrepareImageBuffers (WaitForSingleObject lowMemoryState) 40 40 false false false).2.mAllocatedImageBuffer
      = 0 ∧
    (PrepareImageBuffers (WaitForSingleObject lowMemoryState) 40 40 false false false).2.mBitmapBits
      = 1 ∧
    GetImageBufferPtr
      (PrepareImageBuffers (WaitForSingleObject lowMemoryState) 40 40 false false false).2 = 1 ∧
    (PrepareImageBuffers (WaitForSingleObject lowMemoryState) 40 40 false false false).2.heap.mem 1
      = none ∧
    (PrepareImageBuffers (WaitForSingleObject lowMemoryState) 40 40 false false false).2.mMutexCount
      = 0 ∧
    (CopyIntoImageBuffer lowMemoryState 40 40 (List.replicate 1600 7) false false false).isNone
      = true := by
  decide

/-- Claim C29, the failing input: the first `CopyIntoImageBuffer` call on an open
window, a 2 by 1 16-bit image with the samples `0x1234` and `0xABCD` and map
mode disabled.  The geometry changes, so the call ends in `UpdateWindowSize` and
not in `UpdateImage`: the call returns with the samples in the 16-bit buffer and
the 8-bit shadow buffer still `[0, 0]`, not `[0x12, 0xAB]`.  A second call with
the same arguments takes the other branch and leaves `[0x12, 0xAB]`. -/
theorem CopyIntoImageBuffer_first_call_stale_shadow :
    (CopyIntoImageBuffer initOpen 2 1 [52, 18, 205, 171] false false true).map
        (fun t => (t.mWindowState, t.mIs16BitsImage, t.mIsMapModeEnabled))
      = some (WINDOW_OPEN_STATE, true, false) ∧
    (CopyIntoImageBuffer initOpen 2 1 [52, 18, 205, 171] false false true).map
        (fun t => (t.heap.mem t.mAllocated16BitsImageBuffer,
          t.heap.mem t.mAllocatedImageBuffer))
      = some (some [52, 18, 205, 171], some [0, 0]) ∧
    sample16 [52, 18, 205, 171] 0 = some 4660 ∧ (4660 : Nat) >>> 8 = 18 ∧
    sample16 [52, 18, 205, 171] 1 = some 43981 ∧ (43981 : Nat) >>> 8 = 171 ∧
    ((CopyIntoImageBuffer initOpen 2 1 [52, 18, 205, 171] false false true).bind
        (fun t => CopyIntoImageBuffer t 2 1 [52, 18, 205, 171] false false true)).map
        (fun u => (u.heap.mem u.mAllocated16BitsImageBuffer,
          u.heap.mem u.mAllocatedImageBuffer))
      = some (some [52, 18, 205, 171], some [18, 171]) := by
  decide

/-! ### What the producers do to the viewport -/

theorem CreateBitmapInfo_viewport (s : State) (w h : Int) (c b x : Bool) :
    (viewport (CreateBitmapInfo s w h c b x).2, (CreateBitmapInfo s w h c b x).2.mWindowState)
      = (viewport s, s.mWindowState) := by
  simp only [CreateBitmapInfo, CreateColorBitmapInfo, CreateMonoBitmapInfo]
  split_ifs <;> rfl

theorem CreateNewImageBuffer_viewport (s : State) (k : Bool) :
    (viewport (CreateNewImageBuffer s k).2, (CreateNewImageBuffer s k).2.mWindowState,
        (CreateNewImageBuffer s k).2.mBitmapInfo)
      = (viewport s, s.mWindowState, s.mBitmapInfo) := by
  simp only [CreateNewImageBuffer]
  split_ifs <;> rfl

theorem CreateNewImageBuffer16Bits_viewport (s : State) (k : Bool) :
    (viewport (CreateNewImageBuffer16Bits s k).2,
        (CreateNewImageBuffer16Bits s k).2.mWindowState)
      = (viewport s, s.mWindowState) := by
  simp only [CreateNewImageBuffer16Bits]
  split_ifs <;> rfl

theorem PrepareImageBuffers_viewport (s : State) (w h : Int) (c b x : Bool) :
    (viewport (PrepareImageBuffers s w h c b x).2,
        (PrepareImageBuffers s w h c b x).2.mWindowState)
      = (viewport s, s.mWindowState) := by
  have h1 : ∀ u : State, (viewport (release16BitsIfUnused x u),
      (release16BitsIfUnused x u).mWindowState) = (viewport u, u.mWindowState) := by
    intro u; simp only [release16BitsIfUnused]; split_ifs <;> rfl
  have h2 : ∀ (d : Bool) (u : State), (viewport (releaseIfResized d u),
      (releaseIfResized d u).mWindowState) = (viewport u, u.mWindowState) := by
    intro d u; simp only [releaseIfResized]; split_ifs <;> rfl
  have h3 : ∀ u : State, (viewport (ensureImageBuffer u),
      (ensureImageBuffer u).mWindowState) = (viewport u, u.mWindowState) := by
    intro u; unfold ensureImageBuffer; split_ifs
    · have := CreateNewImageBuffer_viewport u true
      simp only [Prod.mk.injEq] at this ⊢
      exact ⟨this.1, this.2.1⟩
    · rfl
  have h4 : ∀ u : State, (viewport (ensure16BitsImageBuffer x u),
      (ensure16BitsImageBuffer x u).mWindowState) = (viewport u, u.mWindowState) := by
    intro u; unfold ensure16BitsImageBuffer; split_ifs
    · exact CreateNewImageBuffer16Bits_viewport u true
    · rfl
  simp only [PrepareImageBuffers, h4, h3, h2, h1]
  exact CreateBitmapInfo_viewport s w h c b x

theorem Update16BitsImageDisp_viewport (s t : State) (h : Update16BitsImageDisp s = some t) :
    viewport t = viewport s := by
  simp only [Update16BitsImageDisp] at h
  split at h
  · cases h; rfl
  · cases h

theorem UpdateImage_viewport (s t : State) (h : UpdateImage s = some t) :
    viewport t = viewport s := by
  simp only [UpdateImage] at h
  split_ifs at h
  · cases h; rfl
  · exact Update16BitsImageDisp_viewport s t h
  · cases h; rfl

/-- `UpdateWindowSize` changes nothing when the window is not open. -/
theorem UpdateWindowSize_closed (s : State) (k : Bool)
    (h : s.mWindowState ≠ WINDOW_OPEN_STATE) : UpdateWindowSize s k = s := by
  unfold UpdateWindowSize
  split
  · rfl
  · rw [if_pos h]

/-- `UpdateWindowSize()` on an open window with a header resets the viewport. -/
theorem UpdateWindowSize_viewport_open (s : State)
    (h : s.mWindowState = WINDOW_OPEN_STATE) (hi : s.mBitmapInfo ≠ none) :
    viewport (UpdateWindowSize s false) = (100, ⟨0, 0⟩) := by
  unfold UpdateWindowSize
  split
  · rename_i e; exact absurd e hi
  · rw [if_neg (by simp [h])]
    rfl

/-- The tail `if (doUpdateSize) UpdateWindowSize(); else UpdateImage();` of
`SetImageBufferPtr` and `CopyIntoImageBuffer`, and what it does to the viewport of
the state `u` it starts from. -/
theorem producer_tail_viewport (u t : State) (flag : Bool)
    (ht : (if flag then some (UpdateWindowSize u false) else UpdateImage u) = some t) :
    ((u.mWindowState ≠ WINDOW_OPEN_STATE ∨ flag = false) → viewport t = viewport u) ∧
    (u.mWindowState = WINDOW_OPEN_STATE → flag = true → u.mBitmapInfo ≠ none →
      viewport t = (100, ⟨0, 0⟩)) := by
  constructor
  · intro hc
    cases flag with
    | false => exact UpdateImage_viewport u t ht
    | true =>
      rcases hc with hc | hc
      · simp only [if_true] at ht
        cases ht
        rw [UpdateWindowSize_closed u false hc]
      · cases hc
  · intro ho hf hi
    subst hf
    simp only [if_true] at ht
    cases ht
    exact UpdateWindowSize_viewport_open u ho hi

theorem AllocateImageBuffer_viewport (s : State) (w h : Int) (c b x : Bool) :
    ((s.mWindowState ≠ WINDOW_OPEN_STATE ∨
        (CreateBitmapInfo (WaitForSingleObject s) w h c b x).1 = false) →
      viewport (AllocateImageBuffer s w h c b x) = viewport s) ∧
    (s.mWindowState = WINDOW_OPEN_STATE →
      (CreateBitmapInfo (WaitForSingleObject s) w h c b x).1 = true →
      (CreateBitmapInfo (WaitForSingleObject s) w h c b x).2.mBitmapInfo ≠ none →
      viewport (AllocateImageBuffer s w h c b x) = (100, ⟨0, 0⟩)) := by
  have hp := PrepareImageBuffers_viewport (WaitForSingleObject s) w h c b x
  simp only [Prod.mk.injEq] at hp
  have hv : viewport (ReleaseMutex (PrepareImageBuffers (WaitForSingleObject s) w h c b x).2)
      = viewport s := hp.1
  have hw : (ReleaseMutex (PrepareImageBuffers (WaitForSingleObject s) w h c b x).2).mWindowState
      = s.mWindowState := hp.2
  have hi : (ReleaseMutex (PrepareImageBuffers (WaitForSingleObject s) w h c b x).2).mBitmapInfo
      = (CreateBitmapInfo (WaitForSingleObject s) w h c b x).2.mBitmapInfo := by simp
  constructor
  · intro hc
    rw [← hv]
    rcases hc with hc | hc
    · simp only [AllocateImageBuffer, PrepareImageBuffers_fst]
      split_ifs
      · rw [UpdateWindowSize_closed _ false (by rw [hw]; exact hc)]
      · rfl
    · simp only [AllocateImageBuffer, PrepareImageBuffers_fst, hc]
      rfl
  · intro ho hf hn
    simp only [AllocateImageBuffer, PrepareImageBuffers_fst, hf, if_true]
    exact UpdateWindowSize_viewport_open _ (by rw [hw]; exact ho) (by rw [hi]; exact hn)


theorem CopyIntoImageBuffer_viewport (s t : State) (w h : Int) (src : List Nat) (c b x : Bool)
    (ht : CopyIntoImageBuffer s w h src c b x = some t) :
    ((s.mWindowState ≠ WINDOW_OPEN_STATE ∨
        (CreateBitmapInfo (WaitForSingleObject s) w h c b x).1 = false) →
      viewport t = viewport s) ∧
    (s.mWindowState = WINDOW_OPEN_STATE →
      (CreateBitmapInfo (WaitForSingleObject s) w h c b x).1 = true →
      (CreateBitmapInfo (WaitForSingleObject s) w h c b x).2.mBitmapInfo ≠ none →
      viewport t = (100, ⟨0, 0⟩)) := by
  have hp := PrepareImageBuffers_viewport (WaitForSingleObject s) w h c b x
  simp only [Prod.mk.injEq] at hp
  simp only [CopyIntoImageBuffer, PrepareImageBuffers_fst] at ht
  split at ht
  · cases ht
  · rename_i hp0 hcopy
    have hv : viewport (ReleaseMutex
        { (PrepareImageBuffers (WaitForSingleObject s) w h c b x).2 with heap := hp0 })
        = viewport s := hp.1
    have hw : (ReleaseMutex
        { (PrepareImageBuffers (WaitForSingleObject s) w h c b x).2 with heap := hp0 }).mWindowState
        = s.mWindowState := hp.2
    have hi : (ReleaseMutex
        { (PrepareImageBuffers (WaitForSingleObject s) w h c b x).2 with heap := hp0 }).mBitmapInfo
        = (CreateBitmapInfo (WaitForSingleObject s) w h c b x).2.mBitmapInfo :=
      PrepareImageBuffers_mBitmapInfo (WaitForSingleObject s) w h c b x
    have key := producer_tail_viewport _ t _ ht
    rw [hv, hw, hi] at key
    exact key

theorem SetImageBufferPtr_viewport (s t : State) (w h : Int) (p : Nat) (c b x : Bool)
    (ht : SetImageBufferPtr s w h p c b x = some t) :
    ((s.mWindowState ≠ WINDOW_OPEN_STATE ∨
        (CreateBitmapInfo (WaitForSingleObject s) w h c b x).1 = false) →
      viewport t = viewport s) ∧
    (s.mWindowState = WINDOW_OPEN_STATE →
      (CreateBitmapInfo (WaitForSingleObject s) w h c b x).1 = true →
      (CreateBitmapInfo (WaitForSingleObject s) w h c b x).2.mBitmapInfo ≠ none →
      viewport t = (100, ⟨0, 0⟩)) := by
  have h1 : ∀ u : State, (viewport (releaseImageBuffer u), (releaseImageBuffer u).mWindowState,
      (releaseImageBuffer u).mBitmapInfo) = (viewport u, u.mWindowState, u.mBitmapInfo) := by
    intro u; simp only [releaseImageBuffer]; split_ifs <;> rfl
  have h2 : ∀ u : State, (viewport (release16BitsImageBuffer u),
      (release16BitsImageBuffer u).mWindowState, (release16BitsImageBuffer u).mBitmapInfo)
      = (viewport u, u.mWindowState, u.mBitmapInfo) := by
    intro u; simp only [release16BitsImageBuffer]; split_ifs <;> rfl
  have h3 : ∀ u : State, (viewport (adoptPointer p x u), (adoptPointer p x u).mWindowState,
      (adoptPointer p x u).mBitmapInfo) = (viewport u, u.mWindowState, u.mBitmapInfo) := by
    intro u; simp only [adoptPointer]; split_ifs
    · rfl
    · exact CreateNewImageBuffer_viewport u true
  have hc := CreateBitmapInfo_viewport (WaitForSingleObject s) w h c b x
  simp only [Prod.mk.injEq] at hc
  have hall : (viewport (ReleaseMutex (adoptPointer p x (release16BitsImageBuffer
        (releaseImageBuffer (CreateBitmapInfo (WaitForSingleObject s) w h c b x).2)))),
      (ReleaseMutex (adoptPointer p x (release16BitsImageBuffer
        (releaseImageBuffer (CreateBitmapInfo (WaitForSingleObject s) w h c b x).2)))).mWindowState,
      (ReleaseMutex (adoptPointer p x (release16BitsImageBuffer
        (releaseImageBuffer (CreateBitmapInfo (WaitForSingleObject s) w h c b x).2)))).mBitmapInfo)
      = (viewport s, s.mWindowState,
          (CreateBitmapInfo (WaitForSingleObject s) w h c b x).2.mBitmapInfo) := by
    have e := (h3 (release16BitsImageBuffer
      (releaseImageBuffer (CreateBitmapInfo (WaitForSingleObject s) w h c b x).2))).trans
      ((h2 _).trans (h1 _))
    simp only [Prod.mk.injEq] at e ⊢
    exact ⟨e.1.trans hc.1, e.2.1.trans hc.2, e.2.2⟩
  simp only [Prod.mk.injEq] at hall
  simp only [SetImageBufferPtr] at ht
  have key := producer_tail_viewport _ t _ ht
  rw [hall.1, hall.2.1, hall.2.2] at key
  exact key

/-- Claim C28 (amended): a producer call (`AllocateImageBuffer`,
`CopyIntoImageBuffer`, `SetImageBufferPtr`) leaves the viewport scale and offset as
they were when the window is not open or the geometry test reports no change; on
an open window a call whose geometry test reports a change resets the scale to
100 and the offset to (0, 0). -/
theorem producers_viewport (s : State) (w h : Int) (p : Nat) (src : List Nat) (c b x : Bool) :
    ((s.mWindowState ≠ WINDOW_OPEN_STATE ∨
        (CreateBitmapInfo (WaitForSingleObject s) w h c b x).1 = false) →
      viewport (AllocateImageBuffer s w h c b x) = viewport s ∧
      (∀ t, CopyIntoImageBuffer s w h src c b x = some t → viewport t = viewport s) ∧
      (∀ t, SetImageBufferPtr s w h p c b x = some t → viewport t = viewport s)) ∧
    (s.mWindowState = WINDOW_OPEN_STATE →
      (CreateBitmapInfo (WaitForSingleObject s) w h c b x).1 = true →
      (CreateBitmapInfo (WaitForSingleObject s) w h c b x).2.mBitmapInfo ≠ none →
      viewport (AllocateImageBuffer s w h c b x) = (100, ⟨0, 0⟩) ∧
      (∀ t, CopyIntoImageBuffer s w h src c b x = some t → viewport t = (100, ⟨0, 0⟩)) ∧
      (∀ t, SetImageBufferPtr s w h p c b x = some t → viewport t = (100, ⟨0, 0⟩))) :=
  ⟨fun hc => ⟨(AllocateImageBuffer_viewport s w h c b x).1 hc,
      fun t ht => (CopyIntoImageBuffer_viewport s t w h src c b x ht).1 hc,
      fun t ht => (SetImageBufferPtr_viewport s t w h p c b x ht).1 hc⟩,
   fun ho hf hn => ⟨(AllocateImageBuffer_viewport s w h c b x).2 ho hf hn,
      fun t ht => (CopyIntoImageBuffer_viewport s t w h src c b x ht).2 ho hf hn,
      fun t ht => (SetImageBufferPtr_viewport s t w h p c b x ht).2 ho hf hn⟩⟩

/-- Witness of claim C28 (amended): an open window holding a 2 by 2 8-bit image
at scale 250 and offset (3, 4); the three producers are called with the same
geometry, return, and leave the viewport at scale 250 and offset (3, 4). -/
theorem producers_viewport_witness :
    viewport zoomedState = (250, ⟨3, 4⟩) ∧
    (CopyIntoImageBuffer zoomedState 2 2 [1, 2, 3, 4] false false false).isSome = true ∧
    (SetImageBufferPtr zoomedState 2 2 77 false false false).isSome = true ∧
    viewport (AllocateImageBuffer zoomedState 2 2 false false false) = viewport zoomedState ∧
    (∀ t, CopyIntoImageBuffer zoomedState 2 2 [1, 2, 3, 4] false false false = some t →
      viewport t = viewport zoomedState) ∧
    (∀ t, SetImageBufferPtr zoomedState 2 2 77 false false false = some t →
      viewport t = viewport zoomedState) :=
  ⟨rfl, by decide, by decide,
   (producers_viewport zoomedState 2 2 77 [1, 2, 3, 4] false false false).1
     (Or.inr (by decide))⟩

/-- Counterexample to claim C28 as stated: an open window holding a 2 by 2
image at scale 250 and offset (3, 4); `AllocateImageBuffer(4, 4)` changes the
geometry and the viewport is back at scale 100 and offset (0, 0). -/
theorem AllocateImageBuffer_resets_viewport :
    viewport zoomedState = (250, ⟨3, 4⟩) ∧
    viewport (AllocateImageBuffer zoomedState 4 4 false false false) = (100, ⟨0, 0⟩) ∧
    viewport (AllocateImageBuffer zoomedState 4 4 false false false) ≠ viewport zoomedState := by
  have h1 : viewport zoomedState = (250, ⟨3, 4⟩) := rfl
  have h2 : viewport (AllocateImageBuffer zoomedState 4 4 false false false) = (100, ⟨0, 0⟩) :=
    (AllocateImageBuffer_viewport zoomedState 4 4 false false false).2
      (by decide) (by decide) (by decide)
  refine ⟨h1, h2, ?_⟩
  rw [h1, h2]
  intro e
  have e2 := (Prod.mk.inj e).1
  norm_num at e2

/-! ### Operations on a window without a buffer -/

/-- Claim C25: in a state without a header (`mBitmapInfo` is `NULL`)
`SaveBitmapFile` and `CopyToClipboard` return false and leave the state as it is,
`CreateDIB` returns `NULL`, `GetImageWidth`, `GetImageHeight` and
`GetImageBitCount` return 0, and `SetColormap` and `FlipImageBuffer` return with
the state unchanged. -/
theorem no_buffer_operations (s : State) (fs : FileSystem) (force : Bool) (inIndex : Int)
    (h : s.mBitmapInfo = none) :
    SaveBitmapFile s fs = some (false, s, none) ∧
    CopyToClipboard s = some (false, s, none) ∧
    CreateDIB s force = some (0, s) ∧
    GetImageWidth s = 0 ∧ GetImageHeight s = 0 ∧ GetImageBitCount s = 0 ∧
    SetColormap s inIndex = some s ∧
    FlipImageBuffer s = some s := by
  simp only [SaveBitmapFile, CopyToClipboard, CreateDIB, GetImageWidth, GetImageHeight,
    GetImageBitCount, SetColormap, FlipImageBuffer, h, and_self]

/-- Witness of claim C25: the state the constructor leaves. -/
theorem no_buffer_operations_witness :
    SaveBitmapFile init diskOk = some (false, init, none) ∧
    CopyToClipboard init = some (false, init, none) ∧
    CreateDIB init true = some (0, init) ∧
    GetImageWidth init = 0 ∧ GetImageHeight init = 0 ∧ GetImageBitCount init = 0 ∧
    SetColormap init 0 = some init ∧
    FlipImageBuffer init = some init :=
  no_buffer_operations init diskOk true 0 rfl

set_option maxRecDepth 100000 in
/-- Claim C27, the failing input: a window holding a 2 by 2 image.
`SaveBitmapFile` never acquires the mutex: with the mutex not held on entry it
is not held when `CreateDIB` reads the header and the buffer, nor when the call
returns true.  When the file cannot be created the call releases the mutex it
did not acquire: a caller that holds it once finds it released.
`OpenBitmapFile` on the same state acquires the mutex and, on a failing read,
releases what it acquired. -/
theorem SaveBitmapFile_mutex :
    savedState.mMutexCount = 0 ∧
    (CreateDIB savedState true).map (fun r => r.2.mMutexCount) = some 0 ∧
    (SaveBitmapFile savedState diskOk).map (fun r => (r.1, r.2.1.mMutexCount))
      = some (true, 0) ∧
    heldState.mMutexCount = 1 ∧
    (SaveBitmapFile heldState diskReadOnly).map (fun r => (r.1, r.2.1.mMutexCount))
      = some (false, 0) ∧
    (OpenBitmapFile heldState (some (List.replicate 14 0))).1 = false ∧
    (OpenBitmapFile heldState (some (List.replicate 14 0))).2.mMutexCount = 1 := by
  decide

/-! ### Bytes of the headers -/

theorem leNat_le2 (n : Nat) (h : n < 65536) : leNat (le2 n) = n := by
  simp only [leNat, le2, List.foldr]
  omega

theorem leNat_le4 (n : Nat) (h : n < 4294967296) : leNat (le4 n) = n := by
  simp only [leNat, le4, List.foldr]
  omega

theorem int32_uint32 (x : Int) (h1 : -2147483648 ≤ x) (h2 : x < 2147483648) :
    int32 ((uint32 x : Nat) : Int) = x := by
  unfold int32 uint32
  rw [Int.toNat_of_nonneg (Int.emod_nonneg _ (by norm_num))]
  omega

theorem uint32_natCast (n : Nat) (h : n < 4294967296) : uint32 (n : Int) = n := by
  unfold uint32
  omega

theorem uint32_lt (x : Int) : uint32 x < 4294967296 := by
  unfold uint32
  omega

theorem writeFileHeader_length (h : BITMAPFILEHEADER) : (writeFileHeader h).length = 14 := rfl

theorem writeRGBQuads_length (q : List RGBQUAD) : (writeRGBQuads q).length = 4 * q.length := by
  induction q with
  | nil => rfl
  | cons a rest ih => simp only [writeRGBQuads, List.length_cons, ih]; omega

theorem writeBitmapInfo_length (info : BitmapInfo) :
    (writeBitmapInfo info).length = 40 + 4 * info.RGBQuad.length := by
  simp only [writeBitmapInfo, le4, le2, List.length_append, List.length_cons, List.length_nil,
    writeRGBQuads_length]

theorem readRGBQuads_write (q : List RGBQUAD)
    (h : ∀ e ∈ q, e.rgbBlue < 256 ∧ e.rgbGreen < 256 ∧ e.rgbRed < 256 ∧ e.rgbReserved < 256) :
    readRGBQuads (writeRGBQuads q) = q := by
  induction q with
  | nil => rfl
  | cons a rest ih =>
    obtain ⟨h1, h2, h3, h4⟩ := h a (List.mem_cons_self _ _)
    simp only [writeRGBQuads, readRGBQuads, Nat.mod_mod]
    rw [ih (fun e he => h e (List.mem_cons_of_mem _ he)),
      Nat.mod_eq_of_lt h1, Nat.mod_eq_of_lt h2, Nat.mod_eq_of_lt h3, Nat.mod_eq_of_lt h4]

/-- The file header read back from the bytes `fwrite` stored. -/
theorem readFileHeader_write (h : BITMAPFILEHEADER) (rest : List Nat)
    (h1 : h.bfType < 65536) (h2 : h.bfSize < 4294967296) (h3 : h.bfReserved1 < 65536)
    (h4 : h.bfReserved2 < 65536) (h5 : h.bfOffBits < 4294967296) :
    readFileHeader (writeFileHeader h ++ rest) = h := by
  have e2 := leNat_le2 _ h1
  have e3 := leNat_le4 _ h2
  have e4 := leNat_le2 _ h3
  have e5 := leNat_le2 _ h4
  have e6 := leNat_le4 _ h5
  simp only [le2, le4] at e2 e3 e4 e5 e6
  simp only [readFileHeader, writeFileHeader, fieldAt, le2, le4, List.cons_append,
    List.nil_append, List.drop_succ_cons, List.drop_zero, List.take_succ_cons, List.take_zero,
    e2, e3, e4, e5, e6]

/-- The header block read back from its bytes. -/
theorem readBitmapInfo_write (info : BitmapInfo) (h : InRange info) :
    readBitmapInfo (writeBitmapInfo info) = info := by
  obtain ⟨h1, ⟨h2a, h2b⟩, ⟨h3a, h3b⟩, h4, h5, h6, h7, ⟨h8a, h8b⟩, ⟨h9a, h9b⟩, h10, h11, hq⟩ := h
  have e1 := leNat_le4 _ h1
  have e2 := leNat_le4 _ (uint32_lt info.Header.biWidth)
  have e3 := leNat_le4 _ (uint32_lt info.Header.biHeight)
  have e4 := leNat_le2 _ h4
  have e5 := leNat_le2 _ h5
  have e6 := leNat_le4 _ h6
  have e7 := leNat_le4 _ h7
  have e8 := leNat_le4 _ (uint32_lt info.Header.biXPelsPerMeter)
  have e9 := leNat_le4 _ (uint32_lt info.Header.biYPelsPerMeter)
  have e10 := leNat_le4 _ h10
  have e11 := leNat_le4 _ h11
  simp only [le2, le4] at e1 e2 e3 e4 e5 e6 e7 e8 e9 e10 e11
  simp only [readBitmapInfo, writeBitmapInfo, fieldAt, le2, le4, sizeofBITMAPINFOHEADER,
    List.cons_append, List.nil_append, List.drop_succ_cons, List.drop_zero,
    List.take_succ_cons, List.take_zero, e1, e2, e3, e4, e5, e6, e7, e8, e9, e10, e11,
    int32_uint32 _ h2a h2b, int32_uint32 _ h3a h3b, int32_uint32 _ h8a h8b,
    int32_uint32 _ h9a h9b, readRGBQuads_write _ hq]

/-! ### The copy made for saving -/

/-- A header with a non-negative height is its own bottom-up form. -/
theorem header_abs_of_nonneg (hdr : BITMAPINFOHEADER) (h : 0 ≤ hdr.biHeight) :
    { hdr with biHeight := |hdr.biHeight| } = hdr := by
  cases hdr
  simp only [abs_of_nonneg h]

/-- The copy `CreateDIB(true)` makes of a state that holds a buffer: a new block
at the next address, holding the bytes of the header with the magnitude of the
height followed by the payload, which is the live payload for a bottom-up image
and the payload `FlipBitmap` returns for a top-down image. -/
theorem CreateDIB_spec (s : State) (info : BitmapInfo) (bits : List Nat)
    (h : HoldsBuffer s info bits) :
    ∃ payload s1,
      CreateDIB s true = some (s.heap.next + 1, s1) ∧
      s1 = { s with heap := s1.heap } ∧
      s1.heap.mem (s.heap.next + 1) = some (writeBitmapInfo
        { info with Header := { info.Header with biHeight := |info.Header.biHeight| } }
          ++ payload) ∧
      (∀ p, p ≠ s.heap.next + 1 → s1.heap.mem p = s.heap.mem p) ∧
      payload.length = s.mBitmapBitsSize ∧
      (0 ≤ info.Header.biHeight → payload = bits.take s.mBitmapBitsSize) ∧
      (info.Header.biHeight < 0 →
        FlipBitmap info.Header (bits.take s.mBitmapBitsSize) =
          some ({ info.Header with biHeight := |info.Header.biHeight| }, payload)) := by
  obtain ⟨hinfo, hp0, hlive, hlen, hsize, hroom, hnew, hfile, hw, hmin, hmax, hfit, hrows⟩ := h
  have htake : (bits.take s.mBitmapBitsSize).length = s.mBitmapBitsSize := by
    rw [List.length_take]; omega
  have hread : (if s.mBitmapBitsSize = 0 then some [] else s.heap.mem s.mBitmapBits) =
      some (if s.mBitmapBitsSize = 0 then [] else bits) := by
    split_ifs <;> simp [hlive]
  have hpay : (if s.mBitmapBitsSize = 0 then [] else bits).take s.mBitmapBitsSize =
      bits.take s.mBitmapBitsSize := by
    split_ifs with h0
    · rw [h0]; simp
    · rfl
  have hlen2 : ¬ (if s.mBitmapBitsSize = 0 then [] else bits).length < s.mBitmapBitsSize := by
    split_ifs with h0
    · rw [h0]; simp
    · omega
  have h40 : ¬ s.mBitmapInfoSize < sizeofBITMAPINFOHEADER := by
    rw [hsize, writeBitmapInfo_length]; unfold sizeofBITMAPINFOHEADER; omega
  have halloc := Heap.alloc_of_le s.heap _ hroom
  by_cases hneg : info.Header.biHeight < 0
  · obtain ⟨out, hflip, hol, -, -⟩ := FlipBitmap_rows info.Header (bits.take s.mBitmapBitsSize)
      hw hmin hmax hfit (by rw [htake]; exact hrows)
    have habs : |info.Header.biHeight| = -info.Header.biHeight := abs_of_neg hneg
    have hsz : (writeBitmapInfo { info with Header :=
        { info.Header with biHeight := -info.Header.biHeight } }).length
        = s.mBitmapInfoSize := by
      rw [hsize, writeBitmapInfo_length, writeBitmapInfo_length]
    obtain ⟨hp, hhp⟩ : ∃ hp : Heap, hp =
        (s.heap.alloc (s.mBitmapInfoSize + s.mBitmapBitsSize)).2.store (s.heap.next + 1)
          ((writeBitmapInfo { info with Header :=
            { info.Header with biHeight := -info.Header.biHeight } }).take s.mBitmapInfoSize
              ++ out) := ⟨_, rfl⟩
    refine ⟨out, { s with heap := hp }, ?_, ?_, ?_, ?_, by rw [hol, htake],
      fun h0 => absurd hneg (by omega), fun _ => by rw [habs]; exact hflip⟩
    · simp only [CreateDIB, hinfo, hread, hpay, hflip, hneg, and_self, if_true]
      rw [if_neg (by rw [halloc]; simp), if_neg (by omega), if_neg hlen2, if_neg h40]
      simp only [halloc, hhp]
    · rfl
    · simp only [hhp, Heap.store, if_true, habs]
      rw [← hsz, List.take_length]
    · intro p hpne
      simp only [hhp, halloc, Heap.store, if_neg hpne]
  · push_neg at hneg
    obtain ⟨hp, hhp⟩ : ∃ hp : Heap, hp =
        (s.heap.alloc (s.mBitmapInfoSize + s.mBitmapBitsSize)).2.store (s.heap.next + 1)
          ((writeBitmapInfo info).take s.mBitmapInfoSize ++ bits.take s.mBitmapBitsSize) :=
      ⟨_, rfl⟩
    refine ⟨bits.take s.mBitmapBitsSize, { s with heap := hp }, ?_, ?_, ?_, ?_, htake,
      fun _ => rfl, fun h0 => absurd h0 (by omega)⟩
    · simp only [CreateDIB, hinfo, hread, hpay]
      rw [if_neg (by rw [halloc]; simp), if_neg (by omega), if_neg hlen2,
        if_neg (by intro hc; omega)]
      simp only [halloc, hhp]
    · rfl
    · simp only [hhp, Heap.store, if_true, header_abs_of_nonneg _ hneg]
      rw [hsize, List.take_length]
    · intro p hpne
      simp only [hhp, halloc, Heap.store, if_neg hpne]


/-- The file `SaveBitmapFile` writes for a state that holds a buffer, on a file
system that stores everything: the call returns true, the file is the file
header, the bytes of the header of the copy and the payload of the copy, and the
state differs from the prior state in the heap only, where every block other
than the released copy is as before. -/
theorem SaveBitmapFile_spec (s : State) (info : BitmapInfo) (bits : List Nat)
    (h : HoldsBuffer s info bits) :
    ∃ payload s2,
      SaveBitmapFile s diskOk = some (true, s2, some (writeFileHeader
        ⟨bfTypeMB, sizeofBITMAPFILEHEADER + s.mBitmapInfoSize + s.mBitmapBitsSize, 0, 0,
          sizeofBITMAPFILEHEADER + s.mBitmapInfoSize⟩ ++
        (writeBitmapInfo
          { info with Header := { info.Header with biHeight := |info.Header.biHeight| } }
          ++ payload))) ∧
      s2 = { s with heap := s2.heap } ∧
      (∀ p, p ≠ s.heap.next + 1 → s2.heap.mem p = s.heap.mem p) ∧
      payload.length = s.mBitmapBitsSize ∧
      (0 ≤ info.Header.biHeight → payload = bits.take s.mBitmapBitsSize) ∧
      (info.Header.biHeight < 0 →
        FlipBitmap info.Header (bits.take s.mBitmapBitsSize) =
          some ({ info.Header with biHeight := |info.Header.biHeight| }, payload)) := by
  obtain ⟨payload, s1, hdib, hs1, hblock, hframe, hpl, hup, hdown⟩ := CreateDIB_spec s info bits h
  obtain ⟨hinfo, hp0, hlive, hlen, hsize, hroom, hnew, hfile, hw, hmin, hmax, hfit, hrows⟩ := h
  have e1 : s1.mBitmapInfoSize = s.mBitmapInfoSize := by rw [hs1]
  have e2 : s1.mBitmapBitsSize = s.mBitmapBitsSize := by rw [hs1]
  have hcopylen : (writeBitmapInfo
      { info with Header := { info.Header with biHeight := |info.Header.biHeight| } }).length
      = s.mBitmapInfoSize := by
    rw [hsize, writeBitmapInfo_length, writeBitmapInfo_length]
  have h40 : 40 ≤ s.mBitmapInfoSize := by rw [hsize, writeBitmapInfo_length]; omega
  have hu1 : uint32 ((sizeofBITMAPFILEHEADER + s.mBitmapInfoSize + s.mBitmapBitsSize : Nat) : Int)
      = sizeofBITMAPFILEHEADER + s.mBitmapInfoSize + s.mBitmapBitsSize :=
    uint32_natCast _ hfile
  have hu2 : uint32 ((sizeofBITMAPFILEHEADER + s.mBitmapInfoSize : Nat) : Int)
      = sizeofBITMAPFILEHEADER + s.mBitmapInfoSize :=
    uint32_natCast _ (by omega)
  have htake : (writeBitmapInfo
      { info with Header := { info.Header with biHeight := |info.Header.biHeight| } }
        ++ payload).take (s.mBitmapInfoSize + s.mBitmapBitsSize) =
      writeBitmapInfo
      { info with Header := { info.Header with biHeight := |info.Header.biHeight| } }
        ++ payload := by
    apply List.take_of_length_le
    rw [List.length_append, hcopylen, hpl]
  refine ⟨payload, { s1 with heap := s1.heap.free (s.heap.next + 1) }, ?_, ?_, ?_, hpl, hup,
    hdown⟩
  · simp only [SaveBitmapFile, hinfo, if_neg hp0, hdib, diskOk, hblock, e1, e2, hu1, hu2,
      htake]
    rw [if_neg (by simp), if_neg (by simp), if_neg (by simp; omega)]
  · rw [hs1]
  · intro p hp
    simp only [Heap.free, if_neg hp]
    exact hframe p hp

/-! ### Loading a file -/

/-- `UpdateWindowSize` leaves the header, the sizes, the buffer pointer, the heap
and the mutex alone. -/
theorem UpdateWindowSize_store (s : State) (k : Bool) :
    (UpdateWindowSize s k).mBitmapInfo = s.mBitmapInfo ∧
    (UpdateWindowSize s k).mBitmapInfoSize = s.mBitmapInfoSize ∧
    (UpdateWindowSize s k).mBitmapBits = s.mBitmapBits ∧
    (UpdateWindowSize s k).mBitmapBitsSize = s.mBitmapBitsSize ∧
    (UpdateWindowSize s k).heap = s.heap ∧
    (UpdateWindowSize s k).mMutexCount = s.mMutexCount ∧
    (UpdateWindowSize s k).mIs16BitsImage = s.mIs16BitsImage := by
  unfold UpdateWindowSize
  split
  · exact ⟨rfl, rfl, rfl, rfl, rfl, rfl, rfl⟩
  · split <;> exact ⟨rfl, rfl, rfl, rfl, rfl, rfl, rfl⟩

/-- `OpenBitmapFile` on a file that holds a file header, a header block of the
size the file header gives and a payload of the size it gives, with both
allocations served: the call returns true and the state holds the header block
and, in a new block, the payload. -/
theorem OpenBitmapFile_spec (t : State) (fh : BITMAPFILEHEADER) (hdr payload : List Nat)
    (h1 : fh.bfType < 65536) (h3 : fh.bfReserved1 < 65536) (h4 : fh.bfReserved2 < 65536)
    (hoff : fh.bfOffBits = sizeofBITMAPFILEHEADER + hdr.length)
    (hsz : fh.bfSize = sizeofBITMAPFILEHEADER + hdr.length + payload.length)
    (hfit : fh.bfSize < 4294967296)
    (hh : 0 < hdr.length) (hp : 0 < payload.length)
    (hl1 : hdr.length ≤ t.heap.limit) (hl2 : payload.length ≤ t.heap.limit) :
    (OpenBitmapFile t (some (writeFileHeader fh ++ (hdr ++ payload)))).1 = true ∧
    (OpenBitmapFile t (some (writeFileHeader fh ++ (hdr ++ payload)))).2.mBitmapInfo
      = some (readBitmapInfo hdr) ∧
    (OpenBitmapFile t (some (writeFileHeader fh ++ (hdr ++ payload)))).2.mBitmapInfoSize
      = hdr.length ∧
    (OpenBitmapFile t (some (writeFileHeader fh ++ (hdr ++ payload)))).2.mBitmapBitsSize
      = payload.length ∧
    (OpenBitmapFile t (some (writeFileHeader fh ++ (hdr ++ payload)))).2.mBitmapBits
      = t.heap.next + 1 ∧
    (OpenBitmapFile t (some (writeFileHeader fh ++ (hdr ++ payload)))).2.heap.mem
      (t.heap.next + 1) = some payload ∧
    (OpenBitmapFile t (some (writeFileHeader fh ++ (hdr ++ payload)))).2.mMutexCount
      = t.mMutexCount ∧
    (OpenBitmapFile t (some (writeFileHeader fh ++ (hdr ++ payload)))).2.mIs16BitsImage
      = t.mIs16BitsImage := by
  have hfh := readFileHeader_write fh (hdr ++ payload) h1 hfit h3 h4 (by omega)
  have hlen14 : ¬ (writeFileHeader fh ++ (hdr ++ payload)).length < sizeofBITMAPFILEHEADER := by
    rw [List.length_append, writeFileHeader_length]; unfold sizeofBITMAPFILEHEADER; omega
  have hdrop : (writeFileHeader fh ++ (hdr ++ payload)).drop sizeofBITMAPFILEHEADER
      = hdr ++ payload := List.drop_left' (writeFileHeader_length fh)
  have hu1 : uint32 ((fh.bfOffBits : Int) - (sizeofBITMAPFILEHEADER : Int)) = hdr.length := by
    rw [hoff]; unfold uint32; push_cast; omega
  have hu2 : uint32 ((fh.bfSize : Int) - (fh.bfOffBits : Int)) = payload.length := by
    rw [hoff, hsz]; unfold uint32; push_cast; omega
  generalize writeFileHeader fh ++ (hdr ++ payload) = bytes at hfh hlen14 hdrop ⊢
  have htake : (hdr ++ payload).take hdr.length = hdr := List.take_left' rfl
  have hdrop2 : (hdr ++ payload).drop hdr.length = payload := List.drop_left' rfl
  have hn1 : ¬ (hdr.length = 0 ∨ (hdr ++ payload).length < hdr.length) := by
    rw [List.length_append]; omega
  have hn2 : ¬ (payload.length = 0 ∨ payload.length < payload.length) := by omega
  have u := UpdateWindowSize_store
  generalize hr : OpenBitmapFile t (some bytes) = r
  have key : ∀ s1 : State, s1.heap.limit = t.heap.limit → s1.heap.next = t.heap.next →
      s1.mMutexCount = t.mMutexCount + 1 → s1.mIs16BitsImage = t.mIs16BitsImage →
      (match some bytes with
        | none => (false, t)
        | some bytes =>
          if bytes.length < sizeofBITMAPFILEHEADER then (false, t)
          else
            let fileHeader := readFileHeader bytes
            let rest := bytes.drop sizeofBITMAPFILEHEADER
            let infoSize := uint32 ((fileHeader.bfOffBits : Int) - (sizeofBITMAPFILEHEADER : Int))
            let s2 : State := { s1 with mBitmapInfoSize := infoSize }
            if ¬ infoSize ≤ s2.heap.limit then
              (false, ReleaseMutex { s2 with mBitmapInfo := none })
            else
              let bitsSize := uint32 ((fileHeader.bfSize : Int) - (fileHeader.bfOffBits : Int))
              let r := s2.heap.alloc bitsSize
              let s3 : State :=
                { s2 with mBitmapBitsSize := bitsSize, heap := r.2, mAllocatedImageBuffer := r.1 }
              if r.1 = 0 then
                (false, ReleaseMutex { s3 with mBitmapInfo := none })
              else
                let s4 : State := { s3 with mBitmapBits := r.1 }
                let infoRead := rest.take infoSize
                let info := readBitmapInfo (infoRead ++ Heap.fresh (infoSize - infoRead.length))
                let s5 : State := { s4 with mBitmapInfo := some info }
                if infoSize = 0 ∨ rest.length < infoSize then (false, ReleaseMutex s5)
                else
                  let rest2 := rest.drop infoSize
                  let bitsRead := rest2.take bitsSize
                  let block := bitsRead ++ Heap.fresh (bitsSize - bitsRead.length)
                  let s6 : State := { s5 with heap := s5.heap.store r.1 block }
                  if bitsSize = 0 ∨ rest2.length < bitsSize then (false, ReleaseMutex s6)
                  else (true, UpdateWindowSize (ReleaseMutex s6) false)) = r →
      r.1 = true ∧ r.2.mBitmapInfo = some (readBitmapInfo hdr) ∧
      r.2.mBitmapInfoSize = hdr.length ∧ r.2.mBitmapBitsSize = payload.length ∧
      r.2.mBitmapBits = t.heap.next + 1 ∧ r.2.heap.mem (t.heap.next + 1) = some payload ∧
      r.2.mMutexCount = t.mMutexCount ∧ r.2.mIs16BitsImage = t.mIs16BitsImage := by
    intro s1 e1 e2 e3 e4 hs
    have ha : s1.heap.alloc payload.length = (s1.heap.next + 1,
        { s1.heap with
          mem := fun p => if p = s1.heap.next + 1 then some (Heap.fresh payload.length)
            else s1.heap.mem p,
          next := s1.heap.next + 1 }) := Heap.alloc_of_le _ _ (by rw [e1]; exact hl2)
    simp only [if_neg hlen14, hfh, hdrop, hu1, hu2, e1, hl1, not_true_eq_false, if_false, ha,
      htake, hdrop2, Nat.sub_self, Heap.fresh, List.replicate_zero, List.append_nil,
      Nat.succ_ne_zero, hn1, hn2, List.take_length] at hs
    subst hs
    simp only [(u _ _).1, (u _ _).2.1, (u _ _).2.2.1, (u _ _).2.2.2.1, (u _ _).2.2.2.2.1,
      (u _ _).2.2.2.2.2.1, (u _ _).2.2.2.2.2.2, ReleaseMutex, Heap.store, e2, e3, e4, if_true,
      Nat.add_sub_cancel, and_self]
  unfold OpenBitmapFile at hr
  refine key _ ?_ ?_ ?_ ?_ hr
  · split
    · split_ifs <;> rfl
    · rfl
  · split
    · split_ifs <;> rfl
    · rfl
  · split
    · split_ifs <;> rfl
    · rfl
  · split
    · split_ifs <;> rfl
    · rfl

/-! ### The saved file -/

set_option maxRecDepth 100000 in
/-- The sample state `savedState` holds a buffer that can be saved: the 8-bit
top-down header of 2 by 2 pixels and the payload 1, 2, 3, 4. -/
theorem HoldsBuffer_savedState :
    HoldsBuffer savedState ⟨⟨40, 2, -2, 1, 8, 0, 0, 100, 100, 256, 256⟩, grayPalette⟩
      [1, 2, 3, 4] := by
  unfold HoldsBuffer
  decide

/-- A header block that `CreateMonoBitmapInfo` creates has the size of
`ImageBitmapInfoMono8`. -/
theorem CreateMonoBitmapInfo_size (u : State) (w ht : Int) (b : Bool)
    (h : (CreateMonoBitmapInfo u w ht b).1 = true) :
    (CreateMonoBitmapInfo u w ht b).2.mBitmapInfoSize = 40 + 256 * 4 := by
  simp only [CreateMonoBitmapInfo] at h ⊢
  split_ifs at h ⊢ <;> first | rfl | simp_all

/-- A header block that `CreateColorBitmapInfo` creates has the size of a
`BITMAPINFOHEADER`. -/
theorem CreateColorBitmapInfo_size (u : State) (w ht : Int) (b : Bool)
    (h : (CreateColorBitmapInfo u w ht b).1 = true) :
    (CreateColorBitmapInfo u w ht b).2.mBitmapInfoSize = 40 := by
  simp only [CreateColorBitmapInfo] at h ⊢
  split_ifs at h ⊢ <;> first | rfl | simp_all

/-- Claim C23: for a state that holds a buffer, `SaveBitmapFile` writes a file
whose header gives the total size `14 + mBitmapInfoSize + mBitmapBitsSize` and the
payload offset `14 + mBitmapInfoSize`, followed by that many bytes of header
block and payload; the sizes `OpenBitmapFile` derives from that file (offset
minus 14, total minus offset) are the two sizes that were saved.  The header
block the producers create has `40 + 256 * 4` bytes for an 8-bit image and 40
bytes for a 24-bit image. -/
theorem SaveBitmapFile_file_header (s : State) (info : BitmapInfo) (bits : List Nat)
    (h : HoldsBuffer s info bits) :
    (∃ s2 body,
      SaveBitmapFile s diskOk = some (true, s2, some (writeFileHeader
        ⟨bfTypeMB, sizeofBITMAPFILEHEADER + s.mBitmapInfoSize + s.mBitmapBitsSize, 0, 0,
          sizeofBITMAPFILEHEADER + s.mBitmapInfoSize⟩ ++ body)) ∧
      body.length = s.mBitmapInfoSize + s.mBitmapBitsSize ∧
      (readFileHeader (writeFileHeader
        ⟨bfTypeMB, sizeofBITMAPFILEHEADER + s.mBitmapInfoSize + s.mBitmapBitsSize, 0, 0,
          sizeofBITMAPFILEHEADER + s.mBitmapInfoSize⟩ ++ body)).bfSize
        = 14 + s.mBitmapInfoSize + s.mBitmapBitsSize ∧
      (readFileHeader (writeFileHeader
        ⟨bfTypeMB, sizeofBITMAPFILEHEADER + s.mBitmapInfoSize + s.mBitmapBitsSize, 0, 0,
          sizeofBITMAPFILEHEADER + s.mBitmapInfoSize⟩ ++ body)).bfOffBits
        = 14 + s.mBitmapInfoSize ∧
      ∀ t : State, 0 < s.mBitmapBitsSize → s.mBitmapInfoSize ≤ t.heap.limit →
        s.mBitmapBitsSize ≤ t.heap.limit →
        (OpenBitmapFile t (some (writeFileHeader
          ⟨bfTypeMB, sizeofBITMAPFILEHEADER + s.mBitmapInfoSize + s.mBitmapBitsSize, 0, 0,
            sizeofBITMAPFILEHEADER + s.mBitmapInfoSize⟩ ++ body))).1 = true ∧
        (OpenBitmapFile t (some (writeFileHeader
          ⟨bfTypeMB, sizeofBITMAPFILEHEADER + s.mBitmapInfoSize + s.mBitmapBitsSize, 0, 0,
            sizeofBITMAPFILEHEADER + s.mBitmapInfoSize⟩ ++ body))).2.mBitmapInfoSize
          = s.mBitmapInfoSize ∧
        (OpenBitmapFile t (some (writeFileHeader
          ⟨bfTypeMB, sizeofBITMAPFILEHEADER + s.mBitmapInfoSize + s.mBitmapBitsSize, 0, 0,
            sizeofBITMAPFILEHEADER + s.mBitmapInfoSize⟩ ++ body))).2.mBitmapBitsSize
          = s.mBitmapBitsSize) ∧
    (∀ (u : State) (w ht : Int) (b x : Bool), (CreateBitmapInfo u w ht false b x).1 = true →
      (CreateBitmapInfo u w ht false b x).2.mBitmapInfoSize = 40 + 256 * 4) ∧
    (∀ (u : State) (w ht : Int) (b x : Bool), (CreateBitmapInfo u w ht true b x).1 = true →
      (CreateBitmapInfo u w ht true b x).2.mBitmapInfoSize = 40) := by
  obtain ⟨payload, s2, hsave, -, -, hpl, -, -⟩ := SaveBitmapFile_spec s info bits h
  obtain ⟨hinfo, hp0, hlive, hlen, hsize, hroom, hnew, hfile, hw, hmin, hmax, hfit, hrows⟩ := h
  have hcopylen : (writeBitmapInfo
      { info with Header := { info.Header with biHeight := |info.Header.biHeight| } }).length
      = s.mBitmapInfoSize := by
    rw [hsize, writeBitmapInfo_length, writeBitmapInfo_length]
  have h40 : 40 ≤ s.mBitmapInfoSize := by rw [hsize, writeBitmapInfo_length]; omega
  have h14 : sizeofBITMAPFILEHEADER = 14 := rfl
  have hfh := readFileHeader_write
    ⟨bfTypeMB, sizeofBITMAPFILEHEADER + s.mBitmapInfoSize + s.mBitmapBitsSize, 0, 0,
      sizeofBITMAPFILEHEADER + s.mBitmapInfoSize⟩
    (writeBitmapInfo
      { info with Header := { info.Header with biHeight := |info.Header.biHeight| } }
      ++ payload) (by simp only [bfTypeMB]; omega) hfile (by simp only; omega)
    (by simp only; omega) (by simp only; omega)
  refine ⟨⟨s2, _, hsave, by rw [List.length_append, hcopylen, hpl], ?_, ?_, ?_⟩, ?_, ?_⟩
  · rw [hfh, h14]
  · rw [hfh, h14]
  · intro t hpos hl1 hl2
    have ho := OpenBitmapFile_spec t
      ⟨bfTypeMB, sizeofBITMAPFILEHEADER + s.mBitmapInfoSize + s.mBitmapBitsSize, 0, 0,
        sizeofBITMAPFILEHEADER + s.mBitmapInfoSize⟩
      (writeBitmapInfo
        { info with Header := { info.Header with biHeight := |info.Header.biHeight| } })
      payload (by simp only [bfTypeMB]; omega) (by simp only; omega) (by simp only; omega)
      (by simp only [hcopylen]) (by simp only [hcopylen, hpl]) hfile
      (by rw [hcopylen]; omega) (by rw [hpl]; exact hpos)
      (by rw [hcopylen]; exact hl1) (by rw [hpl]; exact hl2)
    rw [hcopylen, hpl] at ho
    exact ⟨ho.1, ho.2.2.1, ho.2.2.2.1⟩
  · intro u w ht b x hflag
    exact CreateMonoBitmapInfo_size _ w ht b hflag
  · intro u w ht b x hflag
    exact CreateColorBitmapInfo_size _ w ht b hflag

set_option maxRecDepth 100000 in
/-- Witness of claim C23: the 2 by 2 8-bit image of `savedState`, whose file
header gives the total size `14 + 1064 + 4` and the payload offset
`14 + 1064`. -/
theorem SaveBitmapFile_file_header_witness :
    (SaveBitmapFile savedState diskOk).map
        (fun r => (r.1, r.2.2.map (fun f => ((readFileHeader f).bfSize,
          (readFileHeader f).bfOffBits, f.length))))
      = some (true, some (1082, 1078, 1082)) ∧
    savedState.mBitmapInfoSize = 1064 ∧ savedState.mBitmapBitsSize = 4 ∧
    ∃ s2 body,
      SaveBitmapFile savedState diskOk = some (true, s2, some (writeFileHeader
        ⟨bfTypeMB, sizeofBITMAPFILEHEADER + savedState.mBitmapInfoSize
          + savedState.mBitmapBitsSize, 0, 0,
          sizeofBITMAPFILEHEADER + savedState.mBitmapInfoSize⟩ ++ body)) :=
  ⟨by decide, by decide, by decide,
   let ⟨s2, body, h, _⟩ := (SaveBitmapFile_file_header savedState _ _ HoldsBuffer_savedState).1
   ⟨s2, body, h⟩⟩

set_option maxRecDepth 100000 in
/-- Claim C24, the failing input: the window into which the 24-bit top-down
file of 1 by 2 pixels with rows padded to four bytes has been loaded.  The live
buffer holds the rows 1, 2, 3, 0 and 4, 5, 6, 0, which `GetPixelPointer`
addresses four bytes apart.  `SaveBitmapFile` returns true and leaves the live
header and the live bytes as they were, and the copy it writes has the height
field 2; but the payload of the copy is 0, 4, 5, 1, 2, 3, 6, 0, not the rows in
reverse order 4, 5, 6, 0, 1, 2, 3, 0: `FlipBitmap` exchanges rows of
`width * 3 = 3` bytes. -/
theorem SaveBitmapFile_padded_rows :
    readImageBuffer paddedColorState = some [1, 2, 3, 0, 4, 5, 6, 0] ∧
    (GetImageWidth paddedColorState, GetImageHeight paddedColorState,
      GetImageBitCount paddedColorState) = (1, 2, 24) ∧
    IsBottomUpImage paddedColorState = false ∧
    (GetPixelPointer paddedColorState 0 0, GetPixelPointer paddedColorState 0 1)
      = (some 0, some 4) ∧
    (SaveBitmapFile paddedColorState diskOk).map
        (fun r => (r.1, readImageBuffer r.2.1, IsBottomUpImage r.2.1))
      = some (true, some [1, 2, 3, 0, 4, 5, 6, 0], false) ∧
    ((SaveBitmapFile paddedColorState diskOk).bind (fun r => r.2.2)).map
        (fun f => ((readBitmapInfo ((f.drop 14).take 40)).Header.biHeight, f.drop 54))
      = some (2, [0, 4, 5, 1, 2, 3, 6, 0]) ∧
    [0, 4, 5, 1, 2, 3, 6, 0] ≠ [4, 5, 6, 0, 1, 2, 3, 0] := by
  decide

/-! ### Saving and loading again -/

/-- The header of the copy is in range when the live header is. -/
theorem InRange_abs (info : BitmapInfo) (h : InRange info)
    (hmin : -2147483648 < info.Header.biHeight) :
    InRange { info with Header := { info.Header with biHeight := |info.Header.biHeight| } } := by
  obtain ⟨h1, h2, ⟨h3a, h3b⟩, h4, h5, h6, h7, h8, h9, h10, h11, hq⟩ := h
  refine ⟨h1, h2, ⟨?_, ?_⟩, h4, h5, h6, h7, h8, h9, h10, h11, hq⟩
  · have := abs_nonneg info.Header.biHeight
    simp only
    omega
  · simp only
    rcases abs_cases info.Header.biHeight with ⟨e, _⟩ | ⟨e, _⟩ <;> rw [e] <;> omega

/-- On a state that shows no 16-bit image and holds a buffer, the bytes read
through `GetImageBufferPtr` are the recorded bytes of the live payload. -/
theorem readImageBuffer_HoldsBuffer (s : State) (info : BitmapInfo) (bits : List Nat)
    (h : HoldsBuffer s info bits) (hs16 : s.mIs16BitsImage = false) :
    readImageBuffer s = some (bits.take s.mBitmapBitsSize) := by
  obtain ⟨-, -, hlive, hlen, -⟩ := h
  simp only [readImageBuffer, GetImageBufferPtr, GetImageBufferSize, hs16, if_true, hlive,
    if_pos hlen]

/-- Claim C22 (amended): for a state that shows an 8-bit or 24-bit image (not a
16-bit one) and holds a buffer of at least one byte with a header in range, the
file `SaveBitmapFile` writes is loaded by `OpenBitmapFile` (into a window that
shows no 16-bit image, both allocations served) into a state with the same
width, height, bit count and buffer size.  For a bottom-up original the bytes
read through `GetImageBufferPtr` are the original bytes; for a top-down original
the loaded image is bottom-up and, when the rows carry no padding, its rows are
the original rows in reverse order. -/
theorem save_load_round_trip (s t : State) (info : BitmapInfo) (bits : List Nat)
    (h : HoldsBuffer s info bits) (hr : InRange info) (hpos : 0 < s.mBitmapBitsSize)
    (hl1 : s.mBitmapInfoSize ≤ t.heap.limit) (hl2 : s.mBitmapBitsSize ≤ t.heap.limit)
    (hs16 : s.mIs16BitsImage = false) (ht16 : t.mIs16BitsImage = false) :
    ∃ (s2 : State) (file : List Nat) (t1 : State) (payload : List Nat),
      SaveBitmapFile s diskOk = some (true, s2, some file) ∧
      OpenBitmapFile t (some file) = (true, t1) ∧
      GetImageWidth t1 = GetImageWidth s ∧
      GetImageHeight t1 = GetImageHeight s ∧
      GetImageBitCount t1 = GetImageBitCount s ∧
      GetImageBufferSize t1 = GetImageBufferSize s ∧
      readImageBuffer s = some (bits.take s.mBitmapBitsSize) ∧
      readImageBuffer t1 = some payload ∧
      payload.length = s.mBitmapBitsSize ∧
      (0 ≤ info.Header.biHeight → readImageBuffer t1 = readImageBuffer s) ∧
      (info.Header.biHeight < 0 → lineBytes info.Header = flipRowBytes info.Header →
        ∀ r c, r < rowCount info.Header → c < lineBytes info.Header →
          payload[lineBytes info.Header * r + c]? =
            bits[lineBytes info.Header * (rowCount info.Header - 1 - r) + c]?) ∧
      (info.Header.biHeight ≠ 0 → IsBottomUpImage t1 = true) := by
  have hread := readImageBuffer_HoldsBuffer s info bits h hs16
  obtain ⟨payload, s2, hsave, hs2, hframe2, hpl, hup, hdown⟩ := SaveBitmapFile_spec s info bits h
  obtain ⟨hinfo, hp0, hlive, hlen, hsize, hroom, hnew, hfile, hw, hmin, hmax, hfit, hrows⟩ := h
  have hcopylen : (writeBitmapInfo
      { info with Header := { info.Header with biHeight := |info.Header.biHeight| } }).length
      = s.mBitmapInfoSize := by
    rw [hsize, writeBitmapInfo_length, writeBitmapInfo_length]
  have h40 : 40 ≤ s.mBitmapInfoSize := by rw [hsize, writeBitmapInfo_length]; omega
  have ho := OpenBitmapFile_spec t
    ⟨bfTypeMB, sizeofBITMAPFILEHEADER + s.mBitmapInfoSize + s.mBitmapBitsSize, 0, 0,
      sizeofBITMAPFILEHEADER + s.mBitmapInfoSize⟩
    (writeBitmapInfo
      { info with Header := { info.Header with biHeight := |info.Header.biHeight| } })
    payload (by simp only [bfTypeMB]; omega) (by simp only; omega) (by simp only; omega)
    (by simp only [hcopylen]) (by simp only [hcopylen, hpl]) hfile
    (by rw [hcopylen]; omega) (by rw [hpl]; exact hpos)
    (by rw [hcopylen]; exact hl1) (by rw [hpl]; exact hl2)
  rw [readBitmapInfo_write _ (InRange_abs info hr hmin), hcopylen, hpl] at ho
  obtain ⟨o1, o2, o3, o4, o5, o6, o7, o8⟩ := ho
  have htake : (bits.take s.mBitmapBitsSize).length = s.mBitmapBitsSize := by
    rw [List.length_take]; omega
  have hread1 : readImageBuffer (OpenBitmapFile t (some (writeFileHeader
      ⟨bfTypeMB, sizeofBITMAPFILEHEADER + s.mBitmapInfoSize + s.mBitmapBitsSize, 0, 0,
        sizeofBITMAPFILEHEADER + s.mBitmapInfoSize⟩ ++
      (writeBitmapInfo
        { info with Header := { info.Header with biHeight := |info.Header.biHeight| } }
        ++ payload)))).2 = some payload := by
    simp only [readImageBuffer, GetImageBufferPtr, GetImageBufferSize, o8, ht16, if_true, o5, o6,
      o4, hpl, le_refl]
    rw [← hpl, List.take_length]
  refine ⟨s2, _, _, payload, hsave, Prod.ext o1 rfl, ?_, ?_, ?_, ?_, hread, hread1, hpl, ?_,
    ?_, ?_⟩
  · simp only [GetImageWidth, o2, hinfo]
  · simp only [GetImageHeight, o2, hinfo, abs32, abs_abs]
  · simp only [GetImageBitCount, o2, hinfo]
  · simp only [GetImageBufferSize, o8, ht16, hs16, if_true, o4]
  · intro hnn
    rw [hread1, hread, hup hnn]
  · intro hneg hpad r c hr hc
    rw [hpad] at hc ⊢
    obtain ⟨out, hflip, -, hrow, -⟩ := FlipBitmap_rows info.Header (bits.take s.mBitmapBitsSize)
      hw hmin hmax hfit (by rw [htake]; exact hrows)
    have e := hflip.symm.trans (hdown hneg)
    have hout : out = payload := (Prod.mk.inj (Option.some.inj e)).2
    rw [← hout, hrow r c hr hc]
    apply List.getElem?_take_of_lt
    have := row_end_le (flipRowBytes info.Header) (rowCount info.Header - 1 - r)
      (rowCount info.Header) (by omega)
    omega
  · intro h0
    simp only [IsBottomUpImage, o2, abs_pos.mpr h0, if_true]


set_option maxRecDepth 100000 in
/-- The header of the sample state `savedState` is in range. -/
theorem InRange_savedState :
    InRange ⟨⟨40, 2, -2, 1, 8, 0, 0, 100, 100, 256, 256⟩, grayPalette⟩ := by
  unfold InRange
  decide

/-- Witness of claim C22 (amended): the 2 by 2 8-bit image of `savedState` is
saved and loaded into a newly constructed window; the loaded state has the
width 2, the height 2, the bit count 8 and a buffer of 4 bytes, and its rows of
2 bytes are the original rows in reverse order. -/
theorem save_load_round_trip_witness :
    ∃ (s2 : State) (file : List Nat) (t1 : State) (payload : List Nat),
      SaveBitmapFile savedState diskOk = some (true, s2, some file) ∧
      OpenBitmapFile init (some file) = (true, t1) ∧
      GetImageWidth t1 = GetImageWidth savedState ∧
      GetImageHeight t1 = GetImageHeight savedState ∧
      GetImageBitCount t1 = GetImageBitCount savedState ∧
      GetImageBufferSize t1 = GetImageBufferSize savedState ∧
      readImageBuffer t1 = some payload ∧
      payload.length = savedState.mBitmapBitsSize ∧
      (∀ r c, r < 2 → c < 2 → payload[2 * r + c]? = [1, 2, 3, 4][2 * (2 - 1 - r) + c]?) :=
  let ⟨s2, file, t1, payload, h1, h2, h3, h4, h5, h6, _, h8, h9, _, h11, _⟩ :=
    save_load_round_trip savedState init _ _ HoldsBuffer_savedState InRange_savedState
      (by decide) (by decide) (by decide) (by decide) (by decide)
  ⟨s2, file, t1, payload, h1, h2, h3, h4, h5, h6, h8, h9, h11 (by decide) (by decide)⟩

set_option maxRecDepth 100000 in
/-- Counterexample to claim C22 as stated: the top-down 2 by 2 8-bit image of
`savedState` with the pixel bytes 1, 2, 3, 4.  The file `SaveBitmapFile` writes
is loaded by `OpenBitmapFile` with the pixel bytes 3, 4, 1, 2, which are not the
original bytes (the geometry 2 by 2 by 8 bits is the original one). -/
theorem save_load_reverses_rows :
    readImageBuffer savedState = some [1, 2, 3, 4] ∧
    IsBottomUpImage savedState = false ∧
    ((SaveBitmapFile savedState diskOk).bind (fun r => r.2.2)).map
        (fun f => ((OpenBitmapFile init (some f)).1,
          readImageBuffer (OpenBitmapFile init (some f)).2,
          IsBottomUpImage (OpenBitmapFile init (some f)).2))
      = some (true, some [3, 4, 1, 2], true) ∧
    ((SaveBitmapFile savedState diskOk).bind (fun r => r.2.2)).map
        (fun f => (GetImageWidth (OpenBitmapFile init (some f)).2,
          GetImageHeight (OpenBitmapFile init (some f)).2,
          GetImageBitCount (OpenBitmapFile init (some f)).2))
      = some (2, 2, 8) ∧
    [3, 4, 1, 2] ≠ [1, 2, 3, 4] := by
  decide

end ImageWindow
